import Mathlib

/-!
# Barber shop (bs-processes): shallow embedding and verified properties

The C sources `barber-shop.cpp` and `barber.cpp` are embedded as state-passing
Lean functions.  One process (a barber or a client) is modelled at a time:

* `World` holds the process-local data (`Barber`, `BarberShop`), the shared
  segment `BCInterface` as this process last saw it, and ghost fields
  (`clock`, `log`, `held`);
* every `lock ()` first lets the other processes change the shared segment in
  an arbitrary way (`Oracle.others`), and so does every access to the segment
  that the process makes while it does not hold the lock, so that a statement
  proved for every oracle holds for every interleaving;
* a failed `require`/`ensure`/`check` aborts the process (`Err.violation`),
  an array access outside its bounds or the use of a variable that was never
  assigned is `Err.undefined`, and a busy-wait that is not over when the fuel
  runs out is `Err.timeout`.  Every outcome carries the state it was reached in.

C `int` values are `Int`; no arithmetic of the program comes near the machine
limits.
-/

set_option linter.unusedTactic false
set_option linter.unreachableTactic false

namespace OSC

/-! ## Data model -/

/-- Bus state codes, `enum BCState` of both source files. -/
def NO_BARBER_GREET : Int := 0
def GREET_AVAILABLE : Int := 1
def WAITING_ON_RESERVE : Int := 2
def RESERVED : Int := 3
def SERVICE_INFO_AVAILABLE : Int := 4
def WAITING_ON_CLIENT_SIT : Int := 5
def CLIENT_SEATED : Int := 6
def PROCESSING : Int := 7
def WAITING_ON_CLIENT_RISE : Int := 8
def CLIENT_RISEN : Int := 9
def PROCESS_DONE : Int := 10
def ALL_PROCESSES_DONE : Int := 11

/-- Barber display states, `enum State` of `barber.cpp`. -/
def NONE : Int := 0
def CUTTING : Int := 1
def SHAVING : Int := 2
def WASHING : Int := 3
def WAITING_CLIENTS : Int := 4
def WAITING_BARBER_SEAT : Int := 5
def WAITING_WASHBASIN : Int := 6
def REQ_SCISSOR : Int := 7
def REQ_COMB : Int := 8
def REQ_RAZOR : Int := 9
def DONE : Int := 10

/-- Modelled from the spec: the service descriptor of `service.h` (barber id,
client id, resource position, request kind); the two flags are the ones the
commented-out code of `receive_and_greet_client` reads. -/
structure Service where
  barberChair : Int
  washbasin : Int
  barberID : Int
  clientID : Int
  pos : Int
  request : Int
deriving DecidableEq

/-- Modelled from the spec: a barber chair (resource slot): identity, occupant
identifiers, held-tools value and completion percentage.  The field
`toolsHolded` is the one `barber.cpp` updates. -/
structure BarberChair where
  id : Int
  clientID : Int
  barberID : Int
  toolsHolded : Int
  completionPercentage : Int
deriving DecidableEq

/-- Modelled from the spec: a washbasin (resource slot without tools). -/
structure Washbasin where
  id : Int
  clientID : Int
  barberID : Int
  completionPercentage : Int
deriving DecidableEq

/-- Modelled from the spec: the tools pot, a counting pool per tool kind.  The
three `avail*` fields are the ones `barber.cpp` polls. -/
structure ToolsPot where
  availScissors : Int
  availCombs : Int
  availRazors : Int
deriving DecidableEq

/-- Modelled from the spec: the waiting benches, a fixed number of seats, each
holding at most one client id (0 when free) and that client's pending request
bitmask. -/
structure ClientBenches where
  numSeats : Int
  numBenches : Int
  id : List Int
  request : List Int
deriving DecidableEq

/-- Modelled from the spec: the barber bench on which idle barbers sit; one
barber id per seat, 0 when free. -/
structure BarberBench where
  numSeats : Int
  id : List Int
deriving DecidableEq

/-- Item returned by `next_client_in_benches` (`RQItem`): `wait_for_client`
reads its `clientID`. -/
structure RQItem where
  clientID : Int
  request : Int
deriving DecidableEq

/-- The shared segment `BCInterface` (its declaration is not in the sources;
the fields are the ones `barber-shop.cpp` accesses, `semid` left out). -/
structure BCInterface where
  currentState : List Int
  service : List Service
  clientIDs : List Int
  barberIDs : List Int
  syncBenches : ClientBenches
  syncBBChairs : List BarberChair
  syncWashbasins : List Washbasin
  clientRequests : List Int
  clientAccess : List Int
  shopOpen : Int
  numClientsInBench : Int
deriving DecidableEq

/-- The `BarberShop` record, fields as used by `barber-shop.cpp`. -/
structure BarberShop where
  numBarbers : Int
  numChairs : Int
  numScissors : Int
  numCombs : Int
  numRazors : Int
  numWashbasins : Int
  numClientBenchesSeats : Int
  numClientBenches : Int
  numClientsInside : Int
  clientsInside : List Int
  opened : Int
  barberBench : BarberBench
  barberChair : List BarberChair
  toolsPot : ToolsPot
  washbasin : List Washbasin
  clientBenches : ClientBenches
deriving DecidableEq

/-- The `Barber` record of `barber.cpp`; `barber->shop` is `World.shop`. -/
structure Barber where
  id : Int
  state : Int
  clientID : Int
  reqToDo : Int
  benchPosition : Int
  chairPosition : Int
  basinPosition : Int
  tools : Int
deriving DecidableEq

/-- The run-time parameters `global->...` read by `barber.cpp`. -/
structure Global where
  MIN_VITALITY_TIME_UNITS : Int
  MAX_VITALITY_TIME_UNITS : Int
  MIN_WORK_TIME_UNITS : Int
  MAX_WORK_TIME_UNITS : Int
  MAX_OUTSIDE_TIME_UNITS : Int
deriving DecidableEq

/-- State of the modelled process.  `clock` counts the times the other
processes had the segment to themselves so far: once before each `lock ()` of
this process, and once before each access this process makes without holding
the lock.  `log` lists the `(barberID, state)` pairs this process has passed to
`bci_set_state`, oldest first, `draws` counts the calls of `random_int`, and
`held` counts the acquisitions of the semaphore by this process that no
`unlock ()` has matched yet: the process holds the lock while it is not 0. -/
structure World where
  global : Global
  barber : Barber
  shop : BarberShop
  bci : BCInterface
  clock : Nat
  draws : Nat
  log : List (Int × Int)
  held : Nat := 0
deriving DecidableEq

/-- Everything the process does not control: what the other processes did to
the shared segment before the n-th `lock ()`, and the raw random draws. -/
structure Oracle where
  others : Nat → BCInterface → BCInterface
  random : Nat → Nat

/-- Ways in which a call does not return. -/
inductive Err where
  | violation
  | undefined
  | timeout
deriving DecidableEq

/-- Outcome of a call, with the state it ends in. -/
inductive Res (α : Type) where
  | ok : α → World → Res α
  | fail : Err → World → Res α
deriving DecidableEq

/-- State in which a call ended. -/
def Res.state {α : Type} : Res α → World
  | .ok _ w => w
  | .fail _ w => w

/-- Value returned by a call, when it returned. -/
def Res.value {α : Type} : Res α → Option α
  | .ok a _ => some a
  | .fail _ _ => none

/-- Error of a call, when it did not return. -/
def Res.error {α : Type} : Res α → Option Err
  | .ok _ _ => none
  | .fail e _ => some e

/-- Computations of the modelled process. -/
def M (α : Type) : Type := Oracle → World → Res α

/-- Sequencing: a failure of the first call ends the computation. -/
def M.bind {α β : Type} (m : M α) (f : α → M β) : M β := fun o w =>
  match m o w with
  | .ok a w1 => f a o w1
  | .fail e w1 => .fail e w1

instance : Monad M where
  pure a := fun _ w => .ok a w
  bind := M.bind

/-- Abort with the given error. -/
def abort {α : Type} (e : Err) : M α := fun _ w => .fail e w

/-- The `require` of `dbc.h`: abort the process when the condition is false. -/
def require (c : Bool) : M Unit := if c then pure () else abort Err.violation

/-- The `ensure` of `dbc.h`. -/
def ensure (c : Bool) : M Unit := if c then pure () else abort Err.violation

/-- The `check` of `dbc.h`. -/
def check (c : Bool) : M Unit := if c then pure () else abort Err.violation

/-- Current state of the process. -/
def getW : M World := fun _ w => .ok w w

/-- Replace the state of the process. -/
def setW (w : World) : M Unit := fun _ _ => .ok () w

/-- A value that exists only when the C access is defined. -/
def defined {α : Type} : Option α → M α
  | some a => pure a
  | none => abort Err.undefined

/-- Read `a[i]` of a C array. -/
def rd {α : Type} (a : List α) (i : Int) : Option α :=
  if 0 ≤ i then a[i.toNat]? else none

/-- Write `a[i] = v` of a C array. -/
def wr {α : Type} (a : List α) (i : Int) (v : α) : Option (List α) :=
  if 0 ≤ i ∧ i.toNat < a.length then some (a.set i.toNat v) else none

/-- The loop `for (i = from; i < from + count; i++) body`, on a local state. -/
def forLoop {σ : Type} (body : Nat → σ → Option σ) : Nat → Nat → σ → Option σ
  | _, 0, s => some s
  | i, k + 1, s => (body i s).bind (forLoop body (i + 1) k)

/-! ## The synchronization bus (`bci_*` of `barber-shop.cpp`) -/

/-- `lock ()`: the semaphore is taken; the segment is now what the other
processes made of it since this process last held the lock.  No function of the
sources calls `lock ()` while it holds the lock, and the model does not
represent a process that blocks on a semaphore it holds itself: `held` only
counts. -/
def lock : M Unit := fun o w =>
  .ok () { w with bci := o.others w.clock w.bci, clock := w.clock + 1, held := w.held + 1 }

/-- `unlock ()`: the semaphore is given back, one acquisition is matched. -/
def unlock : M Unit := fun _ w => .ok () { w with held := w.held - 1 }

/-- What precedes an access through `bcinterfaces`: while this process holds
the lock the segment is as it left it; without the lock the other processes may
have written the segment in the meantime. -/
def exposed : M Unit := fun o w =>
  match w.held with
  | 0 => .ok () { w with bci := o.others w.clock w.bci, clock := w.clock + 1 }
  | _ + 1 => .ok () w

/-- Read through `bcinterfaces`. -/
def bus {α : Type} (f : BCInterface → Option α) : M α := do
  exposed
  let w ← getW
  defined (f w.bci)

/-- Write through `bcinterfaces`. -/
def busSet (f : BCInterface → Option BCInterface) : M Unit := do
  exposed
  let w ← getW
  let b ← defined (f w.bci)
  setW { w with bci := b }

def bci_set_service (barberID : Int) (service : Service) : M Unit := do
  lock
  busSet fun b => (wr b.service (barberID - 1) service).map fun a => { b with service := a }
  unlock

def bci_set_state (barberID : Int) (state : Int) : M Unit := do
  lock
  busSet fun b => (wr b.currentState (barberID - 1) state).map fun a => { b with currentState := a }
  let w ← getW
  setW { w with log := w.log ++ [(barberID, state)] }
  unlock

def bci_set_clientID (barberID : Int) (clientID : Int) : M Unit := do
  lock
  busSet fun b => (wr b.clientIDs (clientID - 1) barberID).map fun a => { b with clientIDs := a }
  unlock

def bci_set_barberID (barberID : Int) (clientID : Int) : M Unit := do
  lock
  busSet fun b => (wr b.barberIDs (barberID - 1) clientID).map fun a => { b with barberIDs := a }
  unlock

def bci_set_syncBenches (clientBenches : ClientBenches) : M Unit := do
  lock
  busSet fun b => some { b with syncBenches := clientBenches }
  unlock

def bci_set_syncBBChair (bbChair : BarberChair) (barberID : Int) : M Unit := do
  lock
  busSet fun b => (wr b.syncBBChairs (barberID - 1) bbChair).map fun a => { b with syncBBChairs := a }
  unlock

def bci_set_syncWashbasin (basin : Washbasin) (barberID : Int) : M Unit := do
  lock
  busSet fun b => (wr b.syncWashbasins (barberID - 1) basin).map fun a => { b with syncWashbasins := a }
  unlock

def bci_set_request (clientID : Int) (request : Int) : M Unit := do
  lock
  busSet fun b => (wr b.clientRequests (clientID - 1) request).map fun a => { b with clientRequests := a }
  unlock

def bci_open_shop : M Unit := do
  lock
  busSet fun b => some { b with shopOpen := 1 }
  unlock

def bci_close_shop : M Unit := do
  lock
  busSet fun b => some { b with shopOpen := 0 }
  unlock

def bci_did_request (clientID : Int) : M Unit := do
  lock
  let r ← bus fun b => rd b.clientRequests (clientID - 1)
  if r ≥ 4 then
    busSet fun b => (wr b.clientRequests (clientID - 1) (r - 4)).map fun a => { b with clientRequests := a }
  else if r ≥ 2 then
    busSet fun b => (wr b.clientRequests (clientID - 1) (r - 2)).map fun a => { b with clientRequests := a }
  else
    busSet fun b => (wr b.clientRequests (clientID - 1) (r - 1)).map fun a => { b with clientRequests := a }
  unlock

def bci_get_request (clientID : Int) : M Int := do
  lock
  let tmp_req ← bus fun b => rd b.clientRequests (clientID - 1)
  unlock
  pure tmp_req

def bci_get_next_request (clientID : Int) : M Int := do
  lock
  let r ← bus fun b => rd b.clientRequests (clientID - 1)
  let tmp_nreq : Int := if r ≥ 4 then 4 else if r ≥ 2 then 2 else 1
  unlock
  pure tmp_nreq

def bci_unset_clientID (MAX_CLIENTS : Nat) (barberID : Int) : M Unit := do
  lock
  busSet fun b =>
    (forLoop (fun o ids => (rd ids o).bind fun x => if x = barberID then wr ids o 0 else some ids)
      0 MAX_CLIENTS b.clientIDs).map fun a => { b with clientIDs := a }
  unlock

def bci_unset_barberID (MAX_BARBERS : Nat) (clientID : Int) : M Unit := do
  lock
  busSet fun b =>
    (forLoop (fun i ids => (rd ids i).bind fun x => if x = clientID then wr ids i 0 else some ids)
      0 MAX_BARBERS b.barberIDs).map fun a => { b with barberIDs := a }
  unlock

def bci_client_in : M Unit := do
  lock
  busSet fun b => some { b with numClientsInBench := b.numClientsInBench + 1 }
  unlock

def bci_client_out : M Unit := do
  lock
  busSet fun b => some { b with numClientsInBench := b.numClientsInBench - 1 }
  unlock

/-- The result is what the C function stores through `service`. -/
def bci_get_service_by_barberID (barberID : Int) : M Service := do
  lock
  let service ← bus fun b => rd b.service (barberID - 1)
  unlock
  pure service

/-- The C function stores through `service` only when a descriptor matches;
`service` is the content of the caller's variable before the call (`none` when
it was never assigned) and the result is its content after the call. -/
def bci_get_service_by_clientID (MAX_BARBERS : Nat) (clientID : Int) (service : Option Service) :
    M (Option Service) := do
  lock
  let service ← bus fun b =>
    forLoop (fun l acc => (rd b.service l).bind fun tmp_ls =>
      if tmp_ls.clientID = clientID then some (some tmp_ls) else some acc) 0 MAX_BARBERS service
  unlock
  pure service

def bci_get_state (barberID : Int) : M Int := do
  lock
  let tmp_state ← bus fun b => rd b.currentState (barberID - 1)
  unlock
  pure tmp_state

def bci_get_client_access (clientID : Int) : M Int := do
  lock
  let tmp_access ← bus fun b => rd b.clientAccess (clientID - 1)
  unlock
  pure tmp_access

/-- The local `tmp_bid` starts unassigned (`none`); returning it unassigned is
undefined. -/
def bci_get_barberID (MAX_BARBERS : Nat) (clientID : Int) : M Int := do
  lock
  let tmp_bid ← bus fun b =>
    forLoop (fun y acc => (rd b.barberIDs y).bind fun x =>
      if x = clientID then some (some x) else some acc) 0 MAX_BARBERS none
  unlock
  defined tmp_bid

/-- The local `tmp_cid` starts unassigned (`none`); returning it unassigned is
undefined. -/
def bci_get_clientID (MAX_CLIENTS : Nat) (barberID : Int) : M Int := do
  lock
  let tmp_cid ← bus fun b =>
    forLoop (fun z acc => (rd b.clientIDs z).bind fun x =>
      if x = barberID then some (some x) else some acc) 0 MAX_CLIENTS none
  unlock
  defined tmp_cid

def bci_get_num_clients_in_bench : M Int := do
  lock
  let tmp_num ← bus fun b => some b.numClientsInBench
  unlock
  pure tmp_num

/-- The result is what the C function stores through `clientBenches`. -/
def bci_get_syncBenches : M ClientBenches := do
  lock
  let clientBenches ← bus fun b => some b.syncBenches
  unlock
  pure clientBenches

/-- The result is what the C function stores through `bbChair`. -/
def bci_get_syncBBChair (barberID : Int) : M BarberChair := do
  lock
  let bbChair ← bus fun b => rd b.syncBBChairs (barberID - 1)
  unlock
  pure bbChair

/-- The result is what the C function stores through `basin`. -/
def bci_get_syncWashbasin (barberID : Int) : M Washbasin := do
  lock
  let basin ← bus fun b => rd b.syncWashbasins (barberID - 1)
  unlock
  pure basin

def bci_get_shop_status : M Int := do
  lock
  let state ← bus fun b => some b.shopOpen
  unlock
  pure state

def bci_grant_client_access (clientID : Int) : M Unit := do
  lock
  busSet fun b => (wr b.clientAccess (clientID - 1) 1).map fun a => { b with clientAccess := a }
  unlock

def bci_revoke_client_access (clientID : Int) : M Unit := do
  lock
  busSet fun b => (wr b.clientAccess (clientID - 1) 0).map fun a => { b with clientAccess := a }
  unlock

/-! ## Collaborators whose source is not part of the repository sources -/

/-- Read the process-local shop. -/
def getShop : M BarberShop := do
  let w ← getW
  pure w.shop

/-- Replace the process-local shop. -/
def setShop (shop : BarberShop) : M Unit := do
  let w ← getW
  setW { w with shop := shop }

/-- Read the barber record. -/
def getBarber : M Barber := do
  let w ← getW
  pure w.barber

/-- An assignment to fields of the barber record. -/
def modifyBarber (f : Barber → Barber) : M Unit := fun _ w =>
  .ok () { w with barber := f w.barber }

/-- Next raw draw of the random generator. -/
def draw : M Nat := fun o w => .ok (o.random w.draws) { w with draws := w.draws + 1 }

/-- Modelled from the spec: `random_int (lo, hi)` of `utils.h`, a draw in
`[lo, hi]`; the raw draw comes from the oracle. -/
def random_int (lo hi : Int) : M Int := do
  let raw ← draw
  pure (if lo ≤ hi then lo + (raw : Int) % (hi - lo + 1) else lo)

/-- The `spend` of `timer.h`: time passes, the state of this process does not
change (what the other processes do meanwhile is seen at the next `lock`). -/
def spend (_t : Int) : M Unit := pure ()

/-- `log_barber`: spends a random vitality time and sends the text of the
barber to the logger (display, no effect on the state). -/
def log_barber : M Unit := do
  let w ← getW
  spend (← random_int w.global.MIN_VITALITY_TIME_UNITS w.global.MAX_VITALITY_TIME_UNITS)

/-- Modelled from the spec: tool bits, scissor 1, comb 2, razor 4. -/
def SCISSOR_TOOL : Int := 1
def COMB_TOOL : Int := 2
def RAZOR_TOOL : Int := 4

/-- The busy wait `while (cond) ;`: every evaluation of the condition costs one
unit of fuel. -/
def busyWait (cond : M Bool) : Nat → M Unit
  | 0 => abort Err.timeout
  | k + 1 => do
    if (← cond) then busyWait cond k else pure ()

/-- Modelled from the spec: a resource slot is free when it has no occupant. -/
def empty_barber_chair (chair : BarberChair) : Bool :=
  decide (chair.barberID = 0) && decide (chair.clientID = 0)

/-- Modelled from the spec: reserving marks the free slot as reserved to the
barber. -/
def reserve_barber_chair (chair : BarberChair) (barberID : Int) : M BarberChair := do
  require (decide (barberID > 0))
  require (empty_barber_chair chair)
  pure { chair with barberID := barberID }

/-- Modelled from the spec: `release`, precondition: the slot is held by that
barber; clears occupant, completion and held tools. -/
def release_barber_chair (chair : BarberChair) (barberID : Int) : M BarberChair := do
  require (decide (barberID > 0))
  require (decide (chair.barberID = barberID))
  pure { chair with barberID := 0, clientID := 0, toolsHolded := 0, completionPercentage := 0 }

/-- Modelled from the spec: the completion percentage (0 to 100) written to
the resource slot. -/
def set_completion_barber_chair (chair : BarberChair) (completionPercentage : Int) :
    M BarberChair := do
  require (decide (0 ≤ completionPercentage ∧ completionPercentage ≤ 100))
  pure { chair with completionPercentage := completionPercentage }

/-- Modelled from the spec: a resource slot is free when it has no occupant. -/
def empty_washbasin (basin : Washbasin) : Bool :=
  decide (basin.barberID = 0) && decide (basin.clientID = 0)

/-- Modelled from the spec: reserving marks the free slot as reserved to the
barber. -/
def reserve_washbasin (basin : Washbasin) (barberID : Int) : M Washbasin := do
  require (decide (barberID > 0))
  require (empty_washbasin basin)
  pure { basin with barberID := barberID }

/-- Modelled from the spec: `release`, precondition: the slot is held by that
barber; clears occupant and completion. -/
def release_washbasin (basin : Washbasin) (barberID : Int) : M Washbasin := do
  require (decide (barberID > 0))
  require (decide (basin.barberID = barberID))
  pure { basin with barberID := 0, clientID := 0, completionPercentage := 0 }

/-- Modelled from the spec: the completion percentage (0 to 100) written to
the resource slot. -/
def set_completion_washbasin (basin : Washbasin) (completionPercentage : Int) :
    M Washbasin := do
  require (decide (0 ≤ completionPercentage ∧ completionPercentage ≤ 100))
  pure { basin with completionPercentage := completionPercentage }

/-- Modelled from the spec: `pick_tool`, picking requires available > 0 and
decrements the available count. -/
def pick_scissor (pot : ToolsPot) : M ToolsPot := do
  require (decide (pot.availScissors > 0))
  pure { pot with availScissors := pot.availScissors - 1 }

/-- Modelled from the spec: `pick_tool` for combs. -/
def pick_comb (pot : ToolsPot) : M ToolsPot := do
  require (decide (pot.availCombs > 0))
  pure { pot with availCombs := pot.availCombs - 1 }

/-- Modelled from the spec: `pick_tool` for razors. -/
def pick_razor (pot : ToolsPot) : M ToolsPot := do
  require (decide (pot.availRazors > 0))
  pure { pot with availRazors := pot.availRazors - 1 }

/-- Modelled from the spec: `return_tool` increments the available count. -/
def return_scissor (pot : ToolsPot) : M ToolsPot :=
  pure { pot with availScissors := pot.availScissors + 1 }

/-- Modelled from the spec: `return_tool` for combs. -/
def return_comb (pot : ToolsPot) : M ToolsPot :=
  pure { pot with availCombs := pot.availCombs + 1 }

/-- Modelled from the spec: `return_tool` for razors. -/
def return_razor (pot : ToolsPot) : M ToolsPot :=
  pure { pot with availRazors := pot.availRazors + 1 }

/-- Number of entries equal to 0 among the first `n` entries of a seat
array; `none` when an entry is outside the array. -/
def countFree (ids : List Int) (n : Int) : Option Int :=
  forLoop (fun pos res => (rd ids pos).map fun x => if x = 0 then res + 1 else res) 0 n.toNat 0

/-- The scan `for (res = 0; r > 0 && res < n; res++) if (free (res)) r--;`
shared by the random seat and slot selections; the result is the final `res`. -/
def scanFree (free : Int → Option Bool) (n : Int) : Nat → Int → Int → Option Int
  | 0, _, res => some res
  | k + 1, r, res =>
    if r > 0 ∧ res < n then
      (free res).bind fun e => scanFree free n k (if e then r - 1 else r) (res + 1)
    else some res

/-- Modelled from the spec: number of free seats of the waiting benches. -/
def num_available_benches_seats (benches : ClientBenches) : M Int :=
  defined (countFree benches.id benches.numSeats)

/-- Modelled from the spec: whether the client occupies a seat. -/
def seated_in_client_benches (benches : ClientBenches) (id : Int) : M Bool :=
  defined (forLoop (fun pos res => (rd benches.id pos).map fun x => res || decide (x = id))
    0 benches.numSeats.toNat false)

/-- Modelled from the spec: `enter (benches, clientID, requestBitmask)`,
precondition: at least one free seat exists and the client is not already
seated; assigns a random free seat (the draw-th free seat in seat order) and
returns the assigned seat. -/
def random_sit_in_client_benches (benches : ClientBenches) (id request : Int) :
    M (Int × ClientBenches) := do
  require (decide (id > 0))
  require (decide (request > 0 ∧ request < 8))
  require (decide ((← num_available_benches_seats benches) > 0))
  require (!(← seated_in_client_benches benches id))
  let r ← random_int 1 (← num_available_benches_seats benches)
  let res ← defined (scanFree (fun p => (rd benches.id p).map fun x => decide (x = 0))
    benches.numSeats benches.numSeats.toNat r 0)
  let res := res - 1
  let ids ← defined (wr benches.id res id)
  let reqs ← defined (wr benches.request res request)
  pure (res, { benches with id := ids, request := reqs })

/-- First occupied seat at or after `pos`, scanning `k` seats. -/
def firstOccupied (benches : ClientBenches) : Nat → Int → Option (Option RQItem)
  | 0, _ => some none
  | k + 1, pos =>
    (rd benches.id pos).bind fun c =>
      if c ≠ 0 then (rd benches.request pos).map fun q => some { clientID := c, request := q }
      else firstOccupied benches k (pos + 1)

/-- Modelled from the spec: `next_client ()`, a deterministic scan in seat
order returning the first occupied seat encountered (a client must be
seated). -/
def next_client_in_benches (benches : ClientBenches) : M RQItem := do
  let found ← defined (firstOccupied benches benches.numSeats.toNat 0)
  match found with
  | some item => pure item
  | none => abort Err.violation

/-- Modelled from the spec: number of free seats of the barber bench. -/
def num_seats_available_barber_bench (bench : BarberBench) : M Int :=
  defined (countFree bench.id bench.numSeats)

/-- Modelled from the spec: whether the barber occupies a seat of the barber
bench. -/
def seated_in_barber_bench (bench : BarberBench) (id : Int) : M Bool :=
  defined (forLoop (fun pos res => (rd bench.id pos).map fun x => res || decide (x = id))
    0 bench.numSeats.toNat false)

/-- Modelled from the spec: the barber sits in a random free seat of the
barber bench; the result is the seat. -/
def random_sit_in_barber_bench (bench : BarberBench) (id : Int) : M (Int × BarberBench) := do
  require (decide (id > 0))
  require (decide ((← num_seats_available_barber_bench bench) > 0))
  require (!(← seated_in_barber_bench bench id))
  let r ← random_int 1 (← num_seats_available_barber_bench bench)
  let res ← defined (scanFree (fun p => (rd bench.id p).map fun x => decide (x = 0))
    bench.numSeats bench.numSeats.toNat r 0)
  let res := res - 1
  let ids ← defined (wr bench.id res id)
  pure (res, { bench with id := ids })

/-- Modelled from the spec: the barber leaves the seat it occupies. -/
def rise_barber_bench (bench : BarberBench) (pos : Int) : M BarberBench := do
  require (decide (0 ≤ pos ∧ pos < bench.numSeats))
  let x ← defined (rd bench.id pos)
  require (decide (x ≠ 0))
  let ids ← defined (wr bench.id pos 0)
  pure { bench with id := ids }

/-- Modelled from the spec: a chair service descriptor (barber id, client id,
chair position, request kind). -/
def set_barber_chair_service (barberID clientID pos request : Int) : Service :=
  { barberChair := 1, washbasin := 0, barberID := barberID, clientID := clientID, pos := pos,
    request := request }

/-- Modelled from the spec: a washbasin service descriptor (barber id, client
id, basin position); the request kind is the wash bit. -/
def set_washbasin_service (barberID clientID pos : Int) : Service :=
  { barberChair := 0, washbasin := 1, barberID := barberID, clientID := clientID, pos := pos,
    request := 2 }

/-! ## The shop (`barber-shop.cpp`)

The `shop` argument of the C functions is `World.shop`; `require (shop != NULL)`
always holds. -/

def valid_barber_chair_pos (shop : BarberShop) (pos : Int) : Bool :=
  decide (pos ≥ 0 ∧ pos < shop.numChairs)

/-- `barber_chair (shop, pos)`; the result is the chair the returned pointer
refers to. -/
def barber_chair (pos : Int) : M BarberChair := do
  let shop ← getShop
  require (valid_barber_chair_pos shop pos)
  defined (rd shop.barberChair pos)

/-- A store through the pointer `shop->barberChair + pos`. -/
def store_barber_chair (pos : Int) (chair : BarberChair) : M Unit := do
  let shop ← getShop
  let a ← defined (wr shop.barberChair pos chair)
  setShop { shop with barberChair := a }

def tools_pot : M ToolsPot := do
  let shop ← getShop
  pure shop.toolsPot

/-- A store through the pointer `tools_pot (shop)`. -/
def store_tools_pot (pot : ToolsPot) : M Unit := do
  let shop ← getShop
  setShop { shop with toolsPot := pot }

def valid_washbasin_pos (shop : BarberShop) (pos : Int) : Bool :=
  decide (pos ≥ 0 ∧ pos < shop.numWashbasins)

/-- `washbasin (shop, pos)`; the result is the basin the returned pointer
refers to. -/
def washbasin (pos : Int) : M Washbasin := do
  let shop ← getShop
  require (valid_washbasin_pos shop pos)
  defined (rd shop.washbasin pos)

/-- A store through the pointer `shop->washbasin + pos`. -/
def store_washbasin (pos : Int) (basin : Washbasin) : M Unit := do
  let shop ← getShop
  let a ← defined (wr shop.washbasin pos basin)
  setShop { shop with washbasin := a }

def barber_bench : M BarberBench := do
  let shop ← getShop
  pure shop.barberBench

def client_benches : M ClientBenches := do
  let shop ← getShop
  pure shop.clientBenches

def num_available_barber_chairs : M Int := do
  let shop ← getShop
  defined (forLoop (fun pos res => (rd shop.barberChair pos).map fun c =>
    if empty_barber_chair c then res + 1 else res) 0 shop.numChairs.toNat 0)

def reserve_random_empty_barber_chair (barberID : Int) : M Int := do
  require (decide (barberID > 0))
  require (decide ((← num_available_barber_chairs) > 0))
  let r ← random_int 1 (← num_available_barber_chairs)
  let shop ← getShop
  let res ← defined (scanFree (fun p => (rd shop.barberChair p).map empty_barber_chair)
    shop.numChairs shop.numChairs.toNat r 0)
  let res := res - 1
  let chair ← defined (rd shop.barberChair res)
  store_barber_chair res (← reserve_barber_chair chair barberID)
  ensure (decide (res ≥ 0 ∧ res < shop.numChairs))
  pure res

def num_available_washbasin : M Int := do
  let shop ← getShop
  defined (forLoop (fun pos res => (rd shop.washbasin pos).map fun c =>
    if empty_washbasin c then res + 1 else res) 0 shop.numWashbasins.toNat 0)

def reserve_random_empty_washbasin (barberID : Int) : M Int := do
  require (decide (barberID > 0))
  require (decide ((← num_available_washbasin) > 0))
  let r ← random_int 1 (← num_available_washbasin)
  let shop ← getShop
  let res ← defined (scanFree (fun p => (rd shop.washbasin p).map empty_washbasin)
    shop.numWashbasins shop.numWashbasins.toNat r 0)
  let res := res - 1
  let basin ← defined (rd shop.washbasin res)
  store_washbasin res (← reserve_washbasin basin barberID)
  ensure (decide (res ≥ 0 ∧ res < shop.numWashbasins))
  pure res

/-- The loop `for (i = 0; !res && i < numClientsInside; i++)
res = (clientID == clientsInside[i]);` of `is_client_inside`. -/
def is_client_inside_loop (clientsInside : List Int) (numClientsInside clientID : Int) :
    Nat → Int → Int → Option Int
  | 0, _, res => some res
  | k + 1, i, res =>
    if res = 0 ∧ i < numClientsInside then
      (rd clientsInside i).bind fun c =>
        is_client_inside_loop clientsInside numClientsInside clientID k (i + 1)
          (if clientID = c then 1 else 0)
    else some res

def is_client_inside (clientID : Int) : M Int := do
  require (decide (clientID > 0))
  let shop ← getShop
  defined (is_client_inside_loop shop.clientsInside shop.numClientsInside clientID
    shop.numClientsInside.toNat 0 0)

def wait_service_from_barber (fuel : Nat) (barberID : Int) : M Service := do
  require (decide (barberID > 0))
  busyWait (do pure (decide ((← bci_get_state barberID) < SERVICE_INFO_AVAILABLE))) fuel
  let tmp_servicerin ← bci_get_service_by_barberID barberID
  pure tmp_servicerin

def inform_client_on_service (service : Service) : M Unit := do
  bci_set_service service.barberID service
  bci_set_state service.barberID SERVICE_INFO_AVAILABLE

/-- The local `tmp_service` starts unassigned; reading its `barberID` when no
descriptor matched is undefined. -/
def client_done (MAX_BARBERS : Nat) (clientID : Int) : M Unit := do
  require (decide (clientID > 0))
  let tmp_service ← bci_get_service_by_clientID MAX_BARBERS clientID none
  let tmp_servicek ← defined tmp_service
  bci_set_state tmp_servicek.barberID ALL_PROCESSES_DONE

def enter_barber_shop (clientID request : Int) : M Int := do
  require (decide (clientID > 0))
  require (decide (request > 0 ∧ request < 8))
  require (decide ((← num_available_benches_seats (← client_benches)) > 0))
  require (decide ((← is_client_inside clientID) = 0))
  let shop ← getShop
  let sat ← random_sit_in_client_benches shop.clientBenches clientID request
  let res := sat.1
  setShop { shop with clientBenches := sat.2 }
  bci_set_syncBenches (← client_benches)
  let shop ← getShop
  let inside ← defined (wr shop.clientsInside shop.numClientsInside clientID)
  setShop { shop with clientsInside := inside, numClientsInside := shop.numClientsInside + 1 }
  pure res

/-- The search `for (i = 0; clientsInside[i] != clientID; i++) ;` of
`leave_barber_shop`: the result is the final `i`, `none` when the search
leaves the array. -/
def leave_search (clientsInside : List Int) (clientID : Int) : Nat → Int → Option Int
  | 0, _ => none
  | k + 1, i =>
    (rd clientsInside i).bind fun c =>
      if c ≠ clientID then leave_search clientsInside clientID k (i + 1) else some i

/-- The shift `for (; i < numClientsInside; i++) clientsInside[i] =
clientsInside[i+1];` of `leave_barber_shop`. -/
def leave_shift (numClientsInside : Int) : Nat → Int → List Int → Option (List Int)
  | 0, _, a => some a
  | k + 1, i, a =>
    if i < numClientsInside then
      (rd a (i + 1)).bind fun x => (wr a i x).bind fun a1 => leave_shift numClientsInside k (i + 1) a1
    else some a

def leave_barber_shop (clientID : Int) : M Unit := do
  require (decide (clientID > 0))
  require (decide ((← is_client_inside clientID) ≠ 0))
  let shop ← getShop
  let i ← defined (leave_search shop.clientsInside clientID (shop.clientsInside.length + 1) 0)
  let shop := { shop with numClientsInside := shop.numClientsInside - 1 }
  setShop shop
  check (decide (rd shop.clientsInside i = some clientID))
  let inside ← defined (leave_shift shop.numClientsInside (shop.numClientsInside - i).toNat i
    shop.clientsInside)
  setShop { shop with clientsInside := inside }

def receive_and_greet_client (barberID clientID : Int) : M Unit := do
  require (decide (barberID > 0))
  require (decide (clientID > 0))
  let benches ← bci_get_syncBenches
  setShop { (← getShop) with clientBenches := benches }
  bci_set_clientID barberID clientID
  bci_set_barberID barberID clientID
  bci_set_state barberID GREET_AVAILABLE

def greet_barber (MAX_BARBERS : Nat) (clientID : Int) : M Int := do
  require (decide (clientID > 0))
  bci_get_barberID MAX_BARBERS clientID

def shop_opened : M Int :=
  bci_get_shop_status

def close_shop : M Unit := do
  require (decide ((← bci_get_shop_status) ≠ 0))
  setShop { (← getShop) with opened := 0 }

/-! ## The barber (`barber.cpp`)

The `barber` argument of the C functions is `World.barber`.  Functions with a
busy wait take the fuel of their waits as first argument. -/

/-- The call `bci_get_syncBBChair (barber_chair (shop, pos), barberID)`: the
chair of the segment is copied over the chair at `pos`. -/
def load_barber_chair (pos barberID : Int) : M Unit := do
  let _ ← barber_chair pos
  store_barber_chair pos (← bci_get_syncBBChair barberID)

/-- The call `bci_get_syncWashbasin (washbasin (shop, pos), barberID)`. -/
def load_washbasin (pos barberID : Int) : M Unit := do
  let _ ← washbasin pos
  store_washbasin pos (← bci_get_syncWashbasin barberID)

def sit_in_barber_bench : M Unit := do
  let barber ← getBarber
  require (decide ((← num_seats_available_barber_bench (← barber_bench)) > 0))
  require (!(← seated_in_barber_bench (← barber_bench) barber.id))
  let sat ← random_sit_in_barber_bench (← barber_bench) barber.id
  setShop { (← getShop) with barberBench := sat.2 }
  modifyBarber fun b => { b with benchPosition := sat.1 }
  log_barber
  bci_set_state barber.id NO_BARBER_GREET

/-- The loop `while (bci_get_num_clients_in_bench () == 0) { ... }` of
`wait_for_client`. -/
def wait_for_client_loop : Nat → M Unit
  | 0 => abort Err.timeout
  | k + 1 => do
    if (← bci_get_num_clients_in_bench) = 0 then
      spend (2 * (← getW).global.MAX_OUTSIDE_TIME_UNITS)
      if (← bci_get_num_clients_in_bench) = 0 then
        close_shop
      wait_for_client_loop k
    else pure ()

def wait_for_client (fuel : Nat) : M Unit := do
  modifyBarber fun b => { b with state := WAITING_CLIENTS }
  log_barber
  wait_for_client_loop fuel
  setShop { (← getShop) with clientBenches := ← bci_get_syncBenches }
  let queue_item ← next_client_in_benches (← client_benches)
  receive_and_greet_client (← getBarber).id queue_item.clientID
  bci_set_state (← getBarber).id GREET_AVAILABLE
  modifyBarber fun b => { b with clientID := queue_item.clientID }
  bci_grant_client_access (← getBarber).clientID
  log_barber

def work_available : M Int := do
  if (← getBarber).clientID > 0 then pure 1 else pure 0

def rise_from_barber_bench : M Unit := do
  let barber ← getBarber
  require (← seated_in_barber_bench (← barber_bench) barber.id)
  setShop { (← getShop) with barberBench := ← rise_barber_bench (← barber_bench) barber.benchPosition }
  modifyBarber fun b => { b with benchPosition := -1 }
  log_barber

/-- The completion loop of `process_haircut_request` and
`process_shave_request` (`slice` is the time spent per step). -/
def chair_completion_loop (steps slice : Int) : Nat → Int → M Unit
  | 0, _ => abort Err.timeout
  | k + 1, complete => do
    if complete < 100 then
      spend slice
      let complete := complete + Int.tdiv 100 steps
      let complete := if complete > 100 then 100 else complete
      let pos := (← getBarber).chairPosition
      store_barber_chair pos (← set_completion_barber_chair (← barber_chair pos) complete)
      chair_completion_loop steps slice k complete
    else pure ()

/-- The completion loop of `process_hairwash_request`. -/
def basin_completion_loop (steps washes : Int) : Nat → Int → M Unit
  | 0, _ => abort Err.timeout
  | k + 1, complete => do
    if complete < 100 then
      spend washes
      let complete := complete + Int.tdiv 100 steps
      let complete := if complete > 100 then 100 else complete
      let pos := (← getBarber).basinPosition
      store_washbasin pos (← set_completion_washbasin (← washbasin pos) complete)
      basin_completion_loop steps washes k complete
    else pure ()

def process_haircut_request (fuel : Nat) : M Unit := do
  require (decide (Int.land (← getBarber).tools SCISSOR_TOOL ≠ 0))
  require (decide (Int.land (← getBarber).tools COMB_TOOL ≠ 0))
  let steps ← random_int 5 20
  let g := (← getW).global
  let slice := Int.tdiv (g.MAX_WORK_TIME_UNITS - g.MIN_WORK_TIME_UNITS + steps) steps
  chair_completion_loop steps slice fuel 0

def process_hairwash_request (fuel : Nat) : M Unit := do
  let steps ← random_int 5 20
  let g := (← getW).global
  let washes := Int.tdiv (g.MAX_WORK_TIME_UNITS - g.MIN_WORK_TIME_UNITS + steps) steps
  basin_completion_loop steps washes fuel 0

def process_shave_request (fuel : Nat) : M Unit := do
  require (decide (Int.land (← getBarber).tools RAZOR_TOOL ≠ 0))
  let steps ← random_int 5 20
  let g := (← getW).global
  let slice := Int.tdiv (g.MAX_WORK_TIME_UNITS - g.MIN_WORK_TIME_UNITS + steps) steps
  chair_completion_loop steps slice fuel 0

/-- Lines 266 to 293 of `process_resquests_from_client`: select the request and
reserve the chair or basin. -/
def process_reserve (fuel : Nat) : M Unit := do
  bci_set_state (← getBarber).id WAITING_ON_RESERVE
  modifyBarber fun b => { b with state := WAITING_CLIENTS }
  log_barber
  let tmp_nreq ← bci_get_next_request (← getBarber).clientID
  modifyBarber fun b => { b with reqToDo := tmp_nreq }
  if (← getBarber).reqToDo = 1 then
    busyWait (do pure (decide ((← num_available_barber_chairs) = 0))) fuel
    let res ← reserve_random_empty_barber_chair (← getBarber).id
    modifyBarber fun b => { b with chairPosition := res }
    let tmp_bbc1 ← barber_chair (← getBarber).chairPosition
    bci_set_syncBBChair tmp_bbc1 (← getBarber).id
  else if (← getBarber).reqToDo = 2 then
    busyWait (do pure (decide ((← num_available_washbasin) = 0))) fuel
    let res ← reserve_random_empty_washbasin (← getBarber).id
    modifyBarber fun b => { b with basinPosition := res }
    let tmp_wsh ← washbasin (← getBarber).basinPosition
    bci_set_syncWashbasin tmp_wsh (← getBarber).id
  else
    busyWait (do pure (decide ((← num_available_barber_chairs) = 0))) fuel
    let res ← reserve_random_empty_barber_chair (← getBarber).id
    modifyBarber fun b => { b with chairPosition := res }
    let tmp_bbc2 ← barber_chair (← getBarber).chairPosition
    bci_set_syncBBChair tmp_bbc2 (← getBarber).id
  log_barber
  bci_set_state (← getBarber).id RESERVED

/-- Lines 295 to 301: build the service descriptor and inform the client. -/
def process_inform : M Unit := do
  let barber ← getBarber
  let service_to_send :=
    if barber.reqToDo = 1 ∨ barber.reqToDo = 4 then
      set_barber_chair_service barber.id barber.clientID barber.chairPosition barber.reqToDo
    else
      set_washbasin_service barber.id barber.clientID barber.basinPosition
  inform_client_on_service service_to_send

/-- The statements that follow each `pick_*`: `barber->tools += tool`, then the
chair is reloaded from the segment, its `toolsHolded` is increased by `tool`
and it is written back to the segment. -/
def hold_tool (tool : Int) : M Unit := do
  modifyBarber fun b => { b with tools := b.tools + tool }
  load_barber_chair (← getBarber).chairPosition (← getBarber).id
  let bbchair ← barber_chair (← getBarber).chairPosition
  let bbchair := { bbchair with toolsHolded := bbchair.toolsHolded + tool }
  store_barber_chair (← getBarber).chairPosition bbchair
  bci_set_syncBBChair bbchair (← getBarber).id

/-- Lines 303 to 339: pick the tools the request needs. -/
def process_pick_tools (fuel : Nat) : M Unit := do
  if (← getBarber).reqToDo = 1 then
    modifyBarber fun b => { b with state := REQ_SCISSOR }
    log_barber
    busyWait (do pure (decide ((← tools_pot).availScissors = 0))) fuel
    store_tools_pot (← pick_scissor (← tools_pot))
    hold_tool 1
    modifyBarber fun b => { b with state := REQ_COMB }
    log_barber
    busyWait (do pure (decide ((← tools_pot).availCombs = 0))) fuel
    store_tools_pot (← pick_comb (← tools_pot))
    hold_tool 2
  else if (← getBarber).reqToDo = 4 then
    modifyBarber fun b => { b with state := REQ_RAZOR }
    log_barber
    busyWait (do pure (decide ((← tools_pot).availRazors = 0))) fuel
    store_tools_pot (← pick_razor (← tools_pot))
    hold_tool 4
  log_barber

/-- Lines 341 to 346: wait until the client sits, then signal `PROCESSING`. -/
def process_wait_sit (fuel : Nat) : M Unit := do
  if (← bci_get_state (← getBarber).id) < CLIENT_SEATED then
    bci_set_state (← getBarber).id WAITING_ON_CLIENT_SIT
  busyWait (do pure (decide ((← bci_get_state (← getBarber).id) < CLIENT_SEATED))) fuel
  bci_set_state (← getBarber).id PROCESSING

/-- Lines 348 to 372: perform the service. -/
def process_service (fuel : Nat) : M Unit := do
  if (← getBarber).reqToDo = 1 then
    modifyBarber fun b => { b with state := CUTTING }
    log_barber
    load_barber_chair (← getBarber).chairPosition (← getBarber).id
    let _ ← barber_chair (← getBarber).chairPosition
    process_haircut_request fuel
    bci_set_syncBBChair (← barber_chair (← getBarber).chairPosition) (← getBarber).id
  else if (← getBarber).reqToDo = 2 then
    modifyBarber fun b => { b with state := WASHING }
    log_barber
    load_washbasin (← getBarber).basinPosition (← getBarber).id
    let _ ← washbasin (← getBarber).basinPosition
    process_hairwash_request fuel
    bci_set_syncWashbasin (← washbasin (← getBarber).basinPosition) (← getBarber).id
  else
    modifyBarber fun b => { b with state := SHAVING }
    log_barber
    load_barber_chair (← getBarber).chairPosition (← getBarber).id
    let _ ← barber_chair (← getBarber).chairPosition
    process_shave_request fuel
    bci_set_syncBBChair (← barber_chair (← getBarber).chairPosition) (← getBarber).id

/-- Lines 374 to 377: wait until the client has risen. -/
def process_wait_rise (fuel : Nat) : M Unit := do
  bci_set_state (← getBarber).id WAITING_ON_CLIENT_RISE
  busyWait (do pure (decide ((← bci_get_state (← getBarber).id) = WAITING_ON_CLIENT_RISE))) fuel
  modifyBarber fun b => { b with state := DONE }

/-- The statements that follow each `return_*`: `barber->tools -= tool`, then
the chair is reloaded from the segment, its `toolsHolded` is decreased by
`tool` and it is written back to the segment. -/
def drop_tool (tool : Int) : M Unit := do
  modifyBarber fun b => { b with tools := b.tools - tool }
  load_barber_chair (← getBarber).chairPosition (← getBarber).id
  let bbchair ← barber_chair (← getBarber).chairPosition
  let bbchair := { bbchair with toolsHolded := bbchair.toolsHolded - tool }
  store_barber_chair (← getBarber).chairPosition bbchair
  bci_set_syncBBChair bbchair (← getBarber).id

/-- Lines 379 to 401: return the tools. -/
def process_return_tools : M Unit := do
  if (← getBarber).reqToDo = 1 then
    store_tools_pot (← return_scissor (← tools_pot))
    drop_tool 1
    store_tools_pot (← return_comb (← tools_pot))
    drop_tool 2
  else if (← getBarber).reqToDo = 4 then
    store_tools_pot (← return_razor (← tools_pot))
    drop_tool 4

/-- Lines 403 to 416: release the chair or basin. -/
def process_release : M Unit := do
  if (← getBarber).reqToDo = 1 ∨ (← getBarber).reqToDo = 4 then
    load_barber_chair (← getBarber).chairPosition (← getBarber).id
    store_barber_chair (← getBarber).chairPosition
      (← release_barber_chair (← barber_chair (← getBarber).chairPosition) (← getBarber).id)
    let bbchair7 ← barber_chair (← getBarber).chairPosition
    bci_set_syncBBChair bbchair7 (← getBarber).id
    modifyBarber fun b => { b with chairPosition := -1 }
  else
    load_washbasin (← getBarber).basinPosition (← getBarber).id
    store_washbasin (← getBarber).basinPosition
      (← release_washbasin (← washbasin (← getBarber).basinPosition) (← getBarber).id)
    let tmp_wsh2 ← washbasin (← getBarber).basinPosition
    bci_set_syncWashbasin tmp_wsh2 (← getBarber).id
    modifyBarber fun b => { b with basinPosition := -1 }

/-- Lines 418 to 426: signal the end of the service step, clear the served bit
and test whether everything is done. -/
def process_finish : M Unit := do
  bci_set_state (← getBarber).id PROCESS_DONE
  log_barber
  bci_did_request (← getBarber).clientID
  if (← bci_get_request (← getBarber).id) = 0 then
    bci_set_state (← getBarber).id ALL_PROCESSES_DONE

/-- One iteration of the `while` of `process_resquests_from_client` (lines 266
to 426). -/
def process_resquests_from_client_body (fuel : Nat) : M Unit := do
  process_reserve fuel
  process_inform
  process_pick_tools fuel
  process_wait_sit fuel
  process_service fuel
  process_wait_rise fuel
  process_return_tools
  process_release
  process_finish

/-- The loop `while (bci_get_request (barber->clientID) > 0) { ... }`. -/
def process_resquests_from_client_loop (fuel : Nat) : Nat → M Unit
  | 0 => abort Err.timeout
  | k + 1 => do
    if (← bci_get_request (← getBarber).clientID) > 0 then
      process_resquests_from_client_body fuel
      process_resquests_from_client_loop fuel k
    else pure ()

def process_resquests_from_client (fuel : Nat) : M Unit := do
  process_resquests_from_client_loop fuel fuel
  log_barber

def release_client (MAX_BARBERS MAX_CLIENTS : Nat) : M Unit := do
  client_done MAX_BARBERS (← getBarber).clientID
  modifyBarber fun b => { b with clientID := 0 }
  bci_unset_clientID MAX_CLIENTS (← getBarber).id
  log_barber

def done : M Unit := do
  bci_set_state (← getBarber).id ALL_PROCESSES_DONE
  log_barber

/-- The loop `while (work_available (barber)) { ... }` of `life`. -/
def life_loop (MAX_BARBERS MAX_CLIENTS fuel : Nat) : Nat → M Unit
  | 0 => abort Err.timeout
  | k + 1 => do
    if (← work_available) ≠ 0 then
      rise_from_barber_bench
      process_resquests_from_client fuel
      release_client MAX_BARBERS MAX_CLIENTS
      sit_in_barber_bench
      wait_for_client fuel
      life_loop MAX_BARBERS MAX_CLIENTS fuel k
    else pure ()

def life (MAX_BARBERS MAX_CLIENTS fuel : Nat) : M Unit := do
  setShop { (← getShop) with opened := 1 }
  sit_in_barber_bench
  wait_for_client fuel
  life_loop MAX_BARBERS MAX_CLIENTS fuel fuel
  done

/-- The statements of `life` that serve one client: from the `wait_for_client`
that greets it to the `release_client` after which the barber sits on the
barber bench again. -/
def serve_client (MAX_BARBERS MAX_CLIENTS fuel : Nat) : M Unit := do
  wait_for_client fuel
  rise_from_barber_bench
  process_resquests_from_client fuel
  release_client MAX_BARBERS MAX_CLIENTS

/-- The state codes written to the slot of barber `id` among the given log
entries, in the order they were written. -/
def ownCodes (id : Int) (entries : List (Int × Int)) : List Int :=
  (entries.filter fun e => decide (e.1 = id)).map Prod.snd

/-- The computation writes no state code and keeps the id of the barber,
whatever its outcome. -/
structure Silent {α : Type} (m : M α) : Prop where
  keeps : ∀ o w, (m o w).state.log = w.log ∧ (m o w).state.barber.id = w.barber.id

/-- The computation keeps the id of the barber and, whatever its outcome, the
state codes it writes to the barber's own slot are non-decreasing and lie
between `lo` and `hi`. -/
structure Emits {α : Type} (lo hi : Int) (m : M α) : Prop where
  le : lo ≤ hi
  codes : ∀ o w, (m o w).state.barber.id = w.barber.id ∧
    ∃ new, (m o w).state.log = w.log ++ new ∧
      (ownCodes w.barber.id new).Pairwise (· ≤ ·) ∧
      ∀ x ∈ ownCodes w.barber.id new, lo ≤ x ∧ x ≤ hi

/-- A state code `b` may follow a state code `a` in the slot of a barber: it is
not smaller, or it is `WAITING_ON_RESERVE`, the code written at the start of a
service iteration. -/
def mayFollow (a b : Int) : Prop := a ≤ b ∨ b = WAITING_ON_RESERVE

/-- As `Emits v hi`, and moreover the first code written to the barber's own
slot, if any, is `v`, and there is one when the computation returns. -/
structure Starts {α : Type} (v hi : Int) (m : M α) : Prop where
  le : v ≤ hi
  codes : ∀ o w, (m o w).state.barber.id = w.barber.id ∧
    ∃ new, (m o w).state.log = w.log ++ new ∧
      (ownCodes w.barber.id new).Pairwise (· ≤ ·) ∧
      (∀ x ∈ ownCodes w.barber.id new, v ≤ x ∧ x ≤ hi) ∧
      (∀ x ∈ (ownCodes w.barber.id new).head?, x = v) ∧
      ((m o w).error = none → ownCodes w.barber.id new ≠ [])

/-- The computation keeps the id of the barber and, whatever its outcome, each
state code it writes to the barber's own slot may follow the one before, none
is above `ALL_PROCESSES_DONE`, and the first one, if any, is at least `lo` or
is `WAITING_ON_RESERVE`. -/
structure Moves {α : Type} (lo : Int) (m : M α) : Prop where
  codes : ∀ o w, (m o w).state.barber.id = w.barber.id ∧
    ∃ new, (m o w).state.log = w.log ++ new ∧
      (ownCodes w.barber.id new).Chain' mayFollow ∧
      (∀ x ∈ ownCodes w.barber.id new, x ≤ ALL_PROCESSES_DONE) ∧
      (∀ x ∈ (ownCodes w.barber.id new).head?, lo ≤ x ∨ x = WAITING_ON_RESERVE)

/-- The operation is one critical section: the other processes have the
segment to themselves exactly once, before its `lock ()`, so that it takes the
lock once and makes no access without holding it, and what it reads, writes and
returns is a function of the segment as found at that `lock ()`.  When it
returns, or when it ends after its `unlock ()` because the value to return is
an unassigned variable (no value in the first component), it has released the
lock; the function gives `none` for an access outside an array, where the
process stops while it holds the lock.  `l` lists the state codes it logs when
it returns. -/
structure Critical {α : Type} (m : M α) : Prop where
  once : ∃ (f : BCInterface → Option (Option α × BCInterface)) (l : List (Int × Int)),
    ∀ o w, m o w = match f (o.others w.clock w.bci) with
      | some (some a, b) =>
        .ok a { w with bci := b, clock := w.clock + 1, log := w.log ++ l }
      | some (none, b) => .fail Err.undefined { w with bci := b, clock := w.clock + 1 }
      | none => .fail Err.undefined
          { w with bci := o.others w.clock w.bci, clock := w.clock + 1, held := w.held + 1 }

/-- The compile-time maxima of `global.h`; the header is not part of the
sources, they are taken as parameters. -/
structure Maxima where
  MAX_BARBERS : Nat
  MAX_CLIENTS : Nat
  MAX_BARBER_CHAIRS : Nat
  MAX_NUM_TOOLS : Nat
  MAX_WASHBASINS : Nat
  MAX_CLIENT_BENCHES_SEATS : Nat

/-- Modelled from the spec: `init_barber_bench`, a bench of `num_seats` free
seats for the idle barbers. -/
def init_barber_bench (num_seats : Int) : BarberBench :=
  { numSeats := num_seats, id := List.replicate num_seats.toNat 0 }

/-- Modelled from the spec: `init_barber_chair`, a free chair with the given
identity, no occupant, no tool held and completion 0. -/
def init_barber_chair (id : Int) : BarberChair :=
  { id := id, clientID := 0, barberID := 0, toolsHolded := 0, completionPercentage := 0 }

/-- Modelled from the spec: `init_tools_pot`, every tool of the configured
counts is in the pot. -/
def init_tools_pot (num_scissors num_combs num_razors : Int) : ToolsPot :=
  { availScissors := num_scissors, availCombs := num_combs, availRazors := num_razors }

/-- Modelled from the spec: `init_washbasin`, a free basin with the given
identity. -/
def init_washbasin (id : Int) : Washbasin :=
  { id := id, clientID := 0, barberID := 0, completionPercentage := 0 }

/-- Modelled from the spec: `init_client_benches`, `num_seats` free seats
partitioned into `num_benches` benches. -/
def init_client_benches (num_seats num_benches : Int) : ClientBenches :=
  { numSeats := num_seats, numBenches := num_benches,
    id := List.replicate num_seats.toNat 0, request := List.replicate num_seats.toNat 0 }

/-- The segment as `shmget` creates it: every byte 0, the arrays sized by the
maxima. -/
def newSegment (mx : Maxima) : BCInterface :=
  { currentState := List.replicate mx.MAX_BARBERS 0,
    service := List.replicate mx.MAX_BARBERS
      { barberChair := 0, washbasin := 0, barberID := 0, clientID := 0, pos := 0, request := 0 },
    clientIDs := List.replicate mx.MAX_CLIENTS 0,
    barberIDs := List.replicate mx.MAX_BARBERS 0,
    syncBenches := { numSeats := 0, numBenches := 0,
                     id := List.replicate mx.MAX_CLIENT_BENCHES_SEATS 0,
                     request := List.replicate mx.MAX_CLIENT_BENCHES_SEATS 0 },
    syncBBChairs := List.replicate mx.MAX_BARBERS
      { id := 0, clientID := 0, barberID := 0, toolsHolded := 0, completionPercentage := 0 },
    syncWashbasins := List.replicate mx.MAX_BARBERS
      { id := 0, clientID := 0, barberID := 0, completionPercentage := 0 },
    clientRequests := List.replicate mx.MAX_CLIENTS 0,
    clientAccess := List.replicate mx.MAX_CLIENTS 0,
    shopOpen := 0, numClientsInBench := 0 }

/-- `init_barber_shop`.  The display code (`gen_rect`, `register_logger`) has
no effect on the state; the system calls that create the segment and its
semaphore are taken to succeed (their failure ends the process).  The semaphore
is created with the value 0, that is taken: the creating process holds it until
the `unlock ()` that ends the initialisation. -/
def init_barber_shop (mx : Maxima) (num_barbers num_chairs num_scissors num_combs num_razors
    num_basins num_client_benches_seats num_client_benches : Int) : M Unit := do
  require (decide (num_barbers > 0 ∧ num_barbers ≤ mx.MAX_BARBERS))
  require (decide (num_chairs > 0 ∧ num_chairs ≤ mx.MAX_BARBER_CHAIRS))
  require (decide (num_scissors > 0 ∧ num_scissors ≤ mx.MAX_NUM_TOOLS))
  require (decide (num_combs > 0 ∧ num_combs ≤ mx.MAX_NUM_TOOLS))
  require (decide (num_razors > 0 ∧ num_razors ≤ mx.MAX_NUM_TOOLS))
  require (decide (num_basins > 0 ∧ num_basins ≤ mx.MAX_WASHBASINS))
  require (decide (num_client_benches_seats > 0 ∧
    num_client_benches_seats ≤ mx.MAX_CLIENT_BENCHES_SEATS))
  require (decide (num_client_benches > 0 ∧ num_client_benches ≤ num_client_benches_seats))
  setShop { (← getShop) with
    numBarbers := num_barbers, numChairs := num_chairs, numScissors := num_scissors,
    numCombs := num_combs, numRazors := num_razors, numWashbasins := num_basins,
    numClientBenchesSeats := num_client_benches_seats, numClientBenches := num_client_benches,
    numClientsInside := 0 }
  let inside ← defined (forLoop (fun i a => wr a i 0) 0 mx.MAX_CLIENTS (← getShop).clientsInside)
  setShop { (← getShop) with clientsInside := inside, opened := 1 }
  setShop { (← getShop) with barberBench := init_barber_bench num_barbers }
  let chairs ← defined (forLoop (fun i a => wr a i (init_barber_chair (i + 1))) 0 num_chairs.toNat
    (← getShop).barberChair)
  setShop { (← getShop) with
    barberChair := chairs, toolsPot := init_tools_pot num_scissors num_combs num_razors }
  let basins ← defined (forLoop (fun i a => wr a i (init_washbasin (i + 1))) 0 num_basins.toNat
    (← getShop).washbasin)
  setShop { (← getShop) with
    washbasin := basins,
    clientBenches := init_client_benches num_client_benches_seats num_client_benches }
  setW { (← getW) with bci := newSegment mx, held := (← getW).held + 1 }
  unlock

/-- Shop records reached from a successful `init_barber_shop` (called on a record
whose arrays have the declared sizes) by accepted `enter_barber_shop` and
`leave_barber_shop` calls. -/
inductive Reachable (mx : Maxima) : BarberShop → Prop where
  | init (o : Oracle) (w w1 : World) (num_barbers num_chairs num_scissors num_combs num_razors
      num_basins num_client_benches_seats num_client_benches : Int) :
      w.shop.clientsInside.length = mx.MAX_CLIENTS →
      mx.MAX_BARBER_CHAIRS ≤ w.shop.barberChair.length →
      mx.MAX_WASHBASINS ≤ w.shop.washbasin.length →
      init_barber_shop mx num_barbers num_chairs num_scissors num_combs num_razors num_basins
        num_client_benches_seats num_client_benches o w = .ok () w1 → Reachable mx w1.shop
  | enter (o : Oracle) (w w1 : World) (clientID request res : Int) :
      Reachable mx w.shop → enter_barber_shop clientID request o w = .ok res w1 →
      Reachable mx w1.shop
  | leave (o : Oracle) (w w1 : World) (clientID : Int) :
      Reachable mx w.shop → leave_barber_shop clientID o w = .ok () w1 → Reachable mx w1.shop

/-- The computation leaves the barber and shop records of the process as they
are, whatever its outcome, and never aborts on a contract violation. -/
structure Quiet {α : Type} (m : M α) : Prop where
  keeps : ∀ o w, (m o w).state.barber = w.barber ∧ (m o w).state.shop = w.shop ∧
    (m o w).error ≠ some Err.violation

/-- Specification of a computation on the barber and shop records of the
process: started with records satisfying `P`, it returns a value and records
satisfying `Q`, or it ends with an error and records satisfying `R`. -/
structure Spec {α : Type} (P : Barber → BarberShop → Prop) (m : M α)
    (Q : α → Barber → BarberShop → Prop) (R : Err → Barber → BarberShop → Prop) : Prop where
  ok : ∀ o w a w1, P w.barber w.shop → m o w = .ok a w1 → Q a w1.barber w1.shop
  fail : ∀ o w e w1, P w.barber w.shop → m o w = .fail e w1 → R e w1.barber w1.shop

/-- The barber record `b` agrees with `b0` on everything but the display
state. -/
def SameBarber (b0 b : Barber) : Prop :=
  b.id = b0.id ∧ b.clientID = b0.clientID ∧ b.reqToDo = b0.reqToDo ∧
  b.chairPosition = b0.chairPosition ∧ b.basinPosition = b0.basinPosition ∧ b.tools = b0.tools

/-- The shop record `s` has the slot counts and the tools pot of `s0`. -/
def SameShop (s0 s : BarberShop) : Prop :=
  s.numChairs = s0.numChairs ∧ s.numWashbasins = s0.numWashbasins ∧ s.toolsPot = s0.toolsPot

/-- What `process_service` relies on: the position of the reserved chair or
basin is valid and the barber holds the tools of the request. -/
def ReadyToServe (b : Barber) (s : BarberShop) : Prop :=
  (b.reqToDo = 1 →
    Int.land b.tools SCISSOR_TOOL ≠ 0 ∧ Int.land b.tools COMB_TOOL ≠ 0 ∧
    0 ≤ b.chairPosition ∧ b.chairPosition < s.numChairs) ∧
  (b.reqToDo = 2 → 0 ≤ b.basinPosition ∧ b.basinPosition < s.numWashbasins) ∧
  (b.reqToDo ≠ 1 → b.reqToDo ≠ 2 →
    Int.land b.tools RAZOR_TOOL ≠ 0 ∧ 0 ≤ b.chairPosition ∧ b.chairPosition < s.numChairs)

/-- Lines 266 to 346 of `process_resquests_from_client`: the statements of an
iteration that precede the service itself. -/
def process_until_service (fuel : Nat) : M Unit := do
  process_reserve fuel
  process_inform
  process_pick_tools fuel
  process_wait_sit fuel

/-- What one iteration of `process_resquests_from_client` that returns leaves
behind, `b0` and `s0` being the records it started with. -/
def IterationDone (b0 : Barber) (s0 : BarberShop) (b : Barber) (s : BarberShop) : Prop :=
  b.tools = b0.tools ∧
  s.toolsPot.availScissors = s0.toolsPot.availScissors ∧
  s.toolsPot.availCombs = s0.toolsPot.availCombs ∧
  s.toolsPot.availRazors = s0.toolsPot.availRazors ∧
  (b.reqToDo = 1 ∨ b.reqToDo = 2 ∨ b.reqToDo = 4) ∧
  (b.reqToDo = 1 → 0 < s0.toolsPot.availScissors ∧ 0 < s0.toolsPot.availCombs) ∧
  (b.reqToDo = 4 → 0 < s0.toolsPot.availRazors) ∧
  (b.reqToDo ≠ 2 → b.chairPosition = -1 ∧
    ∃ pos c0 c, (0 ≤ pos ∧ pos < s.numChairs) ∧ rd s0.barberChair pos = some c0 ∧
      empty_barber_chair c0 = true ∧ rd s.barberChair pos = some c ∧
      c.barberID = 0 ∧ c.clientID = 0 ∧ c.toolsHolded = 0 ∧ c.completionPercentage = 0) ∧
  (b.reqToDo = 2 → b.basinPosition = -1 ∧
    ∃ pos c0 c, (0 ≤ pos ∧ pos < s.numWashbasins) ∧ rd s0.washbasin pos = some c0 ∧
      empty_washbasin c0 = true ∧ rd s.washbasin pos = some c ∧
      c.barberID = 0 ∧ c.clientID = 0 ∧ c.completionPercentage = 0)

/-- Every available count of the pot of `s` is the count of `s0` or, when that
one is positive, one below it. -/
def PotNear (s0 s : BarberShop) : Prop :=
  (s.toolsPot.availScissors = s0.toolsPot.availScissors ∨
    (0 < s0.toolsPot.availScissors ∧
      s.toolsPot.availScissors = s0.toolsPot.availScissors - 1)) ∧
  (s.toolsPot.availCombs = s0.toolsPot.availCombs ∨
    (0 < s0.toolsPot.availCombs ∧ s.toolsPot.availCombs = s0.toolsPot.availCombs - 1)) ∧
  (s.toolsPot.availRazors = s0.toolsPot.availRazors ∨
    (0 < s0.toolsPot.availRazors ∧
      s.toolsPot.availRazors = s0.toolsPot.availRazors - 1))

/-! ## The inode free list of sofs18 (`work_free_inode.cpp`)

The headers of sofs18 are not part of the sources: their constants, the range
of the unsigned counters and the function `soDepleteIICache` are parameters. -/

/-- Constants of the sofs18 headers.  `UINT_RANGE` is `2 ^ w` for the width `w`
of the unsigned fields `idx` and `ifree`. -/
structure SofsConstants where
  INODE_REFERENCE_CACHE_SIZE : Nat
  N_DIRECT : Nat
  N_INDIRECT : Nat
  N_DOUBLE_INDIRECT : Nat
  INODE_FREE : Nat
  NullReference : Nat
  UINT_RANGE : Nat

/-- The insertion cache `iicache` of the superblock. -/
structure InodeReferenceCache where
  idx : Nat
  ref : List Nat
deriving DecidableEq

/-- The fields of the superblock that `soFreeInode` uses. -/
structure SOSuperBlock where
  ifree : Nat
  iicache : InodeReferenceCache
deriving DecidableEq

/-- The fields of an inode that `soFreeInode` writes. -/
structure SOInode where
  mode : Nat
  lnkcnt : Nat
  owner : Nat
  group : Nat
  size : Nat
  blkcnt : Nat
  atime : Nat
  mtime : Nat
  ctime : Nat
  d : List Nat
  i1 : List Nat
  i2 : List Nat
deriving DecidableEq

/-- The loop `for (a = 0; a < n; a++) refs[a] = NullReference;`. -/
def clear_references (k : SofsConstants) (n : Nat) (refs : List Nat) : Option (List Nat) :=
  forLoop (fun a r => wr r a k.NullReference) 0 n refs

/-- The superblock at the insertion: `soDepleteIICache ()` is called first when
`sb->iicache.idx == INODE_REFERENCE_CACHE_SIZE - 1`. -/
def soFreeInode_cache (k : SofsConstants) (soDepleteIICache : SOSuperBlock → SOSuperBlock)
    (sb : SOSuperBlock) : SOSuperBlock :=
  if sb.iicache.idx = (k.INODE_REFERENCE_CACHE_SIZE + k.UINT_RANGE - 1) % k.UINT_RANGE then
    soDepleteIICache sb
  else sb

/-- `soFreeInode (in)`.  `sb` is the superblock `soSBGetPointer ()` points to
and `inode` the record `soITGetInodePointer` points to for the inode `in`; the
result is the superblock and the record as `soSBSave` and `soITSaveInode` save
them, `none` when an array is accessed outside its bounds. -/
def soFreeInode (k : SofsConstants) (soDepleteIICache : SOSuperBlock → SOSuperBlock)
    (inn : Nat) (sb : SOSuperBlock) (inode : SOInode) : Option (SOSuperBlock × SOInode) :=
  let sb := soFreeInode_cache k soDepleteIICache sb
  (wr sb.iicache.ref sb.iicache.idx inn).bind fun ref =>
  let sb := { sb with iicache := { sb.iicache with ref := ref } }
  let sb := { sb with iicache := { sb.iicache with idx := (sb.iicache.idx + 1) % k.UINT_RANGE } }
  let sb := { sb with ifree := (sb.ifree + 1) % k.UINT_RANGE }
  let inode := { inode with mode := k.INODE_FREE }
  let inode := { inode with lnkcnt := 0 }
  let inode := { inode with owner := 0 }
  let inode := { inode with group := 0 }
  let inode := { inode with size := 0 }
  let inode := { inode with blkcnt := 0 }
  let inode := { inode with atime := 0 }
  let inode := { inode with mtime := 0 }
  let inode := { inode with ctime := 0 }
  (clear_references k k.N_DIRECT inode.d).bind fun d =>
  let inode := { inode with d := d }
  (clear_references k k.N_INDIRECT inode.i1).bind fun i1 =>
  let inode := { inode with i1 := i1 }
  (clear_references k k.N_DOUBLE_INDIRECT inode.i2).bind fun i2 =>
  let inode := { inode with i2 := i2 }
  some (sb, inode)

/-- The values the completion loop of `process_haircut_request`,
`process_hairwash_request` and `process_shave_request` writes, in order, when
it starts with `complete` and `k` units of fuel: the control flow of the loop,
the written value collected in place of the write. -/
def completion_values (steps : Int) : Nat → Int → List Int
  | 0, _ => []
  | k + 1, complete =>
    if complete < 100 then
      let complete := complete + Int.tdiv 100 steps
      let complete := if complete > 100 then 100 else complete
      complete :: completion_values steps k complete
    else []

/-- One progress update of the loop of `process_haircut_request` and
`process_shave_request`: the time slice is spent and `complete` is written to
the chair of the barber. -/
def chair_progress (slice complete : Int) : M Unit := do
  spend slice
  let pos := (← getBarber).chairPosition
  store_barber_chair pos (← set_completion_barber_chair (← barber_chair pos) complete)

/-- One progress update of the loop of `process_hairwash_request`. -/
def basin_progress (washes complete : Int) : M Unit := do
  spend washes
  let pos := (← getBarber).basinPosition
  store_washbasin pos (← set_completion_washbasin (← washbasin pos) complete)

/-- The computations of a list, one after the other. -/
def perform : List (M Unit) → M Unit
  | [] => pure ()
  | m :: ms => do
    m
    perform ms

/-- The other processes never write the pending requests of the client
`clientID`: the slot of the client is, whenever this process takes the lock,
what this process left there. -/
def KeepsRequests (clientID : Int) (o : Oracle) : Prop :=
  ∀ t b, rd (o.others t b).clientRequests (clientID - 1) = rd b.clientRequests (clientID - 1)

/-- While the other processes do not write the pending requests of the client
`clientID`, the computation leaves them as they are, whatever its outcome, and
keeps the client and the selected request of the barber record. -/
structure Steady {α : Type} (clientID : Int) (m : M α) : Prop where
  keeps : ∀ o w, KeepsRequests clientID o →
    rd (m o w).state.bci.clientRequests (clientID - 1)
      = rd w.bci.clientRequests (clientID - 1) ∧
    (m o w).state.barber.clientID = w.barber.clientID ∧
    (m o w).state.barber.reqToDo = w.barber.reqToDo

/-- The request that `bci_get_next_request` selects from the pending bitmask
`r`, which is also the amount `bci_did_request` subtracts from it. -/
def next_request (r : Int) : Int :=
  if r ≥ 4 then 4 else if r ≥ 2 then 2 else 1

/-- The loop of `process_resquests_from_client` with a ghost result: for each
iteration, the pending bitmask its guard read and the request it served. -/
def process_resquests_from_client_served (fuel : Nat) : Nat → M (List (Int × Int))
  | 0 => abort Err.timeout
  | k + 1 => do
    let pending ← bci_get_request (← getBarber).clientID
    if pending > 0 then
      process_resquests_from_client_body fuel
      let served := (← getBarber).reqToDo
      let rest ← process_resquests_from_client_served fuel k
      pure ((pending, served) :: rest)
    else pure []

/-- The iterations of the request loop for the pending bitmask `r`, as pairs
(pending bitmask at the guard, request served): the bitmask is read, the
request `next_request` selects is served and subtracted. -/
def request_schedule : Nat → Int → List (Int × Int)
  | 0, _ => []
  | k + 1, r =>
    if r > 0 then (r, next_request r) :: request_schedule k (r - next_request r) else []

/-! ## Consistency of the records -/

/-- The clients inside the shop: the first `numClientsInside` entries of
`clientsInside`. -/
def insideClients (shop : BarberShop) : List Int :=
  shop.clientsInside.take shop.numClientsInside.toNat

/-- The count of clients inside is not negative and not larger than the array
`clientsInside`. -/
def InsideOK (shop : BarberShop) : Prop :=
  0 ≤ shop.numClientsInside ∧ shop.numClientsInside.toNat ≤ shop.clientsInside.length

/-- The seat arrays of the benches have `numSeats` entries. -/
def BenchesOK (benches : ClientBenches) : Prop :=
  0 ≤ benches.numSeats ∧ benches.id.length = benches.numSeats.toNat ∧
    benches.request.length = benches.numSeats.toNat

/-- Occupancy of a shop record: the records of the benches and of the inside
list are consistent, the benches have the configured number of seats, and the
clients inside plus the free bench seats do not exceed that number. -/
def Occupancy (mx : Maxima) (s : BarberShop) : Prop :=
  BenchesOK s.clientBenches ∧ InsideOK s ∧
  s.clientBenches.numSeats = s.numClientBenchesSeats ∧
  s.numClientsInside + ((s.clientBenches.id.count 0 : Nat) : Int) ≤ s.numClientBenchesSeats ∧
  0 ≤ s.numChairs ∧ 0 ≤ s.numWashbasins ∧
  s.numClientBenchesSeats ≤ mx.MAX_CLIENT_BENCHES_SEATS ∧
  mx.MAX_CLIENTS ≤ s.clientsInside.length

/-! ## Sample data -/

/-- Oracle under which no other process touches the segment and every raw
draw is 0. -/
def quiet : Oracle := { others := fun _ b => b, random := fun _ => 0 }

/-- Benches with two free seats on one bench. -/
def benches2 : ClientBenches := { numSeats := 2, numBenches := 1, id := [0, 0], request := [0, 0] }

/-- A free chair with the given identity. -/
def freeChair (id : Int) : BarberChair :=
  { id := id, clientID := 0, barberID := 0, toolsHolded := 0, completionPercentage := 0 }

/-- A free washbasin with the given identity. -/
def freeBasin (id : Int) : Washbasin :=
  { id := id, clientID := 0, barberID := 0, completionPercentage := 0 }

/-- A descriptor with every field 0. -/
def noService : Service :=
  { barberChair := 0, washbasin := 0, barberID := 0, clientID := 0, pos := 0, request := 0 }

/-- A zero-filled segment for two barbers and three clients, as `shmget`
creates it. -/
def bus23 : BCInterface :=
  { currentState := [0, 0], service := [noService, noService], clientIDs := [0, 0, 0],
    barberIDs := [0, 0], syncBenches := benches2, syncBBChairs := [freeChair 0, freeChair 0],
    syncWashbasins := [freeBasin 0, freeBasin 0], clientRequests := [0, 0, 0],
    clientAccess := [0, 0, 0], shopOpen := 0, numClientsInBench := 0 }

/-- A shop with two barbers, one chair, one basin, one tool of each kind and
two bench seats, right after `init_barber_shop` (three client slots). -/
def shop23 : BarberShop :=
  { numBarbers := 2, numChairs := 1, numScissors := 1, numCombs := 1, numRazors := 1,
    numWashbasins := 1, numClientBenchesSeats := 2, numClientBenches := 1,
    numClientsInside := 0, clientsInside := [0, 0, 0], opened := 1,
    barberBench := { numSeats := 2, id := [0, 0] },
    barberChair := [freeChair 1], toolsPot := { availScissors := 1, availCombs := 1, availRazors := 1 },
    washbasin := [freeBasin 1], clientBenches := benches2 }

/-- A barber right after `init_barber`. -/
def newBarber (id : Int) : Barber :=
  { id := id, state := 0, clientID := 0, reqToDo := 0, benchPosition := -1,
    chairPosition := -1, basinPosition := -1, tools := 0 }

/-- Sample run-time parameters. -/
def global23 : Global :=
  { MIN_VITALITY_TIME_UNITS := 1, MAX_VITALITY_TIME_UNITS := 2, MIN_WORK_TIME_UNITS := 1,
    MAX_WORK_TIME_UNITS := 5, MAX_OUTSIDE_TIME_UNITS := 10 }

/-- Modelled from the spec: the client side of the rendezvous, as other
processes acting on the segment: a client sits as soon as the service
information is available and rises as soon as the barber waits for it. -/
def promptClients : Oracle :=
  { others := fun _ b =>
      { b with currentState := b.currentState.map fun s =>
          if s = SERVICE_INFO_AVAILABLE ∨ s = WAITING_ON_CLIENT_SIT then CLIENT_SEATED
          else if s = WAITING_ON_CLIENT_RISE then CLIENT_RISEN else s },
    random := fun _ => 0 }

/-- Process of barber 1 in the sample shop, the segment holding the given
pending requests. -/
def world23 (requests : List Int) : World :=
  { global := global23, barber := newBarber 1, shop := shop23, bci := { bus23 with clientRequests := requests },
    clock := 0, draws := 0, log := [] }

/-- A client process in the sample shop with clients 2 and 3 inside. -/
def twoInside : World :=
  { world23 [0, 0, 0] with shop := { shop23 with clientsInside := [2, 3, 0], numClientsInside := 2 } }

/-- Process of barber 1, seated on the barber bench of the sample shop, while
client 1 waits on the benches with the given request. -/
def clientWaiting (request : Int) : World :=
  { world23 [request, 0, 0] with
    barber := { newBarber 1 with benchPosition := 0 },
    shop := { shop23 with barberBench := { numSeats := 2, id := [1, 0] } },
    bci := { bus23 with
      clientRequests := [request, 0, 0], numClientsInBench := 1, shopOpen := 1,
      syncBenches := { numSeats := 2, numBenches := 1, id := [1, 0], request := [request, 0] } } }

/-- Process of barber 1 in the sample shop while it serves client `c`. -/
def serving (c : Int) (requests : List Int) : World :=
  { world23 requests with barber := { newBarber 1 with clientID := c } }

/-- Process of barber 1 in the sample shop, the shared open flag set, no
client on the benches. -/
def idleOpen : World :=
  { world23 [0, 0, 0] with bci := { bus23 with shopOpen := 1 } }

/-- Another process that, each time it gets the lock, sets the access flag of
client 1 when it finds the descriptor of barber 1 naming client 2 while the
state code of barber 1 is still below `SERVICE_INFO_AVAILABLE`. -/
def watcher : Oracle :=
  { others := fun _ b =>
      if (b.service.head?.map fun s => s.clientID) = some 2 ∧
          (b.currentState.head?.map fun c => decide (c < SERVICE_INFO_AVAILABLE)) = some true then
        { b with clientAccess := b.clientAccess.set 0 1 }
      else b,
    random := fun _ => 0 }

/-- The maxima of the sample shop: two barbers, three clients. -/
def maxima23 : Maxima :=
  { MAX_BARBERS := 2, MAX_CLIENTS := 3, MAX_BARBER_CHAIRS := 1, MAX_NUM_TOOLS := 1,
    MAX_WASHBASINS := 1, MAX_CLIENT_BENCHES_SEATS := 2 }

/-- Process of barber 1 in the sample shop after client 3 was informed of a
chair service by barber 2 (an earlier visit) and then of a wash by barber 1
(the present visit): the descriptor slot of barber 2 still names client 3. -/
def secondVisit : World :=
  ((inform_client_on_service (set_barber_chair_service 2 3 0 1) >>= fun _ =>
    inform_client_on_service (set_washbasin_service 1 3 0)) quiet (world23 [0, 0, 0])).state

/-- Sample constants of sofs18: a cache of four references, inodes with four
direct, one indirect and one double indirect reference. -/
def sofs4 : SofsConstants :=
  { INODE_REFERENCE_CACHE_SIZE := 4, N_DIRECT := 4, N_INDIRECT := 1, N_DOUBLE_INDIRECT := 1,
    INODE_FREE := 4096, NullReference := 4294967295, UINT_RANGE := 4294967296 }

/-- A depletion that empties the cache: every cell `NullReference`, `idx` 0. -/
def emptyCache (sb : SOSuperBlock) : SOSuperBlock :=
  { sb with iicache := { idx := 0, ref := List.replicate sb.iicache.ref.length 4294967295 } }

/-- A superblock with two free inodes and the references 5, 6 and 9 in the
insertion cache. -/
def superblock3 : SOSuperBlock :=
  { ifree := 2, iicache := { idx := 3, ref := [5, 6, 9, 4294967295] } }

/-- An inode in use. -/
def inodeInUse : SOInode :=
  { mode := 33188, lnkcnt := 1, owner := 1000, group := 1000, size := 700, blkcnt := 1,
    atime := 17, mtime := 16, ctime := 15, d := [40, 4294967295, 4294967295, 4294967295],
    i1 := [4294967295], i2 := [4294967295] }

/-- A client process in the sample shop after `init_barber_shop`, the entry of
client 2 and its leave: client 2 is no longer inside, the seat it took on the
benches is still in its name. -/
def leftSeated : World :=
  (leave_barber_shop 2 quiet
    (enter_barber_shop 2 5 quiet
      (init_barber_shop maxima23 2 1 1 1 1 1 2 1 quiet (world23 [0, 0, 0])).state).state).state

/-- A superblock with one free inode, the reference 5 in the insertion cache
and the insertion index at cell 1. -/
def superblock1 : SOSuperBlock :=
  { ifree := 1, iicache := { idx := 1, ref := [5, 4294967295, 4294967295, 4294967295] } }

/-! ## Theorems -/

/-! ### Running computations -/

theorem run_pure {α : Type} (a : α) (o : Oracle) (w : World) :
    (pure a : M α) o w = .ok a w := rfl

theorem run_bind {α β : Type} (m : M α) (f : α → M β) (o : Oracle) (w : World) :
    (m >>= f) o w = match m o w with
      | .ok a w1 => f a o w1
      | .fail e w1 => .fail e w1 := rfl

theorem run_lock (o : Oracle) (w : World) :
    lock o w = .ok () { w with
      bci := o.others w.clock w.bci, clock := w.clock + 1, held := w.held + 1 } := rfl

/-- The `unlock ()` of a process that holds the lock. -/
theorem run_unlock (o : Oracle) (g : Global) (br : Barber) (sh : BarberShop) (b : BCInterface)
    (c d : Nat) (l : List (Int × Int)) (n : Nat) :
    unlock o (World.mk g br sh b c d l (n + 1)) = .ok () (World.mk g br sh b c d l n) := rfl

theorem run_unlock_any (o : Oracle) (w : World) :
    unlock o w = .ok () { w with held := w.held - 1 } := rfl

theorem run_getW (o : Oracle) (w : World) : getW o w = .ok w w := rfl

theorem run_setW (o : Oracle) (w w1 : World) : setW w1 o w = .ok () w1 := rfl

theorem run_abort {α : Type} (e : Err) (o : Oracle) (w : World) :
    (abort e : M α) o w = .fail e w := rfl

theorem run_defined_some {α : Type} (a : α) (o : Oracle) (w : World) :
    defined (some a) o w = .ok a w := rfl

theorem run_defined_none {α : Type} (o : Oracle) (w : World) :
    (defined none : M α) o w = .fail Err.undefined w := rfl

/-- A read through `bcinterfaces` by a process that holds the lock. -/
theorem run_bus {α : Type} (f : BCInterface → Option α) (o : Oracle) (g : Global)
    (br : Barber) (sh : BarberShop) (b : BCInterface) (c d : Nat) (l : List (Int × Int))
    (n : Nat) :
    bus f o (World.mk g br sh b c d l (n + 1))
      = match f b with
        | some a => .ok a (World.mk g br sh b c d l (n + 1))
        | none => .fail Err.undefined (World.mk g br sh b c d l (n + 1)) := by
  cases h : f b <;> simp [bus, exposed, run_bind, run_getW, h, run_defined_some, run_defined_none]

/-- A write through `bcinterfaces` by a process that holds the lock. -/
theorem run_busSet (f : BCInterface → Option BCInterface) (o : Oracle) (g : Global)
    (br : Barber) (sh : BarberShop) (b : BCInterface) (c d : Nat) (l : List (Int × Int))
    (n : Nat) :
    busSet f o (World.mk g br sh b c d l (n + 1))
      = match f b with
        | some b1 => .ok () (World.mk g br sh b1 c d l (n + 1))
        | none => .fail Err.undefined (World.mk g br sh b c d l (n + 1)) := by
  cases h : f b <;>
    simp [busSet, exposed, run_bind, run_getW, h, run_defined_some, run_defined_none, run_setW]

/-- A read through `bcinterfaces` by a process that does not hold the lock: the
other processes act first. -/
theorem run_bus_free {α : Type} (f : BCInterface → Option α) (o : Oracle) (g : Global)
    (br : Barber) (sh : BarberShop) (b : BCInterface) (c d : Nat) (l : List (Int × Int)) :
    bus f o (World.mk g br sh b c d l 0)
      = match f (o.others c b) with
        | some a => .ok a (World.mk g br sh (o.others c b) (c + 1) d l 0)
        | none => .fail Err.undefined (World.mk g br sh (o.others c b) (c + 1) d l 0) := by
  cases h : f (o.others c b) <;>
    simp [bus, exposed, run_bind, run_getW, h, run_defined_some, run_defined_none]

/-- A write through `bcinterfaces` by a process that does not hold the lock:
the other processes act first. -/
theorem run_busSet_free (f : BCInterface → Option BCInterface) (o : Oracle) (g : Global)
    (br : Barber) (sh : BarberShop) (b : BCInterface) (c d : Nat) (l : List (Int × Int)) :
    busSet f o (World.mk g br sh b c d l 0)
      = match f (o.others c b) with
        | some b1 => .ok () (World.mk g br sh b1 (c + 1) d l 0)
        | none => .fail Err.undefined (World.mk g br sh (o.others c b) (c + 1) d l 0) := by
  cases h : f (o.others c b) <;>
    simp [busSet, exposed, run_bind, run_getW, h, run_defined_some, run_defined_none, run_setW]

theorem run_require (c : Bool) (o : Oracle) (w : World) :
    require c o w = if c then .ok () w else .fail Err.violation w := by
  unfold require; cases c <;> rfl

/-! ### Pending requests -/

/-- C1: with a pending bitmask `r` in 1..7 stored for the client when the lock
is taken, `bci_get_next_request` returns 4 if bit 4 of `r` is set, otherwise 2
if bit 2 is set, otherwise 1; the value is one of 1, 2, 4 and a bit of `r`. -/
theorem bci_get_next_request_highest_bit (o : Oracle) (w : World) (clientID r : Int)
    (hr : rd (o.others w.clock w.bci).clientRequests (clientID - 1) = some r)
    (h1 : 1 ≤ r) (h7 : r ≤ 7) :
    ∃ v : Int,
      bci_get_next_request clientID o w
        = .ok v { w with bci := o.others w.clock w.bci, clock := w.clock + 1 } ∧
      v = (if r.toNat.testBit 2 then 4 else if r.toNat.testBit 1 then 2 else 1) ∧
      (v = 1 ∨ v = 2 ∨ v = 4) ∧ v.toNat &&& r.toNat = v.toNat := by
  refine ⟨if r ≥ 4 then 4 else if r ≥ 2 then 2 else 1, ?_, ?_, ?_, ?_⟩
  · simp [bci_get_next_request, run_bind, run_lock, run_bus, run_unlock, run_pure, hr]
  all_goals
    clear hr
    interval_cases r <;> decide

/-- Witness of C1: client 2 with pending request 5 (haircut and shave). -/
theorem bci_get_next_request_highest_bit_witness :
    ∃ v : Int,
      bci_get_next_request 2 quiet (world23 [0, 5, 0])
        = .ok v { world23 [0, 5, 0] with
            bci := quiet.others (world23 [0, 5, 0]).clock (world23 [0, 5, 0]).bci,
            clock := (world23 [0, 5, 0]).clock + 1 } ∧
      v = (if (5 : Int).toNat.testBit 2 then 4 else if (5 : Int).toNat.testBit 1 then 2 else 1) ∧
      (v = 1 ∨ v = 2 ∨ v = 4) ∧ v.toNat &&& (5 : Int).toNat = v.toNat :=
  bci_get_next_request_highest_bit quiet (world23 [0, 5, 0]) 2 5 (by decide) (by decide) (by decide)

theorem rd_wr_same {α : Type} (a a1 : List α) (i : Int) (v : α) (h : wr a i v = some a1) :
    rd a1 i = some v := by
  unfold wr at h
  split at h
  · rename_i hi
    cases h
    simp [rd, hi.1, hi.2]
  · cases h

theorem rd_wr_other {α : Type} (a a1 : List α) (i j : Int) (v : α) (h : wr a i v = some a1)
    (hij : j ≠ i) : rd a1 j = rd a j := by
  unfold wr at h
  split at h
  · rename_i hi
    cases h
    unfold rd
    split
    · rename_i hj
      have : i.toNat ≠ j.toNat := by omega
      simp [List.getElem?_set_ne this]
    · rfl
  · cases h

theorem wr_of_rd {α : Type} (a : List α) (i : Int) (x v : α) (h : rd a i = some x) :
    wr a i v = some (a.set i.toNat v) := by
  unfold rd at h
  split at h
  · rename_i hi
    have hlt : i.toNat < a.length := by
      rcases List.getElem?_eq_some.1 h with ⟨hl, _⟩
      exact hl
    simp [wr, hi, hlt]
  · cases h

theorem run_bci_did_request (o : Oracle) (w : World) (clientID r : Int)
    (hr : rd (o.others w.clock w.bci).clientRequests (clientID - 1) = some r) :
    bci_did_request clientID o w
      = .ok () { w with
          bci := { o.others w.clock w.bci with
            clientRequests := (o.others w.clock w.bci).clientRequests.set (clientID - 1).toNat
              (r - (if r ≥ 4 then 4 else if r ≥ 2 then 2 else 1)) },
          clock := w.clock + 1 } := by
  have hw := fun v => wr_of_rd _ _ r v hr
  unfold bci_did_request
  simp only [run_bind, run_lock, run_bus, hr]
  by_cases h4 : r ≥ 4
  · simp [h4, run_bind, run_busSet, hw, run_unlock]
  · by_cases h2 : r ≥ 2
    · simp [h4, h2, run_bind, run_busSet, hw, run_unlock]
    · simp [h4, h2, run_bind, run_busSet, hw, run_unlock]

/-- C2: with a pending bitmask `r` in 1..7 stored for the client when the lock
is taken, `bci_did_request` stores `r - next`, where `next` is what
`bci_get_next_request` returns in the same state: bit `next` is cleared, the
other two service bits are kept, the value is strictly smaller (and not
negative), and the pending bitmask of every other client is the one found when
the lock was taken. -/
theorem bci_did_request_clears_next_bit (o : Oracle) (w : World) (clientID r : Int)
    (hr : rd (o.others w.clock w.bci).clientRequests (clientID - 1) = some r)
    (h1 : 1 ≤ r) (h7 : r ≤ 7) :
    ∃ (next : Int) (w1 w2 : World),
      bci_get_next_request clientID o w = .ok next w1 ∧
      bci_did_request clientID o w = .ok () w2 ∧
      rd w2.bci.clientRequests (clientID - 1) = some (r - next) ∧
      (∀ k : Fin 3, (r - next).toNat.testBit k
          = (r.toNat.testBit k && !next.toNat.testBit k)) ∧
      r - next < r ∧ 0 ≤ r - next ∧
      (∀ c : Int, c ≠ clientID →
        rd w2.bci.clientRequests (c - 1) = rd (o.others w.clock w.bci).clientRequests (c - 1)) := by
  have hw := wr_of_rd _ _ r (r - (if r ≥ 4 then 4 else if r ≥ 2 then 2 else 1)) hr
  refine ⟨if r ≥ 4 then 4 else if r ≥ 2 then 2 else 1,
    { w with bci := o.others w.clock w.bci, clock := w.clock + 1 }, _, ?_,
    run_bci_did_request o w clientID r hr, rd_wr_same _ _ _ _ hw, ?_, ?_, ?_, ?_⟩
  · simp [bci_get_next_request, run_bind, run_lock, run_bus, run_unlock, run_pure, hr]
  · clear hw hr
    interval_cases r <;> decide
  · split_ifs <;> omega
  · split_ifs <;> omega
  · intro c hc
    exact rd_wr_other _ _ _ _ _ hw (by omega)

/-- Witness of C2: client 2 with pending request 6 (wash and shave). -/
theorem bci_did_request_clears_next_bit_witness :
    ∃ (next : Int) (w1 w2 : World),
      bci_get_next_request 2 quiet (world23 [3, 6, 1]) = .ok next w1 ∧
      bci_did_request 2 quiet (world23 [3, 6, 1]) = .ok () w2 ∧
      rd w2.bci.clientRequests (2 - 1) = some (6 - next) ∧
      (∀ k : Fin 3, (6 - next).toNat.testBit k
          = ((6 : Int).toNat.testBit k && !next.toNat.testBit k)) ∧
      6 - next < 6 ∧ 0 ≤ 6 - next ∧
      (∀ c : Int, c ≠ 2 →
        rd w2.bci.clientRequests (c - 1)
          = rd (quiet.others (world23 [3, 6, 1]).clock (world23 [3, 6, 1]).bci).clientRequests
              (c - 1)) :=
  bci_did_request_clears_next_bit quiet (world23 [3, 6, 1]) 2 6 (by decide) (by decide)
    (by decide)

/-! ### End of a service step -/

/-- C3 (defect of the code): barber 1 serves client 2, whose pending request
is 3 (haircut and wash), while the request slot of client 1 holds 0.  One
iteration of `process_resquests_from_client` returns, client 2 still has the
haircut bit pending, and the last state the barber wrote is
`ALL_PROCESSES_DONE`: line 424 reads the pending request at `barber->id`, not
at `barber->clientID`. -/
theorem process_finish_done_with_pending_bit :
    (process_resquests_from_client_body 30 promptClients (serving 2 [0, 3, 0])).error = none ∧
    (process_resquests_from_client_body 30 promptClients (serving 2 [0, 3, 0])).state.log.getLast?
      = some (1, ALL_PROCESSES_DONE) ∧
    rd (process_resquests_from_client_body 30 promptClients
      (serving 2 [0, 3, 0])).state.bci.clientRequests (2 - 1) = some 1 := by
  decide!

/-! ### Closing the shop -/

/-- C5 (defect of the code): with the shared open flag set, `close_shop`
returns and clears only the field `opened` of the process-local shop record;
the shared flag is still set and `shop_opened` still returns 1. -/
theorem close_shop_leaves_shared_flag :
    (close_shop quiet idleOpen).error = none ∧
    (close_shop quiet idleOpen).state.shop.opened = 0 ∧
    (close_shop quiet idleOpen).state.bci.shopOpen = 1 ∧
    ((close_shop >>= fun _ => shop_opened) quiet idleOpen).value = some 1 := by
  decide!

/-! ### Greeting -/

/-- C7 (defect of the code): after barber 1 has received and greeted client 2,
`greet_barber` called for client 2 returns 2, the id of the client, not the id
of the barber: `bci_get_barberID` returns the array entry it compared with the
client id instead of the position where it found it. -/
theorem greet_barber_returns_client_id :
    ((receive_and_greet_client 1 2 >>= fun _ => greet_barber 2 2) quiet
      (world23 [0, 0, 0])).value = some 2 := by
  decide!

/-! ### Waiting for a client on empty benches -/

theorem run_modifyBarber (f : Barber → Barber) (o : Oracle) (w : World) :
    modifyBarber f o w = .ok () { w with barber := f w.barber } := rfl

theorem run_getShop (o : Oracle) (w : World) : getShop o w = .ok w.shop w := rfl

theorem run_setShop (shop : BarberShop) (o : Oracle) (w : World) :
    setShop shop o w = .ok () { w with shop := shop } := rfl

theorem run_getBarber (o : Oracle) (w : World) : getBarber o w = .ok w.barber w := rfl

theorem run_draw (o : Oracle) (w : World) :
    draw o w = .ok (o.random w.draws) { w with draws := w.draws + 1 } := rfl

theorem run_spend (t : Int) (o : Oracle) (w : World) : spend t o w = .ok () w := rfl

theorem run_log_barber (o : Oracle) (w : World) :
    log_barber o w = .ok () { w with draws := w.draws + 1 } := by
  simp [log_barber, run_bind, run_getW, random_int, run_draw, run_pure, run_spend]

theorem run_bci_get_num_clients_in_bench (o : Oracle) (w : World) :
    bci_get_num_clients_in_bench o w
      = .ok (o.others w.clock w.bci).numClientsInBench
          { w with bci := o.others w.clock w.bci, clock := w.clock + 1 } := by
  simp [bci_get_num_clients_in_bench, run_bind, run_lock, run_bus, run_unlock, run_pure]

theorem run_bci_get_shop_status (o : Oracle) (w : World) :
    bci_get_shop_status o w
      = .ok (o.others w.clock w.bci).shopOpen
          { w with bci := o.others w.clock w.bci, clock := w.clock + 1 } := by
  simp [bci_get_shop_status, run_bind, run_lock, run_bus, run_unlock, run_pure]

theorem run_close_shop (o : Oracle) (w : World) :
    close_shop o w
      = if (o.others w.clock w.bci).shopOpen ≠ 0 then
          .ok () { w with bci := o.others w.clock w.bci, clock := w.clock + 1,
                          shop := { w.shop with opened := 0 } }
        else .fail Err.violation { w with bci := o.others w.clock w.bci, clock := w.clock + 1 } := by
  by_cases h : (o.others w.clock w.bci).shopOpen = 0 <;>
    simp [close_shop, run_bind, run_bci_get_shop_status, run_require, run_getShop, run_setShop, h]

/-- While nobody touches the segment, the counter of clients on the benches is
0 and the shared open flag is set, the loop of `wait_for_client` is still
running when the fuel is used up, whatever the fuel. -/
theorem wait_for_client_loop_spins (n : Nat) (w : World)
    (h0 : w.bci.numClientsInBench = 0) (h1 : w.bci.shopOpen ≠ 0) :
    ∃ w1, wait_for_client_loop n quiet w = .fail Err.timeout w1 ∧ w1.log = w.log := by
  induction n generalizing w with
  | zero => exact ⟨w, rfl, rfl⟩
  | succ k ih =>
    have hq : ∀ t b, quiet.others t b = b := fun _ _ => rfl
    unfold wait_for_client_loop
    simp only [run_bind, run_bci_get_num_clients_in_bench, hq, h0, run_getW, run_spend,
      run_close_shop, if_true, if_pos h1, ne_eq, not_false_eq_true, h1]
    exact ih _ h0 h1

theorem wait_for_client_spins (n : Nat) (w : World)
    (h0 : w.bci.numClientsInBench = 0) (h1 : w.bci.shopOpen ≠ 0) :
    ∃ w1, wait_for_client n quiet w = .fail Err.timeout w1 ∧ w1.log = w.log := by
  obtain ⟨w1, hw1, hl⟩ := wait_for_client_loop_spins n
    { w with barber := { w.barber with state := WAITING_CLIENTS }, draws := w.draws + 1 } h0 h1
  refine ⟨w1, ?_, hl⟩
  unfold wait_for_client
  simp only [run_bind, run_modifyBarber, run_log_barber, hw1]

/-- C6 (defect of the code): the barber of the sample shop starts its life
with the shared open flag set, no client on the benches and no other process
acting.  Whatever the fuel, neither `wait_for_client` nor `life` returns: the
wait is still running when the fuel is used up, so the loop of `life` is
never left, `done` is never reached and `ALL_PROCESSES_DONE` never written.
`close_shop` only clears the local field `opened`, and the loop of
`wait_for_client` tests nothing but the counter of clients. -/
theorem life_never_done_on_empty_benches (fuel : Nat) :
    (wait_for_client fuel quiet idleOpen).error = some Err.timeout ∧
    (life 2 3 fuel quiet idleOpen).error = some Err.timeout ∧
    (∀ e ∈ (life 2 3 fuel quiet idleOpen).state.log, e.2 ≠ ALL_PROCESSES_DONE) := by
  have hopen : idleOpen.bci.shopOpen ≠ 0 := by decide
  obtain ⟨w1, hw1, -⟩ := wait_for_client_spins fuel idleOpen rfl hopen
  have hsit_ok : (sit_in_barber_bench quiet
      { idleOpen with shop := { idleOpen.shop with opened := 1 } }).error = none := by decide!
  have hsit_bci : (sit_in_barber_bench quiet
      { idleOpen with shop := { idleOpen.shop with opened := 1 } }).state.bci
        = { bus23 with shopOpen := 1, currentState := [0, 0] } := by decide!
  have hsit_log : (sit_in_barber_bench quiet
      { idleOpen with shop := { idleOpen.shop with opened := 1 } }).state.log
        = [(1, NO_BARBER_GREET)] := by decide!
  have hlife : ∃ w2, life 2 3 fuel quiet idleOpen = .fail Err.timeout w2 ∧
      w2.log = [(1, NO_BARBER_GREET)] := by
    unfold life
    simp only [run_bind, run_getShop, run_setShop]
    cases hs : sit_in_barber_bench quiet
        { idleOpen with shop := { idleOpen.shop with opened := 1 } } with
    | fail e w2 => rw [hs] at hsit_ok; cases hsit_ok
    | ok a w2 =>
      rw [hs] at hsit_bci hsit_log
      simp only [Res.state] at hsit_bci hsit_log
      obtain ⟨w3, hw3, hl3⟩ := wait_for_client_spins fuel w2 (by rw [hsit_bci]; rfl)
        (by rw [hsit_bci]; decide)
      exact ⟨w3, by simp only [hw3], by rw [hl3, hsit_log]⟩
  obtain ⟨w2, hw2, hl2⟩ := hlife
  refine ⟨by rw [hw1]; rfl, by rw [hw2]; rfl, ?_⟩
  rw [hw2]
  simp only [Res.state, hl2]
  intro e he
  simp only [List.mem_singleton] at he
  subst he
  decide

/-! ### Loops over arrays -/

theorem rd_natCast {α : Type} (a : List α) (i : Nat) : rd a (i : Int) = a[i]? := by
  simp [rd]

theorem is_client_inside_loop_found (a : List Int) (n c : Int) (k : Nat) (i res : Int)
    (h : res ≠ 0) : is_client_inside_loop a n c k i res = some res := by
  cases k <;> simp [is_client_inside_loop, h]

theorem is_client_inside_loop_spec (a : List Int) (c : Int) (n : Nat) (hn : n ≤ a.length) :
    ∀ (k i : Nat), i + k = n →
      is_client_inside_loop a n c k i 0 = some (if c ∈ (a.take n).drop i then 1 else 0) := by
  intro k
  induction k with
  | zero =>
    intro i hi
    have : i = n := by omega
    subst this
    have hnil : (a.take i).drop i = [] := List.drop_eq_nil_of_le (by simp)
    simp [is_client_inside_loop, hnil]
  | succ k ih =>
    intro i hi
    have hlt : i < n := by omega
    have hlen : i < a.length := by omega
    have hdrop : (a.take n).drop i = a[i] :: (a.take n).drop (i + 1) := by
      rw [List.drop_eq_getElem_cons (by simp; omega)]
      simp
    unfold is_client_inside_loop
    have hcond : (0 : Int) = 0 ∧ (i : Int) < (n : Int) := ⟨rfl, by exact_mod_cast hlt⟩
    rw [if_pos hcond, rd_natCast, List.getElem?_eq_getElem hlen]
    simp only [Option.some_bind]
    by_cases hc : c = a[i]
    · rw [if_pos hc]
      have := is_client_inside_loop_found a n c k ((i : Int) + 1) 1 (by decide)
      rw [this, hdrop]
      simp [hc]
    · rw [if_neg hc]
      have := ih (i + 1) (by omega)
      push_cast at this
      rw [this, hdrop]
      simp [hc]

theorem forLoop_rd {α σ : Type} (a : List α) (g : σ → α → σ) :
    ∀ (k i : Nat) (s : σ), i + k ≤ a.length →
      forLoop (fun pos res => (rd a (pos : Int)).map fun x => g res x) i k s
        = some (((a.drop i).take k).foldl g s) := by
  intro k
  induction k with
  | zero => intro i s _; simp [forLoop]
  | succ k ih =>
    intro i s h
    have hlen : i < a.length := by omega
    unfold forLoop
    rw [rd_natCast, List.getElem?_eq_getElem hlen]
    simp only [Option.map_some', Option.some_bind]
    rw [ih (i + 1) _ (by omega)]
    conv_rhs => rw [List.drop_eq_getElem_cons hlen]
    rfl

theorem foldl_countFree (l : List Int) (s : Int) :
    l.foldl (fun res x => if x = 0 then res + 1 else res) s = s + (l.count 0 : Nat) := by
  induction l generalizing s with
  | nil => simp
  | cons x l ih =>
    simp only [List.foldl_cons, ih, List.count_cons]
    by_cases hx : x = 0
    · subst hx; simp; ring
    · simp [hx]

theorem countFree_spec (ids : List Int) (n : Int) (h : n.toNat ≤ ids.length) :
    countFree ids n = some ((ids.take n.toNat).count 0 : Nat) := by
  unfold countFree
  rw [forLoop_rd ids (fun res x => if x = 0 then res + 1 else res) n.toNat 0 0 (by omega)]
  simp [foldl_countFree]

theorem foldl_seated (l : List Int) (id : Int) (s : Bool) :
    l.foldl (fun res x => res || decide (x = id)) s = (s || decide (id ∈ l)) := by
  induction l generalizing s with
  | nil => simp
  | cons x l ih =>
    simp only [List.foldl_cons, ih, List.mem_cons]
    by_cases hx : x = id
    · subst hx; simp
    · have : ¬ id = x := fun h => hx h.symm
      simp [hx, this]

theorem scanFree_done (free : Int → Option Bool) (n : Int) (k : Nat) (r res : Int) (h : r ≤ 0) :
    scanFree free n k r res = some res := by
  cases k with
  | zero => rfl
  | succ k =>
    unfold scanFree
    rw [if_neg (by omega)]

theorem scanFree_spec {α : Type} (a : List α) (pred : α → Bool) (n : Nat) (hn : n ≤ a.length) :
    ∀ (k i : Nat) (r : Int), i + k = n → 0 < r → r ≤ (((a.take n).drop i).countP pred : Nat) →
      ∃ res : Nat, scanFree (fun p => (rd a p).map pred) n k r i = some (res : Int) ∧
        i < res ∧ res ≤ n ∧ ∃ h : res - 1 < a.length, pred a[res - 1] = true := by
  intro k
  induction k with
  | zero =>
    intro i r hi hr hc
    have : i = n := by omega
    subst this
    have hnil : (a.take i).drop i = [] := List.drop_eq_nil_of_le (by simp)
    rw [hnil] at hc
    simp at hc
    omega
  | succ k ih =>
    intro i r hi hr hc
    have hlt : i < n := by omega
    have hlen : i < a.length := by omega
    have hdrop : (a.take n).drop i = a[i] :: (a.take n).drop (i + 1) := by
      rw [List.drop_eq_getElem_cons (by simp; omega)]
      simp
    rw [hdrop, List.countP_cons] at hc
    unfold scanFree
    rw [if_pos ⟨hr, by exact_mod_cast hlt⟩, rd_natCast, List.getElem?_eq_getElem hlen]
    simp only [Option.map_some', Option.some_bind]
    by_cases hp : pred a[i] = true
    · rw [if_pos hp]
      by_cases hr1 : r - 1 ≤ 0
      · rw [scanFree_done _ _ _ _ _ hr1]
        exact ⟨i + 1, by push_cast; rfl, by omega, by omega, by simpa using hlen, by simpa using hp⟩
      · simp only [hp, if_true] at hc
        obtain ⟨res, h1, h2, h3, h4⟩ := ih (i + 1) (r - 1) (by omega) (by omega)
          (by push_cast at hc ⊢; omega)
        exact ⟨res, by push_cast at h1; exact h1, by omega, h3, h4⟩
    · rw [if_neg hp]
      simp only [hp] at hc
      obtain ⟨res, h1, h2, h3, h4⟩ := ih (i + 1) r (by omega) hr (by simpa using hc)
      exact ⟨res, by push_cast at h1; exact h1, by omega, h3, h4⟩

/-! ### Entering the shop -/

theorem run_check (c : Bool) (o : Oracle) (w : World) :
    check c o w = if c then .ok () w else .fail Err.violation w := by
  unfold check; cases c <;> rfl

theorem run_ensure (c : Bool) (o : Oracle) (w : World) :
    ensure c o w = if c then .ok () w else .fail Err.violation w := by
  unfold ensure; cases c <;> rfl

theorem run_random_int (lo hi : Int) (o : Oracle) (w : World) :
    random_int lo hi o w
      = .ok (if lo ≤ hi then lo + (o.random w.draws : Int) % (hi - lo + 1) else lo)
          { w with draws := w.draws + 1 } := by
  simp [random_int, run_bind, run_draw, run_pure]

theorem run_num_available_benches_seats (benches : ClientBenches) (o : Oracle) (w : World)
    (h : BenchesOK benches) :
    num_available_benches_seats benches o w
      = .ok (((benches.id.take benches.numSeats.toNat).count 0 : Nat) : Int) w := by
  unfold num_available_benches_seats
  rw [countFree_spec _ _ (by rw [h.2.1])]
  rfl

theorem run_seated_in_client_benches (benches : ClientBenches) (id : Int) (o : Oracle) (w : World)
    (h : BenchesOK benches) :
    seated_in_client_benches benches id o w
      = .ok (decide (id ∈ benches.id.take benches.numSeats.toNat)) w := by
  unfold seated_in_client_benches
  rw [forLoop_rd benches.id (fun res x => res || decide (x = id)) _ 0 false (by rw [h.2.1]; omega)]
  simp [foldl_seated, run_defined_some]

theorem run_is_client_inside (clientID : Int) (o : Oracle) (w : World) (h : InsideOK w.shop)
    (hc : clientID > 0) :
    is_client_inside clientID o w
      = .ok (if clientID ∈ insideClients w.shop then 1 else 0) w := by
  unfold is_client_inside
  simp only [run_bind, run_require, hc, decide_True, if_true, run_getShop]
  have := is_client_inside_loop_spec w.shop.clientsInside clientID w.shop.numClientsInside.toNat
    h.2 w.shop.numClientsInside.toNat 0 (by omega)
  rw [Int.toNat_of_nonneg h.1] at this
  simp only [Nat.cast_zero, List.drop_zero] at this
  rw [this]
  rfl

theorem run_bci_set_syncBenches (benches : ClientBenches) (o : Oracle) (w : World) :
    bci_set_syncBenches benches o w
      = .ok () { w with bci := { o.others w.clock w.bci with syncBenches := benches },
                        clock := w.clock + 1 } := by
  simp [bci_set_syncBenches, run_bind, run_lock, run_busSet, run_unlock]

theorem wr_natCast {α : Type} (a : List α) (i : Nat) (v : α) (h : i < a.length) :
    wr a (i : Int) v = some (a.set i v) := by
  simp [wr, h]

theorem random_draw_bounds (raw : Nat) (k : Nat) (hk : 0 < k) :
    0 < (if (1 : Int) ≤ (k : Int) then 1 + (raw : Int) % ((k : Int) - 1 + 1) else 1) ∧
    (if (1 : Int) ≤ (k : Int) then 1 + (raw : Int) % ((k : Int) - 1 + 1) else 1) ≤ (k : Int) := by
  have h1 : (1 : Int) ≤ (k : Int) := by exact_mod_cast hk
  rw [if_pos h1]
  have hk0 : (0 : Int) < (k : Int) - 1 + 1 := by omega
  have := Int.emod_nonneg (raw : Int) (ne_of_gt hk0)
  have := Int.emod_lt_of_pos (raw : Int) hk0
  constructor <;> omega

theorem run_random_sit_in_client_benches (benches : ClientBenches) (id request : Int)
    (o : Oracle) (w : World) (h : BenchesOK benches) (hid : id > 0)
    (hreq : request > 0 ∧ request < 8)
    (hfree : 0 < (benches.id.take benches.numSeats.toNat).count 0)
    (hseat : id ∉ benches.id.take benches.numSeats.toNat) :
    ∃ res : Nat, res < benches.numSeats.toNat ∧ benches.id[res]? = some 0 ∧
      random_sit_in_client_benches benches id request o w
        = .ok ((res : Int), { benches with id := benches.id.set res id,
                                           request := benches.request.set res request })
            { w with draws := w.draws + 1 } := by
  obtain ⟨hn0, hlid, hlreq⟩ := h
  have hb := random_draw_bounds (o.random w.draws) _ hfree
  obtain ⟨res, hres, h1, h2, h3, h4⟩ := scanFree_spec benches.id (fun x => decide (x = 0))
    benches.numSeats.toNat (by omega) benches.numSeats.toNat 0 _ (by omega) hb.1
    (by simpa [List.count] using hb.2)
  refine ⟨res - 1, by omega, ?_, ?_⟩
  · rw [List.getElem?_eq_getElem h3]; simpa using h4
  · unfold random_sit_in_client_benches
    simp only [run_bind, run_require, run_num_available_benches_seats _ _ _ ⟨hn0, hlid, hlreq⟩,
      run_seated_in_client_benches _ _ _ _ ⟨hn0, hlid, hlreq⟩, run_random_int, hid, hreq]
    rw [Int.toNat_of_nonneg hn0] at hres
    have hfree1 : ((List.count 0 (List.take benches.numSeats.toNat benches.id) : Nat) : Int) > 0 := by
      exact_mod_cast hfree
    have hcast : (res : Int) - 1 = ((res - 1 : Nat) : Int) := by omega
    have hwr1 := wr_natCast benches.id (res - 1) id h3
    have hwr2 := wr_natCast benches.request (res - 1) request (by omega)
    simp only [Nat.cast_zero] at hres
    simp only [hfree1, hseat, decide_True, decide_False, Bool.not_false, if_true, and_self,
      hres, run_defined_some, hcast, hwr1, hwr2, run_pure]

theorem run_random_sit_seated (benches : ClientBenches) (id request : Int)
    (o : Oracle) (w : World) (h : BenchesOK benches)
    (hseat : id ∈ benches.id.take benches.numSeats.toNat) :
    random_sit_in_client_benches benches id request o w = .fail Err.violation w := by
  unfold random_sit_in_client_benches
  simp only [run_bind, run_require, run_num_available_benches_seats _ _ _ h,
    run_seated_in_client_benches _ _ _ _ h, hseat, decide_True, Bool.not_true]
  split_ifs <;> first | rfl | contradiction

/-- The four preconditions `enter_barber_shop` tests. -/
theorem enter_barber_shop_rejected (o : Oracle) (w : World) (clientID request : Int)
    (hb : BenchesOK w.shop.clientBenches) (hi : InsideOK w.shop)
    (hc : ¬ (clientID > 0 ∧ (request > 0 ∧ request < 8) ∧
      0 ∈ w.shop.clientBenches.id.take w.shop.clientBenches.numSeats.toNat ∧
      clientID ∉ insideClients w.shop)) :
    enter_barber_shop clientID request o w = .fail Err.violation w := by
  unfold enter_barber_shop
  by_cases h1 : clientID > 0
  · by_cases h2 : request > 0 ∧ request < 8
    · by_cases h3 : 0 ∈ w.shop.clientBenches.id.take w.shop.clientBenches.numSeats.toNat
      · have h4 : clientID ∈ insideClients w.shop := by
          by_contra h4; exact hc ⟨h1, h2, h3, h4⟩
        have h3c : ((List.count 0 (List.take w.shop.clientBenches.numSeats.toNat
            w.shop.clientBenches.id) : Nat) : Int) > 0 := by
          exact_mod_cast List.count_pos_iff.2 h3
        simp only [run_bind, run_require, h1, h2, and_self, decide_True, if_true, client_benches,
          run_getShop, run_pure, run_num_available_benches_seats _ _ _ hb, h3c,
          run_is_client_inside _ _ _ hi h1, h4]
        rfl
      · have h3c : ¬ ((List.count 0 (List.take w.shop.clientBenches.numSeats.toNat
            w.shop.clientBenches.id) : Nat) : Int) > 0 := by
          intro h; exact h3 (List.count_pos_iff.1 (by exact_mod_cast h))
        simp only [run_bind, run_require, h1, h2, and_self, decide_True, if_true, client_benches,
          run_getShop, run_pure, run_num_available_benches_seats _ _ _ hb, h3c, decide_False,
          Bool.false_eq_true, if_false]
    · simp only [run_bind, run_require, h1, h2, decide_True, decide_False, if_true,
        Bool.false_eq_true, if_false]
  · simp only [run_bind, run_require, h1, decide_False]
    rfl

theorem wr_inside {α : Type} (a : List α) (i : Int) (v : α) (h0 : 0 ≤ i)
    (h1 : i.toNat < a.length) : wr a i v = some (a.set i.toNat v) := by
  simp [wr, h0, h1]

/-- Run of an accepted `enter_barber_shop`. -/
theorem enter_barber_shop_accepted_run (o : Oracle) (w : World) (clientID request : Int)
    (hb : BenchesOK w.shop.clientBenches) (hi : InsideOK w.shop)
    (h1 : clientID > 0) (h2 : request > 0 ∧ request < 8)
    (h3 : 0 ∈ w.shop.clientBenches.id.take w.shop.clientBenches.numSeats.toNat)
    (h4 : clientID ∉ insideClients w.shop)
    (hseat : clientID ∉ w.shop.clientBenches.id.take w.shop.clientBenches.numSeats.toNat)
    (hroom : w.shop.numClientsInside.toNat < w.shop.clientsInside.length) :
    ∃ res : Nat, res < w.shop.clientBenches.numSeats.toNat ∧
      w.shop.clientBenches.id[res]? = some 0 ∧
      random_sit_in_client_benches w.shop.clientBenches clientID request o w
        = .ok ((res : Int), { w.shop.clientBenches with
                id := w.shop.clientBenches.id.set res clientID,
                request := w.shop.clientBenches.request.set res request })
            { w with draws := w.draws + 1 } ∧
      enter_barber_shop clientID request o w
        = .ok (res : Int)
            { w with
              shop := { w.shop with
                clientBenches := { w.shop.clientBenches with
                  id := w.shop.clientBenches.id.set res clientID,
                  request := w.shop.clientBenches.request.set res request },
                clientsInside := w.shop.clientsInside.set w.shop.numClientsInside.toNat clientID,
                numClientsInside := w.shop.numClientsInside + 1 },
              bci := { o.others w.clock w.bci with
                syncBenches := { w.shop.clientBenches with
                  id := w.shop.clientBenches.id.set res clientID,
                  request := w.shop.clientBenches.request.set res request } },
              clock := w.clock + 1, draws := w.draws + 1 } := by
  have h3c : ((List.count 0 (List.take w.shop.clientBenches.numSeats.toNat
      w.shop.clientBenches.id) : Nat) : Int) > 0 := by
    exact_mod_cast List.count_pos_iff.2 h3
  obtain ⟨res, hres, hfree, hrun⟩ := run_random_sit_in_client_benches w.shop.clientBenches
    clientID request o w hb h1 h2 (List.count_pos_iff.2 h3) hseat
  refine ⟨res, hres, hfree, hrun, ?_⟩
  unfold enter_barber_shop
  simp only [run_bind, run_require, h1, h2, and_self, decide_True, if_true, client_benches,
    run_getShop, run_pure, run_num_available_benches_seats _ _ _ hb, h3c,
    run_is_client_inside _ _ _ hi h1, h4, if_false, hrun, run_setShop, run_bci_set_syncBenches,
    wr_inside _ _ clientID hi.1 hroom, run_defined_some]

theorem enter_barber_shop_seated (o : Oracle) (w : World) (clientID request : Int)
    (hb : BenchesOK w.shop.clientBenches) (hi : InsideOK w.shop)
    (h1 : clientID > 0) (h2 : request > 0 ∧ request < 8)
    (h3 : 0 ∈ w.shop.clientBenches.id.take w.shop.clientBenches.numSeats.toNat)
    (h4 : clientID ∉ insideClients w.shop)
    (hseat : clientID ∈ w.shop.clientBenches.id.take w.shop.clientBenches.numSeats.toNat) :
    enter_barber_shop clientID request o w = .fail Err.violation w := by
  have h3c : ((List.count 0 (List.take w.shop.clientBenches.numSeats.toNat
      w.shop.clientBenches.id) : Nat) : Int) > 0 := by
    exact_mod_cast List.count_pos_iff.2 h3
  unfold enter_barber_shop
  simp only [run_bind, run_require, h1, h2, and_self, decide_True, if_true, client_benches,
    run_getShop, run_pure, run_num_available_benches_seats _ _ _ hb, h3c,
    run_is_client_inside _ _ _ hi h1, h4, if_false, run_random_sit_seated _ _ _ _ _ hb hseat]

theorem enter_barber_shop_full (o : Oracle) (w : World) (clientID request : Int)
    (hb : BenchesOK w.shop.clientBenches) (hi : InsideOK w.shop)
    (h1 : clientID > 0) (h2 : request > 0 ∧ request < 8)
    (h3 : 0 ∈ w.shop.clientBenches.id.take w.shop.clientBenches.numSeats.toNat)
    (h4 : clientID ∉ insideClients w.shop)
    (hseat : clientID ∉ w.shop.clientBenches.id.take w.shop.clientBenches.numSeats.toNat)
    (hroom : ¬ w.shop.numClientsInside.toNat < w.shop.clientsInside.length) :
    (enter_barber_shop clientID request o w).error = some Err.undefined := by
  have h3c : ((List.count 0 (List.take w.shop.clientBenches.numSeats.toNat
      w.shop.clientBenches.id) : Nat) : Int) > 0 := by
    exact_mod_cast List.count_pos_iff.2 h3
  obtain ⟨res, hres, hfree, hrun⟩ := run_random_sit_in_client_benches w.shop.clientBenches
    clientID request o w hb h1 h2 (List.count_pos_iff.2 h3) hseat
  have hwr : wr w.shop.clientsInside w.shop.numClientsInside clientID = none := by
    simp [wr, hroom]
  unfold enter_barber_shop
  simp only [run_bind, run_require, h1, h2, and_self, decide_True, if_true, client_benches,
    run_getShop, run_pure, run_num_available_benches_seats _ _ _ hb, h3c,
    run_is_client_inside _ _ _ hi h1, h4, if_false, hrun, run_setShop, run_bci_set_syncBenches,
    hwr, run_defined_none]
  rfl

theorem take_set_self {α : Type} (a : List α) (n : Nat) (c : α) :
    (a.set n c).take n = a.take n :=
  List.ext_getElem? fun i => by
    rw [List.getElem?_take, List.getElem?_take]
    split
    · rw [List.getElem?_set_ne (by omega)]
    · rfl

theorem take_succ_set {α : Type} (a : List α) (n : Nat) (c : α) (h : n < a.length) :
    (a.set n c).take (n + 1) = a.take n ++ [c] := by
  rw [List.take_succ, List.getElem?_set_self h, take_set_self]
  rfl

theorem rd_nonneg {α : Type} (a : List α) (i : Int) (h : 0 ≤ i) : rd a i = a[i.toNat]? := by
  simp [rd, h]

/-- C9: when `enter_barber_shop` returns in a shop record whose arrays have
the declared sizes, the value returned is the seat the benches assigned (the
one `random_sit_in_client_benches` returns in the same state: a seat that was
free and now holds the client and its request), `numClientsInside` has grown by
exactly one, `clientID` is stored at the former end of the inside list, every
entry before it is unchanged, so every client inside before is inside at the
same index, and `is_client_inside` now returns 1 for the client. -/
theorem enter_barber_shop_accepted (o : Oracle) (w : World) (clientID request : Int)
    (hb : BenchesOK w.shop.clientBenches) (hi : InsideOK w.shop)
    (hacc : (enter_barber_shop clientID request o w).error = none) :
    ∃ res : Int,
      (enter_barber_shop clientID request o w).value = some res ∧
      (random_sit_in_client_benches w.shop.clientBenches clientID request o w).value
        = some (res, (enter_barber_shop clientID request o w).state.shop.clientBenches) ∧
      (0 ≤ res ∧ res < w.shop.clientBenches.numSeats) ∧
      rd w.shop.clientBenches.id res = some 0 ∧
      rd (enter_barber_shop clientID request o w).state.shop.clientBenches.id res
        = some clientID ∧
      rd (enter_barber_shop clientID request o w).state.shop.clientBenches.request res
        = some request ∧
      (enter_barber_shop clientID request o w).state.shop.numClientsInside
        = w.shop.numClientsInside + 1 ∧
      rd (enter_barber_shop clientID request o w).state.shop.clientsInside
        w.shop.numClientsInside = some clientID ∧
      (∀ i : Int, i < w.shop.numClientsInside →
        rd (enter_barber_shop clientID request o w).state.shop.clientsInside i
          = rd w.shop.clientsInside i) ∧
      insideClients (enter_barber_shop clientID request o w).state.shop
        = insideClients w.shop ++ [clientID] ∧
      is_client_inside clientID o (enter_barber_shop clientID request o w).state
        = .ok 1 (enter_barber_shop clientID request o w).state := by
  by_cases hc : clientID > 0 ∧ (request > 0 ∧ request < 8) ∧
      0 ∈ w.shop.clientBenches.id.take w.shop.clientBenches.numSeats.toNat ∧
      clientID ∉ insideClients w.shop
  swap
  · rw [enter_barber_shop_rejected o w clientID request hb hi hc] at hacc
    cases hacc
  obtain ⟨h1, h2, h3, h4⟩ := hc
  by_cases hseat : clientID ∈ w.shop.clientBenches.id.take w.shop.clientBenches.numSeats.toNat
  · rw [enter_barber_shop_seated o w clientID request hb hi h1 h2 h3 h4 hseat] at hacc
    cases hacc
  by_cases hroom : w.shop.numClientsInside.toNat < w.shop.clientsInside.length
  swap
  · rw [enter_barber_shop_full o w clientID request hb hi h1 h2 h3 h4 hseat hroom] at hacc
    cases hacc
  obtain ⟨res, hres, hfree, hrs, hrun⟩ :=
    enter_barber_shop_accepted_run o w clientID request hb hi h1 h2 h3 h4 hseat hroom
  obtain ⟨hn0, hlid, hlreq⟩ := hb
  obtain ⟨hi0, hilen⟩ := hi
  have hnat : w.shop.numClientsInside = (w.shop.numClientsInside.toNat : Int) :=
    (Int.toNat_of_nonneg hi0).symm
  rw [hrun, hrs]
  refine ⟨res, rfl, rfl, ⟨by omega, by omega⟩, ?_, ?_, ?_, rfl, ?_, ?_, ?_, ?_⟩ <;>
    try simp only [Res.state]
  · rw [rd_natCast]; exact hfree
  · rw [rd_natCast, List.getElem?_set_self (by omega)]
  · rw [rd_natCast, List.getElem?_set_self (by omega)]
  · rw [rd_nonneg _ _ hi0, List.getElem?_set_self hroom]
  · intro i hlt
    unfold rd
    split
    · rw [List.getElem?_set_ne (by omega)]
    · rfl
  · unfold insideClients
    have : (w.shop.numClientsInside + 1).toNat = w.shop.numClientsInside.toNat + 1 := by omega
    simp only [this]
    exact take_succ_set _ _ _ hroom
  · rw [run_is_client_inside _ _ _ ⟨by simp only; omega, by simp only [List.length_set]; omega⟩ h1]
    have hmem : clientID ∈ insideClients
        { w.shop with
          clientBenches := { w.shop.clientBenches with
            id := w.shop.clientBenches.id.set res clientID,
            request := w.shop.clientBenches.request.set res request },
          clientsInside := w.shop.clientsInside.set w.shop.numClientsInside.toNat clientID,
          numClientsInside := w.shop.numClientsInside + 1 } := by
      unfold insideClients
      have : (w.shop.numClientsInside + 1).toNat = w.shop.numClientsInside.toNat + 1 := by omega
      simp only [this]
      rw [take_succ_set _ _ _ hroom]
      simp
    rw [if_pos hmem]

/-- Witness of C9: client 2 enters the empty sample shop with request 5. -/
theorem enter_barber_shop_accepted_witness :
    ∃ res : Int,
      (enter_barber_shop 2 5 quiet (world23 [0, 0, 0])).value = some res ∧
      (random_sit_in_client_benches (world23 [0, 0, 0]).shop.clientBenches 2 5 quiet
          (world23 [0, 0, 0])).value
        = some (res, (enter_barber_shop 2 5 quiet (world23 [0, 0, 0])).state.shop.clientBenches) ∧
      (0 ≤ res ∧ res < (world23 [0, 0, 0]).shop.clientBenches.numSeats) ∧
      rd (world23 [0, 0, 0]).shop.clientBenches.id res = some 0 ∧
      rd (enter_barber_shop 2 5 quiet (world23 [0, 0, 0])).state.shop.clientBenches.id res
        = some 2 ∧
      rd (enter_barber_shop 2 5 quiet (world23 [0, 0, 0])).state.shop.clientBenches.request res
        = some 5 ∧
      (enter_barber_shop 2 5 quiet (world23 [0, 0, 0])).state.shop.numClientsInside
        = (world23 [0, 0, 0]).shop.numClientsInside + 1 ∧
      rd (enter_barber_shop 2 5 quiet (world23 [0, 0, 0])).state.shop.clientsInside
        (world23 [0, 0, 0]).shop.numClientsInside = some 2 ∧
      (∀ i : Int, i < (world23 [0, 0, 0]).shop.numClientsInside →
        rd (enter_barber_shop 2 5 quiet (world23 [0, 0, 0])).state.shop.clientsInside i
          = rd (world23 [0, 0, 0]).shop.clientsInside i) ∧
      insideClients (enter_barber_shop 2 5 quiet (world23 [0, 0, 0])).state.shop
        = insideClients (world23 [0, 0, 0]).shop ++ [2] ∧
      is_client_inside 2 quiet (enter_barber_shop 2 5 quiet (world23 [0, 0, 0])).state
        = .ok 1 (enter_barber_shop 2 5 quiet (world23 [0, 0, 0])).state :=
  enter_barber_shop_accepted quiet (world23 [0, 0, 0]) 2 5
    ⟨by decide, by decide, by decide⟩ ⟨by decide, by decide⟩ (by decide!)

/-! ### Leaving the shop -/

theorem leave_search_spec (a : List Int) (c : Int) :
    ∀ (k i : Nat), i + k = a.length + 1 → c ∈ a.drop i →
      leave_search a c k i = some ((i + (a.drop i).indexOf c : Nat) : Int) := by
  intro k
  induction k with
  | zero =>
    intro i hi hc
    have : a.drop i = [] := List.drop_eq_nil_of_le (by omega)
    rw [this] at hc
    cases hc
  | succ k ih =>
    intro i hi hc
    have hlen : i < a.length := by
      by_contra h
      have : a.drop i = [] := List.drop_eq_nil_of_le (by omega)
      rw [this] at hc
      cases hc
    have hdrop : a.drop i = a[i] :: a.drop (i + 1) := List.drop_eq_getElem_cons hlen
    unfold leave_search
    rw [rd_natCast, List.getElem?_eq_getElem hlen]
    simp only [Option.some_bind]
    by_cases hx : a[i] = c
    · rw [if_neg (by simpa using hx), hdrop, hx, List.indexOf_cons_self]
      rfl
    · rw [if_pos hx]
      have hc1 : c ∈ a.drop (i + 1) := by
        rw [hdrop] at hc
        rcases List.mem_cons.1 hc with h | h
        · exact absurd h.symm hx
        · exact h
      have := ih (i + 1) (by omega) hc1
      push_cast at this ⊢
      rw [this, hdrop, List.indexOf_cons_ne _ hx]
      push_cast
      ring_nf

theorem leave_shift_spec (n : Nat) :
    ∀ (k i : Nat) (a : List Int), i + k = n → n + 1 ≤ a.length →
      ∃ a1, leave_shift n k i a = some a1 ∧ a1.length = a.length ∧
        ∀ j, a1[j]? = if i ≤ j ∧ j < n then a[j + 1]? else a[j]? := by
  intro k
  induction k with
  | zero =>
    intro i a hi _
    refine ⟨a, rfl, rfl, fun j => ?_⟩
    rw [if_neg (by omega)]
  | succ k ih =>
    intro i a hi hlen
    have h1 : i + 1 < a.length := by omega
    unfold leave_shift
    rw [if_pos (by exact_mod_cast (by omega : i < n))]
    have hcast : ((i : Int) + 1) = ((i + 1 : Nat) : Int) := by push_cast; rfl
    rw [hcast, rd_natCast, List.getElem?_eq_getElem h1]
    simp only [Option.some_bind]
    rw [wr_natCast _ _ _ (by omega)]
    simp only [Option.some_bind]
    obtain ⟨a1, hrun, hl, hget⟩ := ih (i + 1) (a.set i a[i + 1]) (by omega)
      (by rw [List.length_set]; exact hlen)
    refine ⟨a1, hrun, by rw [hl, List.length_set], fun j => ?_⟩
    rw [hget j]
    by_cases hj : i + 1 ≤ j ∧ j < n
    · rw [if_pos hj, if_pos (by omega), List.getElem?_set_ne (by omega)]
    · rw [if_neg hj]
      by_cases hji : j = i
      · subst hji
        rw [if_pos (by omega), List.getElem?_set_self (by omega), List.getElem?_eq_getElem h1]
      · rw [List.getElem?_set_ne (by omega), if_neg (by omega)]

theorem indexOf_of_mem_take (a : List Int) (c : Int) (N : Nat) (h : c ∈ a.take N) :
    a.indexOf c = (a.take N).indexOf c ∧ (a.take N).indexOf c < N ∧
      a[(a.take N).indexOf c]? = some c := by
  have h1 : a.indexOf c = (a.take N).indexOf c := by
    conv_lhs => rw [← List.take_append_drop N a]
    exact List.indexOf_append_of_mem h
  have h2 : (a.take N).indexOf c < (a.take N).length := List.indexOf_lt_length.2 h
  have h3 : (a.take N).length ≤ N := by simp
  refine ⟨h1, by omega, ?_⟩
  have h4 : (a.take N)[(a.take N).indexOf c]? = some c := by
    rw [List.getElem?_eq_getElem h2, List.getElem_indexOf]
  rw [List.getElem?_take_of_lt (by omega)] at h4
  exact h4

/-- Run of an accepted `leave_barber_shop`: the search stops at the first
entry holding the client, which lies before `numClientsInside`, and the
entries after it move one place down. -/
theorem leave_barber_shop_run (o : Oracle) (w : World) (clientID : Int)
    (hi : InsideOK w.shop) (hc : clientID > 0) (hin : clientID ∈ insideClients w.shop) :
    ∃ (i : Nat) (a1 : List Int),
      leave_search w.shop.clientsInside clientID (w.shop.clientsInside.length + 1) 0
        = some (i : Int) ∧
      i < w.shop.numClientsInside.toNat ∧
      a1.length = w.shop.clientsInside.length ∧
      a1.take (w.shop.numClientsInside.toNat - 1) = (insideClients w.shop).erase clientID ∧
      leave_barber_shop clientID o w
        = .ok () { w with shop := { w.shop with
            numClientsInside := w.shop.numClientsInside - 1, clientsInside := a1 } } := by
  obtain ⟨hi0, hilen⟩ := hi
  obtain ⟨hidx, hlt, hget⟩ := indexOf_of_mem_take w.shop.clientsInside clientID
    w.shop.numClientsInside.toNat hin
  have hsearch := leave_search_spec w.shop.clientsInside clientID
    (w.shop.clientsInside.length + 1) 0 (by omega)
    (by simpa using List.mem_of_mem_take hin)
  simp only [Nat.cast_zero, List.drop_zero, zero_add, hidx] at hsearch
  obtain ⟨a1, hshift, hl, hsh⟩ := leave_shift_spec (w.shop.numClientsInside.toNat - 1)
    (w.shop.numClientsInside.toNat - 1 - (List.take w.shop.numClientsInside.toNat
      w.shop.clientsInside).indexOf clientID)
    ((List.take w.shop.numClientsInside.toNat w.shop.clientsInside).indexOf clientID)
    w.shop.clientsInside (by omega) (by omega)
  refine ⟨_, a1, hsearch, hlt, hl, ?_, ?_⟩
  · rw [← List.eraseIdx_indexOf_eq_erase]
    apply List.ext_getElem?
    intro j
    unfold insideClients
    rw [List.getElem?_take, List.getElem?_eraseIdx, hsh j, List.getElem?_take,
      List.getElem?_take]
    split_ifs <;> first | rfl | omega
  · have hn1 : w.shop.numClientsInside - 1 = ((w.shop.numClientsInside.toNat - 1 : Nat) : Int) := by
      omega
    have hk : (((w.shop.numClientsInside.toNat - 1 : Nat) : Int) -
        (((List.take w.shop.numClientsInside.toNat w.shop.clientsInside).indexOf clientID : Nat)
          : Int)).toNat
        = w.shop.numClientsInside.toNat - 1 - (List.take w.shop.numClientsInside.toNat
            w.shop.clientsInside).indexOf clientID := by
      omega
    unfold leave_barber_shop
    simp only [run_bind, run_require, hc, decide_True, if_true,
      run_is_client_inside _ _ _ ⟨hi0, hilen⟩ hc, hin, run_getShop, hsearch, run_defined_some,
      run_setShop, run_check, rd_natCast, hget, hn1, hk, hshift, ne_eq, one_ne_zero,
      not_false_eq_true]

theorem leave_barber_shop_rejected (o : Oracle) (w : World) (clientID : Int)
    (hi : InsideOK w.shop) (hc : ¬ (clientID > 0 ∧ clientID ∈ insideClients w.shop)) :
    leave_barber_shop clientID o w = .fail Err.violation w := by
  unfold leave_barber_shop
  by_cases h1 : clientID > 0
  · have h2 : clientID ∉ insideClients w.shop := fun h => hc ⟨h1, h⟩
    simp only [run_bind, run_require, h1, decide_True, if_true,
      run_is_client_inside _ _ _ hi h1, h2, if_false, ne_eq, not_true_eq_false, decide_False,
      Bool.false_eq_true]
  · simp only [run_bind, run_require, h1, decide_False, Bool.false_eq_true, if_false]

/-- C10: in a shop record whose count of clients inside lies within the array
and whose inside list has no duplicate (as every list built by
`enter_barber_shop` and `leave_barber_shop` from the empty one),
`leave_barber_shop` aborts with a contract violation, in the state it was
called in, unless `clientID > 0` and the client is inside; when the client is
inside, the search loop stops at an index below `numClientsInside`, the call
returns, `numClientsInside` has dropped by exactly one, the client is no longer
inside (`is_client_inside` returns 0) and the inside list is the former one
without the client, the others in the same order. -/
theorem leave_barber_shop_spec (o : Oracle) (w : World) (clientID : Int)
    (hi : InsideOK w.shop) (hnd : (insideClients w.shop).Nodup) :
    (¬ (clientID > 0 ∧ clientID ∈ insideClients w.shop) →
      leave_barber_shop clientID o w = .fail Err.violation w) ∧
    (clientID > 0 → clientID ∈ insideClients w.shop →
      (∃ i : Nat,
        leave_search w.shop.clientsInside clientID (w.shop.clientsInside.length + 1) 0
          = some (i : Int) ∧ i < w.shop.numClientsInside.toNat) ∧
      (leave_barber_shop clientID o w).error = none ∧
      (leave_barber_shop clientID o w).state.shop.numClientsInside
        = w.shop.numClientsInside - 1 ∧
      clientID ∉ insideClients (leave_barber_shop clientID o w).state.shop ∧
      is_client_inside clientID o (leave_barber_shop clientID o w).state
        = .ok 0 (leave_barber_shop clientID o w).state ∧
      insideClients (leave_barber_shop clientID o w).state.shop
        = (insideClients w.shop).filter (· != clientID)) := by
  refine ⟨leave_barber_shop_rejected o w clientID hi, fun hc hin => ?_⟩
  obtain ⟨i, a1, hsearch, hlt, hl, herase, hrun⟩ := leave_barber_shop_run o w clientID hi hc hin
  have hinside : insideClients { w.shop with
      numClientsInside := w.shop.numClientsInside - 1, clientsInside := a1 }
      = (insideClients w.shop).erase clientID := by
    rw [← herase]
    unfold insideClients
    have : (w.shop.numClientsInside - 1).toNat = w.shop.numClientsInside.toNat - 1 := by omega
    simp only [this]
  have hnot : clientID ∉ insideClients { w.shop with
      numClientsInside := w.shop.numClientsInside - 1, clientsInside := a1 } := by
    rw [hinside]
    exact hnd.not_mem_erase
  have hi0 : 0 ≤ w.shop.numClientsInside := hi.1
  have hilen : w.shop.numClientsInside.toNat ≤ w.shop.clientsInside.length := hi.2
  rw [hrun]
  refine ⟨⟨i, hsearch, hlt⟩, rfl, rfl, hnot, ?_, ?_⟩
  · simp only [Res.state]
    rw [run_is_client_inside _ _ _ ⟨by simp only; omega, by simp only [hl]; omega⟩ hc,
      if_neg hnot]
  · simp only [Res.state]
    rw [hinside, hnd.erase_eq_filter]

/-- Witness of C10: client 2 leaves the sample shop where clients 2 and 3 are
inside. -/
theorem leave_barber_shop_spec_witness :
    (¬ ((2 : Int) > 0 ∧ (2 : Int) ∈ insideClients twoInside.shop) →
      leave_barber_shop 2 quiet twoInside = .fail Err.violation twoInside) ∧
    ((2 : Int) > 0 → (2 : Int) ∈ insideClients twoInside.shop →
      (∃ i : Nat,
        leave_search twoInside.shop.clientsInside 2 (twoInside.shop.clientsInside.length + 1) 0
          = some (i : Int) ∧ i < twoInside.shop.numClientsInside.toNat) ∧
      (leave_barber_shop 2 quiet twoInside).error = none ∧
      (leave_barber_shop 2 quiet twoInside).state.shop.numClientsInside
        = twoInside.shop.numClientsInside - 1 ∧
      (2 : Int) ∉ insideClients (leave_barber_shop 2 quiet twoInside).state.shop ∧
      is_client_inside 2 quiet (leave_barber_shop 2 quiet twoInside).state
        = .ok 0 (leave_barber_shop 2 quiet twoInside).state ∧
      insideClients (leave_barber_shop 2 quiet twoInside).state.shop
        = (insideClients twoInside.shop).filter (· != 2)) :=
  leave_barber_shop_spec quiet twoInside 2 ⟨by decide, by decide⟩ (by decide)

/-- An accepted `enter_barber_shop` keeps the inside list within its array and
free of duplicates. -/
theorem enter_barber_shop_keeps_inside (o : Oracle) (w : World) (clientID request : Int)
    (hb : BenchesOK w.shop.clientBenches) (hi : InsideOK w.shop)
    (hnd : (insideClients w.shop).Nodup)
    (hacc : (enter_barber_shop clientID request o w).error = none) :
    InsideOK (enter_barber_shop clientID request o w).state.shop ∧
    (insideClients (enter_barber_shop clientID request o w).state.shop).Nodup := by
  by_cases hc : clientID > 0 ∧ (request > 0 ∧ request < 8) ∧
      0 ∈ w.shop.clientBenches.id.take w.shop.clientBenches.numSeats.toNat ∧
      clientID ∉ insideClients w.shop
  swap
  · rw [enter_barber_shop_rejected o w clientID request hb hi hc] at hacc
    cases hacc
  obtain ⟨h1, h2, h3, h4⟩ := hc
  by_cases hseat : clientID ∈ w.shop.clientBenches.id.take w.shop.clientBenches.numSeats.toNat
  · rw [enter_barber_shop_seated o w clientID request hb hi h1 h2 h3 h4 hseat] at hacc
    cases hacc
  by_cases hroom : w.shop.numClientsInside.toNat < w.shop.clientsInside.length
  swap
  · rw [enter_barber_shop_full o w clientID request hb hi h1 h2 h3 h4 hseat hroom] at hacc
    cases hacc
  obtain ⟨res, -, -, -, hrun⟩ :=
    enter_barber_shop_accepted_run o w clientID request hb hi h1 h2 h3 h4 hseat hroom
  have hi0 : 0 ≤ w.shop.numClientsInside := hi.1
  have hsucc : (w.shop.numClientsInside + 1).toNat = w.shop.numClientsInside.toNat + 1 := by omega
  rw [hrun]
  simp only [Res.state]
  refine ⟨⟨by simp only; omega, by simp only [List.length_set]; omega⟩, ?_⟩
  unfold insideClients
  simp only [hsucc]
  rw [take_succ_set _ _ _ hroom]
  exact List.nodup_append.2 ⟨hnd, List.nodup_singleton _, by
    intro x hx hx1
    rw [List.mem_singleton] at hx1
    subst hx1
    exact h4 hx⟩

/-- An accepted `leave_barber_shop` keeps the inside list within its array and
free of duplicates. -/
theorem leave_barber_shop_keeps_inside (o : Oracle) (w : World) (clientID : Int)
    (hi : InsideOK w.shop) (hnd : (insideClients w.shop).Nodup)
    (hacc : (leave_barber_shop clientID o w).error = none) :
    InsideOK (leave_barber_shop clientID o w).state.shop ∧
    (insideClients (leave_barber_shop clientID o w).state.shop).Nodup := by
  by_cases hc : clientID > 0 ∧ clientID ∈ insideClients w.shop
  swap
  · rw [leave_barber_shop_rejected o w clientID hi hc] at hacc
    cases hacc
  obtain ⟨i, a1, -, hlt, hl, herase, hrun⟩ := leave_barber_shop_run o w clientID hi hc.1 hc.2
  have hi0 : 0 ≤ w.shop.numClientsInside := hi.1
  have hilen : w.shop.numClientsInside.toNat ≤ w.shop.clientsInside.length := hi.2
  have hpred : (w.shop.numClientsInside - 1).toNat = w.shop.numClientsInside.toNat - 1 := by omega
  rw [hrun]
  simp only [Res.state]
  refine ⟨⟨by simp only; omega, by simp only [hl]; omega⟩, ?_⟩
  unfold insideClients
  simp only [hpred]
  rw [herase]
  exact hnd.erase _

/-! ### Computations that write no state code -/

@[simp] theorem silent_pure {α : Type} (a : α) : Silent (pure a : M α) :=
  ⟨fun _ _ => ⟨rfl, rfl⟩⟩

theorem silent_bind {α β : Type} (m : M α) (f : α → M β) (h1 : Silent m)
    (h2 : ∀ a, Silent (f a)) : Silent (m >>= f) := by
  constructor
  intro o w
  rw [run_bind]
  cases h : m o w with
  | ok a w1 =>
    have := h1.keeps o w
    rw [h] at this
    have h3 := (h2 a).keeps o w1
    exact ⟨h3.1.trans this.1, h3.2.trans this.2⟩
  | fail e w1 =>
    have := h1.keeps o w
    rw [h] at this
    exact this

theorem silent_ite {α : Type} (c : Prop) [Decidable c] (a b : M α) (h1 : Silent a)
    (h2 : Silent b) : Silent (if c then a else b) := by
  split_ifs <;> assumption

@[simp] theorem silent_abort {α : Type} (e : Err) : Silent (abort e : M α) :=
  ⟨fun _ _ => ⟨rfl, rfl⟩⟩

@[simp] theorem silent_getW : Silent getW := ⟨fun _ _ => ⟨rfl, rfl⟩⟩

@[simp] theorem silent_lock : Silent lock := ⟨fun _ _ => ⟨rfl, rfl⟩⟩

@[simp] theorem silent_unlock : Silent unlock := ⟨fun _ _ => ⟨rfl, rfl⟩⟩

@[simp] theorem silent_draw : Silent draw := ⟨fun _ _ => ⟨rfl, rfl⟩⟩

@[simp] theorem silent_spend (t : Int) : Silent (spend t) := ⟨fun _ _ => ⟨rfl, rfl⟩⟩

@[simp] theorem silent_getShop : Silent getShop := ⟨fun _ _ => ⟨rfl, rfl⟩⟩

@[simp] theorem silent_setShop (shop : BarberShop) : Silent (setShop shop) :=
  ⟨fun _ _ => ⟨rfl, rfl⟩⟩

@[simp] theorem silent_getBarber : Silent getBarber := ⟨fun _ _ => ⟨rfl, rfl⟩⟩

theorem silent_modifyBarber (f : Barber → Barber) (h : ∀ b, (f b).id = b.id) :
    Silent (modifyBarber f) := ⟨fun _ w => ⟨rfl, h w.barber⟩⟩

@[simp] theorem silent_require (c : Bool) : Silent (require c) := by
  cases c <;> exact ⟨fun _ _ => ⟨rfl, rfl⟩⟩

@[simp] theorem silent_ensure (c : Bool) : Silent (ensure c) := by
  cases c <;> exact ⟨fun _ _ => ⟨rfl, rfl⟩⟩

@[simp] theorem silent_check (c : Bool) : Silent (check c) := by
  cases c <;> exact ⟨fun _ _ => ⟨rfl, rfl⟩⟩

@[simp] theorem silent_defined {α : Type} (x : Option α) : Silent (defined x) := by
  cases x <;> exact ⟨fun _ _ => ⟨rfl, rfl⟩⟩

@[simp] theorem silent_bus {α : Type} (f : BCInterface → Option α) : Silent (bus f) := by
  constructor
  intro o w
  rcases w with ⟨g, br, sh, b, c, d, l, _ | n⟩
  · rw [run_bus_free]
    cases f (o.others c b) <;> exact ⟨rfl, rfl⟩
  · rw [run_bus]
    cases f b <;> exact ⟨rfl, rfl⟩

@[simp] theorem silent_busSet (f : BCInterface → Option BCInterface) : Silent (busSet f) := by
  constructor
  intro o w
  rcases w with ⟨g, br, sh, b, c, d, l, _ | n⟩
  · rw [run_busSet_free]
    cases f (o.others c b) <;> exact ⟨rfl, rfl⟩
  · rw [run_busSet]
    cases f b <;> exact ⟨rfl, rfl⟩

theorem silent_busyWait (cond : M Bool) (n : Nat) (h : Silent cond) :
    Silent (busyWait cond n) := by
  induction n with
  | zero => exact silent_abort _
  | succ k ih =>
    unfold busyWait
    exact silent_bind _ _ h fun c => silent_ite _ _ _ ih (silent_pure _)

@[simp] theorem silent_random_int (lo hi : Int) :
    Silent (random_int lo hi) := by
  unfold random_int
  repeat' (first
    | simp | apply silent_bind | apply silent_ite | apply silent_busyWait
    | apply silent_modifyBarber | apply And.intro | intro _ | rfl)

@[simp] theorem silent_log_barber :
    Silent (log_barber) := by
  unfold log_barber
  repeat' (first
    | simp | apply silent_bind | apply silent_ite | apply silent_busyWait
    | apply silent_modifyBarber | apply And.intro | intro _ | rfl)

@[simp] theorem silent_bci_set_service (barberID : Int) (service : Service) :
    Silent (bci_set_service barberID service) := by
  unfold bci_set_service
  repeat' (first
    | simp | apply silent_bind | apply silent_ite | apply silent_busyWait
    | apply silent_modifyBarber | apply And.intro | intro _ | rfl)

@[simp] theorem silent_bci_set_clientID (barberID clientID : Int) :
    Silent (bci_set_clientID barberID clientID) := by
  unfold bci_set_clientID
  repeat' (first
    | simp | apply silent_bind | apply silent_ite | apply silent_busyWait
    | apply silent_modifyBarber | apply And.intro | intro _ | rfl)

@[simp] theorem silent_bci_set_barberID (barberID clientID : Int) :
    Silent (bci_set_barberID barberID clientID) := by
  unfold bci_set_barberID
  repeat' (first
    | simp | apply silent_bind | apply silent_ite | apply silent_busyWait
    | apply silent_modifyBarber | apply And.intro | intro _ | rfl)

@[simp] theorem silent_bci_set_syncBenches (benches : ClientBenches) :
    Silent (bci_set_syncBenches benches) := by
  unfold bci_set_syncBenches
  repeat' (first
    | simp | apply silent_bind | apply silent_ite | apply silent_busyWait
    | apply silent_modifyBarber | apply And.intro | intro _ | rfl)

@[simp] theorem silent_bci_set_syncBBChair (chair : BarberChair) (barberID : Int) :
    Silent (bci_set_syncBBChair chair barberID) := by
  unfold bci_set_syncBBChair
  repeat' (first
    | simp | apply silent_bind | apply silent_ite | apply silent_busyWait
    | apply silent_modifyBarber | apply And.intro | intro _ | rfl)

@[simp] theorem silent_bci_set_syncWashbasin (basin : Washbasin) (barberID : Int) :
    Silent (bci_set_syncWashbasin basin barberID) := by
  unfold bci_set_syncWashbasin
  repeat' (first
    | simp | apply silent_bind | apply silent_ite | apply silent_busyWait
    | apply silent_modifyBarber | apply And.intro | intro _ | rfl)

@[simp] theorem silent_bci_did_request (clientID : Int) :
    Silent (bci_did_request clientID) := by
  unfold bci_did_request
  repeat' (first
    | simp | apply silent_bind | apply silent_ite | apply silent_busyWait
    | apply silent_modifyBarber | apply And.intro | intro _ | rfl)

@[simp] theorem silent_bci_get_request (clientID : Int) :
    Silent (bci_get_request clientID) := by
  unfold bci_get_request
  repeat' (first
    | simp | apply silent_bind | apply silent_ite | apply silent_busyWait
    | apply silent_modifyBarber | apply And.intro | intro _ | rfl)

@[simp] theorem silent_bci_get_next_request (clientID : Int) :
    Silent (bci_get_next_request clientID) := by
  unfold bci_get_next_request
  repeat' (first
    | simp | apply silent_bind | apply silent_ite | apply silent_busyWait
    | apply silent_modifyBarber | apply And.intro | intro _ | rfl)

@[simp] theorem silent_bci_unset_clientID (n : Nat) (barberID : Int) :
    Silent (bci_unset_clientID n barberID) := by
  unfold bci_unset_clientID
  repeat' (first
    | simp | apply silent_bind | apply silent_ite | apply silent_busyWait
    | apply silent_modifyBarber | apply And.intro | intro _ | rfl)

@[simp] theorem silent_bci_get_service_by_clientID (n : Nat) (clientID : Int) (s : Option Service) :
    Silent (bci_get_service_by_clientID n clientID s) := by
  unfold bci_get_service_by_clientID
  repeat' (first
    | simp | apply silent_bind | apply silent_ite | apply silent_busyWait
    | apply silent_modifyBarber | apply And.intro | intro _ | rfl)

@[simp] theorem silent_bci_get_state (barberID : Int) :
    Silent (bci_get_state barberID) := by
  unfold bci_get_state
  repeat' (first
    | simp | apply silent_bind | apply silent_ite | apply silent_busyWait
    | apply silent_modifyBarber | apply And.intro | intro _ | rfl)

@[simp] theorem silent_bci_get_num_clients_in_bench :
    Silent (bci_get_num_clients_in_bench) := by
  unfold bci_get_num_clients_in_bench
  repeat' (first
    | simp | apply silent_bind | apply silent_ite | apply silent_busyWait
    | apply silent_modifyBarber | apply And.intro | intro _ | rfl)

@[simp] theorem silent_bci_get_syncBenches :
    Silent (bci_get_syncBenches) := by
  unfold bci_get_syncBenches
  repeat' (first
    | simp | apply silent_bind | apply silent_ite | apply silent_busyWait
    | apply silent_modifyBarber | apply And.intro | intro _ | rfl)

@[simp] theorem silent_bci_get_syncBBChair (barberID : Int) :
    Silent (bci_get_syncBBChair barberID) := by
  unfold bci_get_syncBBChair
  repeat' (first
    | simp | apply silent_bind | apply silent_ite | apply silent_busyWait
    | apply silent_modifyBarber | apply And.intro | intro _ | rfl)

@[simp] theorem silent_bci_get_syncWashbasin (barberID : Int) :
    Silent (bci_get_syncWashbasin barberID) := by
  unfold bci_get_syncWashbasin
  repeat' (first
    | simp | apply silent_bind | apply silent_ite | apply silent_busyWait
    | apply silent_modifyBarber | apply And.intro | intro _ | rfl)

@[simp] theorem silent_bci_get_shop_status :
    Silent (bci_get_shop_status) := by
  unfold bci_get_shop_status
  repeat' (first
    | simp | apply silent_bind | apply silent_ite | apply silent_busyWait
    | apply silent_modifyBarber | apply And.intro | intro _ | rfl)

@[simp] theorem silent_bci_grant_client_access (clientID : Int) :
    Silent (bci_grant_client_access clientID) := by
  unfold bci_grant_client_access
  repeat' (first
    | simp | apply silent_bind | apply silent_ite | apply silent_busyWait
    | apply silent_modifyBarber | apply And.intro | intro _ | rfl)

@[simp] theorem silent_reserve_barber_chair (chair : BarberChair) (barberID : Int) :
    Silent (reserve_barber_chair chair barberID) := by
  unfold reserve_barber_chair
  repeat' (first
    | simp | apply silent_bind | apply silent_ite | apply silent_busyWait
    | apply silent_modifyBarber | apply And.intro | intro _ | rfl)

@[simp] theorem silent_release_barber_chair (chair : BarberChair) (barberID : Int) :
    Silent (release_barber_chair chair barberID) := by
  unfold release_barber_chair
  repeat' (first
    | simp | apply silent_bind | apply silent_ite | apply silent_busyWait
    | apply silent_modifyBarber | apply And.intro | intro _ | rfl)

@[simp] theorem silent_set_completion_barber_chair (chair : BarberChair) (c : Int) :
    Silent (set_completion_barber_chair chair c) := by
  unfold set_completion_barber_chair
  repeat' (first
    | simp | apply silent_bind | apply silent_ite | apply silent_busyWait
    | apply silent_modifyBarber | apply And.intro | intro _ | rfl)

@[simp] theorem silent_reserve_washbasin (basin : Washbasin) (barberID : Int) :
    Silent (reserve_washbasin basin barberID) := by
  unfold reserve_washbasin
  repeat' (first
    | simp | apply silent_bind | apply silent_ite | apply silent_busyWait
    | apply silent_modifyBarber | apply And.intro | intro _ | rfl)

@[simp] theorem silent_release_washbasin (basin : Washbasin) (barberID : Int) :
    Silent (release_washbasin basin barberID) := by
  unfold release_washbasin
  repeat' (first
    | simp | apply silent_bind | apply silent_ite | apply silent_busyWait
    | apply silent_modifyBarber | apply And.intro | intro _ | rfl)

@[simp] theorem silent_set_completion_washbasin (basin : Washbasin) (c : Int) :
    Silent (set_completion_washbasin basin c) := by
  unfold set_completion_washbasin
  repeat' (first
    | simp | apply silent_bind | apply silent_ite | apply silent_busyWait
    | apply silent_modifyBarber | apply And.intro | intro _ | rfl)

@[simp] theorem silent_pick_scissor (pot : ToolsPot) :
    Silent (pick_scissor pot) := by
  unfold pick_scissor
  repeat' (first
    | simp | apply silent_bind | apply silent_ite | apply silent_busyWait
    | apply silent_modifyBarber | apply And.intro | intro _ | rfl)

@[simp] theorem silent_pick_comb (pot : ToolsPot) :
    Silent (pick_comb pot) := by
  unfold pick_comb
  repeat' (first
    | simp | apply silent_bind | apply silent_ite | apply silent_busyWait
    | apply silent_modifyBarber | apply And.intro | intro _ | rfl)

@[simp] theorem silent_pick_razor (pot : ToolsPot) :
    Silent (pick_razor pot) := by
  unfold pick_razor
  repeat' (first
    | simp | apply silent_bind | apply silent_ite | apply silent_busyWait
    | apply silent_modifyBarber | apply And.intro | intro _ | rfl)

@[simp] theorem silent_return_scissor (pot : ToolsPot) :
    Silent (return_scissor pot) := by
  unfold return_scissor
  repeat' (first
    | simp | apply silent_bind | apply silent_ite | apply silent_busyWait
    | apply silent_modifyBarber | apply And.intro | intro _ | rfl)

@[simp] theorem silent_return_comb (pot : ToolsPot) :
    Silent (return_comb pot) := by
  unfold return_comb
  repeat' (first
    | simp | apply silent_bind | apply silent_ite | apply silent_busyWait
    | apply silent_modifyBarber | apply And.intro | intro _ | rfl)

@[simp] theorem silent_return_razor (pot : ToolsPot) :
    Silent (return_razor pot) := by
  unfold return_razor
  repeat' (first
    | simp | apply silent_bind | apply silent_ite | apply silent_busyWait
    | apply silent_modifyBarber | apply And.intro | intro _ | rfl)

@[simp] theorem silent_num_seats_available_barber_bench (bench : BarberBench) :
    Silent (num_seats_available_barber_bench bench) := by
  unfold num_seats_available_barber_bench
  repeat' (first
    | simp | apply silent_bind | apply silent_ite | apply silent_busyWait
    | apply silent_modifyBarber | apply And.intro | intro _ | rfl)

@[simp] theorem silent_seated_in_barber_bench (bench : BarberBench) (id : Int) :
    Silent (seated_in_barber_bench bench id) := by
  unfold seated_in_barber_bench
  repeat' (first
    | simp | apply silent_bind | apply silent_ite | apply silent_busyWait
    | apply silent_modifyBarber | apply And.intro | intro _ | rfl)

@[simp] theorem silent_random_sit_in_barber_bench (bench : BarberBench) (id : Int) :
    Silent (random_sit_in_barber_bench bench id) := by
  unfold random_sit_in_barber_bench
  repeat' (first
    | simp | apply silent_bind | apply silent_ite | apply silent_busyWait
    | apply silent_modifyBarber | apply And.intro | intro _ | rfl)

@[simp] theorem silent_rise_barber_bench (bench : BarberBench) (pos : Int) :
    Silent (rise_barber_bench bench pos) := by
  unfold rise_barber_bench
  repeat' (first
    | simp | apply silent_bind | apply silent_ite | apply silent_busyWait
    | apply silent_modifyBarber | apply And.intro | intro _ | rfl)

@[simp] theorem silent_barber_chair (pos : Int) :
    Silent (barber_chair pos) := by
  unfold barber_chair
  repeat' (first
    | simp | apply silent_bind | apply silent_ite | apply silent_busyWait
    | apply silent_modifyBarber | apply And.intro | intro _ | rfl)

@[simp] theorem silent_store_barber_chair (pos : Int) (chair : BarberChair) :
    Silent (store_barber_chair pos chair) := by
  unfold store_barber_chair
  repeat' (first
    | simp | apply silent_bind | apply silent_ite | apply silent_busyWait
    | apply silent_modifyBarber | apply And.intro | intro _ | rfl)

@[simp] theorem silent_tools_pot :
    Silent (tools_pot) := by
  unfold tools_pot
  repeat' (first
    | simp | apply silent_bind | apply silent_ite | apply silent_busyWait
    | apply silent_modifyBarber | apply And.intro | intro _ | rfl)

@[simp] theorem silent_store_tools_pot (pot : ToolsPot) :
    Silent (store_tools_pot pot) := by
  unfold store_tools_pot
  repeat' (first
    | simp | apply silent_bind | apply silent_ite | apply silent_busyWait
    | apply silent_modifyBarber | apply And.intro | intro _ | rfl)

@[simp] theorem silent_washbasin (pos : Int) :
    Silent (washbasin pos) := by
  unfold washbasin
  repeat' (first
    | simp | apply silent_bind | apply silent_ite | apply silent_busyWait
    | apply silent_modifyBarber | apply And.intro | intro _ | rfl)

@[simp] theorem silent_store_washbasin (pos : Int) (basin : Washbasin) :
    Silent (store_washbasin pos basin) := by
  unfold store_washbasin
  repeat' (first
    | simp | apply silent_bind | apply silent_ite | apply silent_busyWait
    | apply silent_modifyBarber | apply And.intro | intro _ | rfl)

@[simp] theorem silent_barber_bench :
    Silent (barber_bench) := by
  unfold barber_bench
  repeat' (first
    | simp | apply silent_bind | apply silent_ite | apply silent_busyWait
    | apply silent_modifyBarber | apply And.intro | intro _ | rfl)

@[simp] theorem silent_client_benches :
    Silent (client_benches) := by
  unfold client_benches
  repeat' (first
    | simp | apply silent_bind | apply silent_ite | apply silent_busyWait
    | apply silent_modifyBarber | apply And.intro | intro _ | rfl)

@[simp] theorem silent_num_available_barber_chairs :
    Silent (num_available_barber_chairs) := by
  unfold num_available_barber_chairs
  repeat' (first
    | simp | apply silent_bind | apply silent_ite | apply silent_busyWait
    | apply silent_modifyBarber | apply And.intro | intro _ | rfl)

@[simp] theorem silent_reserve_random_empty_barber_chair (barberID : Int) :
    Silent (reserve_random_empty_barber_chair barberID) := by
  unfold reserve_random_empty_barber_chair
  repeat' (first
    | simp | apply silent_bind | apply silent_ite | apply silent_busyWait
    | apply silent_modifyBarber | apply And.intro | intro _ | rfl)

@[simp] theorem silent_num_available_washbasin :
    Silent (num_available_washbasin) := by
  unfold num_available_washbasin
  repeat' (first
    | simp | apply silent_bind | apply silent_ite | apply silent_busyWait
    | apply silent_modifyBarber | apply And.intro | intro _ | rfl)

@[simp] theorem silent_reserve_random_empty_washbasin (barberID : Int) :
    Silent (reserve_random_empty_washbasin barberID) := by
  unfold reserve_random_empty_washbasin
  repeat' (first
    | simp | apply silent_bind | apply silent_ite | apply silent_busyWait
    | apply silent_modifyBarber | apply And.intro | intro _ | rfl)

@[simp] theorem silent_close_shop :
    Silent (close_shop) := by
  unfold close_shop
  repeat' (first
    | simp | apply silent_bind | apply silent_ite | apply silent_busyWait
    | apply silent_modifyBarber | apply And.intro | intro _ | rfl)

@[simp] theorem silent_load_barber_chair (pos barberID : Int) :
    Silent (load_barber_chair pos barberID) := by
  unfold load_barber_chair
  repeat' (first
    | simp | apply silent_bind | apply silent_ite | apply silent_busyWait
    | apply silent_modifyBarber | apply And.intro | intro _ | rfl)

@[simp] theorem silent_load_washbasin (pos barberID : Int) :
    Silent (load_washbasin pos barberID) := by
  unfold load_washbasin
  repeat' (first
    | simp | apply silent_bind | apply silent_ite | apply silent_busyWait
    | apply silent_modifyBarber | apply And.intro | intro _ | rfl)

@[simp] theorem silent_rise_from_barber_bench :
    Silent (rise_from_barber_bench) := by
  unfold rise_from_barber_bench
  repeat' (first
    | simp | apply silent_bind | apply silent_ite | apply silent_busyWait
    | apply silent_modifyBarber | apply And.intro | intro _ | rfl)

@[simp] theorem silent_hold_tool (tool : Int) :
    Silent (hold_tool tool) := by
  unfold hold_tool
  repeat' (first
    | simp | apply silent_bind | apply silent_ite | apply silent_busyWait
    | apply silent_modifyBarber | apply And.intro | intro _ | rfl)

@[simp] theorem silent_drop_tool (tool : Int) :
    Silent (drop_tool tool) := by
  unfold drop_tool
  repeat' (first
    | simp | apply silent_bind | apply silent_ite | apply silent_busyWait
    | apply silent_modifyBarber | apply And.intro | intro _ | rfl)

@[simp] theorem silent_process_pick_tools (fuel : Nat) :
    Silent (process_pick_tools fuel) := by
  unfold process_pick_tools
  repeat' (first
    | simp | apply silent_bind | apply silent_ite | apply silent_busyWait
    | apply silent_modifyBarber | apply And.intro | intro _ | rfl)

@[simp] theorem silent_process_return_tools :
    Silent (process_return_tools) := by
  unfold process_return_tools
  repeat' (first
    | simp | apply silent_bind | apply silent_ite | apply silent_busyWait
    | apply silent_modifyBarber | apply And.intro | intro _ | rfl)

@[simp] theorem silent_process_release :
    Silent (process_release) := by
  unfold process_release
  repeat' (first
    | simp | apply silent_bind | apply silent_ite | apply silent_busyWait
    | apply silent_modifyBarber | apply And.intro | intro _ | rfl)

@[simp] theorem silent_next_client_in_benches (benches : ClientBenches) :
    Silent (next_client_in_benches benches) := by
  unfold next_client_in_benches
  apply silent_bind
  · simp
  · intro found
    cases found <;> simp

@[simp] theorem silent_wait_for_client_loop (n : Nat) : Silent (wait_for_client_loop n) := by
  induction n with
  | zero => exact silent_abort _
  | succ k ih =>
    unfold wait_for_client_loop
    repeat' (first
      | simp | exact ih | apply silent_bind | apply silent_ite | apply silent_busyWait
      | apply silent_modifyBarber | apply And.intro | intro _ | rfl)

@[simp] theorem silent_chair_completion_loop (steps slice : Int) (n : Nat) (complete : Int) :
    Silent (chair_completion_loop steps slice n complete) := by
  induction n generalizing complete with
  | zero => exact silent_abort _
  | succ k ih =>
    unfold chair_completion_loop
    repeat' (first
      | simp | exact ih _ | apply silent_bind | apply silent_ite | apply silent_busyWait
      | apply silent_modifyBarber | apply And.intro | intro _ | rfl)

@[simp] theorem silent_basin_completion_loop (steps washes : Int) (n : Nat) (complete : Int) :
    Silent (basin_completion_loop steps washes n complete) := by
  induction n generalizing complete with
  | zero => exact silent_abort _
  | succ k ih =>
    unfold basin_completion_loop
    repeat' (first
      | simp | exact ih _ | apply silent_bind | apply silent_ite | apply silent_busyWait
      | apply silent_modifyBarber | apply And.intro | intro _ | rfl)

@[simp] theorem silent_process_haircut_request (fuel : Nat) :
    Silent (process_haircut_request fuel) := by
  unfold process_haircut_request
  repeat' (first
    | simp | apply silent_bind | apply silent_ite | apply silent_busyWait
    | apply silent_modifyBarber | apply And.intro | intro _ | rfl)

@[simp] theorem silent_process_hairwash_request (fuel : Nat) :
    Silent (process_hairwash_request fuel) := by
  unfold process_hairwash_request
  repeat' (first
    | simp | apply silent_bind | apply silent_ite | apply silent_busyWait
    | apply silent_modifyBarber | apply And.intro | intro _ | rfl)

@[simp] theorem silent_process_shave_request (fuel : Nat) :
    Silent (process_shave_request fuel) := by
  unfold process_shave_request
  repeat' (first
    | simp | apply silent_bind | apply silent_ite | apply silent_busyWait
    | apply silent_modifyBarber | apply And.intro | intro _ | rfl)

@[simp] theorem silent_process_service (fuel : Nat) : Silent (process_service fuel) := by
  unfold process_service
  repeat' (first
    | simp | apply silent_bind | apply silent_ite | apply silent_busyWait
    | apply silent_modifyBarber | apply And.intro | intro _ | rfl)

/-! ### State codes written by a computation -/

theorem ownCodes_append (id : Int) (xs ys : List (Int × Int)) :
    ownCodes id (xs ++ ys) = ownCodes id xs ++ ownCodes id ys := by
  simp [ownCodes]

theorem emits_of_silent {α : Type} (lo hi : Int) (m : M α) (h : Silent m) (hle : lo ≤ hi) :
    Emits lo hi m :=
  ⟨hle, fun o w => ⟨(h.keeps o w).2, [], by simp [(h.keeps o w).1], by simp [ownCodes],
    by simp [ownCodes]⟩⟩

theorem emits_silent {α : Type} (lo : Int) (m : M α) (h : Silent m) : Emits lo lo m :=
  emits_of_silent lo lo m h (le_refl lo)

theorem emits_weaken {α : Type} (lo hi lo1 hi1 : Int) (m : M α) (h : Emits lo hi m)
    (h1 : lo1 ≤ lo) (h2 : hi ≤ hi1) : Emits lo1 hi1 m := by
  refine ⟨by have := h.le; omega, fun o w => ?_⟩
  obtain ⟨hid, new, hlog, hs, hb⟩ := h.codes o w
  exact ⟨hid, new, hlog, hs, fun x hx => ⟨by have := (hb x hx).1; omega,
    by have := (hb x hx).2; omega⟩⟩

theorem emits_bind {α β : Type} (a b c : Int) (m : M α) (f : α → M β) (h1 : Emits a b m)
    (hbc : b ≤ c) (h2 : ∀ x, Emits b c (f x)) : Emits a c (m >>= f) := by
  have hab := h1.le
  refine ⟨by omega, fun o w => ?_⟩
  obtain ⟨hid, new, hlog, hs, hb⟩ := h1.codes o w
  rw [run_bind]
  cases h : m o w with
  | fail e w1 =>
    rw [h] at hid hlog
    exact ⟨hid, new, hlog, hs, fun x hx => ⟨(hb x hx).1, by have := (hb x hx).2; omega⟩⟩
  | ok x w1 =>
    rw [h] at hid hlog
    simp only [Res.state] at hid hlog
    obtain ⟨hid2, new2, hlog2, hs2, hb2⟩ := (h2 x).codes o w1
    rw [hid] at hs2 hb2
    refine ⟨hid2.trans hid, new ++ new2, by rw [hlog2, hlog, List.append_assoc], ?_, ?_⟩
    · rw [ownCodes_append]
      refine List.pairwise_append.2 ⟨hs, hs2, fun x hx y hy => ?_⟩
      have := (hb x hx).2
      have := (hb2 y hy).1
      omega
    · intro x hx
      rw [ownCodes_append, List.mem_append] at hx
      rcases hx with hx | hx
      · exact ⟨(hb x hx).1, by have := (hb x hx).2; omega⟩
      · exact ⟨by have := (hb2 x hx).1; omega, (hb2 x hx).2⟩

theorem emits_ite {α : Type} (lo hi : Int) (c : Prop) [Decidable c] (a b : M α)
    (h1 : Emits lo hi a) (h2 : Emits lo hi b) : Emits lo hi (if c then a else b) := by
  split_ifs <;> assumption

theorem run_bci_set_state (barberID state : Int) (o : Oracle) (w : World) :
    bci_set_state barberID state o w
      = match wr (o.others w.clock w.bci).currentState (barberID - 1) state with
        | some a => .ok () { w with
            bci := { o.others w.clock w.bci with currentState := a },
            clock := w.clock + 1, log := w.log ++ [(barberID, state)] }
        | none => .fail Err.undefined
            { w with
              bci := o.others w.clock w.bci, clock := w.clock + 1, held := w.held + 1 } := by
  unfold bci_set_state
  simp only [run_bind, run_lock, run_busSet]
  cases wr (o.others w.clock w.bci).currentState (barberID - 1) state <;>
    simp [run_getW, run_setW, run_unlock]

theorem emits_bci_set_state (lo barberID state : Int) (h : lo ≤ state) :
    Emits lo state (bci_set_state barberID state) := by
  refine ⟨h, fun o w => ?_⟩
  rw [run_bci_set_state]
  cases wr (o.others w.clock w.bci).currentState (barberID - 1) state with
  | none => exact ⟨rfl, [], by simp [Res.state], by simp [ownCodes], by simp [ownCodes]⟩
  | some a =>
    refine ⟨rfl, [(barberID, state)], rfl, ?_, ?_⟩
    · by_cases hb : barberID = w.barber.id <;> simp [ownCodes, hb]
    · intro x hx
      by_cases hb : barberID = w.barber.id
      · simp [ownCodes, hb] at hx
        omega
      · simp [ownCodes, hb] at hx

theorem emits_busyWait (lo : Int) (cond : M Bool) (n : Nat) (h : Silent cond) :
    Emits lo lo (busyWait cond n) :=
  emits_silent lo _ (silent_busyWait cond n h)

theorem emits_process_reserve (fuel : Nat) : Emits 2 3 (process_reserve fuel) := by
  unfold process_reserve
  repeat' (first
    | simp
    | with_reducible exact emits_silent _ _ (by simp)
    | with_reducible exact emits_silent _ _ (silent_modifyBarber _ fun _ => rfl)
    | with_reducible exact emits_bci_set_state _ _ _ (by decide)
    | with_reducible exact emits_of_silent _ _ _ (by simp) (by decide)
    | with_reducible apply emits_bind
    | with_reducible apply emits_ite
    | with_reducible apply emits_busyWait
    | with_reducible apply silent_bind
    | with_reducible apply silent_ite
    | with_reducible apply silent_busyWait
    | with_reducible apply silent_modifyBarber
    | apply And.intro | intro _ | rfl | decide
    | exact emits_bci_set_state _ _ _ (by decide)
    | exact emits_of_silent _ _ _ (silent_modifyBarber _ fun _ => rfl) (by decide))

theorem emits_process_inform : Emits 3 4 process_inform := by
  unfold process_inform inform_client_on_service
  repeat' (first
    | simp
    | with_reducible exact emits_silent _ _ (by simp)
    | with_reducible exact emits_silent _ _ (silent_modifyBarber _ fun _ => rfl)
    | with_reducible exact emits_bci_set_state _ _ _ (by decide)
    | with_reducible exact emits_of_silent _ _ _ (by simp) (by decide)
    | with_reducible apply emits_bind
    | with_reducible apply emits_ite
    | with_reducible apply emits_busyWait
    | with_reducible apply silent_bind
    | with_reducible apply silent_ite
    | with_reducible apply silent_busyWait
    | with_reducible apply silent_modifyBarber
    | apply And.intro | intro _ | rfl | decide
    | exact emits_bci_set_state _ _ _ (by decide)
    | exact emits_of_silent _ _ _ (silent_modifyBarber _ fun _ => rfl) (by decide))

theorem emits_process_wait_sit (fuel : Nat) : Emits 4 7 (process_wait_sit fuel) := by
  unfold process_wait_sit
  repeat' (first
    | simp
    | with_reducible exact emits_silent _ _ (by simp)
    | with_reducible exact emits_silent _ _ (silent_modifyBarber _ fun _ => rfl)
    | with_reducible exact emits_bci_set_state _ _ _ (by decide)
    | with_reducible exact emits_of_silent _ _ _ (by simp) (by decide)
    | with_reducible apply emits_bind
    | with_reducible apply emits_ite
    | with_reducible apply emits_busyWait
    | with_reducible apply silent_bind
    | with_reducible apply silent_ite
    | with_reducible apply silent_busyWait
    | with_reducible apply silent_modifyBarber
    | apply And.intro | intro _ | rfl | decide
    | exact emits_bci_set_state _ _ _ (by decide)
    | exact emits_of_silent _ _ _ (silent_modifyBarber _ fun _ => rfl) (by decide))

theorem emits_process_wait_rise (fuel : Nat) : Emits 7 8 (process_wait_rise fuel) := by
  unfold process_wait_rise
  repeat' (first
    | simp
    | with_reducible exact emits_silent _ _ (by simp)
    | with_reducible exact emits_silent _ _ (silent_modifyBarber _ fun _ => rfl)
    | with_reducible exact emits_bci_set_state _ _ _ (by decide)
    | with_reducible exact emits_of_silent _ _ _ (by simp) (by decide)
    | with_reducible apply emits_bind
    | with_reducible apply emits_ite
    | with_reducible apply emits_busyWait
    | with_reducible apply silent_bind
    | with_reducible apply silent_ite
    | with_reducible apply silent_busyWait
    | with_reducible apply silent_modifyBarber
    | apply And.intro | intro _ | rfl | decide
    | exact emits_bci_set_state _ _ _ (by decide)
    | exact emits_of_silent _ _ _ (silent_modifyBarber _ fun _ => rfl) (by decide))

theorem emits_process_finish : Emits 8 11 process_finish := by
  unfold process_finish
  repeat' (first
    | simp
    | with_reducible exact emits_silent _ _ (by simp)
    | with_reducible exact emits_silent _ _ (silent_modifyBarber _ fun _ => rfl)
    | with_reducible exact emits_bci_set_state _ _ _ (by decide)
    | with_reducible exact emits_of_silent _ _ _ (by simp) (by decide)
    | with_reducible apply emits_bind
    | with_reducible apply emits_ite
    | with_reducible apply emits_busyWait
    | with_reducible apply silent_bind
    | with_reducible apply silent_ite
    | with_reducible apply silent_busyWait
    | with_reducible apply silent_modifyBarber
    | apply And.intro | intro _ | rfl | decide
    | exact emits_bci_set_state _ _ _ (by decide)
    | exact emits_of_silent _ _ _ (silent_modifyBarber _ fun _ => rfl) (by decide))

theorem emits_process_rest (fuel : Nat) :
    Emits 3 11 (do
      process_inform
      process_pick_tools fuel
      process_wait_sit fuel
      process_service fuel
      process_wait_rise fuel
      process_return_tools
      process_release
      process_finish) :=
  emits_bind 3 4 11 _ _ emits_process_inform (by decide) fun _ =>
  emits_bind 4 4 11 _ _ (emits_silent 4 _ (silent_process_pick_tools fuel)) (by decide) fun _ =>
  emits_bind 4 7 11 _ _ (emits_process_wait_sit fuel) (by decide) fun _ =>
  emits_bind 7 7 11 _ _ (emits_silent 7 _ (silent_process_service fuel)) (by decide) fun _ =>
  emits_bind 7 8 11 _ _ (emits_process_wait_rise fuel) (by decide) fun _ =>
  emits_bind 8 8 11 _ _ (emits_silent 8 _ silent_process_return_tools) (by decide) fun _ =>
  emits_bind 8 8 11 _ _ (emits_silent 8 _ silent_process_release) (by decide) fun _ =>
  emits_process_finish

/-- One iteration of the request loop writes a non-decreasing sequence of
state codes, between `WAITING_ON_RESERVE` and `ALL_PROCESSES_DONE`. -/
theorem emits_process_resquests_from_client_body (fuel : Nat) :
    Emits 2 11 (process_resquests_from_client_body fuel) :=
  emits_bind 2 3 11 _ _ (emits_process_reserve fuel) (by decide) fun _ =>
    emits_process_rest fuel

theorem starts_own_set_state {α : Type} (v hi : Int) (g : Barber → Unit → M α)
    (hg : ∀ b x, Emits v hi (g b x)) :
    Starts v hi (getBarber >>= fun b => bci_set_state b.id v >>= g b) := by
  have hle := (hg (newBarber 0) ()).le
  refine ⟨hle, fun o w => ?_⟩
  rw [run_bind, run_getBarber]
  simp only
  rw [run_bind, run_bci_set_state]
  cases wr (o.others w.clock w.bci).currentState (w.barber.id - 1) v with
  | none =>
    exact ⟨rfl, [], by simp [Res.state], by simp [ownCodes], by simp [ownCodes],
      by simp [ownCodes], fun h => by cases h⟩
  | some a =>
    simp only
    obtain ⟨hid, new, hlog, hs, hb⟩ := (hg w.barber ()).codes o
      { w with bci := { o.others w.clock w.bci with currentState := a },
               clock := w.clock + 1, log := w.log ++ [(w.barber.id, v)] }
    simp only at hid hlog hs hb
    have hown : ownCodes w.barber.id ((w.barber.id, v) :: new) = v :: ownCodes w.barber.id new := by
      simp [ownCodes]
    refine ⟨hid, (w.barber.id, v) :: new, by rw [hlog]; simp, ?_, ?_, ?_, ?_⟩
    · rw [hown]
      exact List.pairwise_cons.2 ⟨fun y hy => (hb y hy).1, hs⟩
    · intro x hx
      rw [hown, List.mem_cons] at hx
      rcases hx with hx | hx
      · subst hx; exact ⟨le_refl _, hle⟩
      · exact hb x hx
    · intro x hx
      rw [hown] at hx
      simpa using hx.symm
    · intro _
      rw [hown]
      exact List.cons_ne_nil _ _

theorem starts_bind {α β : Type} (v b c : Int) (m : M α) (f : α → M β) (h1 : Starts v b m)
    (hbc : b ≤ c) (h2 : ∀ x, Emits b c (f x)) : Starts v c (m >>= f) := by
  have hvb := h1.le
  refine ⟨by omega, fun o w => ?_⟩
  obtain ⟨hid, new, hlog, hs, hb, hh, hne⟩ := h1.codes o w
  rw [run_bind]
  cases h : m o w with
  | fail e w1 =>
    rw [h] at hid hlog
    exact ⟨hid, new, hlog, hs, fun x hx => ⟨(hb x hx).1, by have := (hb x hx).2; omega⟩, hh,
      fun _ => hne (by rw [h] at *; simp_all [Res.error])⟩
  | ok x w1 =>
    rw [h] at hid hlog hne
    simp only [Res.state] at hid hlog
    have hne1 : ownCodes w.barber.id new ≠ [] := hne rfl
    obtain ⟨hid2, new2, hlog2, hs2, hb2⟩ := (h2 x).codes o w1
    rw [hid] at hs2 hb2
    refine ⟨hid2.trans hid, new ++ new2, by rw [hlog2, hlog, List.append_assoc], ?_, ?_, ?_, ?_⟩
    · rw [ownCodes_append]
      refine List.pairwise_append.2 ⟨hs, hs2, fun x hx y hy => ?_⟩
      have := (hb x hx).2
      have := (hb2 y hy).1
      omega
    · intro x hx
      rw [ownCodes_append, List.mem_append] at hx
      rcases hx with hx | hx
      · exact ⟨(hb x hx).1, by have := (hb x hx).2; omega⟩
      · exact ⟨by have := (hb2 x hx).1; omega, (hb2 x hx).2⟩
    · intro x hx
      rw [ownCodes_append, List.head?_append_of_ne_nil _ hne1] at hx
      exact hh x hx
    · intro _
      rw [ownCodes_append]
      simp [hne1]

theorem starts_process_reserve (fuel : Nat) : Starts 2 3 (process_reserve fuel) := by
  unfold process_reserve
  apply starts_own_set_state
  intro b x
  repeat' (first
    | simp
    | with_reducible exact emits_silent _ _ (by simp)
    | with_reducible exact emits_silent _ _ (silent_modifyBarber _ fun _ => rfl)
    | with_reducible exact emits_bci_set_state _ _ _ (by decide)
    | with_reducible exact emits_of_silent _ _ _ (by simp) (by decide)
    | with_reducible apply emits_bind
    | with_reducible apply emits_ite
    | with_reducible apply emits_busyWait
    | with_reducible apply silent_bind
    | with_reducible apply silent_ite
    | with_reducible apply silent_busyWait
    | with_reducible apply silent_modifyBarber
    | apply And.intro | intro _ | rfl | decide
    | exact emits_bci_set_state _ _ _ (by decide)
    | exact emits_of_silent _ _ _ (silent_modifyBarber _ fun _ => rfl) (by decide))

theorem starts_process_resquests_from_client_body (fuel : Nat) :
    Starts 2 11 (process_resquests_from_client_body fuel) :=
  starts_bind 2 3 11 _ _ (starts_process_reserve fuel) (by decide) fun _ =>
    emits_process_rest fuel

theorem chain_of_pairwise (xs : List Int) (h : xs.Pairwise (· ≤ ·)) : xs.Chain' mayFollow :=
  (List.Pairwise.chain' h).imp fun _ _ hab => Or.inl hab

theorem moves_of_emits {α : Type} (lo hi : Int) (m : M α) (h : Emits lo hi m)
    (h11 : hi ≤ 11) : Moves lo m := by
  refine ⟨fun o w => ?_⟩
  obtain ⟨hid, new, hlog, hs, hb⟩ := h.codes o w
  refine ⟨hid, new, hlog, chain_of_pairwise _ hs, fun x hx => ?_, fun x hx => ?_⟩
  · have := (hb x hx).2
    show x ≤ 11
    omega
  · exact Or.inl (hb x (List.mem_of_mem_head? hx)).1

theorem moves_weaken {α : Type} (lo lo1 : Int) (m : M α) (h : Moves lo m) (hle : lo1 ≤ lo) :
    Moves lo1 m := by
  refine ⟨fun o w => ?_⟩
  obtain ⟨hid, new, hlog, hc, hb, hh⟩ := h.codes o w
  refine ⟨hid, new, hlog, hc, hb, fun x hx => ?_⟩
  rcases hh x hx with h1 | h1
  · exact Or.inl (by omega)
  · exact Or.inr h1

theorem moves_ite {α : Type} (lo : Int) (c : Prop) [Decidable c] (a b : M α)
    (h1 : Moves lo a) (h2 : Moves lo b) : Moves lo (if c then a else b) := by
  split_ifs <;> assumption

/-- Codes of a computation that emits between `a` and `b`, followed by codes
that move on from `b`. -/
theorem moves_bind_emits {α β : Type} (a b : Int) (m : M α) (f : α → M β) (h1 : Emits a b m)
    (hb11 : b ≤ 11) (h2 : ∀ x, Moves b (f x)) : Moves a (m >>= f) := by
  have hab := h1.le
  refine ⟨fun o w => ?_⟩
  obtain ⟨hid, new, hlog, hs, hb⟩ := h1.codes o w
  rw [run_bind]
  cases h : m o w with
  | fail e w1 =>
    rw [h] at hid hlog
    refine ⟨hid, new, hlog, chain_of_pairwise _ hs, fun x hx => ?_, fun x hx => ?_⟩
    · have := (hb x hx).2
      show x ≤ 11
      omega
    · exact Or.inl (hb x (List.mem_of_mem_head? hx)).1
  | ok x w1 =>
    rw [h] at hid hlog
    simp only [Res.state] at hid hlog
    obtain ⟨hid2, new2, hlog2, hc2, hb2, hh2⟩ := (h2 x).codes o w1
    rw [hid] at hc2 hb2 hh2
    refine ⟨hid2.trans hid, new ++ new2, by rw [hlog2, hlog, List.append_assoc], ?_, ?_, ?_⟩
    · rw [ownCodes_append]
      refine List.Chain'.append (chain_of_pairwise _ hs) hc2 fun x hx y hy => ?_
      have hx1 := (hb x (List.mem_of_mem_getLast? hx)).2
      rcases hh2 y hy with h3 | h3
      · exact Or.inl (by omega)
      · exact Or.inr h3
    · intro x hx
      rw [ownCodes_append, List.mem_append] at hx
      rcases hx with hx | hx
      · have := (hb x hx).2
        show x ≤ 11
        omega
      · exact hb2 x hx
    · intro x hx
      rw [ownCodes_append] at hx
      cases hown : ownCodes w.barber.id new with
      | nil =>
        rw [hown, List.nil_append] at hx
        rcases hh2 x hx with h3 | h3
        · exact Or.inl (by omega)
        · exact Or.inr h3
      | cons y ys =>
        rw [hown] at hx
        simp only [List.cons_append, List.head?_cons, Option.mem_def, Option.some.injEq] at hx
        subst hx
        exact Or.inl (hb y (by rw [hown]; exact List.mem_cons_self _ _)).1

/-- Codes of a service iteration followed by codes that start a further
iteration. -/
theorem moves_bind_starts {α β : Type} (m : M α) (f : α → M β) (h1 : Starts 2 11 m)
    (h2 : ∀ x, Moves 11 (f x)) : Moves 11 (m >>= f) := by
  refine ⟨fun o w => ?_⟩
  obtain ⟨hid, new, hlog, hs, hb, hh, hne⟩ := h1.codes o w
  rw [run_bind]
  cases h : m o w with
  | fail e w1 =>
    rw [h] at hid hlog
    exact ⟨hid, new, hlog, chain_of_pairwise _ hs, fun x hx => (hb x hx).2,
      fun x hx => Or.inr (hh x hx)⟩
  | ok x w1 =>
    rw [h] at hid hlog hne
    simp only [Res.state] at hid hlog
    have hne1 : ownCodes w.barber.id new ≠ [] := hne rfl
    obtain ⟨hid2, new2, hlog2, hc2, hb2, hh2⟩ := (h2 x).codes o w1
    rw [hid] at hc2 hb2 hh2
    refine ⟨hid2.trans hid, new ++ new2, by rw [hlog2, hlog, List.append_assoc], ?_, ?_, ?_⟩
    · rw [ownCodes_append]
      refine List.Chain'.append (chain_of_pairwise _ hs) hc2 fun x hx y hy => ?_
      have hx1 := (hb x (List.mem_of_mem_getLast? hx)).2
      rcases hh2 y hy with h3 | h3
      · exact Or.inl (by omega)
      · exact Or.inr h3
    · intro x hx
      rw [ownCodes_append, List.mem_append] at hx
      rcases hx with hx | hx
      · exact (hb x hx).2
      · exact hb2 x hx
    · intro x hx
      rw [ownCodes_append, List.head?_append_of_ne_nil _ hne1] at hx
      exact Or.inr (hh x hx)

/-- Codes that move on, followed by codes that are all `ALL_PROCESSES_DONE`
or by none. -/
theorem moves_bind_done {α β : Type} (lo : Int) (m : M α) (f : α → M β) (h1 : Moves lo m)
    (hlo : lo ≤ 11) (h2 : ∀ x, Emits 11 11 (f x)) : Moves lo (m >>= f) := by
  refine ⟨fun o w => ?_⟩
  obtain ⟨hid, new, hlog, hc, hb, hh⟩ := h1.codes o w
  rw [run_bind]
  cases h : m o w with
  | fail e w1 =>
    rw [h] at hid hlog
    exact ⟨hid, new, hlog, hc, hb, hh⟩
  | ok x w1 =>
    rw [h] at hid hlog
    simp only [Res.state] at hid hlog
    obtain ⟨hid2, new2, hlog2, hs2, hb2⟩ := (h2 x).codes o w1
    rw [hid] at hs2 hb2
    refine ⟨hid2.trans hid, new ++ new2, by rw [hlog2, hlog, List.append_assoc], ?_, ?_, ?_⟩
    · rw [ownCodes_append]
      refine List.Chain'.append hc (chain_of_pairwise _ hs2) fun x hx y hy => ?_
      have hx1 : x ≤ 11 := hb x (List.mem_of_mem_getLast? hx)
      have hy1 := (hb2 y (List.mem_of_mem_head? hy)).1
      exact Or.inl (by omega)
    · intro x hx
      rw [ownCodes_append, List.mem_append] at hx
      rcases hx with hx | hx
      · exact hb x hx
      · exact (hb2 x hx).2
    · intro x hx
      rw [ownCodes_append] at hx
      cases hown : ownCodes w.barber.id new with
      | nil =>
        rw [hown, List.nil_append] at hx
        have := (hb2 x (List.mem_of_mem_head? hx)).1
        exact Or.inl (by omega)
      | cons y ys =>
        rw [hown] at hx hh
        simp only [List.cons_append, List.head?_cons, Option.mem_def, Option.some.injEq] at hx
        subst hx
        exact hh y rfl

theorem moves_process_resquests_from_client_loop (fuel : Nat) (k : Nat) :
    Moves 11 (process_resquests_from_client_loop fuel k) := by
  induction k with
  | zero => exact moves_of_emits 11 11 _ (emits_silent 11 _ (silent_abort _)) (le_refl _)
  | succ k ih =>
    unfold process_resquests_from_client_loop
    refine moves_bind_emits 11 11 _ _ (emits_silent 11 _ silent_getBarber) (le_refl _) fun b => ?_
    refine moves_bind_emits 11 11 _ _ (emits_silent 11 _ (silent_bci_get_request _)) (le_refl _)
      fun r => ?_
    refine moves_ite 11 _ _ _ ?_ ?_
    · exact moves_bind_starts _ _ (starts_process_resquests_from_client_body fuel) fun _ => ih
    · exact moves_of_emits 11 11 _ (emits_silent 11 _ (silent_pure _)) (le_refl _)

theorem moves_process_resquests_from_client (fuel : Nat) :
    Moves 11 (process_resquests_from_client fuel) := by
  unfold process_resquests_from_client
  exact moves_bind_done 11 _ _ (moves_process_resquests_from_client_loop fuel fuel) (le_refl _)
    fun _ => emits_silent 11 _ silent_log_barber

theorem emits_receive_and_greet_client (barberID clientID : Int) :
    Emits 1 1 (receive_and_greet_client barberID clientID) := by
  unfold receive_and_greet_client
  repeat' (first
    | simp
    | with_reducible exact emits_silent _ _ (by simp)
    | with_reducible exact emits_silent _ _ (silent_modifyBarber _ fun _ => rfl)
    | with_reducible exact emits_bci_set_state _ _ _ (by decide)
    | with_reducible exact emits_of_silent _ _ _ (by simp) (by decide)
    | with_reducible apply emits_bind
    | with_reducible apply emits_ite
    | with_reducible apply emits_busyWait
    | with_reducible apply silent_bind
    | with_reducible apply silent_ite
    | with_reducible apply silent_busyWait
    | with_reducible apply silent_modifyBarber
    | apply And.intro | intro _ | rfl | decide
    | exact emits_bci_set_state _ _ _ (by decide)
    | exact emits_of_silent _ _ _ (silent_modifyBarber _ fun _ => rfl) (by decide))

theorem emits_wait_for_client (fuel : Nat) : Emits 1 1 (wait_for_client fuel) := by
  unfold wait_for_client
  repeat' (first
    | simp
    | with_reducible exact emits_receive_and_greet_client _ _
    | with_reducible exact emits_silent _ _ (by simp)
    | with_reducible exact emits_silent _ _ (silent_modifyBarber _ fun _ => rfl)
    | with_reducible exact emits_bci_set_state _ _ _ (by decide)
    | with_reducible exact emits_of_silent _ _ _ (by simp) (by decide)
    | with_reducible apply emits_bind
    | with_reducible apply emits_ite
    | with_reducible apply emits_busyWait
    | with_reducible apply silent_bind
    | with_reducible apply silent_ite
    | with_reducible apply silent_busyWait
    | with_reducible apply silent_modifyBarber
    | apply And.intro | intro _ | rfl | decide
    | exact emits_bci_set_state _ _ _ (by decide)
    | exact emits_of_silent _ _ _ (silent_modifyBarber _ fun _ => rfl) (by decide))

theorem emits_client_done (n : Nat) (clientID : Int) : Emits 11 11 (client_done n clientID) := by
  unfold client_done
  repeat' (first
    | simp
    | with_reducible exact emits_silent _ _ (by simp)
    | with_reducible exact emits_silent _ _ (silent_modifyBarber _ fun _ => rfl)
    | with_reducible exact emits_bci_set_state _ _ _ (by decide)
    | with_reducible exact emits_of_silent _ _ _ (by simp) (by decide)
    | with_reducible apply emits_bind
    | with_reducible apply emits_ite
    | with_reducible apply emits_busyWait
    | with_reducible apply silent_bind
    | with_reducible apply silent_ite
    | with_reducible apply silent_busyWait
    | with_reducible apply silent_modifyBarber
    | apply And.intro | intro _ | rfl | decide
    | exact emits_bci_set_state _ _ _ (by decide)
    | exact emits_of_silent _ _ _ (silent_modifyBarber _ fun _ => rfl) (by decide))

theorem emits_release_client (n k : Nat) : Emits 11 11 (release_client n k) := by
  unfold release_client
  repeat' (first
    | simp
    | with_reducible exact emits_client_done _ _
    | with_reducible exact emits_silent _ _ (by simp)
    | with_reducible exact emits_silent _ _ (silent_modifyBarber _ fun _ => rfl)
    | with_reducible exact emits_bci_set_state _ _ _ (by decide)
    | with_reducible exact emits_of_silent _ _ _ (by simp) (by decide)
    | with_reducible apply emits_bind
    | with_reducible apply emits_ite
    | with_reducible apply emits_busyWait
    | with_reducible apply silent_bind
    | with_reducible apply silent_ite
    | with_reducible apply silent_busyWait
    | with_reducible apply silent_modifyBarber
    | apply And.intro | intro _ | rfl | decide
    | exact emits_bci_set_state _ _ _ (by decide)
    | exact emits_of_silent _ _ _ (silent_modifyBarber _ fun _ => rfl) (by decide))

theorem moves_serve_client (n k fuel : Nat) : Moves 1 (serve_client n k fuel) := by
  unfold serve_client
  refine moves_bind_emits 1 1 _ _ (emits_wait_for_client fuel) (by decide) fun _ => ?_
  refine moves_bind_emits 1 1 _ _ (emits_silent 1 _ silent_rise_from_barber_bench) (by decide)
    fun _ => ?_
  exact moves_weaken 11 1 _ (moves_bind_done 11 _ _ (moves_process_resquests_from_client fuel)
    (le_refl _) fun _ => emits_release_client n k) (by decide)

/-- C4 as stated fails: barber 1 greets client 1, whose request is 3 (haircut
and wash), serves it and releases it; the client sits and rises promptly.  The
call returns, and the codes the barber wrote to its own slot go back from
`PROCESS_DONE` to `WAITING_ON_RESERVE` when the second service iteration
starts. -/
theorem barber_codes_go_back_between_iterations :
    (serve_client 2 3 30 promptClients (clientWaiting 3)).error = none ∧
    ownCodes 1 (serve_client 2 3 30 promptClients (clientWaiting 3)).state.log
      = [GREET_AVAILABLE, GREET_AVAILABLE,
         WAITING_ON_RESERVE, RESERVED, SERVICE_INFO_AVAILABLE, PROCESSING,
         WAITING_ON_CLIENT_RISE, PROCESS_DONE,
         WAITING_ON_RESERVE, RESERVED, SERVICE_INFO_AVAILABLE, PROCESSING,
         WAITING_ON_CLIENT_RISE, PROCESS_DONE, ALL_PROCESSES_DONE,
         ALL_PROCESSES_DONE] ∧
    ¬ (ownCodes 1 (serve_client 2 3 30 promptClients (clientWaiting 3)).state.log).Pairwise
        (· ≤ ·) := by
  decide!

/-- C4 as amended: whatever the other processes do and whatever the outcome,
(1) the state codes one service iteration of `process_resquests_from_client`
writes to the barber's own slot are non-decreasing and lie between
`WAITING_ON_RESERVE` and `ALL_PROCESSES_DONE`; (2) over the whole service of a
client, from the `wait_for_client` that greets it to its release, each code
written to the barber's own slot is at least the code written before it or is
`WAITING_ON_RESERVE`, the code that starts every service iteration, and the
first code is at least `GREET_AVAILABLE`. -/
theorem barber_codes_move_forward (MAX_BARBERS MAX_CLIENTS fuel : Nat) (o : Oracle)
    (w : World) :
    (∃ new, (process_resquests_from_client_body fuel o w).state.log = w.log ++ new ∧
      (ownCodes w.barber.id new).Pairwise (· ≤ ·) ∧
      ∀ x ∈ ownCodes w.barber.id new, WAITING_ON_RESERVE ≤ x ∧ x ≤ ALL_PROCESSES_DONE) ∧
    (∃ new, (serve_client MAX_BARBERS MAX_CLIENTS fuel o w).state.log = w.log ++ new ∧
      (ownCodes w.barber.id new).Chain' mayFollow ∧
      (∀ x ∈ ownCodes w.barber.id new, x ≤ ALL_PROCESSES_DONE) ∧
      ∀ x ∈ (ownCodes w.barber.id new).head?, GREET_AVAILABLE ≤ x ∨ x = WAITING_ON_RESERVE) := by
  constructor
  · obtain ⟨-, new, hlog, hs, hb⟩ := (emits_process_resquests_from_client_body fuel).codes o w
    exact ⟨new, hlog, hs, hb⟩
  · obtain ⟨-, new, hlog, hc, hb, hh⟩ := (moves_serve_client MAX_BARBERS MAX_CLIENTS fuel).codes o w
    exact ⟨new, hlog, hc, hb, hh⟩

theorem run_bci_set_service (barberID : Int) (service : Service) (o : Oracle) (w : World) :
    bci_set_service barberID service o w
      = match wr (o.others w.clock w.bci).service (barberID - 1) service with
        | some a => .ok () { w with
            bci := { o.others w.clock w.bci with service := a }, clock := w.clock + 1 }
        | none => .fail Err.undefined
            { w with
              bci := o.others w.clock w.bci, clock := w.clock + 1, held := w.held + 1 } := by
  unfold bci_set_service
  simp only [run_bind, run_lock, run_busSet]
  cases wr (o.others w.clock w.bci).service (barberID - 1) service <;> simp [run_unlock]

theorem run_bci_get_state (barberID : Int) (o : Oracle) (w : World) :
    bci_get_state barberID o w
      = match rd (o.others w.clock w.bci).currentState (barberID - 1) with
        | some x => .ok x { w with bci := o.others w.clock w.bci, clock := w.clock + 1 }
        | none => .fail Err.undefined
            { w with
              bci := o.others w.clock w.bci, clock := w.clock + 1, held := w.held + 1 } := by
  unfold bci_get_state
  simp only [run_bind, run_lock, run_bus]
  cases rd (o.others w.clock w.bci).currentState (barberID - 1) <;>
    simp [run_unlock, run_pure]

theorem run_bci_get_service_by_barberID (barberID : Int) (o : Oracle) (w : World) :
    bci_get_service_by_barberID barberID o w
      = match rd (o.others w.clock w.bci).service (barberID - 1) with
        | some x => .ok x { w with bci := o.others w.clock w.bci, clock := w.clock + 1 }
        | none => .fail Err.undefined
            { w with
              bci := o.others w.clock w.bci, clock := w.clock + 1, held := w.held + 1 } := by
  unfold bci_get_service_by_barberID
  simp only [run_bind, run_lock, run_bus]
  cases rd (o.others w.clock w.bci).service (barberID - 1) <;>
    simp [run_unlock, run_pure]

/-- While every poll finds the state code of the barber below
`SERVICE_INFO_AVAILABLE`, the wait of `wait_service_from_barber` is still
running when the fuel is used up. -/
theorem busyWait_state_below (o : Oracle) (barberID : Int)
    (hlow : ∀ t bc, ∃ x, rd (o.others t bc).currentState (barberID - 1) = some x ∧
      x < SERVICE_INFO_AVAILABLE) (fuel : Nat) :
    ∀ w, (busyWait (do pure (decide ((← bci_get_state barberID) < SERVICE_INFO_AVAILABLE))) fuel
      o w).error = some Err.timeout := by
  induction fuel with
  | zero => intro w; rfl
  | succ k ih =>
    intro w
    obtain ⟨x, hx, hlt⟩ := hlow w.clock w.bci
    unfold busyWait
    simp only [run_bind, run_bci_get_state, hx, run_pure, hlt, decide_True, if_true]
    exact ih _

/-- C17 (defect of the code): after `bci_set_clientID (1, 2)` has recorded that
client 2 is served by barber 1, `bci_get_clientID (1)` returns 1, the id of the
barber, not 2: it returns the array entry it compared with the barber id
instead of the position where it found it. -/
theorem bci_get_clientID_returns_barber_id :
    ((bci_set_clientID 1 2 >>= fun _ => bci_get_clientID 3 1) quiet
      (world23 [0, 0, 0])).value = some 1 := by
  decide!

/-- C15: while no other process writes to the segment, for a descriptor `s`
whose barber id `b` is at least 1 and within the arrays of the segment,
`inform_client_on_service` returns, the state code of barber `b` is then
`SERVICE_INFO_AVAILABLE`, the state codes and descriptors of the other slots
are unchanged, and `wait_service_from_barber` for `b` returns `s` after a
single evaluation of its loop condition (two critical sections in all).  For
every behaviour of the other processes under which each poll finds the state
code of `b` below `SERVICE_INFO_AVAILABLE`, `wait_service_from_barber` does not
return, whatever the fuel. -/
theorem inform_then_wait_service (o : Oracle) (w : World) (s : Service)
    (hq : ∀ t bc, o.others t bc = bc) (hb : 0 < s.barberID)
    (hs : s.barberID.toNat ≤ w.bci.service.length)
    (hc : s.barberID.toNat ≤ w.bci.currentState.length) :
    (inform_client_on_service s o w).error = none ∧
    rd (inform_client_on_service s o w).state.bci.currentState (s.barberID - 1)
      = some SERVICE_INFO_AVAILABLE ∧
    (∀ j : Int, j ≠ s.barberID - 1 →
      rd (inform_client_on_service s o w).state.bci.currentState j = rd w.bci.currentState j ∧
      rd (inform_client_on_service s o w).state.bci.service j = rd w.bci.service j) ∧
    (∀ fuel : Nat,
      (wait_service_from_barber (fuel + 1) s.barberID o
        (inform_client_on_service s o w).state).value = some s ∧
      (wait_service_from_barber (fuel + 1) s.barberID o
        (inform_client_on_service s o w).state).state.clock
        = (inform_client_on_service s o w).state.clock + 2) ∧
    (∀ o2 : Oracle,
      (∀ t bc, ∃ x, rd (o2.others t bc).currentState (s.barberID - 1) = some x ∧
        x < SERVICE_INFO_AVAILABLE) →
      ∀ (fuel : Nat) (w2 : World),
        (wait_service_from_barber fuel s.barberID o2 w2).error = some Err.timeout) := by
  have h1 : 0 ≤ s.barberID - 1 ∧ (s.barberID - 1).toNat < w.bci.service.length := by omega
  have h2 : 0 ≤ s.barberID - 1 ∧ (s.barberID - 1).toNat < w.bci.currentState.length := by omega
  have hrun : inform_client_on_service s o w = .ok ()
      { w with
        bci := { w.bci with
          service := w.bci.service.set (s.barberID - 1).toNat s,
          currentState := w.bci.currentState.set (s.barberID - 1).toNat SERVICE_INFO_AVAILABLE },
        clock := w.clock + 1 + 1,
        log := w.log ++ [(s.barberID, SERVICE_INFO_AVAILABLE)] } := by
    unfold inform_client_on_service
    simp only [run_bind, run_bci_set_service, run_bci_set_state, hq, wr, if_pos h1, if_pos h2]
  have hwr1 : wr w.bci.currentState (s.barberID - 1) SERVICE_INFO_AVAILABLE
      = some (w.bci.currentState.set (s.barberID - 1).toNat SERVICE_INFO_AVAILABLE) := by
    simp only [wr, if_pos h2]
  have hwr2 : wr w.bci.service (s.barberID - 1) s
      = some (w.bci.service.set (s.barberID - 1).toNat s) := by
    simp only [wr, if_pos h1]
  rw [hrun]
  simp only [Res.error, Res.state]
  refine ⟨trivial, rd_wr_same _ _ _ _ hwr1, fun j hj => ⟨rd_wr_other _ _ _ _ _ hwr1 hj,
    rd_wr_other _ _ _ _ _ hwr2 hj⟩, fun fuel => ?_, fun o2 hlow fuel w2 => ?_⟩
  · have hst := rd_wr_same _ _ _ _ hwr1
    have hsv := rd_wr_same _ _ _ _ hwr2
    unfold wait_service_from_barber busyWait
    simp only [run_bind, run_require, hb, gt_iff_lt, decide_True, if_true, run_bci_get_state, hq,
      hst, run_pure, lt_self_iff_false, decide_False, Bool.false_eq_true, if_false,
      run_bci_get_service_by_barberID, hsv, Res.value, Res.state, and_self]
  · unfold wait_service_from_barber
    have hto := busyWait_state_below o2 s.barberID hlow fuel w2
    simp only [run_bind, run_require, hb, gt_iff_lt, decide_True, if_true]
    revert hto
    cases busyWait (do pure (decide ((← bci_get_state s.barberID) < SERVICE_INFO_AVAILABLE))) fuel
      o2 w2 with
    | ok a w3 => intro h; cases h
    | fail e w3 => intro h; exact h

/-- Witness of C15: barber 1 informs client 2 of a chair service in the sample
shop. -/
theorem inform_then_wait_service_witness :
    (inform_client_on_service (set_barber_chair_service 1 2 0 1) quiet
      (world23 [0, 1, 0])).error = none ∧
    (∀ fuel : Nat,
      (wait_service_from_barber (fuel + 1) 1 quiet
        (inform_client_on_service (set_barber_chair_service 1 2 0 1) quiet
          (world23 [0, 1, 0])).state).value = some (set_barber_chair_service 1 2 0 1)) :=
  have h := inform_then_wait_service quiet (world23 [0, 1, 0]) (set_barber_chair_service 1 2 0 1)
    (fun _ _ => rfl) (by decide) (by decide) (by decide)
  ⟨h.1, fun fuel => (h.2.2.2.1 fuel).1⟩

theorem critical_read {α : Type} (g : BCInterface → Option α) :
    Critical (do lock; let x ← bus g; unlock; pure x) := by
  refine ⟨fun b => (g b).map fun a => (some a, b), [], fun o w => ?_⟩
  simp only [run_bind, run_lock, run_bus]
  cases h : g (o.others w.clock w.bci) <;> simp [h, run_unlock, run_pure]

theorem critical_write (g : BCInterface → Option BCInterface) :
    Critical (do lock; busSet g; unlock) := by
  refine ⟨fun b => (g b).map fun b1 => (some (), b1), [], fun o w => ?_⟩
  simp only [run_bind, run_lock, run_busSet]
  cases h : g (o.others w.clock w.bci) <;> simp [h, run_unlock]

theorem critical_bci_set_state (barberID state : Int) : Critical (bci_set_state barberID state) := by
  refine ⟨fun b => (wr b.currentState (barberID - 1) state).map fun a =>
    (some (), { b with currentState := a }), [(barberID, state)], fun o w => ?_⟩
  rw [run_bci_set_state]
  cases h : wr (o.others w.clock w.bci).currentState (barberID - 1) state <;> simp [h]

theorem critical_bci_did_request (clientID : Int) : Critical (bci_did_request clientID) := by
  refine ⟨fun b => (rd b.clientRequests (clientID - 1)).bind fun r =>
    (wr b.clientRequests (clientID - 1) (if r ≥ 4 then r - 4 else if r ≥ 2 then r - 2 else r - 1)).map
      fun a => (some (), { b with clientRequests := a }), [], fun o w => ?_⟩
  unfold bci_did_request
  simp only [run_bind, run_lock, run_bus]
  cases hr : rd (o.others w.clock w.bci).clientRequests (clientID - 1) with
  | none => simp [hr]
  | some r =>
    simp only [hr, Option.some_bind]
    by_cases h4 : r ≥ 4
    · simp only [h4, if_true, run_bind, run_busSet]
      cases h : wr (o.others w.clock w.bci).clientRequests (clientID - 1) (r - 4) <;>
        simp [h, hr, h4, run_unlock]
    · by_cases h2 : r ≥ 2
      · simp only [h4, h2, if_true, if_false, run_bind, run_busSet]
        cases h : wr (o.others w.clock w.bci).clientRequests (clientID - 1) (r - 2) <;>
          simp [h, hr, h4, h2, run_unlock]
      · simp only [h4, h2, if_false, run_bind, run_busSet]
        cases h : wr (o.others w.clock w.bci).clientRequests (clientID - 1) (r - 1) <;>
          simp [h, hr, h4, h2, run_unlock]

theorem critical_bci_get_next_request (clientID : Int) :
    Critical (bci_get_next_request clientID) := by
  refine ⟨fun b => (rd b.clientRequests (clientID - 1)).map fun r =>
    (some (if r ≥ 4 then 4 else if r ≥ 2 then 2 else 1 : Int), b), [], fun o w => ?_⟩
  unfold bci_get_next_request
  simp only [run_bind, run_lock, run_bus]
  cases h : rd (o.others w.clock w.bci).clientRequests (clientID - 1) <;>
    simp [h, run_unlock, run_pure]

theorem critical_lookup {α : Type} (g : BCInterface → Option (Option α)) :
    Critical (do lock; let x ← bus g; unlock; defined x) := by
  refine ⟨fun b => (g b).map fun x => (x, b), [], fun o w => ?_⟩
  simp only [run_bind, run_lock, run_bus]
  cases h : g (o.others w.clock w.bci) with
  | none => simp [h]
  | some x => cases x <;> simp [h, run_unlock, run_defined_some, run_defined_none]

/-- A critical section lets the other processes act once, and a critical
section that returns has released the lock. -/
theorem critical_clock {α : Type} (m : M α) (h : Critical m) (o : Oracle) (w : World) :
    (m o w).state.clock = w.clock + 1 ∧
    ((m o w).error = none → (m o w).state.held = w.held) := by
  obtain ⟨f, l, hf⟩ := h.once
  rw [hf]
  rcases f (o.others w.clock w.bci) with _ | ⟨_ | a, b⟩
  · exact ⟨rfl, fun h => (by cases h)⟩
  · exact ⟨rfl, fun h => (by cases h)⟩
  · exact ⟨rfl, fun _ => rfl⟩

/-- A write made after the `unlock ()` is not part of the critical section. -/
theorem not_critical_write_after_unlock (g : BCInterface → Option BCInterface) :
    ¬ Critical (do lock; unlock; busSet g) := by
  intro h
  have hc := (critical_clock _ h quiet (World.mk global23 (newBarber 1) shop23 bus23 0 0 [] 0)).1
  simp only [run_bind, run_lock, run_unlock, run_busSet_free] at hc
  cases hg : g (quiet.others (0 + 1) (quiet.others 0 bus23)) <;> simp [hg, Res.state] at hc

/-- A read made after the `unlock ()` is not part of the critical section. -/
theorem not_critical_read_after_unlock {α : Type} (g : BCInterface → Option α) :
    ¬ Critical (do lock; unlock; let x ← bus g; pure x) := by
  intro h
  have hc := (critical_clock _ h quiet (World.mk global23 (newBarber 1) shop23 bus23 0 0 [] 0)).1
  simp only [run_bind, run_lock, run_unlock, run_bus_free] at hc
  cases hg : g (quiet.others (0 + 1) (quiet.others 0 bus23)) <;>
    simp [hg, Res.state, run_pure] at hc

/-- A read made before the `lock ()` is not part of the critical section. -/
theorem not_critical_read_before_lock {α : Type} (g : BCInterface → α) :
    ¬ Critical (do let x ← bus fun b => some (g b); lock; unlock; pure x) := by
  intro h
  have hc := (critical_clock _ h quiet (World.mk global23 (newBarber 1) shop23 bus23 0 0 [] 0)).1
  simp [run_bind, run_bus_free, Res.state, run_pure, run_lock, run_unlock_any] at hc

/-- An access made without the lock is not a critical section. -/
theorem not_critical_bare_read {α : Type} (g : BCInterface → α) :
    ¬ Critical (bus fun b => some (g b)) := by
  intro h
  have hc := (critical_clock _ h quiet (World.mk global23 (newBarber 1) shop23 bus23 0 0 [] 1)).1
  simp [run_bus, Res.state] at hc

/-- A section that does not give the lock back is not a critical section. -/
theorem not_critical_without_unlock (g : BCInterface → BCInterface) :
    ¬ Critical (do lock; busSet fun b => some (g b)) := by
  intro h
  have hc := (critical_clock _ h quiet (World.mk global23 (newBarber 1) shop23 bus23 0 0 [] 0)).2
  simp [run_bind, run_lock, run_busSet, Res.state, Res.error] at hc

/-- C18 as stated fails: while barber 1 informs client 2 of a chair service,
another process takes the lock between the two writes of
`inform_client_on_service`; it finds the new descriptor with the old state
code, and records it in the access flag of client 1. -/
theorem inform_client_on_service_observed_half_done :
    (inform_client_on_service (set_barber_chair_service 1 2 0 1) watcher
      (world23 [0, 1, 0])).error = none ∧
    (world23 [0, 1, 0]).bci.clientAccess = [0, 0, 0] ∧
    (inform_client_on_service (set_barber_chair_service 1 2 0 1) watcher
      (world23 [0, 1, 0])).state.bci.clientAccess = [1, 0, 0] ∧
    (inform_client_on_service (set_barber_chair_service 1 2 0 1) watcher
      (world23 [0, 1, 0])).state.clock = (world23 [0, 1, 0]).clock + 2 := by
  decide!

/-- C18 as amended: every `bci_*` operation is one critical section: it takes
the lock exactly once, every read or write of a bus field it makes happens
between that `lock ()` and the matching `unlock ()`, and all it reads, writes
and returns is determined by the segment as it is when the lock is taken.
`inform_client_on_service` is two such sections: when it returns, the first one
(`bci_set_service`) has written the descriptor and left the state codes as it
found them, the other processes then get the lock with that segment, and the
second one (`bci_set_state`) writes `SERVICE_INFO_AVAILABLE` over the segment
they left: the new descriptor can be seen with the old state code.  A critical
section lets the other processes act exactly once and has given the lock back
when it returns; an operation that reads or writes the segment before its
`lock ()`, after its `unlock ()` or without any lock, or that keeps the lock, is
not a critical section. -/
theorem bus_critical_sections (MAX_BARBERS MAX_CLIENTS : Nat) (o : Oracle) (w : World)
    (s : Service) :
    ((inform_client_on_service s o w).error = none →
      bci_set_service s.barberID s o w = .ok () (bci_set_service s.barberID s o w).state ∧
      (bci_set_service s.barberID s o w).state.clock = w.clock + 1 ∧
      rd (bci_set_service s.barberID s o w).state.bci.service (s.barberID - 1) = some s ∧
      (bci_set_service s.barberID s o w).state.bci.currentState
        = (o.others w.clock w.bci).currentState ∧
      inform_client_on_service s o w
        = bci_set_state s.barberID SERVICE_INFO_AVAILABLE o
            (bci_set_service s.barberID s o w).state ∧
      (inform_client_on_service s o w).state.clock = w.clock + 2 ∧
      rd (inform_client_on_service s o w).state.bci.currentState (s.barberID - 1)
        = some SERVICE_INFO_AVAILABLE ∧
      (inform_client_on_service s o w).state.bci.service
        = (o.others (w.clock + 1) (bci_set_service s.barberID s o w).state.bci).service) ∧
    (∀ (barberID clientID state request : Int) (service : Service) (benches : ClientBenches)
        (chair : BarberChair) (basin : Washbasin) (found : Option Service),
      Critical (bci_set_service barberID service) ∧ Critical (bci_set_state barberID state) ∧
      Critical (bci_set_clientID barberID clientID) ∧
      Critical (bci_set_barberID barberID clientID) ∧
      Critical (bci_set_syncBenches benches) ∧ Critical (bci_set_syncBBChair chair barberID) ∧
      Critical (bci_set_syncWashbasin basin barberID) ∧
      Critical (bci_set_request clientID request) ∧ Critical bci_open_shop ∧
      Critical bci_close_shop ∧ Critical (bci_did_request clientID) ∧
      Critical (bci_unset_clientID MAX_CLIENTS barberID) ∧
      Critical (bci_unset_barberID MAX_BARBERS clientID) ∧ Critical bci_client_in ∧
      Critical bci_client_out ∧ Critical (bci_get_service_by_barberID barberID) ∧
      Critical (bci_get_service_by_clientID MAX_BARBERS clientID found) ∧
      Critical (bci_get_state barberID) ∧ Critical (bci_get_client_access clientID) ∧
      Critical (bci_get_barberID MAX_BARBERS clientID) ∧
      Critical (bci_get_clientID MAX_CLIENTS barberID) ∧ Critical bci_get_num_clients_in_bench ∧
      Critical bci_get_syncBenches ∧ Critical (bci_get_syncBBChair barberID) ∧
      Critical (bci_get_syncWashbasin barberID) ∧ Critical (bci_get_request clientID) ∧
      Critical (bci_get_next_request clientID) ∧ Critical bci_get_shop_status ∧
      Critical (bci_grant_client_access clientID) ∧
      Critical (bci_revoke_client_access clientID)) ∧
    (∀ (α : Type) (m : M α), Critical m → ∀ (o1 : Oracle) (w1 : World),
      (m o1 w1).state.clock = w1.clock + 1 ∧
      ((m o1 w1).error = none → (m o1 w1).state.held = w1.held)) ∧
    (∀ g : BCInterface → Option BCInterface, ¬ Critical (do lock; unlock; busSet g)) ∧
    (∀ (α : Type) (g : BCInterface → Option α),
      ¬ Critical (do lock; unlock; let x ← bus g; pure x)) ∧
    (∀ (α : Type) (g : BCInterface → α),
      ¬ Critical (do let x ← bus fun b => some (g b); lock; unlock; pure x)) ∧
    (∀ (α : Type) (g : BCInterface → α), ¬ Critical (bus fun b => some (g b))) ∧
    (∀ g : BCInterface → BCInterface, ¬ Critical (do lock; busSet fun b => some (g b))) := by
  refine ⟨?_, ?_, fun α m h o1 w1 => critical_clock m h o1 w1,
    not_critical_write_after_unlock, fun α g => not_critical_read_after_unlock g,
    fun α g => not_critical_read_before_lock g, fun α g => not_critical_bare_read g,
    not_critical_without_unlock⟩
  · intro hret
    unfold inform_client_on_service at hret ⊢
    simp only [run_bind, run_bci_set_service] at hret ⊢
    cases h1 : wr (o.others w.clock w.bci).service (s.barberID - 1) s with
    | none => simp [h1, Res.error] at hret
    | some a =>
      simp only [h1, run_bci_set_state] at hret ⊢
      cases h2 : wr (o.others (w.clock + 1) { o.others w.clock w.bci with service := a }).currentState
          (s.barberID - 1) SERVICE_INFO_AVAILABLE with
      | none => simp [h2, Res.error] at hret
      | some c =>
        simp only [Res.state, h2]
        exact ⟨trivial, trivial, rd_wr_same _ _ _ _ h1, trivial, trivial, trivial,
          rd_wr_same _ _ _ _ h2, trivial⟩
  · intro barberID clientID state request service benches chair basin found
    exact ⟨critical_write _, critical_bci_set_state _ _, critical_write _, critical_write _,
      critical_write _, critical_write _, critical_write _, critical_write _, critical_write _,
      critical_write _, critical_bci_did_request _, critical_write _, critical_write _,
      critical_write _, critical_write _, critical_read _, critical_read _, critical_read _,
      critical_read _, critical_lookup _, critical_lookup _, critical_read _, critical_read _,
      critical_read _, critical_read _, critical_read _, critical_bci_get_next_request _,
      critical_read _, critical_write _, critical_write _⟩

/-- Witness of C18: barber 1 informs client 2 of a chair service while the
observer process runs. -/
theorem bus_critical_sections_witness :
    (inform_client_on_service (set_barber_chair_service 1 2 0 1) watcher
        (world23 [0, 1, 0])).state.clock = (world23 [0, 1, 0]).clock + 2 ∧
    rd (bci_set_service 1 (set_barber_chair_service 1 2 0 1) watcher
        (world23 [0, 1, 0])).state.bci.service (1 - 1)
      = some (set_barber_chair_service 1 2 0 1) :=
  have h := (bus_critical_sections 2 3 watcher (world23 [0, 1, 0])
    (set_barber_chair_service 1 2 0 1)).1 (by decide!)
  ⟨h.2.2.2.2.2.1, h.2.2.1⟩

theorem forLoop_wr {α : Type} (g : Nat → α) :
    ∀ (k i : Nat) (a : List α), i + k ≤ a.length →
      ∃ a1, forLoop (fun j a => wr a (j : Int) (g j)) i k a = some a1 ∧ a1.length = a.length ∧
        ∀ j : Nat, a1[j]? = if i ≤ j ∧ j < i + k then some (g j) else a[j]? := by
  intro k
  induction k with
  | zero =>
    intro i a _
    refine ⟨a, rfl, rfl, fun j => ?_⟩
    rw [if_neg (by omega)]
  | succ k ih =>
    intro i a h
    have hlen : i < a.length := by omega
    obtain ⟨a1, h1, h2, h3⟩ := ih (i + 1) (a.set i (g i)) (by simp only [List.length_set]; omega)
    refine ⟨a1, ?_, by simpa using h2, fun j => ?_⟩
    · unfold forLoop
      rw [wr_natCast _ _ _ hlen]
      exact h1
    · rw [h3 j]
      by_cases hj : j = i
      · subst hj
        rw [if_neg (by omega), if_pos (by omega), List.getElem?_set_self hlen]
      · by_cases hr : i + 1 ≤ j ∧ j < i + 1 + k
        · rw [if_pos hr, if_pos (by omega)]
        · rw [if_neg hr, if_neg (by omega), List.getElem?_set_ne (by omega)]

theorem forLoop_wr_none {α : Type} (g : Nat → α) :
    ∀ (k i : Nat) (a : List α), i ≤ a.length → a.length < i + k →
      forLoop (fun j a => wr a (j : Int) (g j)) i k a = none := by
  intro k
  induction k with
  | zero => intro i a h1 h2; omega
  | succ k ih =>
    intro i a h1 h2
    unfold forLoop
    by_cases hlen : i < a.length
    · rw [wr_natCast _ _ _ hlen]
      exact ih (i + 1) _ (by simp only [List.length_set]; omega)
        (by simp only [List.length_set]; omega)
    · have : wr a (i : Int) (g i) = none := by simp [wr, hlen]
      rw [this]
      rfl

/-- Run of `init_barber_shop` on valid counts, the arrays of the record being
large enough. -/
theorem init_barber_shop_run (mx : Maxima) (nb nc ns ncm nr nba nse nbe : Int) (o : Oracle)
    (w : World) (hin : mx.MAX_CLIENTS ≤ w.shop.clientsInside.length)
    (hch : mx.MAX_BARBER_CHAIRS ≤ w.shop.barberChair.length)
    (hwb : mx.MAX_WASHBASINS ≤ w.shop.washbasin.length)
    (h1 : nb > 0 ∧ nb ≤ mx.MAX_BARBERS) (h2 : nc > 0 ∧ nc ≤ mx.MAX_BARBER_CHAIRS)
    (h3 : ns > 0 ∧ ns ≤ mx.MAX_NUM_TOOLS) (h4 : ncm > 0 ∧ ncm ≤ mx.MAX_NUM_TOOLS)
    (h5 : nr > 0 ∧ nr ≤ mx.MAX_NUM_TOOLS) (h6 : nba > 0 ∧ nba ≤ mx.MAX_WASHBASINS)
    (h7 : nse > 0 ∧ nse ≤ mx.MAX_CLIENT_BENCHES_SEATS) (h8 : nbe > 0 ∧ nbe ≤ nse) :
    ∃ inside chairs basins,
      inside.length = w.shop.clientsInside.length ∧
      (∀ j : Nat, inside[j]? = if j < mx.MAX_CLIENTS then some 0 else w.shop.clientsInside[j]?) ∧
      chairs.length = w.shop.barberChair.length ∧
      (∀ j : Nat, chairs[j]? = if j < nc.toNat then some (init_barber_chair ((j : Int) + 1))
        else w.shop.barberChair[j]?) ∧
      basins.length = w.shop.washbasin.length ∧
      (∀ j : Nat, basins[j]? = if j < nba.toNat then some (init_washbasin ((j : Int) + 1))
        else w.shop.washbasin[j]?) ∧
      init_barber_shop mx nb nc ns ncm nr nba nse nbe o w = .ok ()
        { w with
          shop := { numBarbers := nb, numChairs := nc, numScissors := ns, numCombs := ncm,
                    numRazors := nr, numWashbasins := nba, numClientBenchesSeats := nse,
                    numClientBenches := nbe, numClientsInside := 0, clientsInside := inside,
                    opened := 1, barberBench := init_barber_bench nb, barberChair := chairs,
                    toolsPot := init_tools_pot ns ncm nr, washbasin := basins,
                    clientBenches := init_client_benches nse nbe },
          bci := newSegment mx } := by
  obtain ⟨inside, hi1, hi2, hi3⟩ := forLoop_wr (fun _ => (0 : Int)) mx.MAX_CLIENTS 0
    w.shop.clientsInside (by omega)
  obtain ⟨chairs, hc1, hc2, hc3⟩ := forLoop_wr (fun i => init_barber_chair ((i : Int) + 1))
    nc.toNat 0 w.shop.barberChair (by omega)
  obtain ⟨basins, hb1, hb2, hb3⟩ := forLoop_wr (fun i => init_washbasin ((i : Int) + 1))
    nba.toNat 0 w.shop.washbasin (by omega)
  refine ⟨inside, chairs, basins, hi2, fun j => by simpa using hi3 j, hc2,
    fun j => by simpa using hc3 j, hb2, fun j => by simpa using hb3 j, ?_⟩
  unfold init_barber_shop
  simp only [run_bind, run_require, h1, h2, h3, h4, h5, h6, h7, h8, and_self, decide_True, if_true,
    run_getShop, run_setShop, hi1, hc1, hb1, run_defined_some, run_getW, run_setW, run_unlock]

theorem init_barber_shop_invalid (mx : Maxima) (nb nc ns ncm nr nba nse nbe : Int) (o : Oracle)
    (w : World)
    (h : ¬ ((nb > 0 ∧ nb ≤ mx.MAX_BARBERS) ∧ (nc > 0 ∧ nc ≤ mx.MAX_BARBER_CHAIRS) ∧
      (ns > 0 ∧ ns ≤ mx.MAX_NUM_TOOLS) ∧ (ncm > 0 ∧ ncm ≤ mx.MAX_NUM_TOOLS) ∧
      (nr > 0 ∧ nr ≤ mx.MAX_NUM_TOOLS) ∧ (nba > 0 ∧ nba ≤ mx.MAX_WASHBASINS) ∧
      (nse > 0 ∧ nse ≤ mx.MAX_CLIENT_BENCHES_SEATS) ∧ (nbe > 0 ∧ nbe ≤ nse))) :
    init_barber_shop mx nb nc ns ncm nr nba nse nbe o w = .fail Err.violation w := by
  unfold init_barber_shop
  simp only [run_bind, run_require]
  by_cases h1 : nb > 0 ∧ nb ≤ mx.MAX_BARBERS
  swap
  · simp only [h1, decide_False, Bool.false_eq_true, if_false]
  by_cases h2 : nc > 0 ∧ nc ≤ mx.MAX_BARBER_CHAIRS
  swap
  · simp only [h1, h2, and_self, decide_True, decide_False, Bool.false_eq_true, if_true, if_false]
  by_cases h3 : ns > 0 ∧ ns ≤ mx.MAX_NUM_TOOLS
  swap
  · simp only [h1, h2, h3, and_self, decide_True, decide_False, Bool.false_eq_true, if_true,
      if_false]
  by_cases h4 : ncm > 0 ∧ ncm ≤ mx.MAX_NUM_TOOLS
  swap
  · simp only [h1, h2, h3, h4, and_self, decide_True, decide_False, Bool.false_eq_true, if_true,
      if_false]
  by_cases h5 : nr > 0 ∧ nr ≤ mx.MAX_NUM_TOOLS
  swap
  · simp only [h1, h2, h3, h4, h5, and_self, decide_True, decide_False, Bool.false_eq_true,
      if_true, if_false]
  by_cases h6 : nba > 0 ∧ nba ≤ mx.MAX_WASHBASINS
  swap
  · simp only [h1, h2, h3, h4, h5, h6, and_self, decide_True, decide_False, Bool.false_eq_true,
      if_true, if_false]
  by_cases h7 : nse > 0 ∧ nse ≤ mx.MAX_CLIENT_BENCHES_SEATS
  swap
  · simp only [h1, h2, h3, h4, h5, h6, h7, and_self, decide_True, decide_False,
      Bool.false_eq_true, if_true, if_false]
  by_cases h8 : nbe > 0 ∧ nbe ≤ nse
  swap
  · simp only [h1, h2, h3, h4, h5, h6, h7, h8, and_self, decide_True, decide_False,
      Bool.false_eq_true, if_true, if_false]
  exact absurd ⟨h1, h2, h3, h4, h5, h6, h7, h8⟩ h

/-- C14: on a shop record whose arrays have the declared sizes
(`clientsInside` has `MAX_CLIENTS` entries, the chair and basin arrays at least
`MAX_BARBER_CHAIRS` and `MAX_WASHBASINS`), `init_barber_shop` returns exactly
when each of the barber, chair, scissor, comb, razor, basin and bench-seat
counts lies in [1, its maximum] and the bench count lies in [1, bench-seat
count]; otherwise it aborts with a contract violation in the state it was
called in (no field written); when it returns, the shop records the given
counts, `numClientsInside` is 0 and every entry of `clientsInside` is 0. -/
theorem init_barber_shop_validation (mx : Maxima) (num_barbers num_chairs num_scissors num_combs
    num_razors num_basins num_client_benches_seats num_client_benches : Int) (o : Oracle)
    (w : World) (hin : w.shop.clientsInside.length = mx.MAX_CLIENTS)
    (hch : mx.MAX_BARBER_CHAIRS ≤ w.shop.barberChair.length)
    (hwb : mx.MAX_WASHBASINS ≤ w.shop.washbasin.length) :
    ((init_barber_shop mx num_barbers num_chairs num_scissors num_combs num_razors num_basins
        num_client_benches_seats num_client_benches o w).error = none ↔
      ((1 ≤ num_barbers ∧ num_barbers ≤ mx.MAX_BARBERS) ∧
       (1 ≤ num_chairs ∧ num_chairs ≤ mx.MAX_BARBER_CHAIRS) ∧
       (1 ≤ num_scissors ∧ num_scissors ≤ mx.MAX_NUM_TOOLS) ∧
       (1 ≤ num_combs ∧ num_combs ≤ mx.MAX_NUM_TOOLS) ∧
       (1 ≤ num_razors ∧ num_razors ≤ mx.MAX_NUM_TOOLS) ∧
       (1 ≤ num_basins ∧ num_basins ≤ mx.MAX_WASHBASINS) ∧
       (1 ≤ num_client_benches_seats ∧ num_client_benches_seats ≤ mx.MAX_CLIENT_BENCHES_SEATS) ∧
       (1 ≤ num_client_benches ∧ num_client_benches ≤ num_client_benches_seats))) ∧
    ((init_barber_shop mx num_barbers num_chairs num_scissors num_combs num_razors num_basins
        num_client_benches_seats num_client_benches o w).error ≠ none →
      init_barber_shop mx num_barbers num_chairs num_scissors num_combs num_razors num_basins
        num_client_benches_seats num_client_benches o w = .fail Err.violation w) ∧
    ((init_barber_shop mx num_barbers num_chairs num_scissors num_combs num_razors num_basins
        num_client_benches_seats num_client_benches o w).error = none →
      (init_barber_shop mx num_barbers num_chairs num_scissors num_combs num_razors num_basins
        num_client_benches_seats num_client_benches o w).state.shop.numBarbers = num_barbers ∧
      (init_barber_shop mx num_barbers num_chairs num_scissors num_combs num_razors num_basins
        num_client_benches_seats num_client_benches o w).state.shop.numChairs = num_chairs ∧
      (init_barber_shop mx num_barbers num_chairs num_scissors num_combs num_razors num_basins
        num_client_benches_seats num_client_benches o w).state.shop.numScissors = num_scissors ∧
      (init_barber_shop mx num_barbers num_chairs num_scissors num_combs num_razors num_basins
        num_client_benches_seats num_client_benches o w).state.shop.numCombs = num_combs ∧
      (init_barber_shop mx num_barbers num_chairs num_scissors num_combs num_razors num_basins
        num_client_benches_seats num_client_benches o w).state.shop.numRazors = num_razors ∧
      (init_barber_shop mx num_barbers num_chairs num_scissors num_combs num_razors num_basins
        num_client_benches_seats num_client_benches o w).state.shop.numWashbasins = num_basins ∧
      (init_barber_shop mx num_barbers num_chairs num_scissors num_combs num_razors num_basins
        num_client_benches_seats num_client_benches o w).state.shop.numClientBenchesSeats
          = num_client_benches_seats ∧
      (init_barber_shop mx num_barbers num_chairs num_scissors num_combs num_razors num_basins
        num_client_benches_seats num_client_benches o w).state.shop.numClientBenches
          = num_client_benches ∧
      (init_barber_shop mx num_barbers num_chairs num_scissors num_combs num_razors num_basins
        num_client_benches_seats num_client_benches o w).state.shop.numClientsInside = 0 ∧
      (init_barber_shop mx num_barbers num_chairs num_scissors num_combs num_razors num_basins
        num_client_benches_seats num_client_benches o w).state.shop.clientsInside.length
          = mx.MAX_CLIENTS ∧
      ∀ x ∈ (init_barber_shop mx num_barbers num_chairs num_scissors num_combs num_razors
        num_basins num_client_benches_seats num_client_benches o w).state.shop.clientsInside,
        x = 0) := by
  by_cases hv : (num_barbers > 0 ∧ num_barbers ≤ mx.MAX_BARBERS) ∧
      (num_chairs > 0 ∧ num_chairs ≤ mx.MAX_BARBER_CHAIRS) ∧
      (num_scissors > 0 ∧ num_scissors ≤ mx.MAX_NUM_TOOLS) ∧
      (num_combs > 0 ∧ num_combs ≤ mx.MAX_NUM_TOOLS) ∧
      (num_razors > 0 ∧ num_razors ≤ mx.MAX_NUM_TOOLS) ∧
      (num_basins > 0 ∧ num_basins ≤ mx.MAX_WASHBASINS) ∧
      (num_client_benches_seats > 0 ∧ num_client_benches_seats ≤ mx.MAX_CLIENT_BENCHES_SEATS) ∧
      (num_client_benches > 0 ∧ num_client_benches ≤ num_client_benches_seats)
  · obtain ⟨h1, h2, h3, h4, h5, h6, h7, h8⟩ := hv
    obtain ⟨inside, chairs, basins, hl, hz, -, -, -, -, hrun⟩ :=
      init_barber_shop_run mx num_barbers num_chairs num_scissors num_combs num_razors num_basins
        num_client_benches_seats num_client_benches o w (by omega) hch hwb h1 h2 h3 h4 h5 h6 h7 h8
    rw [hrun]
    refine ⟨⟨fun _ => ⟨⟨by omega, h1.2⟩, ⟨by omega, h2.2⟩, ⟨by omega, h3.2⟩, ⟨by omega, h4.2⟩,
      ⟨by omega, h5.2⟩, ⟨by omega, h6.2⟩, ⟨by omega, h7.2⟩, ⟨by omega, h8.2⟩⟩, fun _ => rfl⟩,
      fun h => absurd rfl h, fun _ => ⟨rfl, rfl, rfl, rfl, rfl, rfl, rfl, rfl, rfl,
        by simp only [Res.state]; omega, fun x hx => ?_⟩⟩
    simp only [Res.state] at hx
    obtain ⟨j, hj, hjx⟩ := List.getElem_of_mem hx
    have := hz j
    rw [List.getElem?_eq_getElem hj, if_pos (by omega), hjx] at this
    exact Option.some.inj this
  · rw [init_barber_shop_invalid mx _ _ _ _ _ _ _ _ o w hv]
    refine ⟨⟨fun h => (by cases h), fun h => absurd ?_ hv⟩, fun _ => rfl, fun h => (by cases h)⟩
    obtain ⟨h1, h2, h3, h4, h5, h6, h7, h8⟩ := h
    exact ⟨⟨by omega, h1.2⟩, ⟨by omega, h2.2⟩, ⟨by omega, h3.2⟩, ⟨by omega, h4.2⟩,
      ⟨by omega, h5.2⟩, ⟨by omega, h6.2⟩, ⟨by omega, h7.2⟩, ⟨by omega, h8.2⟩⟩

/-- Witness of C14: the sample shop is initialised with the counts of the
sample configuration. -/
theorem init_barber_shop_validation_witness :
    (init_barber_shop maxima23 2 1 1 1 1 1 2 1 quiet (world23 [0, 0, 0])).error = none ∧
    (init_barber_shop maxima23 2 1 1 1 1 1 2 1 quiet (world23 [0, 0, 0])).state.shop = shop23 ∧
    (init_barber_shop maxima23 2 2 1 1 1 1 2 1 quiet (world23 [0, 0, 0]))
      = .fail Err.violation (world23 [0, 0, 0]) :=
  have h := init_barber_shop_validation maxima23 2 1 1 1 1 1 2 1 quiet (world23 [0, 0, 0])
    (by decide) (by decide) (by decide)
  have h2 := init_barber_shop_validation maxima23 2 2 1 1 1 1 2 1 quiet (world23 [0, 0, 0])
    (by decide) (by decide) (by decide)
  ⟨h.1.2 (by decide), by decide!, h2.2.1 (by decide!)⟩

theorem occupancy_init (mx : Maxima) (nb nc ns ncm nr nba nse nbe : Int) (o : Oracle)
    (w w1 : World) (hin : w.shop.clientsInside.length = mx.MAX_CLIENTS)
    (hch : mx.MAX_BARBER_CHAIRS ≤ w.shop.barberChair.length)
    (hwb : mx.MAX_WASHBASINS ≤ w.shop.washbasin.length)
    (h : init_barber_shop mx nb nc ns ncm nr nba nse nbe o w = .ok () w1) :
    Occupancy mx w1.shop := by
  by_cases hv : (nb > 0 ∧ nb ≤ mx.MAX_BARBERS) ∧ (nc > 0 ∧ nc ≤ mx.MAX_BARBER_CHAIRS) ∧
      (ns > 0 ∧ ns ≤ mx.MAX_NUM_TOOLS) ∧ (ncm > 0 ∧ ncm ≤ mx.MAX_NUM_TOOLS) ∧
      (nr > 0 ∧ nr ≤ mx.MAX_NUM_TOOLS) ∧ (nba > 0 ∧ nba ≤ mx.MAX_WASHBASINS) ∧
      (nse > 0 ∧ nse ≤ mx.MAX_CLIENT_BENCHES_SEATS) ∧ (nbe > 0 ∧ nbe ≤ nse)
  swap
  · rw [init_barber_shop_invalid mx _ _ _ _ _ _ _ _ o w hv] at h
    cases h
  obtain ⟨h1, h2, h3, h4, h5, h6, h7, h8⟩ := hv
  obtain ⟨inside, chairs, basins, hl, -, -, -, -, -, hrun⟩ :=
    init_barber_shop_run mx nb nc ns ncm nr nba nse nbe o w (by omega) hch hwb h1 h2 h3 h4 h5 h6
      h7 h8
  rw [hrun] at h
  cases h
  refine ⟨⟨?_, ?_, ?_⟩, ⟨?_, ?_⟩, ?_, ?_, ?_, ?_, ?_, ?_⟩ <;>
    simp only [init_client_benches, List.length_replicate, List.count_replicate_self] <;> omega

theorem occupancy_enter (mx : Maxima) (o : Oracle) (w w1 : World) (clientID request res : Int)
    (hocc : Occupancy mx w.shop) (h : enter_barber_shop clientID request o w = .ok res w1) :
    Occupancy mx w1.shop := by
  obtain ⟨hb, hi, hseats, hcount, hc0, hw0, hmax, hlen⟩ := hocc
  by_cases hc : clientID > 0 ∧ (request > 0 ∧ request < 8) ∧
      0 ∈ w.shop.clientBenches.id.take w.shop.clientBenches.numSeats.toNat ∧
      clientID ∉ insideClients w.shop
  swap
  · rw [enter_barber_shop_rejected o w clientID request hb hi hc] at h
    cases h
  obtain ⟨h1, h2, h3, h4⟩ := hc
  by_cases hseat : clientID ∈ w.shop.clientBenches.id.take w.shop.clientBenches.numSeats.toNat
  · rw [enter_barber_shop_seated o w clientID request hb hi h1 h2 h3 h4 hseat] at h
    cases h
  by_cases hroom : w.shop.numClientsInside.toNat < w.shop.clientsInside.length
  swap
  · have := enter_barber_shop_full o w clientID request hb hi h1 h2 h3 h4 hseat hroom
    rw [h] at this
    cases this
  obtain ⟨r, hr, hfree, -, hrun⟩ :=
    enter_barber_shop_accepted_run o w clientID request hb hi h1 h2 h3 h4 hseat hroom
  rw [hrun] at h
  cases h
  obtain ⟨hb0, hb1, hb2⟩ := hb
  obtain ⟨hi0, hi1⟩ := hi
  have hrlen : r < w.shop.clientBenches.id.length := by omega
  have hget : w.shop.clientBenches.id[r] = 0 := by
    rw [List.getElem?_eq_getElem hrlen] at hfree
    exact Option.some.inj hfree
  have hcs := List.count_set clientID 0 w.shop.clientBenches.id r hrlen
  have hne : (clientID == 0) = false := by
    simp only [beq_eq_false_iff_ne, ne_eq]; omega
  have hpos : 0 < w.shop.clientBenches.id.count 0 :=
    List.count_pos_iff.2 (hget ▸ List.getElem_mem hrlen)
  simp only [hget, beq_self_eq_true, if_true, hne, Bool.false_eq_true, if_false] at hcs
  refine ⟨⟨hb0, ?_, ?_⟩, ⟨?_, ?_⟩, hseats, ?_, hc0, hw0, hmax, ?_⟩ <;>
    simp only [List.length_set, hcs] <;> omega

theorem occupancy_leave (mx : Maxima) (o : Oracle) (w w1 : World) (clientID : Int)
    (hocc : Occupancy mx w.shop) (h : leave_barber_shop clientID o w = .ok () w1) :
    Occupancy mx w1.shop := by
  obtain ⟨hb, hi, hseats, hcount, hc0, hw0, hmax, hlen⟩ := hocc
  by_cases hc : clientID > 0 ∧ clientID ∈ insideClients w.shop
  swap
  · rw [leave_barber_shop_rejected o w clientID hi hc] at h
    cases h
  obtain ⟨i, a1, -, hlt, hl, -, hrun⟩ := leave_barber_shop_run o w clientID hi hc.1 hc.2
  rw [hrun] at h
  cases h
  obtain ⟨hi0, hi1⟩ := hi
  refine ⟨hb, ⟨?_, ?_⟩, hseats, ?_, hc0, hw0, hmax, ?_⟩ <;> simp only [hl] <;> omega

theorem occupancy_reachable (mx : Maxima) (s : BarberShop) (h : Reachable mx s) :
    Occupancy mx s := by
  induction h with
  | init o w w1 nb nc ns ncm nr nba nse nbe hin hch hwb hrun =>
    exact occupancy_init mx nb nc ns ncm nr nba nse nbe o w w1 hin hch hwb hrun
  | enter o w w1 clientID request res _ hrun ih =>
    exact occupancy_enter mx o w w1 clientID request res ih hrun
  | leave o w w1 clientID _ hrun ih => exact occupancy_leave mx o w w1 clientID ih hrun

/-! ### Acceptance of `enter_barber_shop` -/

/-- C8 as stated fails: in the shop reached by `init_barber_shop`, the entry of
client 2 and its leave, client 2 is positive, the request 5 is within 1..7, a
seat of the benches is free and client 2 is not in the inside list, yet
`enter_barber_shop (shop, 2, 5)` ends on a contract violation: the benches
still seat client 2, and `random_sit_in_client_benches` refuses a client that
is seated. -/
theorem enter_barber_shop_refuses_seated_client :
    Reachable maxima23 leftSeated.shop ∧
    ((2 : Int) > 0 ∧ ((1 : Int) ≤ 5 ∧ (5 : Int) ≤ 7) ∧
      0 ∈ leftSeated.shop.clientBenches.id.take leftSeated.shop.clientBenches.numSeats.toNat ∧
      (2 : Int) ∉ insideClients leftSeated.shop) ∧
    leftSeated.shop.clientBenches.id = [2, 0] ∧ leftSeated.shop.numClientsInside = 0 ∧
    (enter_barber_shop 2 5 quiet leftSeated).error = some Err.violation :=
  ⟨Reachable.leave quiet
      (enter_barber_shop 2 5 quiet
        (init_barber_shop maxima23 2 1 1 1 1 1 2 1 quiet (world23 [0, 0, 0])).state).state
      leftSeated 2
      (Reachable.enter quiet
        (init_barber_shop maxima23 2 1 1 1 1 1 2 1 quiet (world23 [0, 0, 0])).state
        (enter_barber_shop 2 5 quiet
          (init_barber_shop maxima23 2 1 1 1 1 1 2 1 quiet (world23 [0, 0, 0])).state).state
        2 5 0
        (Reachable.init quiet (world23 [0, 0, 0])
          (init_barber_shop maxima23 2 1 1 1 1 1 2 1 quiet (world23 [0, 0, 0])).state
          2 1 1 1 1 1 2 1 (by decide) (by decide) (by decide) (by decide!))
        (by decide!))
      (by decide!),
    by decide!, by decide!, by decide!, by decide!⟩

/-- C8 as amended.  In a shop record whose seat arrays have the declared size,
whose count of clients inside is within the array and whose inside array has
room for one more client whenever a seat of the benches is free,
`enter_barber_shop` returns exactly when `clientID > 0`, `1 <= request <= 7`,
the benches have a free seat, the client is not in the inside list and the
client is not seated on the benches; in every other case it aborts with a
contract violation in the state it was called in, so the inside list and its
count are unchanged.  Every shop record reached from `init_barber_shop` by
accepted `enter_barber_shop` and `leave_barber_shop` calls is such a record,
when the benches have no more seats than there are clients. -/
theorem enter_barber_shop_accepted_iff (o : Oracle) (w : World) (clientID request : Int)
    (hb : BenchesOK w.shop.clientBenches) (hi : InsideOK w.shop)
    (hroom : 0 ∈ w.shop.clientBenches.id.take w.shop.clientBenches.numSeats.toNat →
      w.shop.numClientsInside.toNat < w.shop.clientsInside.length) :
    ((enter_barber_shop clientID request o w).error = none ↔
      (clientID > 0 ∧ (1 ≤ request ∧ request ≤ 7) ∧
        0 ∈ w.shop.clientBenches.id.take w.shop.clientBenches.numSeats.toNat ∧
        clientID ∉ insideClients w.shop ∧
        clientID ∉ w.shop.clientBenches.id.take w.shop.clientBenches.numSeats.toNat)) ∧
    ((enter_barber_shop clientID request o w).error ≠ none →
      enter_barber_shop clientID request o w = .fail Err.violation w) ∧
    (∀ mx : Maxima, Reachable mx w.shop → mx.MAX_CLIENT_BENCHES_SEATS ≤ mx.MAX_CLIENTS →
      BenchesOK w.shop.clientBenches ∧ InsideOK w.shop ∧
      (0 ∈ w.shop.clientBenches.id.take w.shop.clientBenches.numSeats.toNat →
        w.shop.numClientsInside.toNat < w.shop.clientsInside.length)) := by
  refine and_assoc.1 ⟨?_, fun mx hr hle => ?_⟩
  · by_cases hc : clientID > 0 ∧ (request > 0 ∧ request < 8) ∧
        0 ∈ w.shop.clientBenches.id.take w.shop.clientBenches.numSeats.toNat ∧
        clientID ∉ insideClients w.shop
    · obtain ⟨h1, h2, h3, h4⟩ := hc
      by_cases hseat :
          clientID ∈ w.shop.clientBenches.id.take w.shop.clientBenches.numSeats.toNat
      · rw [enter_barber_shop_seated o w clientID request hb hi h1 h2 h3 h4 hseat]
        exact ⟨⟨fun h => (by cases h), fun h => absurd hseat h.2.2.2.2⟩, fun _ => rfl⟩
      · obtain ⟨res, -, -, -, hrun⟩ :=
          enter_barber_shop_accepted_run o w clientID request hb hi h1 h2 h3 h4 hseat (hroom h3)
        rw [hrun]
        exact ⟨⟨fun _ => ⟨h1, ⟨by omega, by omega⟩, h3, h4, hseat⟩, fun _ => rfl⟩,
          fun h => absurd rfl h⟩
    · rw [enter_barber_shop_rejected o w clientID request hb hi hc]
      refine ⟨⟨fun h => (by cases h), fun h => absurd ?_ hc⟩, fun _ => rfl⟩
      exact ⟨h.1, ⟨by omega, by omega⟩, h.2.2.1, h.2.2.2.1⟩
  · obtain ⟨hb1, hi1, hseats, hcount, hc0, hw0, hmax, hlen⟩ := occupancy_reachable mx w.shop hr
    refine ⟨hb1, hi1, fun h3 => ?_⟩
    have hpos : 0 < w.shop.clientBenches.id.count 0 :=
      List.count_pos_iff.2 (List.mem_of_mem_take h3)
    have := hi1.1
    omega

/-- Witness of C8: client 2 enters the empty sample shop with request 5; in the
shop that client 2 left while seated, client 3 is accepted. -/
theorem enter_barber_shop_accepted_iff_witness :
    (enter_barber_shop 2 5 quiet (world23 [0, 0, 0])).error = none ∧
    (enter_barber_shop 3 1 quiet leftSeated).error = none :=
  ⟨(enter_barber_shop_accepted_iff quiet (world23 [0, 0, 0]) 2 5
      ⟨by decide, by decide, by decide⟩ ⟨by decide, by decide⟩ (fun _ => by decide)).1.2
      ⟨by decide, ⟨by decide, by decide⟩, by decide, by decide, by decide⟩,
    (enter_barber_shop_accepted_iff quiet leftSeated 3 1
      ⟨by decide!, by decide!, by decide!⟩ ⟨by decide!, by decide!⟩ (fun _ => by decide!)).1.2
      ⟨by decide, ⟨by decide, by decide⟩, by decide!, by decide!, by decide!⟩⟩

/-- C11: in every shop record reached from a successful `init_barber_shop` by
accepted `enter_barber_shop` and `leave_barber_shop` calls, `numClientsInside`
is at most `numClientBenchesSeats + numChairs + numWashbasins` (it is at most
the number of occupied bench seats); and when the bench-seat maximum does not
exceed `MAX_CLIENTS`, no call of `enter_barber_shop` in such a record accesses
`clientsInside` outside the array. -/
theorem clients_inside_bounded (mx : Maxima) (s : BarberShop) (h : Reachable mx s) :
    s.numClientsInside ≤ s.numClientBenchesSeats + s.numChairs + s.numWashbasins ∧
    0 ≤ s.numClientsInside ∧
    (mx.MAX_CLIENT_BENCHES_SEATS ≤ mx.MAX_CLIENTS →
      (s.numClientsInside.toNat ≤ s.clientsInside.length ∧
        (0 ∈ s.clientBenches.id.take s.clientBenches.numSeats.toNat →
          s.numClientsInside.toNat < s.clientsInside.length)) ∧
      ∀ (o : Oracle) (w : World) (clientID request : Int), w.shop = s →
        (enter_barber_shop clientID request o w).error ≠ some Err.undefined) := by
  obtain ⟨hb, hi, hseats, hcount, hc0, hw0, hmax, hlen⟩ := occupancy_reachable mx s h
  refine ⟨by omega, hi.1, fun hle => ⟨⟨hi.2, fun h3 => ?_⟩, fun o w clientID request hw => ?_⟩⟩
  · have hpos : 0 < s.clientBenches.id.count 0 :=
      List.count_pos_iff.2 (List.mem_of_mem_take h3)
    have := hi.1
    omega
  · subst hw
    by_cases hc : clientID > 0 ∧ (request > 0 ∧ request < 8) ∧
        0 ∈ w.shop.clientBenches.id.take w.shop.clientBenches.numSeats.toNat ∧
        clientID ∉ insideClients w.shop
    swap
    · rw [enter_barber_shop_rejected o w clientID request hb hi hc]
      exact fun h => (by cases h)
    obtain ⟨h1, h2, h3, h4⟩ := hc
    by_cases hseat : clientID ∈ w.shop.clientBenches.id.take w.shop.clientBenches.numSeats.toNat
    · rw [enter_barber_shop_seated o w clientID request hb hi h1 h2 h3 h4 hseat]
      exact fun h => (by cases h)
    have hpos : 0 < w.shop.clientBenches.id.count 0 :=
      List.count_pos_iff.2 (List.mem_of_mem_take h3)
    have hroom : w.shop.numClientsInside.toNat < w.shop.clientsInside.length := by
      have := hi.1
      omega
    obtain ⟨r, -, -, -, hrun⟩ :=
      enter_barber_shop_accepted_run o w clientID request hb hi h1 h2 h3 h4 hseat hroom
    rw [hrun]
    exact fun h => (by cases h)

/-- Witness of C11: the sample shop after `init_barber_shop` and the entry of
client 2. -/
theorem clients_inside_bounded_witness :
    (enter_barber_shop 2 5 quiet
      (init_barber_shop maxima23 2 1 1 1 1 1 2 1 quiet (world23 [0, 0, 0])).state).state.shop.numClientsInside
      = 1 ∧
    (enter_barber_shop 2 5 quiet
      (init_barber_shop maxima23 2 1 1 1 1 1 2 1 quiet (world23 [0, 0, 0])).state).state.shop.numClientsInside
      ≤ 2 + 1 + 1 :=
  have h := clients_inside_bounded maxima23
    (enter_barber_shop 2 5 quiet
      (init_barber_shop maxima23 2 1 1 1 1 1 2 1 quiet (world23 [0, 0, 0])).state).state.shop
    (Reachable.enter quiet
      (init_barber_shop maxima23 2 1 1 1 1 1 2 1 quiet (world23 [0, 0, 0])).state
      (enter_barber_shop 2 5 quiet
        (init_barber_shop maxima23 2 1 1 1 1 1 2 1 quiet (world23 [0, 0, 0])).state).state 2 5 0
      (Reachable.init quiet (world23 [0, 0, 0])
        (init_barber_shop maxima23 2 1 1 1 1 1 2 1 quiet (world23 [0, 0, 0])).state
        2 1 1 1 1 1 2 1 (by decide) (by decide) (by decide) (by decide!))
      (by decide!))
  ⟨by decide!, h.1⟩

theorem foldl_countP {α : Type} (p : α → Bool) (l : List α) (s : Int) :
    l.foldl (fun res c => if p c then res + 1 else res) s = s + (l.countP p : Nat) := by
  induction l generalizing s with
  | nil => simp
  | cons x l ih =>
    simp only [List.foldl_cons, ih, List.countP_cons]
    by_cases hx : p x = true
    · simp only [hx, if_true]; push_cast; ring
    · simp [hx]

/-- The scan stops right after the `r`-th element satisfying `pred`, counted
from position `i`. -/
theorem scanFree_nth {α : Type} (a : List α) (pred : α → Bool) (n : Nat) (hn : n ≤ a.length) :
    ∀ (k i : Nat) (r : Int), i + k = n → 0 < r → r ≤ (((a.take n).drop i).countP pred : Nat) →
      ∃ res : Nat, scanFree (fun p => (rd a p).map pred) n k r i = some (res : Int) ∧
        i < res ∧ res ≤ n ∧ (∃ h : res - 1 < a.length, pred a[res - 1] = true) ∧
        ((((a.take (res - 1)).drop i).countP pred : Nat) : Int) + 1 = r := by
  intro k
  induction k with
  | zero =>
    intro i r hi hr hc
    have : i = n := by omega
    subst this
    have hnil : (a.take i).drop i = [] := List.drop_eq_nil_of_le (by simp)
    rw [hnil] at hc
    simp at hc
    omega
  | succ k ih =>
    intro i r hi hr hc
    have hlt : i < n := by omega
    have hlen : i < a.length := by omega
    have hdrop : ∀ m, i < m → m ≤ a.length →
        (a.take m).drop i = a[i] :: (a.take m).drop (i + 1) := by
      intro m hm hml
      rw [List.drop_eq_getElem_cons (by simp; omega)]
      simp
    rw [hdrop n hlt hn, List.countP_cons] at hc
    unfold scanFree
    rw [if_pos ⟨hr, by exact_mod_cast hlt⟩, rd_natCast, List.getElem?_eq_getElem hlen]
    simp only [Option.map_some', Option.some_bind]
    by_cases hp : pred a[i] = true
    · rw [if_pos hp]
      simp only [hp, if_true] at hc
      by_cases hr1 : r - 1 ≤ 0
      · rw [scanFree_done _ _ _ _ _ hr1]
        have hnil : (a.take (i + 1 - 1)).drop i = [] := List.drop_eq_nil_of_le (by simp)
        refine ⟨i + 1, by push_cast; rfl, by omega, by omega, ⟨by simpa using hlen, by simpa using hp⟩,
          ?_⟩
        rw [hnil]
        simp only [List.countP_nil, Nat.cast_zero]
        omega
      · obtain ⟨res, h1, h2, h3, h4, h5⟩ := ih (i + 1) (r - 1) (by omega) (by omega)
          (by push_cast at hc ⊢; omega)
        refine ⟨res, by push_cast at h1; exact h1, by omega, h3, h4, ?_⟩
        rw [hdrop (res - 1) (by omega) (by omega), List.countP_cons]
        simp only [hp, if_true]
        push_cast
        omega
    · rw [if_neg hp]
      simp only [hp] at hc
      obtain ⟨res, h1, h2, h3, h4, h5⟩ := ih (i + 1) r (by omega) hr (by simpa using hc)
      refine ⟨res, by push_cast at h1; exact h1, by omega, h3, h4, ?_⟩
      by_cases hres : res - 1 = i
      · exfalso
        obtain ⟨h4a, h4b⟩ := h4
        simp only [hres] at h4b
        exact hp h4b
      · rw [hdrop (res - 1) (by omega) (by omega), List.countP_cons]
        simp only [hp]
        simpa using h5

theorem countP_take_lt {α : Type} (a : List α) (pred : α → Bool) (x y : Nat)
    (hx : x < a.length) (hxy : x < y) (hpx : pred a[x] = true) :
    (a.take x).countP pred < (a.take y).countP pred := by
  have h3 : a.take y = a.take (x + 1) ++ (a.take y).drop (x + 1) := by
    conv_lhs => rw [← List.take_append_drop (x + 1) (a.take y)]
    rw [List.take_take, Nat.min_eq_left (by omega)]
  have h4 : (a.take (x + 1)).countP pred = (a.take x).countP pred + 1 := by
    rw [List.take_succ, List.countP_append, List.getElem?_eq_getElem hx]
    simp [hpx]
  rw [h3, List.countP_append, h4]
  omega

/-- Two positions holding an element that satisfies `pred`, with the same number
of such elements before them, are the same position. -/
theorem countP_take_inj {α : Type} (a : List α) (pred : α → Bool) (p q : Nat)
    (hp : p < a.length) (hq : q < a.length) (h1 : pred a[p] = true) (h2 : pred a[q] = true)
    (h : (a.take p).countP pred = (a.take q).countP pred) : p = q := by
  rcases Nat.lt_trichotomy p q with hlt | heq | hgt
  · have := countP_take_lt a pred p q hp hlt h1; omega
  · exact heq
  · have := countP_take_lt a pred q p hq hgt h2; omega

theorem run_num_available_barber_chairs (o : Oracle) (w : World)
    (hlen : w.shop.numChairs.toNat ≤ w.shop.barberChair.length) :
    num_available_barber_chairs o w
      = .ok ((((w.shop.barberChair.take w.shop.numChairs.toNat).countP empty_barber_chair : Nat)
          : Int)) w := by
  unfold num_available_barber_chairs
  simp only [run_bind, run_getShop]
  rw [forLoop_rd w.shop.barberChair (fun res c => if empty_barber_chair c then res + 1 else res)
    w.shop.numChairs.toNat 0 0 (by omega)]
  simp [foldl_countP, run_defined_some]

theorem run_num_available_washbasin (o : Oracle) (w : World)
    (hlen : w.shop.numWashbasins.toNat ≤ w.shop.washbasin.length) :
    num_available_washbasin o w
      = .ok ((((w.shop.washbasin.take w.shop.numWashbasins.toNat).countP empty_washbasin : Nat)
          : Int)) w := by
  unfold num_available_washbasin
  simp only [run_bind, run_getShop]
  rw [forLoop_rd w.shop.washbasin (fun res c => if empty_washbasin c then res + 1 else res)
    w.shop.numWashbasins.toNat 0 0 (by omega)]
  simp [foldl_countP, run_defined_some]

/-- Run of `reserve_random_empty_barber_chair` in a shop with an empty chair:
the chair chosen is the empty chair with `draw mod k` empty chairs before it,
`k` being the number of empty chairs. -/
theorem reserve_random_empty_barber_chair_run (barberID : Int) (o : Oracle) (w : World)
    (hn : 0 ≤ w.shop.numChairs) (hlen : w.shop.numChairs.toNat ≤ w.shop.barberChair.length)
    (hid : barberID > 0)
    (hfree : 0 < (w.shop.barberChair.take w.shop.numChairs.toNat).countP empty_barber_chair) :
    ∃ (pos : Nat) (hp : pos < w.shop.barberChair.length),
      pos < w.shop.numChairs.toNat ∧ empty_barber_chair w.shop.barberChair[pos] = true ∧
      (w.shop.barberChair.take pos).countP empty_barber_chair
        = o.random w.draws %
            (w.shop.barberChair.take w.shop.numChairs.toNat).countP empty_barber_chair ∧
      reserve_random_empty_barber_chair barberID o w
        = .ok (pos : Int)
            { w with
              shop := { w.shop with
                barberChair := w.shop.barberChair.set pos
                  { w.shop.barberChair[pos] with barberID := barberID } },
              draws := w.draws + 1 } := by
  have hb := random_draw_bounds (o.random w.draws) _ hfree
  obtain ⟨res, hres, h1, h2, ⟨h3, h4⟩, h5⟩ := scanFree_nth w.shop.barberChair empty_barber_chair
    w.shop.numChairs.toNat hlen w.shop.numChairs.toNat 0 _ (by omega) hb.1 (by simpa using hb.2)
  have hk1 : (1 : Int) ≤ ((List.countP empty_barber_chair
      (List.take w.shop.numChairs.toNat w.shop.barberChair) : Nat) : Int) := by
    exact_mod_cast hfree
  refine ⟨res - 1, h3, by omega, h4, ?_, ?_⟩
  · simp only [List.drop_zero, if_pos hk1] at h5
    have h6 : (((List.countP empty_barber_chair (List.take (res - 1) w.shop.barberChair) : Nat)
        : Int)) = ((o.random w.draws % (List.countP empty_barber_chair
          (List.take w.shop.numChairs.toNat w.shop.barberChair)) : Nat) : Int) := by
      push_cast
      have e : ((List.countP empty_barber_chair
          (List.take w.shop.numChairs.toNat w.shop.barberChair) : Nat) : Int) - 1 + 1
          = ((List.countP empty_barber_chair
            (List.take w.shop.numChairs.toNat w.shop.barberChair) : Nat) : Int) := by ring
      rw [e] at h5
      omega
    exact_mod_cast h6
  · unfold reserve_random_empty_barber_chair
    rw [Int.toNat_of_nonneg hn] at hres
    have hfree1 : ((List.countP empty_barber_chair
        (List.take w.shop.numChairs.toNat w.shop.barberChair) : Nat) : Int) > 0 := by
      exact_mod_cast hfree
    have hcast : (res : Int) - 1 = ((res - 1 : Nat) : Int) := by omega
    have hrd : rd w.shop.barberChair ((res - 1 : Nat) : Int) = some w.shop.barberChair[res - 1] := by
      rw [rd_natCast, List.getElem?_eq_getElem h3]
    have hwr := fun v => wr_natCast w.shop.barberChair (res - 1) v h3
    have hens : ((res - 1 : Nat) : Int) ≥ 0 ∧ ((res - 1 : Nat) : Int) < w.shop.numChairs := by
      omega
    simp only [Nat.cast_zero] at hres
    simp only [run_bind, run_require, hid, decide_True, if_true,
      run_num_available_barber_chairs o _ hlen, hfree1, run_random_int, run_getShop, hres,
      run_defined_some, hcast, hrd, reserve_barber_chair, h4, run_pure, store_barber_chair, hwr,
      run_setShop, run_ensure, hens, and_self]

/-- Run of `reserve_random_empty_washbasin` in a shop with an empty basin:
the basin chosen is the empty basin with `draw mod k` empty basins before it,
`k` being the number of empty basins. -/
theorem reserve_random_empty_washbasin_run (barberID : Int) (o : Oracle) (w : World)
    (hn : 0 ≤ w.shop.numWashbasins) (hlen : w.shop.numWashbasins.toNat ≤ w.shop.washbasin.length)
    (hid : barberID > 0)
    (hfree : 0 < (w.shop.washbasin.take w.shop.numWashbasins.toNat).countP empty_washbasin) :
    ∃ (pos : Nat) (hp : pos < w.shop.washbasin.length),
      pos < w.shop.numWashbasins.toNat ∧ empty_washbasin w.shop.washbasin[pos] = true ∧
      (w.shop.washbasin.take pos).countP empty_washbasin
        = o.random w.draws %
            (w.shop.washbasin.take w.shop.numWashbasins.toNat).countP empty_washbasin ∧
      reserve_random_empty_washbasin barberID o w
        = .ok (pos : Int)
            { w with
              shop := { w.shop with
                washbasin := w.shop.washbasin.set pos
                  { w.shop.washbasin[pos] with barberID := barberID } },
              draws := w.draws + 1 } := by
  have hb := random_draw_bounds (o.random w.draws) _ hfree
  obtain ⟨res, hres, h1, h2, ⟨h3, h4⟩, h5⟩ := scanFree_nth w.shop.washbasin empty_washbasin
    w.shop.numWashbasins.toNat hlen w.shop.numWashbasins.toNat 0 _ (by omega) hb.1 (by simpa using hb.2)
  have hk1 : (1 : Int) ≤ ((List.countP empty_washbasin
      (List.take w.shop.numWashbasins.toNat w.shop.washbasin) : Nat) : Int) := by
    exact_mod_cast hfree
  refine ⟨res - 1, h3, by omega, h4, ?_, ?_⟩
  · simp only [List.drop_zero, if_pos hk1] at h5
    have h6 : (((List.countP empty_washbasin (List.take (res - 1) w.shop.washbasin) : Nat)
        : Int)) = ((o.random w.draws % (List.countP empty_washbasin
          (List.take w.shop.numWashbasins.toNat w.shop.washbasin)) : Nat) : Int) := by
      push_cast
      have e : ((List.countP empty_washbasin
          (List.take w.shop.numWashbasins.toNat w.shop.washbasin) : Nat) : Int) - 1 + 1
          = ((List.countP empty_washbasin
            (List.take w.shop.numWashbasins.toNat w.shop.washbasin) : Nat) : Int) := by ring
      rw [e] at h5
      omega
    exact_mod_cast h6
  · unfold reserve_random_empty_washbasin
    rw [Int.toNat_of_nonneg hn] at hres
    have hfree1 : ((List.countP empty_washbasin
        (List.take w.shop.numWashbasins.toNat w.shop.washbasin) : Nat) : Int) > 0 := by
      exact_mod_cast hfree
    have hcast : (res : Int) - 1 = ((res - 1 : Nat) : Int) := by omega
    have hrd : rd w.shop.washbasin ((res - 1 : Nat) : Int) = some w.shop.washbasin[res - 1] := by
      rw [rd_natCast, List.getElem?_eq_getElem h3]
    have hwr := fun v => wr_natCast w.shop.washbasin (res - 1) v h3
    have hens : ((res - 1 : Nat) : Int) ≥ 0 ∧ ((res - 1 : Nat) : Int) < w.shop.numWashbasins := by
      omega
    simp only [Nat.cast_zero] at hres
    simp only [run_bind, run_require, hid, decide_True, if_true,
      run_num_available_washbasin o _ hlen, hfree1, run_random_int, run_getShop, hres,
      run_defined_some, hcast, hrd, reserve_washbasin, h4, run_pure, store_washbasin, hwr,
      run_setShop, run_ensure, hens, and_self]

/-- C12: for every shop record whose chair (resp. basin) array holds the
declared number of slots, with at least one empty chair (resp. basin), every
`barberID > 0` and every random draw, `reserve_random_empty_barber_chair` (resp.
`reserve_random_empty_washbasin`) returns a position `pos` with
`0 <= pos < numChairs` (resp. `numWashbasins`), so its final `ensure` holds; the
slot at `pos` was empty before the call, it now holds the reservation of
`barberID`, no other slot is modified and the rest of the shop record is
unchanged. -/
theorem reserve_random_empty_reserves_free_slot (barberID : Int) (o : Oracle) (w : World)
    (hid : barberID > 0) :
    (0 ≤ w.shop.numChairs → w.shop.numChairs.toNat ≤ w.shop.barberChair.length →
      (∃ c ∈ w.shop.barberChair.take w.shop.numChairs.toNat, empty_barber_chair c = true) →
      ∃ (pos : Nat) (hp : pos < w.shop.barberChair.length),
        (reserve_random_empty_barber_chair barberID o w).value = some (pos : Int) ∧
        (pos : Int) < w.shop.numChairs ∧
        empty_barber_chair w.shop.barberChair[pos] = true ∧
        (reserve_random_empty_barber_chair barberID o w).state.shop.barberChair[pos]?
          = some { w.shop.barberChair[pos] with barberID := barberID } ∧
        (∀ j : Nat, j ≠ pos →
          (reserve_random_empty_barber_chair barberID o w).state.shop.barberChair[j]?
            = w.shop.barberChair[j]?) ∧
        (reserve_random_empty_barber_chair barberID o w).state.shop
          = { w.shop with barberChair :=
                (reserve_random_empty_barber_chair barberID o w).state.shop.barberChair }) ∧
    (0 ≤ w.shop.numWashbasins → w.shop.numWashbasins.toNat ≤ w.shop.washbasin.length →
      (∃ c ∈ w.shop.washbasin.take w.shop.numWashbasins.toNat, empty_washbasin c = true) →
      ∃ (pos : Nat) (hp : pos < w.shop.washbasin.length),
        (reserve_random_empty_washbasin barberID o w).value = some (pos : Int) ∧
        (pos : Int) < w.shop.numWashbasins ∧
        empty_washbasin w.shop.washbasin[pos] = true ∧
        (reserve_random_empty_washbasin barberID o w).state.shop.washbasin[pos]?
          = some { w.shop.washbasin[pos] with barberID := barberID } ∧
        (∀ j : Nat, j ≠ pos →
          (reserve_random_empty_washbasin barberID o w).state.shop.washbasin[j]?
            = w.shop.washbasin[j]?) ∧
        (reserve_random_empty_washbasin barberID o w).state.shop
          = { w.shop with washbasin :=
                (reserve_random_empty_washbasin barberID o w).state.shop.washbasin }) := by
  constructor
  · intro hn hlen ⟨c, hc, hce⟩
    obtain ⟨pos, hp, hlt, hempty, -, hrun⟩ := reserve_random_empty_barber_chair_run barberID o w
      hn hlen hid (List.countP_pos_iff.2 ⟨c, hc, hce⟩)
    refine ⟨pos, hp, ?_⟩
    rw [hrun]
    simp only [Res.value, Res.state]
    exact ⟨trivial, by omega, hempty, List.getElem?_set_self hp,
      fun j hj => List.getElem?_set_ne (Ne.symm hj), trivial⟩
  · intro hn hlen ⟨c, hc, hce⟩
    obtain ⟨pos, hp, hlt, hempty, -, hrun⟩ := reserve_random_empty_washbasin_run barberID o w
      hn hlen hid (List.countP_pos_iff.2 ⟨c, hc, hce⟩)
    refine ⟨pos, hp, ?_⟩
    rw [hrun]
    simp only [Res.value, Res.state]
    exact ⟨trivial, by omega, hempty, List.getElem?_set_self hp,
      fun j hj => List.getElem?_set_ne (Ne.symm hj), trivial⟩

/-- Witness of C12: barber 1 reserves the chair and the basin of the sample
shop. -/
theorem reserve_random_empty_reserves_free_slot_witness :
    (∃ (pos : Nat) (_ : pos < (world23 [0, 0, 0]).shop.barberChair.length),
      (reserve_random_empty_barber_chair 1 quiet (world23 [0, 0, 0])).value = some (pos : Int)) ∧
    (∃ (pos : Nat) (_ : pos < (world23 [0, 0, 0]).shop.washbasin.length),
      (reserve_random_empty_washbasin 1 quiet (world23 [0, 0, 0])).value = some (pos : Int)) :=
  have h := reserve_random_empty_reserves_free_slot 1 quiet (world23 [0, 0, 0]) (by decide)
  have h1 := h.1 (by decide) (by decide) ⟨freeChair 1, by decide, by decide⟩
  have h2 := h.2 (by decide) (by decide) ⟨freeBasin 1, by decide, by decide⟩
  ⟨h1.elim fun pos hx => hx.elim fun hp hy => ⟨pos, hp, hy.1⟩,
   h2.elim fun pos hx => hx.elim fun hp hy => ⟨pos, hp, hy.1⟩⟩

/-- C13: in a shop record with `k >= 1` empty chairs (resp. basins) among its
slots, `reserve_random_empty_barber_chair` (resp. `reserve_random_empty_washbasin`)
returns the empty slot that has exactly `r - 1` empty slots before it, `r`
being the draw `1 + raw mod k` in `1..k`: the `r`-th empty slot in increasing
position order.  Every empty slot is returned for some draw, and two draws that
give the same position are the same draw: the map from the draws `1..k` to the
returned positions is a bijection onto the empty slots. -/
theorem reserve_random_empty_picks_nth (barberID : Int) (o : Oracle) (w : World)
    (hid : barberID > 0) :
    (0 ≤ w.shop.numChairs → w.shop.numChairs.toNat ≤ w.shop.barberChair.length →
      0 < (w.shop.barberChair.take w.shop.numChairs.toNat).countP empty_barber_chair →
      (∃ (pos : Nat) (hp : pos < w.shop.barberChair.length),
        (reserve_random_empty_barber_chair barberID o w).value = some (pos : Int) ∧
        pos < w.shop.numChairs.toNat ∧
        empty_barber_chair w.shop.barberChair[pos] = true ∧
        (w.shop.barberChair.take pos).countP empty_barber_chair + 1
          = 1 + o.random w.draws %
              (w.shop.barberChair.take w.shop.numChairs.toNat).countP empty_barber_chair) ∧
      (∀ (q : Nat) (hq : q < w.shop.barberChair.length), q < w.shop.numChairs.toNat →
        empty_barber_chair w.shop.barberChair[q] = true →
        ∃ o2 : Oracle, (reserve_random_empty_barber_chair barberID o2 w).value = some (q : Int)) ∧
      (∀ o2 : Oracle,
        (reserve_random_empty_barber_chair barberID o2 w).value
          = (reserve_random_empty_barber_chair barberID o w).value →
        o2.random w.draws %
            (w.shop.barberChair.take w.shop.numChairs.toNat).countP empty_barber_chair
          = o.random w.draws %
            (w.shop.barberChair.take w.shop.numChairs.toNat).countP empty_barber_chair)) ∧
    (0 ≤ w.shop.numWashbasins → w.shop.numWashbasins.toNat ≤ w.shop.washbasin.length →
      0 < (w.shop.washbasin.take w.shop.numWashbasins.toNat).countP empty_washbasin →
      (∃ (pos : Nat) (hp : pos < w.shop.washbasin.length),
        (reserve_random_empty_washbasin barberID o w).value = some (pos : Int) ∧
        pos < w.shop.numWashbasins.toNat ∧
        empty_washbasin w.shop.washbasin[pos] = true ∧
        (w.shop.washbasin.take pos).countP empty_washbasin + 1
          = 1 + o.random w.draws %
              (w.shop.washbasin.take w.shop.numWashbasins.toNat).countP empty_washbasin) ∧
      (∀ (q : Nat) (hq : q < w.shop.washbasin.length), q < w.shop.numWashbasins.toNat →
        empty_washbasin w.shop.washbasin[q] = true →
        ∃ o2 : Oracle, (reserve_random_empty_washbasin barberID o2 w).value = some (q : Int)) ∧
      (∀ o2 : Oracle,
        (reserve_random_empty_washbasin barberID o2 w).value
          = (reserve_random_empty_washbasin barberID o w).value →
        o2.random w.draws %
            (w.shop.washbasin.take w.shop.numWashbasins.toNat).countP empty_washbasin
          = o.random w.draws %
            (w.shop.washbasin.take w.shop.numWashbasins.toNat).countP empty_washbasin)) := by
  constructor
  · intro hn hlen hfree
    obtain ⟨pos, hp, hlt, hempty, hcount, hrun⟩ :=
      reserve_random_empty_barber_chair_run barberID o w hn hlen hid hfree
    refine ⟨⟨pos, hp, by rw [hrun]; rfl, hlt, hempty, by omega⟩, fun q hq hqn hqe => ?_,
      fun o2 h2 => ?_⟩
    · have hlt2 := countP_take_lt w.shop.barberChair empty_barber_chair q w.shop.numChairs.toNat
        hq hqn hqe
      obtain ⟨p2, hp2, -, hempty2, hcount2, hrun2⟩ := reserve_random_empty_barber_chair_run barberID
        { others := o.others,
          random := fun _ => (w.shop.barberChair.take q).countP empty_barber_chair } w hn hlen hid
        hfree
      refine ⟨Oracle.mk o.others fun _ =>
        (w.shop.barberChair.take q).countP empty_barber_chair, ?_⟩
      rw [hrun2]
      simp only [Nat.mod_eq_of_lt hlt2] at hcount2
      have := countP_take_inj w.shop.barberChair empty_barber_chair p2 q hp2 hq hempty2 hqe hcount2
      subst this
      rfl
    · obtain ⟨p2, hp2, -, hempty2, hcount2, hrun2⟩ :=
        reserve_random_empty_barber_chair_run barberID o2 w hn hlen hid hfree
      rw [hrun, hrun2] at h2
      simp only [Res.value, Option.some.injEq, Nat.cast_inj] at h2
      subst h2
      omega
  · intro hn hlen hfree
    obtain ⟨pos, hp, hlt, hempty, hcount, hrun⟩ :=
      reserve_random_empty_washbasin_run barberID o w hn hlen hid hfree
    refine ⟨⟨pos, hp, by rw [hrun]; rfl, hlt, hempty, by omega⟩, fun q hq hqn hqe => ?_,
      fun o2 h2 => ?_⟩
    · have hlt2 := countP_take_lt w.shop.washbasin empty_washbasin q w.shop.numWashbasins.toNat
        hq hqn hqe
      obtain ⟨p2, hp2, -, hempty2, hcount2, hrun2⟩ := reserve_random_empty_washbasin_run barberID
        { others := o.others,
          random := fun _ => (w.shop.washbasin.take q).countP empty_washbasin } w hn hlen hid
        hfree
      refine ⟨Oracle.mk o.others fun _ =>
        (w.shop.washbasin.take q).countP empty_washbasin, ?_⟩
      rw [hrun2]
      simp only [Nat.mod_eq_of_lt hlt2] at hcount2
      have := countP_take_inj w.shop.washbasin empty_washbasin p2 q hp2 hq hempty2 hqe hcount2
      subst this
      rfl
    · obtain ⟨p2, hp2, -, hempty2, hcount2, hrun2⟩ :=
        reserve_random_empty_washbasin_run barberID o2 w hn hlen hid hfree
      rw [hrun, hrun2] at h2
      simp only [Res.value, Option.some.injEq, Nat.cast_inj] at h2
      subst h2
      omega

/-- Witness of C13: barber 1 reserves a chair in the sample shop. -/
theorem reserve_random_empty_picks_nth_witness :
    ∃ (pos : Nat) (_ : pos < (world23 [0, 0, 0]).shop.barberChair.length),
      (reserve_random_empty_barber_chair 1 quiet (world23 [0, 0, 0])).value = some (pos : Int) ∧
      empty_barber_chair (world23 [0, 0, 0]).shop.barberChair[pos] = true :=
  have h := (reserve_random_empty_picks_nth 1 quiet (world23 [0, 0, 0]) (by decide)).1
    (by decide) (by decide) (by decide)
  h.1.elim fun pos hx => hx.elim fun hp hy => ⟨pos, hp, hy.1, hy.2.2.1⟩

/-! ### Specifications over the barber and shop records -/

/-! ### Specifications on the local records -/

theorem quiet_pure {α : Type} (a : α) : Quiet (pure a : M α) :=
  ⟨fun _ _ => ⟨rfl, rfl, fun h => (by cases h)⟩⟩

theorem quiet_bind {α β : Type} (m : M α) (f : α → M β) (hm : Quiet m) (hf : ∀ a, Quiet (f a)) :
    Quiet (m >>= f) := by
  refine ⟨fun o w => ?_⟩
  have h1 := hm.keeps o w
  rw [run_bind]
  cases h : m o w with
  | ok a w1 =>
    rw [h] at h1
    have h2 := (hf a).keeps o w1
    simp only [Res.state] at h1
    exact ⟨h2.1.trans h1.1, h2.2.1.trans h1.2.1, h2.2.2⟩
  | fail e w1 =>
    rw [h] at h1
    exact h1

theorem quiet_ite {α : Type} (c : Prop) [Decidable c] (a b : M α) (h1 : Quiet a) (h2 : Quiet b) :
    Quiet (if c then a else b) := by
  split_ifs <;> assumption

theorem quiet_busyWait (cond : M Bool) (h : Quiet cond) (k : Nat) : Quiet (busyWait cond k) := by
  induction k with
  | zero => exact ⟨fun _ _ => ⟨rfl, rfl, fun h => (by cases h)⟩⟩
  | succ k ih =>
    unfold busyWait
    exact quiet_bind _ _ h fun c => quiet_ite _ _ _ ih (quiet_pure _)

theorem quiet_of_critical {α : Type} (m : M α) (h : Critical m) : Quiet m := by
  obtain ⟨f, l, hf⟩ := h.once
  refine ⟨fun o w => ?_⟩
  rw [hf]
  rcases f (o.others w.clock w.bci) with _ | ⟨_ | a, b⟩ <;>
    exact ⟨rfl, rfl, fun h => (by cases h)⟩

theorem quiet_getW : Quiet getW := ⟨fun _ _ => ⟨rfl, rfl, fun h => (by cases h)⟩⟩

theorem quiet_getBarber : Quiet getBarber := ⟨fun _ _ => ⟨rfl, rfl, fun h => (by cases h)⟩⟩

theorem quiet_getShop : Quiet getShop := ⟨fun _ _ => ⟨rfl, rfl, fun h => (by cases h)⟩⟩

theorem quiet_defined {α : Type} (x : Option α) : Quiet (defined x) := by
  cases x <;> exact ⟨fun _ _ => ⟨rfl, rfl, fun h => (by cases h)⟩⟩

theorem quiet_spend (t : Int) : Quiet (spend t) := quiet_pure _

theorem quiet_random_int (lo hi : Int) : Quiet (random_int lo hi) :=
  ⟨fun o w => by rw [run_random_int]; exact ⟨rfl, rfl, fun h => (by cases h)⟩⟩

theorem quiet_log_barber : Quiet log_barber :=
  ⟨fun o w => by rw [run_log_barber]; exact ⟨rfl, rfl, fun h => (by cases h)⟩⟩

theorem quiet_bci_set_state (barberID state : Int) : Quiet (bci_set_state barberID state) :=
  quiet_of_critical _ (critical_bci_set_state _ _)

theorem quiet_bci_get_state (barberID : Int) : Quiet (bci_get_state barberID) :=
  quiet_of_critical _ (critical_read _)

theorem quiet_bci_get_next_request (clientID : Int) : Quiet (bci_get_next_request clientID) :=
  quiet_of_critical _ (critical_bci_get_next_request _)

theorem quiet_bci_get_request (clientID : Int) : Quiet (bci_get_request clientID) :=
  quiet_of_critical _ (critical_read _)

theorem quiet_bci_did_request (clientID : Int) : Quiet (bci_did_request clientID) :=
  quiet_of_critical _ (critical_bci_did_request _)

theorem quiet_bci_set_service (barberID : Int) (s : Service) : Quiet (bci_set_service barberID s) :=
  quiet_of_critical _ (critical_write _)

theorem quiet_bci_set_syncBBChair (c : BarberChair) (barberID : Int) :
    Quiet (bci_set_syncBBChair c barberID) :=
  quiet_of_critical _ (critical_write _)

theorem quiet_bci_get_syncBBChair (barberID : Int) : Quiet (bci_get_syncBBChair barberID) :=
  quiet_of_critical _ (critical_read _)

theorem quiet_bci_set_syncWashbasin (c : Washbasin) (barberID : Int) :
    Quiet (bci_set_syncWashbasin c barberID) :=
  quiet_of_critical _ (critical_write _)

theorem quiet_bci_get_syncWashbasin (barberID : Int) : Quiet (bci_get_syncWashbasin barberID) :=
  quiet_of_critical _ (critical_read _)

theorem spec_pre {α : Type} {P P1 : Barber → BarberShop → Prop} {m : M α}
    {Q : α → Barber → BarberShop → Prop} {R : Err → Barber → BarberShop → Prop}
    (h : Spec P1 m Q R) (hp : ∀ b s, P b s → P1 b s) : Spec P m Q R :=
  ⟨fun o w a w1 hP hr => h.ok o w a w1 (hp _ _ hP) hr,
   fun o w e w1 hP hr => h.fail o w e w1 (hp _ _ hP) hr⟩

theorem spec_post {α : Type} {P : Barber → BarberShop → Prop} {m : M α}
    {Q Q1 : α → Barber → BarberShop → Prop} {R R1 : Err → Barber → BarberShop → Prop}
    (h : Spec P m Q1 R1) (hq : ∀ a b s, Q1 a b s → Q a b s) (hr : ∀ e b s, R1 e b s → R e b s) :
    Spec P m Q R :=
  ⟨fun o w a w1 hP hrun => hq _ _ _ (h.ok o w a w1 hP hrun),
   fun o w e w1 hP hrun => hr _ _ _ (h.fail o w e w1 hP hrun)⟩

/-- The precondition may name the records the computation starts with. -/
theorem spec_ghost {α : Type} {P : Barber → BarberShop → Prop} {m : M α}
    {Q : α → Barber → BarberShop → Prop} {R : Err → Barber → BarberShop → Prop}
    (h : ∀ b0 s0, P b0 s0 → Spec (fun b s => b = b0 ∧ s = s0) m Q R) : Spec P m Q R :=
  ⟨fun o w a w1 hP hr => (h _ _ hP).ok o w a w1 ⟨rfl, rfl⟩ hr,
   fun o w e w1 hP hr => (h _ _ hP).fail o w e w1 ⟨rfl, rfl⟩ hr⟩

theorem spec_bind {α β : Type} {P : Barber → BarberShop → Prop} {m : M α} {f : α → M β}
    {Mid : α → Barber → BarberShop → Prop} {Q : β → Barber → BarberShop → Prop}
    {R : Err → Barber → BarberShop → Prop}
    (hf : ∀ a, Spec (Mid a) (f a) Q R) (hm : Spec P m Mid R) : Spec P (m >>= f) Q R := by
  constructor
  · intro o w a w1 hP hr
    rw [run_bind] at hr
    cases h : m o w with
    | ok x w2 =>
      rw [h] at hr
      exact (hf x).ok o w2 a w1 (hm.ok o w x w2 hP h) hr
    | fail e w2 =>
      rw [h] at hr
      cases hr
  · intro o w e w1 hP hr
    rw [run_bind] at hr
    cases h : m o w with
    | ok x w2 =>
      rw [h] at hr
      exact (hf x).fail o w2 e w1 (hm.ok o w x w2 hP h) hr
    | fail e2 w2 =>
      rw [h] at hr
      cases hr
      exact hm.fail o w e w1 hP h

theorem spec_ite {α : Type} {P Pt Pe : Barber → BarberShop → Prop} (c : Prop) [Decidable c]
    {t e : M α} {Q : α → Barber → BarberShop → Prop} {R : Err → Barber → BarberShop → Prop}
    (ht : Spec Pt t Q R) (he : Spec Pe e Q R)
    (hP : ∀ b s, P b s → (c → Pt b s) ∧ (¬ c → Pe b s)) : Spec P (if c then t else e) Q R := by
  by_cases hc : c
  · rw [if_pos hc]
    exact spec_pre ht fun b s h => (hP b s h).1 hc
  · rw [if_neg hc]
    exact spec_pre he fun b s h => (hP b s h).2 hc

theorem spec_pure {α : Type} (a : α) (Q : α → Barber → BarberShop → Prop)
    (R : Err → Barber → BarberShop → Prop) : Spec (Q a) (pure a : M α) Q R :=
  ⟨fun o w x w1 hP hr => (by cases hr; exact hP), fun o w e w1 _ hr => (by cases hr)⟩

theorem spec_getBarber (Q : Barber → Barber → BarberShop → Prop)
    (R : Err → Barber → BarberShop → Prop) : Spec (fun b s => Q b b s) getBarber Q R :=
  ⟨fun o w x w1 hP hr => (by cases hr; exact hP), fun o w e w1 _ hr => (by cases hr)⟩

theorem spec_getShop (Q : BarberShop → Barber → BarberShop → Prop)
    (R : Err → Barber → BarberShop → Prop) : Spec (fun b s => Q s b s) getShop Q R :=
  ⟨fun o w x w1 hP hr => (by cases hr; exact hP), fun o w e w1 _ hr => (by cases hr)⟩

theorem spec_modifyBarber (f : Barber → Barber) (Q : Unit → Barber → BarberShop → Prop)
    (R : Err → Barber → BarberShop → Prop) :
    Spec (fun b s => Q () (f b) s) (modifyBarber f) Q R :=
  ⟨fun o w x w1 hP hr => (by cases hr; exact hP), fun o w e w1 _ hr => (by cases hr)⟩

theorem spec_setShop (shop : BarberShop) (Q : Unit → Barber → BarberShop → Prop)
    (R : Err → Barber → BarberShop → Prop) : Spec (fun b _ => Q () b shop) (setShop shop) Q R :=
  ⟨fun o w x w1 hP hr => (by cases hr; exact hP), fun o w e w1 _ hr => (by cases hr)⟩

theorem spec_require (c : Bool) (Q : Unit → Barber → BarberShop → Prop)
    (R : Err → Barber → BarberShop → Prop) :
    Spec (fun b s => (c = true → Q () b s) ∧ (c = false → R Err.violation b s)) (require c) Q R := by
  cases c
  · exact ⟨fun o w x w1 _ hr => (by cases hr), fun o w e w1 hP hr => (by cases hr; exact hP.2 rfl)⟩
  · exact ⟨fun o w x w1 hP hr => (by cases hr; exact hP.1 rfl), fun o w e w1 _ hr => (by cases hr)⟩

theorem spec_ensure (c : Bool) (Q : Unit → Barber → BarberShop → Prop)
    (R : Err → Barber → BarberShop → Prop) :
    Spec (fun b s => (c = true → Q () b s) ∧ (c = false → R Err.violation b s)) (ensure c) Q R :=
  spec_require c Q R

theorem spec_defined {α : Type} (x : Option α) (Q : α → Barber → BarberShop → Prop)
    (R : Err → Barber → BarberShop → Prop) :
    Spec (fun b s => (∀ a, x = some a → Q a b s) ∧ (x = none → R Err.undefined b s)) (defined x)
      Q R := by
  cases x
  · exact ⟨fun o w x w1 _ hr => (by cases hr), fun o w e w1 hP hr => (by cases hr; exact hP.2 rfl)⟩
  · exact ⟨fun o w x w1 hP hr => (by cases hr; exact hP.1 _ rfl), fun o w e w1 _ hr => (by cases hr)⟩

theorem spec_quiet {α : Type} {m : M α} (h : Quiet m) (Q : α → Barber → BarberShop → Prop)
    (R : Err → Barber → BarberShop → Prop) :
    Spec (fun b s => (∀ a, Q a b s) ∧ ∀ e, e ≠ Err.violation → R e b s) m Q R := by
  constructor
  · intro o w a w1 hP hr
    have := h.keeps o w
    rw [hr] at this
    simp only [Res.state] at this
    rw [this.1, this.2.1]
    exact hP.1 a
  · intro o w e w1 hP hr
    have := h.keeps o w
    rw [hr] at this
    simp only [Res.state, Res.error] at this
    rw [this.1, this.2.1]
    exact hP.2 e fun he => this.2.2 (by rw [he])

theorem spec_busyWait {cond : M Bool} (h : Quiet cond) (k : Nat)
    (Q : Unit → Barber → BarberShop → Prop) (R : Err → Barber → BarberShop → Prop) :
    Spec (fun b s => (∀ a, Q a b s) ∧ ∀ e, e ≠ Err.violation → R e b s) (busyWait cond k) Q R :=
  spec_quiet (quiet_busyWait _ h k) Q R

theorem spec_abort {α : Type} (e : Err) (Q : α → Barber → BarberShop → Prop)
    (R : Err → Barber → BarberShop → Prop) : Spec (fun b s => R e b s) (abort e : M α) Q R :=
  ⟨fun o w x w1 _ hr => (by cases hr), fun o w e1 w1 hP hr => (by cases hr; exact hP)⟩

theorem spec_getW (Q : World → Barber → BarberShop → Prop)
    (R : Err → Barber → BarberShop → Prop) :
    Spec (fun b s => ∀ w : World, w.barber = b → w.shop = s → Q w b s) getW Q R :=
  ⟨fun o w x w1 hP hr => (by cases hr; exact hP _ rfl rfl), fun o w e w1 _ hr => (by cases hr)⟩

theorem spec_random_int (lo hi : Int) (Q : Int → Barber → BarberShop → Prop)
    (R : Err → Barber → BarberShop → Prop) :
    Spec (fun b s => ∀ r, (lo ≤ hi → lo ≤ r ∧ r ≤ hi) → Q r b s) (random_int lo hi) Q R := by
  constructor
  · intro o w a w1 hP hr
    rw [run_random_int] at hr
    cases hr
    refine hP _ fun hle => ?_
    rw [if_pos hle]
    have h0 : (0 : Int) < hi - lo + 1 := by omega
    have := Int.emod_nonneg (o.random w.draws : Int) (ne_of_gt h0)
    have := Int.emod_lt_of_pos (o.random w.draws : Int) h0
    constructor <;> omega
  · intro o w e w1 _ hr
    rw [run_random_int] at hr
    cases hr


theorem spec_use {α : Type} {P : Barber → BarberShop → Prop} {m : M α}
    {Q1 : α → Barber → BarberShop → Prop} {R1 : Err → Barber → BarberShop → Prop}
    (h : Spec P m Q1 R1) (Q : α → Barber → BarberShop → Prop)
    (R : Err → Barber → BarberShop → Prop) :
    Spec (fun b s => P b s ∧ (∀ a b1 s1, Q1 a b1 s1 → Q a b1 s1) ∧
      ∀ e b1 s1, R1 e b1 s1 → R e b1 s1) m Q R :=
  ⟨fun o w a w1 hP hr => hP.2.1 _ _ _ (h.ok o w a w1 hP.1 hr),
   fun o w e w1 hP hr => hP.2.2 _ _ _ (h.fail o w e w1 hP.1 hr)⟩

theorem spec_assume {α : Type} {φ : Prop} {P : Barber → BarberShop → Prop} {m : M α}
    {Q : α → Barber → BarberShop → Prop} {R : Err → Barber → BarberShop → Prop}
    (h : φ → Spec P m Q R) : Spec (fun b s => φ ∧ P b s) m Q R :=
  ⟨fun o w a w1 hP hr => (h hP.1).ok o w a w1 hP.2 hr,
   fun o w e w1 hP hr => (h hP.1).fail o w e w1 hP.2 hr⟩

theorem run_bci_get_next_request (clientID : Int) (o : Oracle) (w : World) :
    bci_get_next_request clientID o w
      = match rd (o.others w.clock w.bci).clientRequests (clientID - 1) with
        | some r => .ok (if r ≥ 4 then 4 else if r ≥ 2 then 2 else 1)
            { w with bci := o.others w.clock w.bci, clock := w.clock + 1 }
        | none => .fail Err.undefined
            { w with
              bci := o.others w.clock w.bci, clock := w.clock + 1, held := w.held + 1 } := by
  unfold bci_get_next_request
  simp only [run_bind, run_lock, run_bus]
  cases h : rd (o.others w.clock w.bci).clientRequests (clientID - 1) <;>
    simp [h, run_unlock, run_pure]

theorem spec_bci_get_next_request (clientID : Int) (Q : Int → Barber → BarberShop → Prop)
    (R : Err → Barber → BarberShop → Prop) :
    Spec (fun b s => (∀ r : Int, r = 1 ∨ r = 2 ∨ r = 4 → Q r b s) ∧ R Err.undefined b s)
      (bci_get_next_request clientID) Q R := by
  constructor
  · intro o w a w1 hP hr
    rw [run_bci_get_next_request] at hr
    cases h : rd (o.others w.clock w.bci).clientRequests (clientID - 1) with
    | none => rw [h] at hr; cases hr
    | some r =>
      rw [h] at hr
      cases hr
      refine hP.1 _ ?_
      split_ifs <;> simp
  · intro o w e w1 hP hr
    rw [run_bci_get_next_request] at hr
    cases h : rd (o.others w.clock w.bci).clientRequests (clientID - 1) with
    | none => rw [h] at hr; cases hr; exact hP.2
    | some r => rw [h] at hr; cases hr

theorem spec_chair_completion_loop (b0 : Barber) (s0 : BarberShop) (steps slice : Int)
    (hs : 0 ≤ Int.tdiv 100 steps) :
    ∀ (k : Nat) (complete : Int), 0 ≤ complete →
      Spec (fun b s => SameBarber b0 b ∧ SameShop s0 s)
        (chair_completion_loop steps slice k complete)
        (fun _ b s => SameBarber b0 b ∧ SameShop s0 s)
        (fun e b s => SameBarber b0 b ∧ SameShop s0 s ∧
          (0 ≤ b0.chairPosition ∧ b0.chairPosition < s0.numChairs → e ≠ Err.violation)) := by
  intro k
  induction k with
  | zero =>
    intro complete _
    unfold chair_completion_loop
    exact spec_pre (spec_abort _ _ _) fun b s h => ⟨h.1, h.2, fun _ he => (by cases he)⟩
  | succ k ih =>
    intro complete hc
    have hc1 : 0 ≤ (if complete + Int.tdiv 100 steps > 100 then 100
        else complete + Int.tdiv 100 steps) := by
      split_ifs <;> omega
    have hc2 : (if complete + Int.tdiv 100 steps > 100 then 100
        else complete + Int.tdiv 100 steps) ≤ 100 := by
      split_ifs <;> omega
    unfold chair_completion_loop barber_chair store_barber_chair set_completion_barber_chair spend
    apply spec_pre
    ·
      repeat' (first
        | with_reducible exact fun _ _ h => h
        | intro _
        | with_reducible exact ih _ hc1
        | with_reducible exact spec_pure _ _ _
        | with_reducible exact spec_getBarber _ _
        | with_reducible exact spec_getShop _ _
        | with_reducible exact spec_getW _ _
        | with_reducible exact spec_modifyBarber _ _ _
        | with_reducible exact spec_setShop _ _ _
        | with_reducible exact spec_require _ _ _
        | with_reducible exact spec_ensure _ _ _
        | with_reducible exact spec_defined _ _ _
        | with_reducible exact spec_random_int _ _ _ _
        | with_reducible exact spec_bci_get_next_request _ _ _
        | with_reducible exact quiet_pure _
        | with_reducible exact quiet_getShop
        | with_reducible exact quiet_getBarber
        | with_reducible exact quiet_defined _
        | with_reducible exact quiet_bci_get_state _
        | with_reducible apply spec_busyWait
        | with_reducible apply spec_bind
        | with_reducible apply spec_ite
        | with_reducible apply spec_quiet
        | with_reducible exact quiet_log_barber
        | with_reducible exact quiet_bci_set_state _ _
        | with_reducible exact quiet_bci_get_request _
        | with_reducible exact quiet_bci_did_request _
        | with_reducible exact quiet_bci_set_service _ _
        | with_reducible exact quiet_bci_set_syncBBChair _ _
        | with_reducible exact quiet_bci_get_syncBBChair _
        | with_reducible exact quiet_bci_set_syncWashbasin _ _
        | with_reducible exact quiet_bci_get_syncWashbasin _
        | with_reducible exact quiet_spend _
        | with_reducible apply quiet_bind)
    · intro b s h
      simp only [SameBarber, SameShop, valid_barber_chair_pos] at h ⊢
      obtain ⟨⟨h1, h2, h3, h4, h5, h6⟩, h7, h8, h9⟩ := h
      simp
      repeat' (first | apply And.intro | intro _)
      all_goals first | assumption | omega

theorem spec_basin_completion_loop (b0 : Barber) (s0 : BarberShop) (steps washes : Int)
    (hs : 0 ≤ Int.tdiv 100 steps) :
    ∀ (k : Nat) (complete : Int), 0 ≤ complete →
      Spec (fun b s => SameBarber b0 b ∧ SameShop s0 s)
        (basin_completion_loop steps washes k complete)
        (fun _ b s => SameBarber b0 b ∧ SameShop s0 s)
        (fun e b s => SameBarber b0 b ∧ SameShop s0 s ∧
          (0 ≤ b0.basinPosition ∧ b0.basinPosition < s0.numWashbasins → e ≠ Err.violation)) := by
  intro k
  induction k with
  | zero =>
    intro complete _
    unfold basin_completion_loop
    exact spec_pre (spec_abort _ _ _) fun b s h => ⟨h.1, h.2, fun _ he => (by cases he)⟩
  | succ k ih =>
    intro complete hc
    have hc1 : 0 ≤ (if complete + Int.tdiv 100 steps > 100 then 100
        else complete + Int.tdiv 100 steps) := by
      split_ifs <;> omega
    have hc2 : (if complete + Int.tdiv 100 steps > 100 then 100
        else complete + Int.tdiv 100 steps) ≤ 100 := by
      split_ifs <;> omega
    unfold basin_completion_loop washbasin store_washbasin set_completion_washbasin spend
    apply spec_pre
    ·
      repeat' (first
        | with_reducible exact fun _ _ h => h
        | intro _
        | with_reducible exact ih _ hc1
        | with_reducible exact spec_pure _ _ _
        | with_reducible exact spec_getBarber _ _
        | with_reducible exact spec_getShop _ _
        | with_reducible exact spec_getW _ _
        | with_reducible exact spec_modifyBarber _ _ _
        | with_reducible exact spec_setShop _ _ _
        | with_reducible exact spec_require _ _ _
        | with_reducible exact spec_ensure _ _ _
        | with_reducible exact spec_defined _ _ _
        | with_reducible exact spec_random_int _ _ _ _
        | with_reducible exact spec_bci_get_next_request _ _ _
        | with_reducible exact quiet_pure _
        | with_reducible exact quiet_getShop
        | with_reducible exact quiet_getBarber
        | with_reducible exact quiet_defined _
        | with_reducible exact quiet_bci_get_state _
        | with_reducible apply spec_busyWait
        | with_reducible apply spec_bind
        | with_reducible apply spec_ite
        | with_reducible apply spec_quiet
        | with_reducible exact quiet_log_barber
        | with_reducible exact quiet_bci_set_state _ _
        | with_reducible exact quiet_bci_get_request _
        | with_reducible exact quiet_bci_did_request _
        | with_reducible exact quiet_bci_set_service _ _
        | with_reducible exact quiet_bci_set_syncBBChair _ _
        | with_reducible exact quiet_bci_get_syncBBChair _
        | with_reducible exact quiet_bci_set_syncWashbasin _ _
        | with_reducible exact quiet_bci_get_syncWashbasin _
        | with_reducible exact quiet_spend _
        | with_reducible apply quiet_bind)
    · intro b s h
      simp only [SameBarber, SameShop, valid_washbasin_pos] at h ⊢
      obtain ⟨⟨h1, h2, h3, h4, h5, h6⟩, h7, h8, h9⟩ := h
      simp
      repeat' (first | apply And.intro | intro _)
      all_goals first | assumption | omega

theorem tdiv_steps_nonneg (steps : Int) (h : (5 : Int) ≤ 20 → 5 ≤ steps ∧ steps ≤ 20) :
    0 ≤ Int.tdiv 100 steps :=
  Int.tdiv_nonneg (by omega) (by have := h (by omega); omega)

set_option maxHeartbeats 2000000 in
theorem spec_process_service (fuel : Nat) (b0 : Barber) (s0 : BarberShop) :
    Spec (fun b s => b = b0 ∧ s = s0) (process_service fuel)
      (fun _ b s => SameBarber b0 b ∧ SameShop s0 s)
      (fun e b s => SameBarber b0 b ∧ SameShop s0 s ∧ (ReadyToServe b0 s0 → e ≠ Err.violation)) := by
  unfold process_service load_barber_chair load_washbasin barber_chair washbasin
    store_barber_chair store_washbasin process_haircut_request process_hairwash_request
    process_shave_request
  apply spec_pre
  ·
    repeat' (first
      | with_reducible exact fun _ _ h => h
      | intro _
      | with_reducible exact spec_assume fun h => spec_use (spec_chair_completion_loop b0 s0 _ _ (tdiv_steps_nonneg _ h) fuel 0 (le_refl 0)) _ _
      | with_reducible exact spec_assume fun h => spec_use (spec_basin_completion_loop b0 s0 _ _ (tdiv_steps_nonneg _ h) fuel 0 (le_refl 0)) _ _
      | with_reducible exact spec_pure _ _ _
      | with_reducible exact spec_getBarber _ _
      | with_reducible exact spec_getShop _ _
      | with_reducible exact spec_getW _ _
      | with_reducible exact spec_modifyBarber _ _ _
      | with_reducible exact spec_setShop _ _ _
      | with_reducible exact spec_require _ _ _
      | with_reducible exact spec_ensure _ _ _
      | with_reducible exact spec_defined _ _ _
      | with_reducible exact spec_random_int _ _ _ _
      | with_reducible exact spec_bci_get_next_request _ _ _
      | with_reducible exact quiet_pure _
      | with_reducible exact quiet_getShop
      | with_reducible exact quiet_getBarber
      | with_reducible exact quiet_defined _
      | with_reducible exact quiet_bci_get_state _
      | with_reducible apply spec_busyWait
      | with_reducible apply spec_bind
      | with_reducible apply spec_ite
      | with_reducible apply spec_quiet
      | with_reducible exact quiet_log_barber
      | with_reducible exact quiet_bci_set_state _ _
      | with_reducible exact quiet_bci_get_request _
      | with_reducible exact quiet_bci_did_request _
      | with_reducible exact quiet_bci_set_service _ _
      | with_reducible exact quiet_bci_set_syncBBChair _ _
      | with_reducible exact quiet_bci_get_syncBBChair _
      | with_reducible exact quiet_bci_set_syncWashbasin _ _
      | with_reducible exact quiet_bci_get_syncWashbasin _
      | with_reducible exact quiet_spend _
      | with_reducible apply quiet_bind)
  · intro b s h
    obtain ⟨rfl, rfl⟩ := h
    simp only [SameBarber, SameShop, valid_barber_chair_pos, valid_washbasin_pos]
    simp
    repeat' (first | apply And.intro | intro _)
    all_goals first | assumption | omega | skip
    all_goals simp only [ReadyToServe] at *
    all_goals first | omega | simp_all

theorem quiet_inform_client_on_service (service : Service) :
    Quiet (inform_client_on_service service) := by
  unfold inform_client_on_service
  repeat' (first
    | intro _
    | with_reducible exact quiet_pure _
    | with_reducible exact quiet_getShop
    | with_reducible exact quiet_getBarber
    | with_reducible exact quiet_getW
    | with_reducible exact quiet_defined _
    | with_reducible exact quiet_log_barber
    | with_reducible exact quiet_bci_set_state _ _
    | with_reducible exact quiet_bci_get_state _
    | with_reducible exact quiet_bci_get_request _
    | with_reducible exact quiet_bci_did_request _
    | with_reducible exact quiet_bci_set_service _ _
    | with_reducible apply quiet_busyWait
    | with_reducible apply quiet_bind
    | with_reducible apply quiet_ite)

theorem quiet_process_inform : Quiet process_inform := by
  unfold process_inform
  exact quiet_bind _ _ quiet_getBarber fun _ => quiet_inform_client_on_service _

theorem quiet_process_wait_sit (fuel : Nat) : Quiet (process_wait_sit fuel) := by
  unfold process_wait_sit
  repeat' (first
    | intro _
    | with_reducible exact quiet_pure _
    | with_reducible exact quiet_getShop
    | with_reducible exact quiet_getBarber
    | with_reducible exact quiet_getW
    | with_reducible exact quiet_defined _
    | with_reducible exact quiet_log_barber
    | with_reducible exact quiet_bci_set_state _ _
    | with_reducible exact quiet_bci_get_state _
    | with_reducible exact quiet_bci_get_request _
    | with_reducible exact quiet_bci_did_request _
    | with_reducible exact quiet_bci_set_service _ _
    | with_reducible apply quiet_busyWait
    | with_reducible apply quiet_bind
    | with_reducible apply quiet_ite)

theorem quiet_process_finish : Quiet process_finish := by
  unfold process_finish
  repeat' (first
    | intro _
    | with_reducible exact quiet_pure _
    | with_reducible exact quiet_getShop
    | with_reducible exact quiet_getBarber
    | with_reducible exact quiet_getW
    | with_reducible exact quiet_defined _
    | with_reducible exact quiet_log_barber
    | with_reducible exact quiet_bci_set_state _ _
    | with_reducible exact quiet_bci_get_state _
    | with_reducible exact quiet_bci_get_request _
    | with_reducible exact quiet_bci_did_request _
    | with_reducible exact quiet_bci_set_service _ _
    | with_reducible apply quiet_busyWait
    | with_reducible apply quiet_bind
    | with_reducible apply quiet_ite)

theorem spec_call {α : Type} {m : M α}
    {Q1 : Barber → BarberShop → α → Barber → BarberShop → Prop}
    {R1 : Barber → BarberShop → Err → Barber → BarberShop → Prop}
    (h : ∀ b0 s0, Spec (fun b s => b = b0 ∧ s = s0) m (Q1 b0 s0) (R1 b0 s0))
    (Q : α → Barber → BarberShop → Prop) (R : Err → Barber → BarberShop → Prop) :
    Spec (fun b0 s0 => (∀ a b s, Q1 b0 s0 a b s → Q a b s) ∧ ∀ e b s, R1 b0 s0 e b s → R e b s)
      m Q R :=
  ⟨fun o w a w1 hP hr => hP.1 _ _ _ ((h _ _).ok o w a w1 ⟨rfl, rfl⟩ hr),
   fun o w e w1 hP hr => hP.2 _ _ _ ((h _ _).fail o w e w1 ⟨rfl, rfl⟩ hr)⟩

theorem spec_of_quiet {α : Type} {m : M α} (h : Quiet m) (b0 : Barber) (s0 : BarberShop) :
    Spec (fun b s => b = b0 ∧ s = s0) m (fun _ b s => b = b0 ∧ s = s0)
      (fun e b s => b = b0 ∧ s = s0 ∧ e ≠ Err.violation) :=
  spec_pre (spec_quiet h _ _) fun _ _ hP => ⟨fun _ => hP, fun _ he => ⟨hP.1, hP.2, he⟩⟩

set_option maxHeartbeats 2000000 in
theorem spec_process_reserve (fuel : Nat) (b0 : Barber) (s0 : BarberShop) :
    Spec (fun b s => b = b0 ∧ s = s0) (process_reserve fuel)
      (fun _ b s => b.id = b0.id ∧ b.clientID = b0.clientID ∧ b.tools = b0.tools ∧
        SameShop s0 s ∧ (b.reqToDo = 1 ∨ b.reqToDo = 2 ∨ b.reqToDo = 4) ∧
        (b.reqToDo ≠ 2 →
          (0 ≤ b.chairPosition ∧ b.chairPosition < s.numChairs) ∧
          b.basinPosition = b0.basinPosition ∧ s.washbasin = s0.washbasin ∧
          ∃ c0, rd s0.barberChair b.chairPosition = some c0 ∧ empty_barber_chair c0 = true ∧
            rd s.barberChair b.chairPosition = some { c0 with barberID := b.id }) ∧
        (b.reqToDo = 2 →
          (0 ≤ b.basinPosition ∧ b.basinPosition < s.numWashbasins) ∧
          b.chairPosition = b0.chairPosition ∧ s.barberChair = s0.barberChair ∧
          ∃ c0, rd s0.washbasin b.basinPosition = some c0 ∧ empty_washbasin c0 = true ∧
            rd s.washbasin b.basinPosition = some { c0 with barberID := b.id }))
      (fun _ b s => b.tools = b0.tools ∧ s.toolsPot = s0.toolsPot) := by
  unfold process_reserve reserve_random_empty_barber_chair reserve_random_empty_washbasin
    num_available_barber_chairs num_available_washbasin barber_chair washbasin store_barber_chair
    store_washbasin reserve_barber_chair reserve_washbasin
  apply spec_pre
  ·
    repeat' (first
      | with_reducible exact fun _ _ h => h
      | intro _
      | with_reducible exact spec_pure _ _ _
      | with_reducible exact spec_getBarber _ _
      | with_reducible exact spec_getShop _ _
      | with_reducible exact spec_getW _ _
      | with_reducible exact spec_modifyBarber _ _ _
      | with_reducible exact spec_setShop _ _ _
      | with_reducible exact spec_require _ _ _
      | with_reducible exact spec_ensure _ _ _
      | with_reducible exact spec_defined _ _ _
      | with_reducible exact spec_random_int _ _ _ _
      | with_reducible exact spec_bci_get_next_request _ _ _
      | with_reducible exact quiet_pure _
      | with_reducible exact quiet_getShop
      | with_reducible exact quiet_getBarber
      | with_reducible exact quiet_defined _
      | with_reducible exact quiet_bci_get_state _
      | with_reducible apply spec_busyWait
      | with_reducible apply spec_bind
      | with_reducible apply spec_ite
      | with_reducible apply spec_quiet
      | with_reducible exact quiet_log_barber
      | with_reducible exact quiet_bci_set_state _ _
      | with_reducible exact quiet_bci_get_request _
      | with_reducible exact quiet_bci_did_request _
      | with_reducible exact quiet_bci_set_service _ _
      | with_reducible exact quiet_bci_set_syncBBChair _ _
      | with_reducible exact quiet_bci_get_syncBBChair _
      | with_reducible exact quiet_bci_set_syncWashbasin _ _
      | with_reducible exact quiet_bci_get_syncWashbasin _
      | with_reducible exact quiet_spend _
      | with_reducible apply quiet_bind)
  · intro b s h
    obtain ⟨rfl, rfl⟩ := h
    simp only [SameShop, valid_barber_chair_pos, valid_washbasin_pos]
    simp
    repeat' (first | apply And.intro | intro _)
    all_goals first | assumption | omega | skip
    all_goals exact ⟨_, by assumption, by assumption, rd_wr_same _ _ _ _ (by assumption)⟩

set_option maxHeartbeats 2000000 in
theorem spec_process_pick_tools (fuel : Nat) (b0 : Barber) (s0 : BarberShop) :
    Spec (fun b s => b = b0 ∧ s = s0) (process_pick_tools fuel)
      (fun _ b s => b.id = b0.id ∧ b.clientID = b0.clientID ∧ b.reqToDo = b0.reqToDo ∧
        b.chairPosition = b0.chairPosition ∧ b.basinPosition = b0.basinPosition ∧
        s.numChairs = s0.numChairs ∧ s.numWashbasins = s0.numWashbasins ∧
        (b0.reqToDo = 1 → b.tools = b0.tools + 1 + 2 ∧
          0 < s0.toolsPot.availScissors ∧ 0 < s0.toolsPot.availCombs ∧
          s.toolsPot.availScissors = s0.toolsPot.availScissors - 1 ∧
          s.toolsPot.availCombs = s0.toolsPot.availCombs - 1 ∧
          s.toolsPot.availRazors = s0.toolsPot.availRazors) ∧
        (b0.reqToDo = 4 → b.tools = b0.tools + 4 ∧ 0 < s0.toolsPot.availRazors ∧
          s.toolsPot.availScissors = s0.toolsPot.availScissors ∧
          s.toolsPot.availCombs = s0.toolsPot.availCombs ∧
          s.toolsPot.availRazors = s0.toolsPot.availRazors - 1) ∧
        (b0.reqToDo ≠ 1 → b0.reqToDo ≠ 4 → b.tools = b0.tools ∧
          s.toolsPot.availScissors = s0.toolsPot.availScissors ∧
          s.toolsPot.availCombs = s0.toolsPot.availCombs ∧
          s.toolsPot.availRazors = s0.toolsPot.availRazors))
      (fun _ _ s =>
        (s.toolsPot.availScissors = s0.toolsPot.availScissors ∨
          (0 < s0.toolsPot.availScissors ∧
            s.toolsPot.availScissors = s0.toolsPot.availScissors - 1)) ∧
        (s.toolsPot.availCombs = s0.toolsPot.availCombs ∨
          (0 < s0.toolsPot.availCombs ∧ s.toolsPot.availCombs = s0.toolsPot.availCombs - 1)) ∧
        (s.toolsPot.availRazors = s0.toolsPot.availRazors ∨
          (0 < s0.toolsPot.availRazors ∧
            s.toolsPot.availRazors = s0.toolsPot.availRazors - 1))) := by
  unfold process_pick_tools hold_tool load_barber_chair barber_chair store_barber_chair
    store_tools_pot pick_scissor pick_comb pick_razor tools_pot
  apply spec_pre
  ·
    repeat' (first
      | with_reducible exact fun _ _ h => h
      | intro _
      | with_reducible exact spec_pure _ _ _
      | with_reducible exact spec_getBarber _ _
      | with_reducible exact spec_getShop _ _
      | with_reducible exact spec_getW _ _
      | with_reducible exact spec_modifyBarber _ _ _
      | with_reducible exact spec_setShop _ _ _
      | with_reducible exact spec_require _ _ _
      | with_reducible exact spec_ensure _ _ _
      | with_reducible exact spec_defined _ _ _
      | with_reducible exact spec_random_int _ _ _ _
      | with_reducible exact spec_bci_get_next_request _ _ _
      | with_reducible exact quiet_pure _
      | with_reducible exact quiet_getShop
      | with_reducible exact quiet_getBarber
      | with_reducible exact quiet_defined _
      | with_reducible exact quiet_bci_get_state _
      | with_reducible apply spec_busyWait
      | with_reducible apply spec_bind
      | with_reducible apply spec_ite
      | with_reducible apply spec_quiet
      | with_reducible exact quiet_log_barber
      | with_reducible exact quiet_bci_set_state _ _
      | with_reducible exact quiet_bci_get_request _
      | with_reducible exact quiet_bci_did_request _
      | with_reducible exact quiet_bci_set_service _ _
      | with_reducible exact quiet_bci_set_syncBBChair _ _
      | with_reducible exact quiet_bci_get_syncBBChair _
      | with_reducible exact quiet_bci_set_syncWashbasin _ _
      | with_reducible exact quiet_bci_get_syncWashbasin _
      | with_reducible exact quiet_spend _
      | with_reducible apply quiet_bind)
  · intro b s h
    obtain ⟨rfl, rfl⟩ := h
    simp only [valid_barber_chair_pos]
    simp
    repeat' (first | apply And.intro | intro _)
    all_goals first | assumption | omega

theorem spec_process_wait_rise (fuel : Nat) (b0 : Barber) (s0 : BarberShop) :
    Spec (fun b s => b = b0 ∧ s = s0) (process_wait_rise fuel)
      (fun _ b s => SameBarber b0 b ∧ s = s0) (fun _ b s => SameBarber b0 b ∧ s = s0) := by
  unfold process_wait_rise
  apply spec_pre
  ·
    repeat' (first
      | with_reducible exact fun _ _ h => h
      | intro _
      | with_reducible exact spec_pure _ _ _
      | with_reducible exact spec_getBarber _ _
      | with_reducible exact spec_getShop _ _
      | with_reducible exact spec_getW _ _
      | with_reducible exact spec_modifyBarber _ _ _
      | with_reducible exact spec_setShop _ _ _
      | with_reducible exact spec_require _ _ _
      | with_reducible exact spec_ensure _ _ _
      | with_reducible exact spec_defined _ _ _
      | with_reducible exact spec_random_int _ _ _ _
      | with_reducible exact spec_bci_get_next_request _ _ _
      | with_reducible exact quiet_pure _
      | with_reducible exact quiet_getShop
      | with_reducible exact quiet_getBarber
      | with_reducible exact quiet_defined _
      | with_reducible exact quiet_bci_get_state _
      | with_reducible apply spec_busyWait
      | with_reducible apply spec_bind
      | with_reducible apply spec_ite
      | with_reducible apply spec_quiet
      | with_reducible exact quiet_log_barber
      | with_reducible exact quiet_bci_set_state _ _
      | with_reducible exact quiet_bci_get_request _
      | with_reducible exact quiet_bci_did_request _
      | with_reducible exact quiet_bci_set_service _ _
      | with_reducible exact quiet_bci_set_syncBBChair _ _
      | with_reducible exact quiet_bci_get_syncBBChair _
      | with_reducible exact quiet_bci_set_syncWashbasin _ _
      | with_reducible exact quiet_bci_get_syncWashbasin _
      | with_reducible exact quiet_spend _
      | with_reducible apply quiet_bind)
  · intro b s h
    obtain ⟨rfl, rfl⟩ := h
    simp [SameBarber]

set_option maxHeartbeats 2000000 in
theorem spec_process_return_tools (b0 : Barber) (s0 : BarberShop) :
    Spec (fun b s => b = b0 ∧ s = s0) process_return_tools
      (fun _ b s => b.id = b0.id ∧ b.clientID = b0.clientID ∧ b.reqToDo = b0.reqToDo ∧
        b.chairPosition = b0.chairPosition ∧ b.basinPosition = b0.basinPosition ∧
        s.numChairs = s0.numChairs ∧ s.numWashbasins = s0.numWashbasins ∧
        (b0.reqToDo = 1 → b.tools = b0.tools - 1 - 2 ∧
          s.toolsPot.availScissors = s0.toolsPot.availScissors + 1 ∧
          s.toolsPot.availCombs = s0.toolsPot.availCombs + 1 ∧
          s.toolsPot.availRazors = s0.toolsPot.availRazors) ∧
        (b0.reqToDo = 4 → b.tools = b0.tools - 4 ∧
          s.toolsPot.availScissors = s0.toolsPot.availScissors ∧
          s.toolsPot.availCombs = s0.toolsPot.availCombs ∧
          s.toolsPot.availRazors = s0.toolsPot.availRazors + 1) ∧
        (b0.reqToDo ≠ 1 → b0.reqToDo ≠ 4 → b.tools = b0.tools ∧
          s.toolsPot.availScissors = s0.toolsPot.availScissors ∧
          s.toolsPot.availCombs = s0.toolsPot.availCombs ∧
          s.toolsPot.availRazors = s0.toolsPot.availRazors))
      (fun _ _ s =>
        (s.toolsPot.availScissors = s0.toolsPot.availScissors ∨
          (b0.reqToDo = 1 ∧ s.toolsPot.availScissors = s0.toolsPot.availScissors + 1)) ∧
        (s.toolsPot.availCombs = s0.toolsPot.availCombs ∨
          (b0.reqToDo = 1 ∧ s.toolsPot.availCombs = s0.toolsPot.availCombs + 1)) ∧
        (s.toolsPot.availRazors = s0.toolsPot.availRazors ∨
          (b0.reqToDo = 4 ∧ s.toolsPot.availRazors = s0.toolsPot.availRazors + 1))) := by
  unfold process_return_tools drop_tool load_barber_chair barber_chair store_barber_chair
    store_tools_pot return_scissor return_comb return_razor tools_pot
  apply spec_pre
  ·
    repeat' (first
      | with_reducible exact fun _ _ h => h
      | intro _
      | with_reducible exact spec_pure _ _ _
      | with_reducible exact spec_getBarber _ _
      | with_reducible exact spec_getShop _ _
      | with_reducible exact spec_getW _ _
      | with_reducible exact spec_modifyBarber _ _ _
      | with_reducible exact spec_setShop _ _ _
      | with_reducible exact spec_require _ _ _
      | with_reducible exact spec_ensure _ _ _
      | with_reducible exact spec_defined _ _ _
      | with_reducible exact spec_random_int _ _ _ _
      | with_reducible exact spec_bci_get_next_request _ _ _
      | with_reducible exact quiet_pure _
      | with_reducible exact quiet_getShop
      | with_reducible exact quiet_getBarber
      | with_reducible exact quiet_defined _
      | with_reducible exact quiet_bci_get_state _
      | with_reducible apply spec_busyWait
      | with_reducible apply spec_bind
      | with_reducible apply spec_ite
      | with_reducible apply spec_quiet
      | with_reducible exact quiet_log_barber
      | with_reducible exact quiet_bci_set_state _ _
      | with_reducible exact quiet_bci_get_request _
      | with_reducible exact quiet_bci_did_request _
      | with_reducible exact quiet_bci_set_service _ _
      | with_reducible exact quiet_bci_set_syncBBChair _ _
      | with_reducible exact quiet_bci_get_syncBBChair _
      | with_reducible exact quiet_bci_set_syncWashbasin _ _
      | with_reducible exact quiet_bci_get_syncWashbasin _
      | with_reducible exact quiet_spend _
      | with_reducible apply quiet_bind)
  · intro b s h
    obtain ⟨rfl, rfl⟩ := h
    simp only [valid_barber_chair_pos]
    simp
    repeat' (first | apply And.intro | intro _)
    all_goals first | assumption | omega

set_option maxHeartbeats 2000000 in
theorem spec_process_release (b0 : Barber) (s0 : BarberShop) :
    Spec (fun b s => b = b0 ∧ s = s0) process_release
      (fun _ b s => b.id = b0.id ∧ b.clientID = b0.clientID ∧ b.reqToDo = b0.reqToDo ∧
        b.tools = b0.tools ∧ SameShop s0 s ∧
        (b0.reqToDo = 1 ∨ b0.reqToDo = 4 →
          b.chairPosition = -1 ∧ b.basinPosition = b0.basinPosition ∧
          ∃ c, rd s.barberChair b0.chairPosition = some c ∧ c.barberID = 0 ∧ c.clientID = 0 ∧
            c.toolsHolded = 0 ∧ c.completionPercentage = 0) ∧
        (¬ (b0.reqToDo = 1 ∨ b0.reqToDo = 4) →
          b.basinPosition = -1 ∧ b.chairPosition = b0.chairPosition ∧
          ∃ c, rd s.washbasin b0.basinPosition = some c ∧ c.barberID = 0 ∧ c.clientID = 0 ∧
            c.completionPercentage = 0))
      (fun _ b s => b.tools = b0.tools ∧ s.toolsPot = s0.toolsPot) := by
  unfold process_release load_barber_chair load_washbasin barber_chair washbasin
    store_barber_chair store_washbasin release_barber_chair release_washbasin
  apply spec_pre
  ·
    repeat' (first
      | with_reducible exact fun _ _ h => h
      | intro _
      | with_reducible exact spec_pure _ _ _
      | with_reducible exact spec_getBarber _ _
      | with_reducible exact spec_getShop _ _
      | with_reducible exact spec_getW _ _
      | with_reducible exact spec_modifyBarber _ _ _
      | with_reducible exact spec_setShop _ _ _
      | with_reducible exact spec_require _ _ _
      | with_reducible exact spec_ensure _ _ _
      | with_reducible exact spec_defined _ _ _
      | with_reducible exact spec_random_int _ _ _ _
      | with_reducible exact spec_bci_get_next_request _ _ _
      | with_reducible exact quiet_pure _
      | with_reducible exact quiet_getShop
      | with_reducible exact quiet_getBarber
      | with_reducible exact quiet_defined _
      | with_reducible exact quiet_bci_get_state _
      | with_reducible apply spec_busyWait
      | with_reducible apply spec_bind
      | with_reducible apply spec_ite
      | with_reducible apply spec_quiet
      | with_reducible exact quiet_log_barber
      | with_reducible exact quiet_bci_set_state _ _
      | with_reducible exact quiet_bci_get_request _
      | with_reducible exact quiet_bci_did_request _
      | with_reducible exact quiet_bci_set_service _ _
      | with_reducible exact quiet_bci_set_syncBBChair _ _
      | with_reducible exact quiet_bci_get_syncBBChair _
      | with_reducible exact quiet_bci_set_syncWashbasin _ _
      | with_reducible exact quiet_bci_get_syncWashbasin _
      | with_reducible exact quiet_spend _
      | with_reducible apply quiet_bind)
  · intro b s h
    obtain ⟨rfl, rfl⟩ := h
    simp only [SameShop, valid_barber_chair_pos, valid_washbasin_pos]
    simp
    repeat' (first | apply And.intro | intro _)
    all_goals first | assumption | omega | skip
    all_goals first
      | exact ⟨_, rd_wr_same _ _ _ _ (by assumption), rfl, rfl, rfl, rfl⟩
      | exact ⟨_, rd_wr_same _ _ _ _ (by assumption), rfl, rfl, rfl⟩

set_option maxHeartbeats 4000000 in
theorem spec_iteration (fuel : Nat) (b0 : Barber) (s0 : BarberShop) :
    Spec (fun b s => b = b0 ∧ s = s0) (process_resquests_from_client_body fuel)
      (fun _ b s => IterationDone b0 s0 b s) (fun _ _ s => PotNear s0 s) := by
  unfold process_resquests_from_client_body
  apply spec_pre
  ·
    repeat' (first
      | with_reducible exact fun _ _ h => h
      | intro _
      | with_reducible exact spec_call (spec_process_reserve fuel) _ _
      | with_reducible exact spec_call (spec_of_quiet quiet_process_inform) _ _
      | with_reducible exact spec_call (spec_process_pick_tools fuel) _ _
      | with_reducible exact spec_call (spec_of_quiet (quiet_process_wait_sit fuel)) _ _
      | with_reducible exact spec_call (spec_process_service fuel) _ _
      | with_reducible exact spec_call (spec_process_wait_rise fuel) _ _
      | with_reducible exact spec_call spec_process_return_tools _ _
      | with_reducible exact spec_call spec_process_release _ _
      | with_reducible exact spec_call (spec_of_quiet quiet_process_finish) _ _
      | with_reducible exact spec_pure _ _ _
      | with_reducible exact spec_getBarber _ _
      | with_reducible exact spec_getShop _ _
      | with_reducible exact spec_getW _ _
      | with_reducible exact spec_modifyBarber _ _ _
      | with_reducible exact spec_setShop _ _ _
      | with_reducible exact spec_require _ _ _
      | with_reducible exact spec_ensure _ _ _
      | with_reducible exact spec_defined _ _ _
      | with_reducible exact spec_random_int _ _ _ _
      | with_reducible exact spec_bci_get_next_request _ _ _
      | with_reducible exact quiet_pure _
      | with_reducible exact quiet_getShop
      | with_reducible exact quiet_getBarber
      | with_reducible exact quiet_defined _
      | with_reducible exact quiet_bci_get_state _
      | with_reducible apply spec_busyWait
      | with_reducible apply spec_bind
      | with_reducible apply spec_ite
      | with_reducible apply spec_quiet
      | with_reducible exact quiet_log_barber
      | with_reducible exact quiet_bci_set_state _ _
      | with_reducible exact quiet_bci_get_request _
      | with_reducible exact quiet_bci_did_request _
      | with_reducible exact quiet_bci_set_service _ _
      | with_reducible exact quiet_bci_set_syncBBChair _ _
      | with_reducible exact quiet_bci_get_syncBBChair _
      | with_reducible exact quiet_bci_set_syncWashbasin _ _
      | with_reducible exact quiet_bci_get_syncWashbasin _
      | with_reducible exact quiet_spend _
      | with_reducible apply quiet_bind)
  · intro b s h
    obtain ⟨rfl, rfl⟩ := h
    simp only [SameShop, SameBarber]
    repeat' (first | with_reducible apply And.intro | intro _)
    all_goals try casesm* _ ∧ _
    all_goals subst_vars
    all_goals try casesm* _ ∨ _
    all_goals simp only [IterationDone, PotNear]
    all_goals try simp_all
    all_goals try (apply And.intro; omega)
    all_goals casesm* _ ∧ _, ∃ _, _
    all_goals (
      refine ⟨?_, ⟨?_, ?_⟩, ?_, ?hrd0, ?_, ?_, ?hrd1, ?_⟩
      case hrd0 => assumption
      case hrd1 => assumption
      all_goals first | assumption | (refine ⟨?_, ?_, ?_⟩ <;> assumption) |
        (refine ⟨?_, ?_, ?_, ?_⟩ <;> assumption))

theorem spec_process_resquests_from_client_body (fuel : Nat) (b0 : Barber) (s0 : BarberShop) :
    Spec (fun b s => b = b0 ∧ s = s0) (process_resquests_from_client_body fuel)
      (fun _ b s => b.tools = b0.tools ∧
        s.toolsPot.availScissors = s0.toolsPot.availScissors ∧
        s.toolsPot.availCombs = s0.toolsPot.availCombs ∧
        s.toolsPot.availRazors = s0.toolsPot.availRazors ∧
        (b.reqToDo = 1 ∨ b.reqToDo = 2 ∨ b.reqToDo = 4) ∧
        (b.reqToDo = 1 → 0 < s0.toolsPot.availScissors ∧ 0 < s0.toolsPot.availCombs) ∧
        (b.reqToDo = 4 → 0 < s0.toolsPot.availRazors) ∧
        (b.reqToDo ≠ 2 → b.chairPosition = -1 ∧
          ∃ pos c0 c, (0 ≤ pos ∧ pos < s.numChairs) ∧ rd s0.barberChair pos = some c0 ∧
            empty_barber_chair c0 = true ∧ rd s.barberChair pos = some c ∧
            c.barberID = 0 ∧ c.clientID = 0 ∧ c.toolsHolded = 0 ∧ c.completionPercentage = 0) ∧
        (b.reqToDo = 2 → b.basinPosition = -1 ∧
          ∃ pos c0 c, (0 ≤ pos ∧ pos < s.numWashbasins) ∧ rd s0.washbasin pos = some c0 ∧
            empty_washbasin c0 = true ∧ rd s.washbasin pos = some c ∧
            c.barberID = 0 ∧ c.clientID = 0 ∧ c.completionPercentage = 0))
      (fun _ _ s =>
        (s.toolsPot.availScissors = s0.toolsPot.availScissors ∨
          (0 < s0.toolsPot.availScissors ∧
            s.toolsPot.availScissors = s0.toolsPot.availScissors - 1)) ∧
        (s.toolsPot.availCombs = s0.toolsPot.availCombs ∨
          (0 < s0.toolsPot.availCombs ∧ s.toolsPot.availCombs = s0.toolsPot.availCombs - 1)) ∧
        (s.toolsPot.availRazors = s0.toolsPot.availRazors ∨
          (0 < s0.toolsPot.availRazors ∧
            s.toolsPot.availRazors = s0.toolsPot.availRazors - 1))) :=
  spec_iteration fuel b0 s0

/-! ### One service iteration -/

theorem ok_of_error_none {α : Type} (r : Res α) (h : r.error = none) :
    ∃ a, r = .ok a r.state := by
  cases r with
  | ok a w => exact ⟨a, rfl⟩
  | fail e w => simp [Res.error] at h

theorem fail_of_error_some {α : Type} (r : Res α) (e : Err) (h : r.error = some e) :
    r = .fail e r.state := by
  cases r with
  | ok a w => simp [Res.error] at h
  | fail e1 w =>
    simp only [Res.error, Option.some.injEq] at h
    subst h
    rfl

theorem outcome_cases {α : Type} (r : Res α) :
    (∃ a, r = .ok a r.state) ∨ ∃ e, r = .fail e r.state := by
  cases r with
  | ok a w => exact Or.inl ⟨a, rfl⟩
  | fail e w => exact Or.inr ⟨e, rfl⟩

theorem process_resquests_from_client_body_split (fuel : Nat) (o : Oracle) (w : World) :
    process_resquests_from_client_body fuel o w =
      (process_until_service fuel >>= fun _ => process_service fuel >>= fun _ =>
        process_wait_rise fuel >>= fun _ => process_return_tools >>= fun _ =>
        process_release >>= fun _ => process_finish) o w := by
  unfold process_resquests_from_client_body process_until_service
  simp only [run_bind, bind_assoc]
  cases process_reserve fuel o w with
  | fail e w1 => rfl
  | ok a w1 =>
    simp only []
    cases process_inform o w1 with
    | fail e w2 => rfl
    | ok a w2 =>
      simp only []
      cases process_pick_tools fuel o w2 with
      | fail e w3 => rfl
      | ok a w3 => simp only []

set_option maxHeartbeats 2000000 in
theorem spec_process_until_service (fuel : Nat) (b0 : Barber) (s0 : BarberShop) :
    Spec (fun b s => b = b0 ∧ s = s0) (process_until_service fuel)
      (fun _ b s => b.id = b0.id ∧ b.clientID = b0.clientID ∧
        (b.reqToDo = 1 ∨ b.reqToDo = 2 ∨ b.reqToDo = 4) ∧
        (b.reqToDo = 1 → b.tools = b0.tools + 1 + 2 ∧
          0 < s0.toolsPot.availScissors ∧ 0 < s0.toolsPot.availCombs ∧
          s.toolsPot.availScissors = s0.toolsPot.availScissors - 1 ∧
          s.toolsPot.availCombs = s0.toolsPot.availCombs - 1 ∧
          s.toolsPot.availRazors = s0.toolsPot.availRazors) ∧
        (b.reqToDo = 4 → b.tools = b0.tools + 4 ∧ 0 < s0.toolsPot.availRazors ∧
          s.toolsPot.availScissors = s0.toolsPot.availScissors ∧
          s.toolsPot.availCombs = s0.toolsPot.availCombs ∧
          s.toolsPot.availRazors = s0.toolsPot.availRazors - 1) ∧
        (b.reqToDo = 2 → b.tools = b0.tools ∧
          s.toolsPot.availScissors = s0.toolsPot.availScissors ∧
          s.toolsPot.availCombs = s0.toolsPot.availCombs ∧
          s.toolsPot.availRazors = s0.toolsPot.availRazors) ∧
        (b.reqToDo ≠ 2 → 0 ≤ b.chairPosition ∧ b.chairPosition < s.numChairs) ∧
        (b.reqToDo = 2 → 0 ≤ b.basinPosition ∧ b.basinPosition < s.numWashbasins))
      (fun _ _ _ => True) := by
  unfold process_until_service
  apply spec_pre
  ·
    repeat' (first
      | with_reducible exact fun _ _ h => h
      | intro _
      | with_reducible exact spec_call (spec_process_reserve fuel) _ _
      | with_reducible exact spec_call (spec_of_quiet quiet_process_inform) _ _
      | with_reducible exact spec_call (spec_process_pick_tools fuel) _ _
      | with_reducible exact spec_call (spec_of_quiet (quiet_process_wait_sit fuel)) _ _
      | with_reducible apply spec_bind)
  · intro b s h
    obtain ⟨rfl, rfl⟩ := h
    simp only [SameShop, SameBarber]
    repeat' (first | apply And.intro | intro _)
    all_goals try casesm* _ ∧ _
    all_goals subst_vars
    all_goals try casesm* _ ∨ _
    all_goals first | trivial | omega | (simp_all; done) | (simp_all; omega)

/-- C16: the service descriptor published in an iteration of
`process_resquests_from_client` names the slot reserved in that iteration.
Whenever the reservation part of an iteration (lines 266 to 293) returns, the
selected request is 1, 2 or 4.  For a haircut (1) or a shave (4) the chair at
the position stored in the barber record is valid, was empty before and is now
reserved to the barber, and `process_inform` publishes exactly the chair
descriptor built from the barber's id, the client's id, that chair position and
the selected bit.  For a wash (2) the same holds with the washbasin and the
washbasin descriptor.  Publishing means: the descriptor is handed to
`inform_client_on_service`, whose first critical section leaves it in the
service slot of the barber on the bus. -/
theorem published_service_names_reserved_slot (fuel : Nat) (o : Oracle) (w w1 : World)
    (h : process_reserve fuel o w = .ok () w1) :
    (w1.barber.reqToDo = 1 ∨ w1.barber.reqToDo = 2 ∨ w1.barber.reqToDo = 4) ∧
    (w1.barber.reqToDo ≠ 2 →
      (0 ≤ w1.barber.chairPosition ∧ w1.barber.chairPosition < w1.shop.numChairs) ∧
      (∃ c0, rd w.shop.barberChair w1.barber.chairPosition = some c0 ∧
        empty_barber_chair c0 = true ∧
        rd w1.shop.barberChair w1.barber.chairPosition
          = some { c0 with barberID := w.barber.id }) ∧
      w1.shop.washbasin = w.shop.washbasin ∧
      ∃ d : Service,
        d = set_barber_chair_service w.barber.id w.barber.clientID w1.barber.chairPosition
          w1.barber.reqToDo ∧
        (d.barberChair = 1 ∧ d.washbasin = 0 ∧ d.barberID = w.barber.id ∧
          d.clientID = w.barber.clientID ∧ d.pos = w1.barber.chairPosition ∧
          d.request = w1.barber.reqToDo) ∧
        process_inform o w1 = inform_client_on_service d o w1 ∧
        ∀ w2, bci_set_service d.barberID d o w1 = .ok () w2 →
          rd w2.bci.service (w.barber.id - 1) = some d) ∧
    (w1.barber.reqToDo = 2 →
      (0 ≤ w1.barber.basinPosition ∧ w1.barber.basinPosition < w1.shop.numWashbasins) ∧
      (∃ c0, rd w.shop.washbasin w1.barber.basinPosition = some c0 ∧
        empty_washbasin c0 = true ∧
        rd w1.shop.washbasin w1.barber.basinPosition
          = some { c0 with barberID := w.barber.id }) ∧
      w1.shop.barberChair = w.shop.barberChair ∧
      ∃ d : Service,
        d = set_washbasin_service w.barber.id w.barber.clientID w1.barber.basinPosition ∧
        (d.barberChair = 0 ∧ d.washbasin = 1 ∧ d.barberID = w.barber.id ∧
          d.clientID = w.barber.clientID ∧ d.pos = w1.barber.basinPosition) ∧
        process_inform o w1 = inform_client_on_service d o w1 ∧
        ∀ w2, bci_set_service d.barberID d o w1 = .ok () w2 →
          rd w2.bci.service (w.barber.id - 1) = some d) := by
  have hq := (spec_process_reserve fuel w.barber w.shop).ok o w () w1 ⟨rfl, rfl⟩ h
  obtain ⟨hid, hcl, -, -, hreq, hchair, hbasin⟩ := hq
  have hpub : ∀ (d : Service) (w2 : World), d.barberID = w.barber.id →
      bci_set_service d.barberID d o w1 = .ok () w2 →
      rd w2.bci.service (w.barber.id - 1) = some d := by
    intro d w2 hd hrun
    rw [run_bci_set_service] at hrun
    cases hw : wr (o.others w1.clock w1.bci).service (d.barberID - 1) d with
    | none => rw [hw] at hrun; cases hrun
    | some a =>
      rw [hw] at hrun
      cases hrun
      rw [← hd]
      exact rd_wr_same _ _ _ _ hw
  refine ⟨hreq, fun h2 => ?_, fun h2 => ?_⟩
  · obtain ⟨hpos, -, hw, c0, hc0, he, hc1⟩ := hchair h2
    have h14 : w1.barber.reqToDo = 1 ∨ w1.barber.reqToDo = 4 := by omega
    refine ⟨hpos, ⟨c0, hc0, he, by rw [hc1, hid]⟩, hw, _, rfl,
      ⟨rfl, rfl, rfl, rfl, rfl, rfl⟩, ?_, fun w2 => hpub _ w2 rfl⟩
    simp only [process_inform, run_bind, run_getBarber, if_pos h14, hid, hcl]
  · obtain ⟨hpos, -, hw, c0, hc0, he, hc1⟩ := hbasin h2
    have h14 : ¬ (w1.barber.reqToDo = 1 ∨ w1.barber.reqToDo = 4) := by omega
    refine ⟨hpos, ⟨c0, hc0, he, by rw [hc1, hid]⟩, hw, _, rfl,
      ⟨rfl, rfl, rfl, rfl, rfl⟩, ?_, fun w2 => hpub _ w2 rfl⟩
    simp only [process_inform, run_bind, run_getBarber, if_neg h14, hid, hcl]

/-- Witness of C16: barber 1 of the sample shop serves client 2, whose pending
request is 3; the reservation returns. -/
theorem published_service_names_reserved_slot_witness :
    process_reserve 30 promptClients (serving 2 [0, 3, 0])
      = .ok () (process_reserve 30 promptClients (serving 2 [0, 3, 0])).state ∧
    ((process_reserve 30 promptClients (serving 2 [0, 3, 0])).state.barber.reqToDo = 2 →
      ∃ d : Service,
        d = set_washbasin_service 1 2
          (process_reserve 30 promptClients (serving 2 [0, 3, 0])).state.barber.basinPosition ∧
        process_inform promptClients (process_reserve 30 promptClients (serving 2 [0, 3, 0])).state
          = inform_client_on_service d promptClients
            (process_reserve 30 promptClients (serving 2 [0, 3, 0])).state) :=
  have h : process_reserve 30 promptClients (serving 2 [0, 3, 0])
      = .ok () (process_reserve 30 promptClients (serving 2 [0, 3, 0])).state := by decide!
  ⟨h, fun h2 =>
    have ⟨_, _, _, d, hd, _, hi, _⟩ :=
      (published_service_names_reserved_slot 30 promptClients (serving 2 [0, 3, 0]) _ h).2.2 h2
    ⟨d, hd, hi⟩⟩

/-- C19: tools are balanced over one iteration of
`process_resquests_from_client`.  Start an iteration with every available count
of the pot between 0 and the configured number of tools.  Wherever the
iteration ends (it returns, or it stops at a wait or a check), every available
count is its starting value or, when that value was positive, one below it, so
it lies within 0 and the configured number.  When the iteration returns, the
pot is as it was at the start, the barber holds the tools it held at the start,
the selected request is 1, 2 or 4, scissors and combs were picked (haircut)
only with both counts positive at the start and the razor (shave) only with a
positive razor count, the position of the served chair or basin is reset to -1
and the slot that was reserved (empty at the start) is released, a chair with
no held tools. -/
theorem tools_balanced_over_iteration (fuel : Nat) (o : Oracle) (w : World)
    (hs : 0 ≤ w.shop.toolsPot.availScissors ∧ w.shop.toolsPot.availScissors ≤ w.shop.numScissors)
    (hc : 0 ≤ w.shop.toolsPot.availCombs ∧ w.shop.toolsPot.availCombs ≤ w.shop.numCombs)
    (hr : 0 ≤ w.shop.toolsPot.availRazors ∧ w.shop.toolsPot.availRazors ≤ w.shop.numRazors) :
    ((process_resquests_from_client_body fuel o w).state.shop.toolsPot.availScissors
        = w.shop.toolsPot.availScissors ∨
      (0 < w.shop.toolsPot.availScissors ∧
        (process_resquests_from_client_body fuel o w).state.shop.toolsPot.availScissors
          = w.shop.toolsPot.availScissors - 1)) ∧
    ((process_resquests_from_client_body fuel o w).state.shop.toolsPot.availCombs
        = w.shop.toolsPot.availCombs ∨
      (0 < w.shop.toolsPot.availCombs ∧
        (process_resquests_from_client_body fuel o w).state.shop.toolsPot.availCombs
          = w.shop.toolsPot.availCombs - 1)) ∧
    ((process_resquests_from_client_body fuel o w).state.shop.toolsPot.availRazors
        = w.shop.toolsPot.availRazors ∨
      (0 < w.shop.toolsPot.availRazors ∧
        (process_resquests_from_client_body fuel o w).state.shop.toolsPot.availRazors
          = w.shop.toolsPot.availRazors - 1)) ∧
    (0 ≤ (process_resquests_from_client_body fuel o w).state.shop.toolsPot.availScissors ∧
      (process_resquests_from_client_body fuel o w).state.shop.toolsPot.availScissors
        ≤ w.shop.numScissors) ∧
    (0 ≤ (process_resquests_from_client_body fuel o w).state.shop.toolsPot.availCombs ∧
      (process_resquests_from_client_body fuel o w).state.shop.toolsPot.availCombs
        ≤ w.shop.numCombs) ∧
    (0 ≤ (process_resquests_from_client_body fuel o w).state.shop.toolsPot.availRazors ∧
      (process_resquests_from_client_body fuel o w).state.shop.toolsPot.availRazors
        ≤ w.shop.numRazors) ∧
    ∀ w1, process_resquests_from_client_body fuel o w = .ok () w1 →
      w1.shop.toolsPot = w.shop.toolsPot ∧ w1.barber.tools = w.barber.tools ∧
      (w1.barber.reqToDo = 1 ∨ w1.barber.reqToDo = 2 ∨ w1.barber.reqToDo = 4) ∧
      (w1.barber.reqToDo = 1 →
        0 < w.shop.toolsPot.availScissors ∧ 0 < w.shop.toolsPot.availCombs) ∧
      (w1.barber.reqToDo = 4 → 0 < w.shop.toolsPot.availRazors) ∧
      (w1.barber.reqToDo ≠ 2 → w1.barber.chairPosition = -1 ∧
        ∃ pos c0 c, (0 ≤ pos ∧ pos < w1.shop.numChairs) ∧
          rd w.shop.barberChair pos = some c0 ∧ empty_barber_chair c0 = true ∧
          rd w1.shop.barberChair pos = some c ∧
          c.barberID = 0 ∧ c.clientID = 0 ∧ c.toolsHolded = 0 ∧ c.completionPercentage = 0) ∧
      (w1.barber.reqToDo = 2 → w1.barber.basinPosition = -1 ∧
        ∃ pos c0 c, (0 ≤ pos ∧ pos < w1.shop.numWashbasins) ∧
          rd w.shop.washbasin pos = some c0 ∧ empty_washbasin c0 = true ∧
          rd w1.shop.washbasin pos = some c ∧
          c.barberID = 0 ∧ c.clientID = 0 ∧ c.completionPercentage = 0) := by
  have hspec := spec_process_resquests_from_client_body fuel w.barber w.shop
  have hok : ∀ w1, process_resquests_from_client_body fuel o w = .ok () w1 →
      w1.shop.toolsPot = w.shop.toolsPot ∧ w1.barber.tools = w.barber.tools ∧
      (w1.barber.reqToDo = 1 ∨ w1.barber.reqToDo = 2 ∨ w1.barber.reqToDo = 4) ∧
      (w1.barber.reqToDo = 1 →
        0 < w.shop.toolsPot.availScissors ∧ 0 < w.shop.toolsPot.availCombs) ∧
      (w1.barber.reqToDo = 4 → 0 < w.shop.toolsPot.availRazors) ∧
      (w1.barber.reqToDo ≠ 2 → w1.barber.chairPosition = -1 ∧
        ∃ pos c0 c, (0 ≤ pos ∧ pos < w1.shop.numChairs) ∧
          rd w.shop.barberChair pos = some c0 ∧ empty_barber_chair c0 = true ∧
          rd w1.shop.barberChair pos = some c ∧
          c.barberID = 0 ∧ c.clientID = 0 ∧ c.toolsHolded = 0 ∧ c.completionPercentage = 0) ∧
      (w1.barber.reqToDo = 2 → w1.barber.basinPosition = -1 ∧
        ∃ pos c0 c, (0 ≤ pos ∧ pos < w1.shop.numWashbasins) ∧
          rd w.shop.washbasin pos = some c0 ∧ empty_washbasin c0 = true ∧
          rd w1.shop.washbasin pos = some c ∧
          c.barberID = 0 ∧ c.clientID = 0 ∧ c.completionPercentage = 0) := by
    intro w1 h1
    obtain ⟨ht, h1s, h1c, h1r, hrest⟩ := hspec.ok o w () w1 ⟨rfl, rfl⟩ h1
    refine ⟨?_, ht, hrest⟩
    cases hp1 : w1.shop.toolsPot
    cases hp0 : w.shop.toolsPot
    rw [hp1, hp0] at h1s h1c h1r
    simp only at h1s h1c h1r
    rw [h1s, h1c, h1r]
  have hany :
      ((process_resquests_from_client_body fuel o w).state.shop.toolsPot.availScissors
          = w.shop.toolsPot.availScissors ∨
        (0 < w.shop.toolsPot.availScissors ∧
          (process_resquests_from_client_body fuel o w).state.shop.toolsPot.availScissors
            = w.shop.toolsPot.availScissors - 1)) ∧
      ((process_resquests_from_client_body fuel o w).state.shop.toolsPot.availCombs
          = w.shop.toolsPot.availCombs ∨
        (0 < w.shop.toolsPot.availCombs ∧
          (process_resquests_from_client_body fuel o w).state.shop.toolsPot.availCombs
            = w.shop.toolsPot.availCombs - 1)) ∧
      ((process_resquests_from_client_body fuel o w).state.shop.toolsPot.availRazors
          = w.shop.toolsPot.availRazors ∨
        (0 < w.shop.toolsPot.availRazors ∧
          (process_resquests_from_client_body fuel o w).state.shop.toolsPot.availRazors
            = w.shop.toolsPot.availRazors - 1)) := by
    rcases outcome_cases (process_resquests_from_client_body fuel o w) with ⟨a, ha⟩ | ⟨e, he⟩
    · have h := (hok _ ha).1
      rw [h]
      exact ⟨Or.inl rfl, Or.inl rfl, Or.inl rfl⟩
    · exact hspec.fail o w e _ ⟨rfl, rfl⟩ he
  obtain ⟨a1, a2, a3⟩ := hany
  exact ⟨a1, a2, a3, by omega, by omega, by omega, hok⟩

/-- Witness of C19: barber 1 of the sample shop (one tool of each kind, all in
the pot) serves client 2, whose pending request is 3; the iteration returns. -/
theorem tools_balanced_over_iteration_witness :
    (process_resquests_from_client_body 30 promptClients (serving 2 [0, 3, 0])).error = none ∧
    (0 ≤ (process_resquests_from_client_body 30 promptClients
        (serving 2 [0, 3, 0])).state.shop.toolsPot.availScissors ∧
      (process_resquests_from_client_body 30 promptClients
        (serving 2 [0, 3, 0])).state.shop.toolsPot.availScissors ≤ 1) :=
  ⟨by decide!,
    (tools_balanced_over_iteration 30 promptClients (serving 2 [0, 3, 0])
      (by decide) (by decide) (by decide)).2.2.2.1⟩

/-- C20: a barber that starts an iteration of `process_resquests_from_client`
holding no tools holds, when the iteration reaches the service (line 348),
exactly the tools of the selected request: scissor and comb for a haircut (1),
razor for a shave (4), none for a wash (2), each taken from the pot one unit
per tool.  The tools that `process_haircut_request` and `process_shave_request`
require are held, the position of the reserved chair or basin is valid, and
the service step of the iteration never ends on a failed `require`. -/
theorem service_requires_hold (fuel : Nat) (o : Oracle) (w w4 : World)
    (h0 : w.barber.tools = 0)
    (h : process_until_service fuel o w = .ok () w4) :
    process_resquests_from_client_body fuel o w
      = (process_service fuel >>= fun _ => process_wait_rise fuel >>= fun _ =>
          process_return_tools >>= fun _ => process_release >>= fun _ => process_finish) o w4 ∧
    (w4.barber.reqToDo = 1 ∨ w4.barber.reqToDo = 2 ∨ w4.barber.reqToDo = 4) ∧
    (w4.barber.reqToDo = 1 →
      w4.barber.tools = SCISSOR_TOOL + COMB_TOOL ∧
      Int.land w4.barber.tools SCISSOR_TOOL ≠ 0 ∧ Int.land w4.barber.tools COMB_TOOL ≠ 0 ∧
      Int.land w4.barber.tools RAZOR_TOOL = 0 ∧
      w4.shop.toolsPot.availScissors = w.shop.toolsPot.availScissors - 1 ∧
      w4.shop.toolsPot.availCombs = w.shop.toolsPot.availCombs - 1 ∧
      w4.shop.toolsPot.availRazors = w.shop.toolsPot.availRazors) ∧
    (w4.barber.reqToDo = 4 →
      w4.barber.tools = RAZOR_TOOL ∧ Int.land w4.barber.tools RAZOR_TOOL ≠ 0 ∧
      w4.shop.toolsPot.availScissors = w.shop.toolsPot.availScissors ∧
      w4.shop.toolsPot.availCombs = w.shop.toolsPot.availCombs ∧
      w4.shop.toolsPot.availRazors = w.shop.toolsPot.availRazors - 1) ∧
    (w4.barber.reqToDo = 2 →
      w4.barber.tools = 0 ∧
      w4.shop.toolsPot.availScissors = w.shop.toolsPot.availScissors ∧
      w4.shop.toolsPot.availCombs = w.shop.toolsPot.availCombs ∧
      w4.shop.toolsPot.availRazors = w.shop.toolsPot.availRazors) ∧
    ReadyToServe w4.barber w4.shop ∧
    (process_service fuel o w4).error ≠ some Err.violation := by
  obtain ⟨-, -, hreq, h1, h4, h2, hch, hba⟩ :=
    (spec_process_until_service fuel w.barber w.shop).ok o w () w4 ⟨rfl, rfl⟩ h
  rw [h0] at h1 h4 h2
  have hready : ReadyToServe w4.barber w4.shop := by
    refine ⟨fun e1 => ?_, hba, fun e1 e2 => ?_⟩
    · have ht := (h1 e1).1
      have hp := hch (by omega)
      rw [ht]
      exact ⟨by decide, by decide, hp.1, hp.2⟩
    · have ht := (h4 (by omega)).1
      have hp := hch e2
      rw [ht]
      exact ⟨by decide, hp.1, hp.2⟩
  refine ⟨?_, hreq, fun e1 => ?_, fun e4 => ?_, h2, hready, ?_⟩
  · rw [process_resquests_from_client_body_split, run_bind, h]
  · obtain ⟨ht, -, -, hs, hc, hr⟩ := h1 e1
    rw [ht]
    exact ⟨by decide, by decide, by decide, by decide, hs, hc, hr⟩
  · obtain ⟨ht, -, hs, hc, hr⟩ := h4 e4
    rw [ht]
    exact ⟨by decide, by decide, hs, hc, hr⟩
  · intro he
    have hf := fail_of_error_some _ _ he
    exact ((spec_process_service fuel w4.barber w4.shop).fail o w4 _ _ ⟨rfl, rfl⟩ hf).2.2
      hready rfl

/-- Witness of C20: barber 1 of the sample shop, holding no tools, serves
client 2, whose pending request is 1 (haircut). -/
theorem service_requires_hold_witness :
    process_until_service 30 promptClients (serving 2 [0, 1, 0])
      = .ok () (process_until_service 30 promptClients (serving 2 [0, 1, 0])).state ∧
    (process_until_service 30 promptClients (serving 2 [0, 1, 0])).state.barber.reqToDo = 1 ∧
    (process_service 30 promptClients
      (process_until_service 30 promptClients (serving 2 [0, 1, 0])).state).error
        ≠ some Err.violation :=
  have h : process_until_service 30 promptClients (serving 2 [0, 1, 0])
      = .ok () (process_until_service 30 promptClients (serving 2 [0, 1, 0])).state := by decide!
  ⟨h, by decide!,
    (service_requires_hold 30 promptClients (serving 2 [0, 1, 0]) _ rfl h).2.2.2.2.2.2⟩

/-! ### Validation of ids on the bus -/

theorem run_bci_get_request (clientID : Int) (o : Oracle) (w : World) :
    bci_get_request clientID o w
      = match rd (o.others w.clock w.bci).clientRequests (clientID - 1) with
        | some r => .ok r { w with bci := o.others w.clock w.bci, clock := w.clock + 1 }
        | none => .fail Err.undefined
            { w with
              bci := o.others w.clock w.bci, clock := w.clock + 1, held := w.held + 1 } := by
  unfold bci_get_request
  simp only [run_bind, run_lock, run_bus]
  cases h : rd (o.others w.clock w.bci).clientRequests (clientID - 1) <;>
    simp [h, run_unlock, run_pure]

theorem rd_outside {α : Type} (a : List α) (i : Int) (h : i < 0 ∨ (a.length : Int) ≤ i) :
    rd a i = none := by
  unfold rd
  split_ifs with h0
  · exact List.getElem?_eq_none (by omega)
  · rfl

theorem wr_outside {α : Type} (a : List α) (i : Int) (v : α)
    (h : i < 0 ∨ (a.length : Int) ≤ i) : wr a i v = none := by
  unfold wr
  rw [if_neg]
  omega

theorem rd_inside {α : Type} (a : List α) (i : Int) (h0 : 0 ≤ i) (h1 : i < a.length) :
    ∃ x, rd a i = some x := by
  unfold rd
  rw [if_pos h0]
  have hlt : i.toNat < a.length := by omega
  exact ⟨a[i.toNat], List.getElem?_eq_getElem hlt⟩

theorem run_bci_set_request (clientID request : Int) (o : Oracle) (w : World) :
    bci_set_request clientID request o w
      = match wr (o.others w.clock w.bci).clientRequests (clientID - 1) request with
        | some a => .ok () { w with
            bci := { o.others w.clock w.bci with clientRequests := a }, clock := w.clock + 1 }
        | none => .fail Err.undefined { w with
            bci := o.others w.clock w.bci, clock := w.clock + 1, held := w.held + 1 } := by
  unfold bci_set_request
  simp only [run_bind, run_lock, run_busSet]
  cases wr (o.others w.clock w.bci).clientRequests (clientID - 1) request <;> simp [run_unlock]

theorem run_bci_grant_client_access (clientID : Int) (o : Oracle) (w : World) :
    bci_grant_client_access clientID o w
      = match wr (o.others w.clock w.bci).clientAccess (clientID - 1) 1 with
        | some a => .ok () { w with
            bci := { o.others w.clock w.bci with clientAccess := a }, clock := w.clock + 1 }
        | none => .fail Err.undefined { w with
            bci := o.others w.clock w.bci, clock := w.clock + 1, held := w.held + 1 } := by
  unfold bci_grant_client_access
  simp only [run_bind, run_lock, run_busSet]
  cases wr (o.others w.clock w.bci).clientAccess (clientID - 1) 1 <;> simp [run_unlock]

/-- C22 as stated fails: in the sample segment (two barbers, three clients)
the barber ids 0 and 3 and the client ids 0 and 4 are not rejected as a contract
violation: `bci_set_state`, `bci_get_state`, `bci_set_request`,
`bci_get_request` and `bci_grant_client_access` access the array at index -1 or
past its end, an access the C language leaves undefined. -/
theorem bci_operations_take_invalid_ids :
    (bci_set_state 0 PROCESSING quiet (world23 [0, 0, 0])).error = some Err.undefined ∧
    (bci_set_state 3 PROCESSING quiet (world23 [0, 0, 0])).error = some Err.undefined ∧
    (bci_get_state 0 quiet (world23 [0, 0, 0])).error = some Err.undefined ∧
    (bci_get_state 3 quiet (world23 [0, 0, 0])).error = some Err.undefined ∧
    (bci_set_request 0 1 quiet (world23 [0, 0, 0])).error = some Err.undefined ∧
    (bci_set_request 4 1 quiet (world23 [0, 0, 0])).error = some Err.undefined ∧
    (bci_get_request 0 quiet (world23 [0, 0, 0])).error = some Err.undefined ∧
    (bci_get_request 4 quiet (world23 [0, 0, 0])).error = some Err.undefined ∧
    (bci_grant_client_access 0 quiet (world23 [0, 0, 0])).error = some Err.undefined ∧
    (bci_grant_client_access 4 quiet (world23 [0, 0, 0])).error = some Err.undefined ∧
    (bci_set_state 0 PROCESSING quiet (world23 [0, 0, 0])).error ≠ some Err.violation ∧
    (bci_get_state 3 quiet (world23 [0, 0, 0])).error ≠ some Err.violation := by
  decide!

/-- C22 as amended: the bus operations do not validate the ids they are given.
`bci_set_state`, `bci_get_state`, `bci_set_request`, `bci_get_request` and
`bci_grant_client_access` contain no `require`: whatever the id, the state and
the other processes, none of them ends on a contract violation.  With an id
within the array (1 up to its length, `MAX_BARBERS` or `MAX_CLIENTS`) they read
or write the slot `id - 1` and return; with an id outside it they read or write
the array at the out-of-range index `id - 1`, which is undefined.  The ids are
checked by callers: `client_done` refuses a client id that is not positive
before it reaches the bus. -/
theorem bci_ids_not_validated :
    (∀ (barberID state : Int) (o : Oracle) (w : World),
      (bci_set_state barberID state o w).error ≠ some Err.violation ∧
      (bci_get_state barberID o w).error ≠ some Err.violation ∧
      (1 ≤ barberID ∧ barberID ≤ (o.others w.clock w.bci).currentState.length →
        bci_set_state barberID state o w = .ok () { w with
          bci := { o.others w.clock w.bci with
            currentState := (o.others w.clock w.bci).currentState.set (barberID - 1).toNat
              state },
          clock := w.clock + 1, log := w.log ++ [(barberID, state)] } ∧
        ∃ x, rd (o.others w.clock w.bci).currentState (barberID - 1) = some x ∧
          bci_get_state barberID o w
            = .ok x { w with bci := o.others w.clock w.bci, clock := w.clock + 1 }) ∧
      (barberID < 1 ∨ ((o.others w.clock w.bci).currentState.length : Int) < barberID →
        (bci_set_state barberID state o w).error = some Err.undefined ∧
        (bci_get_state barberID o w).error = some Err.undefined)) ∧
    (∀ (clientID request : Int) (o : Oracle) (w : World),
      (bci_set_request clientID request o w).error ≠ some Err.violation ∧
      (bci_get_request clientID o w).error ≠ some Err.violation ∧
      (bci_grant_client_access clientID o w).error ≠ some Err.violation ∧
      (1 ≤ clientID ∧ clientID ≤ (o.others w.clock w.bci).clientRequests.length →
        bci_set_request clientID request o w = .ok () { w with
          bci := { o.others w.clock w.bci with
            clientRequests := (o.others w.clock w.bci).clientRequests.set (clientID - 1).toNat
              request },
          clock := w.clock + 1 } ∧
        ∃ x, rd (o.others w.clock w.bci).clientRequests (clientID - 1) = some x ∧
          bci_get_request clientID o w
            = .ok x { w with bci := o.others w.clock w.bci, clock := w.clock + 1 }) ∧
      (1 ≤ clientID ∧ clientID ≤ (o.others w.clock w.bci).clientAccess.length →
        bci_grant_client_access clientID o w = .ok () { w with
          bci := { o.others w.clock w.bci with
            clientAccess := (o.others w.clock w.bci).clientAccess.set (clientID - 1).toNat 1 },
          clock := w.clock + 1 }) ∧
      (clientID < 1 ∨ ((o.others w.clock w.bci).clientRequests.length : Int) < clientID →
        (bci_set_request clientID request o w).error = some Err.undefined ∧
        (bci_get_request clientID o w).error = some Err.undefined) ∧
      (clientID < 1 ∨ ((o.others w.clock w.bci).clientAccess.length : Int) < clientID →
        (bci_grant_client_access clientID o w).error = some Err.undefined)) ∧
    (∀ (MAX_BARBERS : Nat) (clientID : Int) (o : Oracle) (w : World), clientID ≤ 0 →
      client_done MAX_BARBERS clientID o w = .fail Err.violation w) := by
  refine ⟨fun barberID state o w => ⟨((quiet_bci_set_state barberID state).keeps o w).2.2,
      ((quiet_bci_get_state barberID).keeps o w).2.2, fun hin => ?_, fun hout => ?_⟩,
    fun clientID request o w => ⟨((quiet_of_critical _ (critical_write _)).keeps o w).2.2,
      ((quiet_bci_get_request clientID).keeps o w).2.2,
      ((quiet_of_critical _ (critical_write _)).keeps o w).2.2,
      fun hin => ?_, fun hin => ?_, fun hout => ?_, fun hout => ?_⟩,
    fun MAX_BARBERS clientID o w hc => ?_⟩
  · obtain ⟨x, hx⟩ := rd_inside (o.others w.clock w.bci).currentState (barberID - 1)
      (by omega) (by omega)
    refine ⟨?_, x, hx, ?_⟩
    · rw [run_bci_set_state, wr_of_rd _ _ x _ hx]
    · rw [run_bci_get_state, hx]
  · rw [run_bci_set_state, run_bci_get_state, wr_outside _ _ _ (by omega),
      rd_outside _ _ (by omega)]
    exact ⟨rfl, rfl⟩
  · obtain ⟨x, hx⟩ := rd_inside (o.others w.clock w.bci).clientRequests (clientID - 1)
      (by omega) (by omega)
    refine ⟨?_, x, hx, ?_⟩
    · rw [run_bci_set_request, wr_of_rd _ _ x _ hx]
    · rw [run_bci_get_request, hx]
  · obtain ⟨x, hx⟩ := rd_inside (o.others w.clock w.bci).clientAccess (clientID - 1)
      (by omega) (by omega)
    rw [run_bci_grant_client_access, wr_of_rd _ _ x _ hx]
  · rw [run_bci_set_request, run_bci_get_request, wr_outside _ _ _ (by omega),
      rd_outside _ _ (by omega)]
    exact ⟨rfl, rfl⟩
  · rw [run_bci_grant_client_access, wr_outside _ _ _ (by omega)]
    rfl
  · unfold client_done
    rw [run_bind, run_require, decide_eq_false (by omega)]
    rfl

/-- Witness of C22: in the sample segment barber 1 sets and reads its state
code, barber 3 does not exist, and `client_done` refuses client 0. -/
theorem bci_ids_not_validated_witness :
    (bci_set_state 1 PROCESSING quiet (world23 [0, 0, 0])).error = none ∧
    (bci_get_state 3 quiet (world23 [0, 0, 0])).error = some Err.undefined ∧
    (bci_get_request 4 quiet (world23 [0, 5, 0])).error = some Err.undefined ∧
    client_done 2 0 quiet (world23 [0, 0, 0]) = .fail Err.violation (world23 [0, 0, 0]) :=
  ⟨by rw [((bci_ids_not_validated.1 1 PROCESSING quiet (world23 [0, 0, 0])).2.2.1
      ⟨by decide, by decide⟩).1]; rfl,
    ((bci_ids_not_validated.1 3 PROCESSING quiet (world23 [0, 0, 0])).2.2.2
      (Or.inr (by decide))).2,
    ((bci_ids_not_validated.2.1 4 0 quiet (world23 [0, 5, 0])).2.2.2.2.2.1
      (Or.inr (by decide))).2,
    bci_ids_not_validated.2.2 2 0 quiet (world23 [0, 0, 0]) (by decide)⟩

/-! ### The open flag after initialisation -/

/-- C24 (defect of the code): after a successful `init_barber_shop` the field
`opened` of the shop record is 1, but the shared open flag of the fresh segment
is 0 and nothing in `init_barber_shop` sets it (`bci_open_shop` is never
called).  `shop_opened` and `close_shop` read the shared flag, not the field:
as long as no other process sets the flag, `shop_opened` returns 0 (closed) and
`close_shop` ends on its `require`. -/
theorem init_barber_shop_leaves_shop_closed (mx : Maxima)
    (nb nc ns ncm nr nba nse nbe : Int) (o o2 : Oracle) (w w1 : World)
    (hin : mx.MAX_CLIENTS ≤ w.shop.clientsInside.length)
    (hch : mx.MAX_BARBER_CHAIRS ≤ w.shop.barberChair.length)
    (hwb : mx.MAX_WASHBASINS ≤ w.shop.washbasin.length)
    (h : init_barber_shop mx nb nc ns ncm nr nba nse nbe o w = .ok () w1)
    (hq : ∀ t b, (o2.others t b).shopOpen = b.shopOpen) :
    w1.shop.opened = 1 ∧ w1.bci.shopOpen = 0 ∧
    (shop_opened o2 w1).value = some 0 ∧
    (close_shop o2 w1).error = some Err.violation ∧
    (close_shop o2 w1).state.shop.opened = 1 := by
  by_cases hv : (nb > 0 ∧ nb ≤ mx.MAX_BARBERS) ∧ (nc > 0 ∧ nc ≤ mx.MAX_BARBER_CHAIRS) ∧
      (ns > 0 ∧ ns ≤ mx.MAX_NUM_TOOLS) ∧ (ncm > 0 ∧ ncm ≤ mx.MAX_NUM_TOOLS) ∧
      (nr > 0 ∧ nr ≤ mx.MAX_NUM_TOOLS) ∧ (nba > 0 ∧ nba ≤ mx.MAX_WASHBASINS) ∧
      (nse > 0 ∧ nse ≤ mx.MAX_CLIENT_BENCHES_SEATS) ∧ (nbe > 0 ∧ nbe ≤ nse)
  swap
  · rw [init_barber_shop_invalid mx _ _ _ _ _ _ _ _ o w hv] at h
    cases h
  obtain ⟨h1, h2, h3, h4, h5, h6, h7, h8⟩ := hv
  obtain ⟨inside, chairs, basins, -, -, -, -, -, -, hrun⟩ :=
    init_barber_shop_run mx nb nc ns ncm nr nba nse nbe o w hin hch hwb h1 h2 h3 h4 h5 h6
      h7 h8
  rw [hrun] at h
  cases h
  have hflag : (o2.others w.clock (newSegment mx)).shopOpen = 0 := by
    rw [hq]
    rfl
  refine ⟨rfl, rfl, ?_, ?_, ?_⟩
  · simp only [shop_opened, run_bci_get_shop_status, Res.value, hflag]
  · simp only [run_close_shop, hflag, ne_eq, not_true_eq_false, if_false, Res.error]
  · simp only [run_close_shop, hflag, ne_eq, not_true_eq_false, if_false, Res.state]

/-- Witness of C24: the sample shop is initialised with two barbers, one chair,
one tool of each kind, one basin and two bench seats; no other process acts. -/
theorem init_barber_shop_leaves_shop_closed_witness :
    init_barber_shop maxima23 2 1 1 1 1 1 2 1 quiet (world23 [0, 0, 0])
      = .ok () (init_barber_shop maxima23 2 1 1 1 1 1 2 1 quiet (world23 [0, 0, 0])).state ∧
    (shop_opened quiet
      (init_barber_shop maxima23 2 1 1 1 1 1 2 1 quiet (world23 [0, 0, 0])).state).value
        = some 0 ∧
    (close_shop quiet
      (init_barber_shop maxima23 2 1 1 1 1 1 2 1 quiet (world23 [0, 0, 0])).state).error
        = some Err.violation :=
  have h : init_barber_shop maxima23 2 1 1 1 1 1 2 1 quiet (world23 [0, 0, 0])
      = .ok () (init_barber_shop maxima23 2 1 1 1 1 1 2 1 quiet (world23 [0, 0, 0])).state := by
    decide!
  have ht := init_barber_shop_leaves_shop_closed maxima23 2 1 1 1 1 1 2 1 quiet quiet
    (world23 [0, 0, 0]) _ (by decide) (by decide) (by decide) h (fun _ _ => rfl)
  ⟨h, ht.2.2.1, ht.2.2.2.1⟩

/-! ### The end of the services of a client -/

/-- The scan of `bci_get_service_by_clientID` over a list of descriptors none
of which names the client keeps what it had. -/
theorem foldl_lookup_none (clientID : Int) (l : List Service) (acc : Option Service)
    (h : ∀ x ∈ l, x.clientID ≠ clientID) :
    l.foldl (fun acc x => if x.clientID = clientID then some x else acc) acc = acc := by
  induction l generalizing acc with
  | nil => rfl
  | cons x l ih =>
    rw [List.foldl_cons, if_neg (h x (List.mem_cons_self _ _))]
    exact ih acc fun y hy => h y (List.mem_cons_of_mem _ hy)

/-- The scan of `bci_get_service_by_clientID` when exactly one of the first
`MAX_BARBERS` descriptors names the client: the result is that descriptor. -/
theorem lookup_unique (MAX_BARBERS : Nat) (clientID : Int) (services : List Service)
    (init : Option Service) (l : Nat) (s : Service)
    (hlen : MAX_BARBERS ≤ services.length) (hl : l < MAX_BARBERS)
    (hs : services[l]? = some s) (hc : s.clientID = clientID)
    (huniq : ∀ (j : Nat) (x : Service), j < MAX_BARBERS → services[j]? = some x →
      x.clientID = clientID → j = l) :
    forLoop (fun l acc => (rd services l).bind fun tmp_ls =>
      if tmp_ls.clientID = clientID then some (some tmp_ls) else some acc) 0 MAX_BARBERS init
      = some (some s) := by
  have hbody : (fun (l : Nat) (acc : Option Service) => (rd services l).bind fun tmp_ls =>
      if tmp_ls.clientID = clientID then some (some tmp_ls) else some acc)
      = fun (pos : Nat) res => (rd services (pos : Int)).map fun x =>
        (fun acc x => if x.clientID = clientID then some x else acc) res x := by
    funext pos res
    cases rd services (pos : Int) with
    | none => rfl
    | some x =>
      simp only [Option.some_bind, Option.map_some']
      split_ifs <;> rfl
  rw [hbody, forLoop_rd services _ MAX_BARBERS 0 init (by omega), List.drop_zero]
  have hlt : l < services.length := by omega
  have hsplit : services.take MAX_BARBERS
      = services.take l ++ s :: (services.take MAX_BARBERS).drop (l + 1) := by
    have h1 : l < (services.take MAX_BARBERS).length := by
      rw [List.length_take]
      omega
    have h2 := (List.take_append_drop l (services.take MAX_BARBERS)).symm
    rw [List.take_take, Nat.min_eq_left (by omega), List.drop_eq_getElem_cons h1] at h2
    have h3 : (services.take MAX_BARBERS)[l] = s := by
      rw [List.getElem_take]
      exact Option.some.inj ((List.getElem?_eq_getElem hlt).symm.trans hs)
    rw [h3] at h2
    exact h2
  rw [hsplit, List.foldl_append, List.foldl_cons, if_pos hc]
  congr 1
  apply foldl_lookup_none
  intro x hx hxc
  obtain ⟨i, hi, rfl⟩ := List.getElem_of_mem hx
  rw [List.getElem_drop, List.getElem_take] at hxc
  rw [List.length_drop, List.length_take] at hi
  have := huniq (l + 1 + i) _ (by omega) (List.getElem?_eq_getElem (by omega)) hxc
  omega

/-- The lookup of a client that exactly one descriptor names. -/
theorem bci_get_service_by_clientID_unique (MAX_BARBERS : Nat) (clientID : Int)
    (init : Option Service) (o : Oracle) (w : World) (l : Nat) (s : Service)
    (hlen : MAX_BARBERS ≤ (o.others w.clock w.bci).service.length) (hl : l < MAX_BARBERS)
    (hs : (o.others w.clock w.bci).service[l]? = some s) (hc : s.clientID = clientID)
    (huniq : ∀ (j : Nat) (x : Service), j < MAX_BARBERS →
      (o.others w.clock w.bci).service[j]? = some x → x.clientID = clientID → j = l) :
    bci_get_service_by_clientID MAX_BARBERS clientID init o w
      = .ok (some s) { w with bci := o.others w.clock w.bci, clock := w.clock + 1 } := by
  unfold bci_get_service_by_clientID
  simp only [run_bind, run_lock, run_bus,
    lookup_unique MAX_BARBERS clientID _ init l s hlen hl hs hc huniq, run_unlock, run_pure]

/-- The `client_done` of a client that exactly one descriptor names is the
write of `ALL_PROCESSES_DONE` to the state code of the barber of that
descriptor. -/
theorem client_done_unique (MAX_BARBERS : Nat) (clientID : Int)
    (o : Oracle) (w : World) (l : Nat) (s : Service) (hpos : clientID > 0)
    (hlen : MAX_BARBERS ≤ (o.others w.clock w.bci).service.length) (hl : l < MAX_BARBERS)
    (hs : (o.others w.clock w.bci).service[l]? = some s) (hc : s.clientID = clientID)
    (huniq : ∀ (j : Nat) (x : Service), j < MAX_BARBERS →
      (o.others w.clock w.bci).service[j]? = some x → x.clientID = clientID → j = l) :
    client_done MAX_BARBERS clientID o w
      = bci_set_state s.barberID ALL_PROCESSES_DONE o
          { w with bci := o.others w.clock w.bci, clock := w.clock + 1 } := by
  unfold client_done
  simp only [run_bind, run_require, decide_eq_true hpos, if_true,
    bci_get_service_by_clientID_unique MAX_BARBERS clientID none o w l s hlen hl hs hc huniq,
    run_defined_some]

/-- A successful `client_done` of a client that exactly one descriptor names:
the state code of the barber of that descriptor is `ALL_PROCESSES_DONE` and the
other state codes are those of the segment when the lock was taken. -/
theorem client_done_unique_effect (MAX_BARBERS : Nat) (clientID : Int)
    (o : Oracle) (w w1 : World) (l : Nat) (s : Service) (hpos : clientID > 0)
    (hlen : MAX_BARBERS ≤ (o.others w.clock w.bci).service.length) (hl : l < MAX_BARBERS)
    (hs : (o.others w.clock w.bci).service[l]? = some s) (hc : s.clientID = clientID)
    (huniq : ∀ (j : Nat) (x : Service), j < MAX_BARBERS →
      (o.others w.clock w.bci).service[j]? = some x → x.clientID = clientID → j = l)
    (h : client_done MAX_BARBERS clientID o w = .ok () w1) :
    rd w1.bci.currentState (s.barberID - 1) = some ALL_PROCESSES_DONE ∧
    ∀ j : Int, j ≠ s.barberID - 1 → rd w1.bci.currentState j
      = rd (o.others (w.clock + 1) (o.others w.clock w.bci)).currentState j := by
  rw [client_done_unique MAX_BARBERS clientID o w l s hpos hlen hl hs hc huniq,
    run_bci_set_state] at h
  simp only [] at h
  cases hw : wr (o.others (w.clock + 1) (o.others w.clock w.bci)).currentState
      (s.barberID - 1) ALL_PROCESSES_DONE with
  | none =>
    rw [hw] at h
    cases h
  | some a =>
    rw [hw] at h
    cases h
    exact ⟨rd_wr_same _ _ _ _ hw, fun j hj => rd_wr_other _ _ _ _ _ hw hj⟩

/-- C23 (defect of the code): `client_done` can mark the wrong barber.  Client
3 was served by barber 2 on an earlier visit and is now served by barber 1; the
descriptor slots of both barbers name client 3, since a descriptor is never
cleared.  `bci_get_service_by_clientID` keeps the last match of its scan, the
descriptor of barber 2, and `client_done` writes `ALL_PROCESSES_DONE` to the
state code of barber 2; the state code of barber 1, who serves the client, is
left as it was.  When exactly one of the first `MAX_BARBERS` descriptors names
the client, the lookup returns that descriptor and `client_done` is the write
of `ALL_PROCESSES_DONE` to the state code of the barber it names, the other
state codes unchanged. -/
theorem client_done_marks_stale_barber :
    rd secondVisit.bci.service (1 - 1) = some (set_washbasin_service 1 3 0) ∧
    rd secondVisit.bci.service (2 - 1) = some (set_barber_chair_service 2 3 0 1) ∧
    (bci_get_service_by_clientID 2 3 none quiet secondVisit).value
      = some (some (set_barber_chair_service 2 3 0 1)) ∧
    (client_done 2 3 quiet secondVisit).error = none ∧
    rd (client_done 2 3 quiet secondVisit).state.bci.currentState (2 - 1)
      = some ALL_PROCESSES_DONE ∧
    rd (client_done 2 3 quiet secondVisit).state.bci.currentState (1 - 1)
      = rd secondVisit.bci.currentState (1 - 1) ∧
    rd secondVisit.bci.currentState (1 - 1) = some SERVICE_INFO_AVAILABLE ∧
    (∀ (MAX_BARBERS : Nat) (clientID : Int) (service : Option Service) (o : Oracle)
      (w : World) (l : Nat) (s : Service),
      MAX_BARBERS ≤ (o.others w.clock w.bci).service.length → l < MAX_BARBERS →
      (o.others w.clock w.bci).service[l]? = some s → s.clientID = clientID →
      (∀ (j : Nat) (x : Service), j < MAX_BARBERS →
        (o.others w.clock w.bci).service[j]? = some x → x.clientID = clientID → j = l) →
      bci_get_service_by_clientID MAX_BARBERS clientID service o w
        = .ok (some s) { w with bci := o.others w.clock w.bci, clock := w.clock + 1 } ∧
      (clientID > 0 →
        client_done MAX_BARBERS clientID o w
          = bci_set_state s.barberID ALL_PROCESSES_DONE o
              { w with bci := o.others w.clock w.bci, clock := w.clock + 1 } ∧
        ∀ w1, client_done MAX_BARBERS clientID o w = .ok () w1 →
          rd w1.bci.currentState (s.barberID - 1) = some ALL_PROCESSES_DONE ∧
          ∀ j : Int, j ≠ s.barberID - 1 → rd w1.bci.currentState j
            = rd (o.others (w.clock + 1) (o.others w.clock w.bci)).currentState j)) := by
  refine ⟨by decide!, by decide!, by decide!, by decide!, by decide!, by decide!, by decide!,
    fun MAX_BARBERS clientID service o w l s hlen hl hs hc huniq =>
      ⟨bci_get_service_by_clientID_unique MAX_BARBERS clientID service o w l s hlen hl hs hc
        huniq,
      fun hpos => ⟨client_done_unique MAX_BARBERS clientID o w l s hpos hlen hl hs hc huniq,
        fun w1 h => client_done_unique_effect MAX_BARBERS clientID o w w1 l s hpos hlen hl hs
          hc huniq h⟩⟩⟩

/-- Witness of C23: after the first visit only, one descriptor names client 3,
that of barber 1, and `client_done` marks barber 1. -/
theorem client_done_marks_stale_barber_witness :
    (inform_client_on_service (set_washbasin_service 1 3 0) quiet
      (world23 [0, 0, 0])).state.bci.service
      = [set_washbasin_service 1 3 0,
          { barberChair := 0, washbasin := 0, barberID := 0, clientID := 0, pos := 0,
            request := 0 }] ∧
    (client_done 2 3 quiet (inform_client_on_service (set_washbasin_service 1 3 0) quiet
      (world23 [0, 0, 0])).state).error = none ∧
    rd (client_done 2 3 quiet (inform_client_on_service (set_washbasin_service 1 3 0) quiet
      (world23 [0, 0, 0])).state).state.bci.currentState
        ((set_washbasin_service 1 3 0).barberID - 1) = some ALL_PROCESSES_DONE :=
  have hsv : (inform_client_on_service (set_washbasin_service 1 3 0) quiet
      (world23 [0, 0, 0])).state.bci.service
      = [set_washbasin_service 1 3 0,
          { barberChair := 0, washbasin := 0, barberID := 0, clientID := 0, pos := 0,
            request := 0 }] := by decide!
  have hok : client_done 2 3 quiet (inform_client_on_service (set_washbasin_service 1 3 0) quiet
      (world23 [0, 0, 0])).state
      = .ok () (client_done 2 3 quiet (inform_client_on_service (set_washbasin_service 1 3 0)
          quiet (world23 [0, 0, 0])).state).state := by decide!
  have huniq : ∀ (j : Nat) (x : Service), j < 2 →
      (quiet.others (inform_client_on_service (set_washbasin_service 1 3 0) quiet
        (world23 [0, 0, 0])).state.clock (inform_client_on_service
          (set_washbasin_service 1 3 0) quiet (world23 [0, 0, 0])).state.bci).service[j]?
        = some x → x.clientID = 3 → j = 0 := by
    intro j x hj hx hc
    change (inform_client_on_service (set_washbasin_service 1 3 0) quiet
      (world23 [0, 0, 0])).state.bci.service[j]? = some x at hx
    rw [hsv] at hx
    interval_cases j
    · rfl
    · cases hx
      cases hc
  ⟨hsv, by decide!,
    ((client_done_marks_stale_barber.2.2.2.2.2.2.2 2 3 none quiet
      (inform_client_on_service (set_washbasin_service 1 3 0) quiet (world23 [0, 0, 0])).state
      0 (set_washbasin_service 1 3 0) (by decide!) (by decide) (by decide!) (by decide!)
      huniq).2 (by decide)).2 _ hok |>.1⟩

/-! ### The clients inside are positive and pairwise distinct -/

/-- An accepted `enter_barber_shop` keeps the ids of the inside list
positive. -/
theorem enter_barber_shop_keeps_positive (o : Oracle) (w : World) (clientID request : Int)
    (hb : BenchesOK w.shop.clientBenches) (hi : InsideOK w.shop)
    (hpos : ∀ c ∈ insideClients w.shop, 0 < c)
    (hacc : (enter_barber_shop clientID request o w).error = none) :
    ∀ c ∈ insideClients (enter_barber_shop clientID request o w).state.shop, 0 < c := by
  by_cases hc : clientID > 0 ∧ (request > 0 ∧ request < 8) ∧
      0 ∈ w.shop.clientBenches.id.take w.shop.clientBenches.numSeats.toNat ∧
      clientID ∉ insideClients w.shop
  swap
  · rw [enter_barber_shop_rejected o w clientID request hb hi hc] at hacc
    cases hacc
  obtain ⟨h1, h2, h3, h4⟩ := hc
  by_cases hseat : clientID ∈ w.shop.clientBenches.id.take w.shop.clientBenches.numSeats.toNat
  · rw [enter_barber_shop_seated o w clientID request hb hi h1 h2 h3 h4 hseat] at hacc
    cases hacc
  by_cases hroom : w.shop.numClientsInside.toNat < w.shop.clientsInside.length
  swap
  · rw [enter_barber_shop_full o w clientID request hb hi h1 h2 h3 h4 hseat hroom] at hacc
    cases hacc
  obtain ⟨res, -, -, -, hrun⟩ :=
    enter_barber_shop_accepted_run o w clientID request hb hi h1 h2 h3 h4 hseat hroom
  have hi0 : 0 ≤ w.shop.numClientsInside := hi.1
  have hsucc : (w.shop.numClientsInside + 1).toNat = w.shop.numClientsInside.toNat + 1 := by omega
  rw [hrun]
  simp only [Res.state]
  unfold insideClients
  simp only [hsucc]
  rw [take_succ_set _ _ _ hroom]
  intro c hc
  rw [List.mem_append, List.mem_singleton] at hc
  rcases hc with hc | hc
  · exact hpos c hc
  · rw [hc]
    exact h1

/-- An accepted `leave_barber_shop` keeps the ids of the inside list
positive. -/
theorem leave_barber_shop_keeps_positive (o : Oracle) (w : World) (clientID : Int)
    (hi : InsideOK w.shop) (hpos : ∀ c ∈ insideClients w.shop, 0 < c)
    (hacc : (leave_barber_shop clientID o w).error = none) :
    ∀ c ∈ insideClients (leave_barber_shop clientID o w).state.shop, 0 < c := by
  by_cases hc : clientID > 0 ∧ clientID ∈ insideClients w.shop
  swap
  · rw [leave_barber_shop_rejected o w clientID hi hc] at hacc
    cases hacc
  obtain ⟨i, a1, -, hlt, hl, herase, hrun⟩ := leave_barber_shop_run o w clientID hi hc.1 hc.2
  have hi0 : 0 ≤ w.shop.numClientsInside := hi.1
  have hpred : (w.shop.numClientsInside - 1).toNat = w.shop.numClientsInside.toNat - 1 := by omega
  rw [hrun]
  simp only [Res.state]
  unfold insideClients
  simp only [hpred]
  rw [herase]
  intro c hc1
  exact hpos c (List.mem_of_mem_erase hc1)

theorem inside_distinct_reachable (mx : Maxima) (s : BarberShop) (h : Reachable mx s) :
    InsideOK s ∧ (insideClients s).Nodup ∧ ∀ c ∈ insideClients s, 0 < c := by
  induction h with
  | init o w w1 nb nc ns ncm nr nba nse nbe hin hch hwb hrun =>
    have hocc := occupancy_init mx nb nc ns ncm nr nba nse nbe o w w1 hin hch hwb hrun
    by_cases hv : (nb > 0 ∧ nb ≤ mx.MAX_BARBERS) ∧ (nc > 0 ∧ nc ≤ mx.MAX_BARBER_CHAIRS) ∧
        (ns > 0 ∧ ns ≤ mx.MAX_NUM_TOOLS) ∧ (ncm > 0 ∧ ncm ≤ mx.MAX_NUM_TOOLS) ∧
        (nr > 0 ∧ nr ≤ mx.MAX_NUM_TOOLS) ∧ (nba > 0 ∧ nba ≤ mx.MAX_WASHBASINS) ∧
        (nse > 0 ∧ nse ≤ mx.MAX_CLIENT_BENCHES_SEATS) ∧ (nbe > 0 ∧ nbe ≤ nse)
    swap
    · rw [init_barber_shop_invalid mx _ _ _ _ _ _ _ _ o w hv] at hrun
      cases hrun
    obtain ⟨h1, h2, h3, h4, h5, h6, h7, h8⟩ := hv
    obtain ⟨inside, chairs, basins, -, -, -, -, -, -, hrun1⟩ :=
      init_barber_shop_run mx nb nc ns ncm nr nba nse nbe o w (by omega) hch hwb h1 h2 h3 h4 h5
        h6 h7 h8
    rw [hrun1] at hrun
    cases hrun
    refine ⟨hocc.2.1, ?_, ?_⟩
    · simp [insideClients]
    · simp [insideClients]
  | enter o w w1 clientID request res hr hrun ih =>
    have hocc := occupancy_reachable mx _ hr
    have hacc : (enter_barber_shop clientID request o w).error = none := by rw [hrun]; rfl
    have h1 := enter_barber_shop_keeps_inside o w clientID request hocc.1 ih.1 ih.2.1 hacc
    have h2 := enter_barber_shop_keeps_positive o w clientID request hocc.1 ih.1 ih.2.2 hacc
    rw [hrun] at h1 h2
    exact ⟨h1.1, h1.2, h2⟩
  | leave o w w1 clientID hr hrun ih =>
    have hacc : (leave_barber_shop clientID o w).error = none := by rw [hrun]; rfl
    have h1 := leave_barber_shop_keeps_inside o w clientID ih.1 ih.2.1 hacc
    have h2 := leave_barber_shop_keeps_positive o w clientID ih.1 ih.2.2 hacc
    rw [hrun] at h1 h2
    exact ⟨h1.1, h1.2, h2⟩

/-- C26: in every shop record reached from a successful `init_barber_shop` by
accepted `enter_barber_shop` and `leave_barber_shop` calls, `numClientsInside`
is not negative and not larger than the array, and the first
`numClientsInside` entries of `clientsInside` are positive and pairwise
distinct: two different positions below `numClientsInside` hold different
ids. -/
theorem clients_inside_positive_distinct (mx : Maxima) (s : BarberShop)
    (h : Reachable mx s) :
    0 ≤ s.numClientsInside ∧ s.numClientsInside.toNat ≤ s.clientsInside.length ∧
    (∀ i : Nat, i < s.numClientsInside.toNat →
      ∃ c, s.clientsInside[i]? = some c ∧ 0 < c) ∧
    (∀ i j : Nat, i < s.numClientsInside.toNat → j < s.numClientsInside.toNat →
      s.clientsInside[i]? = s.clientsInside[j]? → i = j) ∧
    (insideClients s).Nodup := by
  obtain ⟨hi, hnd, hpos⟩ := inside_distinct_reachable mx s h
  have hlen : (insideClients s).length = s.numClientsInside.toNat := by
    unfold insideClients
    rw [List.length_take]
    exact Nat.min_eq_left hi.2
  have hget : ∀ i : Nat, i < s.numClientsInside.toNat →
      (insideClients s)[i]? = s.clientsInside[i]? := by
    intro i hlt
    unfold insideClients
    rw [List.getElem?_take_of_lt hlt]
  refine ⟨hi.1, hi.2, fun i hlt => ?_, fun i j hi1 hj1 heq => ?_, hnd⟩
  · have hlt1 : i < (insideClients s).length := by omega
    refine ⟨(insideClients s)[i], ?_, hpos _ (List.getElem_mem _)⟩
    rw [← hget i hlt, List.getElem?_eq_getElem hlt1]
  · have hi2 : i < (insideClients s).length := by omega
    have hj2 : j < (insideClients s).length := by omega
    rw [← hget i hi1, ← hget j hj1, List.getElem?_eq_getElem hi2,
      List.getElem?_eq_getElem hj2] at heq
    exact (List.Nodup.getElem_inj_iff hnd).1 (Option.some.inj heq)

/-- Witness of C26: the sample shop after `init_barber_shop` and the entry of
client 2. -/
theorem clients_inside_positive_distinct_witness :
    (enter_barber_shop 2 5 quiet
      (init_barber_shop maxima23 2 1 1 1 1 1 2 1 quiet
        (world23 [0, 0, 0])).state).state.shop.numClientsInside = 1 ∧
    (insideClients (enter_barber_shop 2 5 quiet
      (init_barber_shop maxima23 2 1 1 1 1 1 2 1 quiet
        (world23 [0, 0, 0])).state).state.shop).Nodup :=
  have h := clients_inside_positive_distinct maxima23
    (enter_barber_shop 2 5 quiet
      (init_barber_shop maxima23 2 1 1 1 1 1 2 1 quiet (world23 [0, 0, 0])).state).state.shop
    (Reachable.enter quiet
      (init_barber_shop maxima23 2 1 1 1 1 1 2 1 quiet (world23 [0, 0, 0])).state
      (enter_barber_shop 2 5 quiet
        (init_barber_shop maxima23 2 1 1 1 1 1 2 1 quiet (world23 [0, 0, 0])).state).state 2 5 0
      (Reachable.init quiet (world23 [0, 0, 0])
        (init_barber_shop maxima23 2 1 1 1 1 1 2 1 quiet (world23 [0, 0, 0])).state
        2 1 1 1 1 1 2 1 (by decide) (by decide) (by decide) (by decide!))
      (by decide!))
  ⟨by decide!, h.2.2.2.2⟩

/-! ### Freeing an inode (sofs18) -/

theorem clear_references_spec (k : SofsConstants) (n : Nat) (refs : List Nat)
    (hn : refs.length = n) :
    clear_references k n refs = some (List.replicate n k.NullReference) := by
  subst hn
  unfold clear_references
  obtain ⟨a, ha, hl, hget⟩ :=
    forLoop_wr (fun _ => k.NullReference) refs.length 0 refs (by omega)
  rw [ha]
  congr 1
  apply List.ext_getElem?
  intro j
  rw [hget j]
  by_cases hj : j < refs.length
  · simp [hj, List.getElem?_replicate]
  · have hj1 : refs.length ≤ j := by omega
    simp [hj, List.getElem?_replicate, List.getElem?_eq_none hj1]

/-- C27: `soFreeInode (in)` stores `in` at the insertion position of the
cache, adds one to `iicache.idx` and to `ifree`, and cleans the inode.  `sb` is
the superblock of the call and `sb0` the superblock at the insertion: what
`soDepleteIICache` makes of `sb` when the call finds `sb.iicache.idx` equal to
`INODE_REFERENCE_CACHE_SIZE - 1` (the constant as the unsigned comparison takes
it), and `sb` itself otherwise.  With the insertion index of `sb0` within the
cache, the counters below the end of their range and the reference arrays of
the inode of their declared sizes, the call is defined; `in` is in the cell
`sb0.iicache.idx` and the other cells are those of `sb0`; `iicache.idx` and
`ifree` are those of `sb0` plus one; the inode has mode `INODE_FREE`, the fields
`lnkcnt`, `owner`, `group`, `size`, `blkcnt`, `atime`, `mtime` and `ctime` are 0
and every entry of `d`, `i1` and `i2` is `NullReference`. -/
theorem soFreeInode_spec (k : SofsConstants) (soDepleteIICache : SOSuperBlock → SOSuperBlock)
    (inn : Nat) (sb sb0 : SOSuperBlock) (inode : SOInode)
    (hsb0 : (sb.iicache.idx = (k.INODE_REFERENCE_CACHE_SIZE + k.UINT_RANGE - 1) % k.UINT_RANGE ∧
        sb0 = soDepleteIICache sb) ∨
      (sb.iicache.idx ≠ (k.INODE_REFERENCE_CACHE_SIZE + k.UINT_RANGE - 1) % k.UINT_RANGE ∧
        sb0 = sb))
    (hidx : sb0.iicache.idx < sb0.iicache.ref.length)
    (hir : sb0.iicache.idx + 1 < k.UINT_RANGE) (hfr : sb0.ifree + 1 < k.UINT_RANGE)
    (hd : inode.d.length = k.N_DIRECT) (h1 : inode.i1.length = k.N_INDIRECT)
    (h2 : inode.i2.length = k.N_DOUBLE_INDIRECT) :
    ∃ sb1 inode1, soFreeInode k soDepleteIICache inn sb inode = some (sb1, inode1) ∧
      sb1.iicache.ref = sb0.iicache.ref.set sb0.iicache.idx inn ∧
      sb1.iicache.ref[sb0.iicache.idx]? = some inn ∧
      (∀ j, j ≠ sb0.iicache.idx → sb1.iicache.ref[j]? = sb0.iicache.ref[j]?) ∧
      sb1.iicache.idx = sb0.iicache.idx + 1 ∧
      sb1.ifree = sb0.ifree + 1 ∧
      inode1.mode = k.INODE_FREE ∧ inode1.lnkcnt = 0 ∧ inode1.owner = 0 ∧ inode1.group = 0 ∧
      inode1.size = 0 ∧ inode1.blkcnt = 0 ∧ inode1.atime = 0 ∧ inode1.mtime = 0 ∧
      inode1.ctime = 0 ∧
      inode1.d = List.replicate k.N_DIRECT k.NullReference ∧
      inode1.i1 = List.replicate k.N_INDIRECT k.NullReference ∧
      inode1.i2 = List.replicate k.N_DOUBLE_INDIRECT k.NullReference ∧
      (∀ x ∈ inode1.d ++ inode1.i1 ++ inode1.i2, x = k.NullReference) ∧
      (1 ≤ k.INODE_REFERENCE_CACHE_SIZE → k.INODE_REFERENCE_CACHE_SIZE ≤ k.UINT_RANGE →
        (k.INODE_REFERENCE_CACHE_SIZE + k.UINT_RANGE - 1) % k.UINT_RANGE
          = k.INODE_REFERENCE_CACHE_SIZE - 1) := by
  have hcache : soFreeInode_cache k soDepleteIICache sb = sb0 := by
    unfold soFreeInode_cache
    rcases hsb0 with ⟨he, rfl⟩ | ⟨hne, rfl⟩
    · rw [if_pos he]
    · rw [if_neg hne]
  have hwr : wr sb0.iicache.ref (sb0.iicache.idx : Int) inn
      = some (sb0.iicache.ref.set sb0.iicache.idx inn) := by
    unfold wr
    rw [if_pos ⟨by omega, by simpa using hidx⟩]
    simp
  refine ⟨SOSuperBlock.mk ((sb0.ifree + 1) % k.UINT_RANGE)
      (InodeReferenceCache.mk ((sb0.iicache.idx + 1) % k.UINT_RANGE)
        (sb0.iicache.ref.set sb0.iicache.idx inn)),
    SOInode.mk k.INODE_FREE 0 0 0 0 0 0 0 0 (List.replicate k.N_DIRECT k.NullReference)
      (List.replicate k.N_INDIRECT k.NullReference)
      (List.replicate k.N_DOUBLE_INDIRECT k.NullReference),
    ?_, rfl, ?_, ?_, ?_, ?_, rfl, rfl, rfl, rfl, rfl, rfl, rfl, rfl, rfl, rfl, rfl, rfl, ?_, ?_⟩
  · unfold soFreeInode
    simp only [hcache, hwr, Option.bind_some, clear_references_spec k _ _ hd,
      clear_references_spec k _ _ h1, clear_references_spec k _ _ h2]
    rfl
  · simp only [List.getElem?_set_self hidx]
  · intro j hj
    simp only [List.getElem?_set_ne (Ne.symm hj)]
  · exact Nat.mod_eq_of_lt hir
  · exact Nat.mod_eq_of_lt hfr
  · intro x hx
    simp only [List.mem_append, List.mem_replicate] at hx
    rcases hx with (hx | hx) | hx <;> exact hx.2
  · intro hs1 hs2
    have he : k.INODE_REFERENCE_CACHE_SIZE + k.UINT_RANGE - 1
        = (k.INODE_REFERENCE_CACHE_SIZE - 1) + k.UINT_RANGE := by omega
    rw [he, Nat.add_mod_right]
    exact Nat.mod_eq_of_lt (by omega)

/-- Witness of C27.  Inode 7 is freed with the insertion index at the last cell
of a cache of four references: the depletion empties the cache, so that 7 goes
to cell 0 and `idx` becomes 1.  Inode 7 is freed with the insertion index at
cell 1: no depletion, 7 goes to cell 1 next to the reference 5 and `idx`
becomes 2. -/
theorem soFreeInode_spec_witness :
    (∃ sb1 inode1, soFreeInode sofs4 emptyCache 7 superblock3 inodeInUse = some (sb1, inode1) ∧
      sb1.iicache.ref = [7, 4294967295, 4294967295, 4294967295] ∧ sb1.iicache.idx = 1 ∧
      sb1.ifree = 3 ∧
      inode1.mode = 4096 ∧ inode1.d = [4294967295, 4294967295, 4294967295, 4294967295]) ∧
    (∃ sb1 inode1, soFreeInode sofs4 emptyCache 7 superblock1 inodeInUse = some (sb1, inode1) ∧
      sb1.iicache.ref = [5, 7, 4294967295, 4294967295] ∧ sb1.iicache.idx = 2 ∧
      sb1.ifree = 2) :=
  have ⟨sa, ia, ha, hra, _, _, hia, hfa, hma, _, _, _, _, _, _, _, _, hda, _⟩ :=
    soFreeInode_spec sofs4 emptyCache 7 superblock3 (emptyCache superblock3) inodeInUse
      (Or.inl ⟨by decide, rfl⟩) (by decide) (by decide) (by decide) (by decide) (by decide)
      (by decide)
  have ⟨sc, ic, hc, hrc, _, _, hic, hfc, _⟩ :=
    soFreeInode_spec sofs4 emptyCache 7 superblock1 superblock1 inodeInUse
      (Or.inr ⟨by decide, rfl⟩) (by decide) (by decide) (by decide) (by decide) (by decide)
      (by decide)
  ⟨⟨sa, ia, ha, hra, hia, hfa, hma, hda⟩, ⟨sc, ic, hc, hrc, hic, hfc⟩⟩

/-! ### The completion loop -/

theorem run_chair_progress_bind {β : Type} (slice complete : Int) (f : Unit → M β)
    (o : Oracle) (w : World) :
    (chair_progress slice complete >>= f) o w
      = (spend slice >>= fun _ => getBarber >>= fun b =>
          barber_chair b.chairPosition >>= fun c =>
          set_completion_barber_chair c complete >>= fun c1 =>
          store_barber_chair b.chairPosition c1 >>= f) o w := by
  unfold chair_progress
  simp only [run_bind, run_spend, run_getBarber]
  cases barber_chair w.barber.chairPosition o w with
  | fail e w1 => rfl
  | ok c w1 =>
    simp only []
    cases set_completion_barber_chair c complete o w1 with
    | fail e w2 => rfl
    | ok c1 w2 => rfl

theorem run_basin_progress_bind {β : Type} (washes complete : Int) (f : Unit → M β)
    (o : Oracle) (w : World) :
    (basin_progress washes complete >>= f) o w
      = (spend washes >>= fun _ => getBarber >>= fun b =>
          washbasin b.basinPosition >>= fun c =>
          set_completion_washbasin c complete >>= fun c1 =>
          store_washbasin b.basinPosition c1 >>= f) o w := by
  unfold basin_progress
  simp only [run_bind, run_spend, run_getBarber]
  cases washbasin w.barber.basinPosition o w with
  | fail e w1 => rfl
  | ok c w1 =>
    simp only []
    cases set_completion_washbasin c complete o w1 with
    | fail e w2 => rfl
    | ok c1 w2 => rfl

/-- With enough fuel the chair loop is the sequence of its progress updates. -/
theorem chair_completion_loop_eq (steps slice : Int) (hd : 5 ≤ Int.tdiv 100 steps)
    (o : Oracle) :
    ∀ (k : Nat) (complete : Int) (w : World), 1 ≤ k → 100 - complete ≤ 5 * ((k : Int) - 1) →
      chair_completion_loop steps slice k complete o w
        = perform ((completion_values steps k complete).map (chair_progress slice)) o w := by
  intro k
  induction k with
  | zero => intro complete w h; omega
  | succ k ih =>
    intro complete w _ hfuel
    unfold chair_completion_loop completion_values
    by_cases hc : complete < 100
    · have hk : 1 ≤ k := by omega
      have hnext : 100 - (if complete + Int.tdiv 100 steps > 100 then 100
          else complete + Int.tdiv 100 steps) ≤ 5 * ((k : Int) - 1) := by
        split_ifs <;> push_cast at hfuel <;> omega
      simp only [hc, if_true, List.map_cons, perform]
      rw [run_chair_progress_bind]
      simp only [run_bind, run_spend, run_getBarber]
      cases barber_chair w.barber.chairPosition o w with
      | fail e w1 => rfl
      | ok c w1 =>
        simp only []
        cases set_completion_barber_chair c _ o w1 with
        | fail e w2 => rfl
        | ok c1 w2 =>
          simp only []
          cases store_barber_chair w.barber.chairPosition c1 o w2 with
          | fail e w3 => rfl
          | ok u w3 => exact ih _ w3 hk hnext
    · simp only [hc, if_false, List.map_nil, perform]

/-- With enough fuel the basin loop is the sequence of its progress updates. -/
theorem basin_completion_loop_eq (steps washes : Int) (hd : 5 ≤ Int.tdiv 100 steps)
    (o : Oracle) :
    ∀ (k : Nat) (complete : Int) (w : World), 1 ≤ k → 100 - complete ≤ 5 * ((k : Int) - 1) →
      basin_completion_loop steps washes k complete o w
        = perform ((completion_values steps k complete).map (basin_progress washes)) o w := by
  intro k
  induction k with
  | zero => intro complete w h; omega
  | succ k ih =>
    intro complete w _ hfuel
    unfold basin_completion_loop completion_values
    by_cases hc : complete < 100
    · have hk : 1 ≤ k := by omega
      have hnext : 100 - (if complete + Int.tdiv 100 steps > 100 then 100
          else complete + Int.tdiv 100 steps) ≤ 5 * ((k : Int) - 1) := by
        split_ifs <;> push_cast at hfuel <;> omega
      simp only [hc, if_true, List.map_cons, perform]
      rw [run_basin_progress_bind]
      simp only [run_bind, run_spend, run_getBarber]
      cases washbasin w.barber.basinPosition o w with
      | fail e w1 => rfl
      | ok c w1 =>
        simp only []
        cases set_completion_washbasin c _ o w1 with
        | fail e w2 => rfl
        | ok c1 w2 =>
          simp only []
          cases store_washbasin w.barber.basinPosition c1 o w2 with
          | fail e w3 => rfl
          | ok u w3 => exact ih _ w3 hk hnext
    · simp only [hc, if_false, List.map_nil, perform]

/-- More fuel than needed does not change the values written. -/
theorem completion_values_fuel (steps : Int) (hd : 5 ≤ Int.tdiv 100 steps) :
    ∀ (k : Nat) (complete : Int), 1 ≤ k → 100 - complete ≤ 5 * ((k : Int) - 1) →
      ∀ j : Nat, completion_values steps (k + j) complete = completion_values steps k complete := by
  intro k
  induction k with
  | zero => intro complete h; omega
  | succ k ih =>
    intro complete _ hfuel j
    have hkj : k + 1 + j = (k + j) + 1 := by omega
    rw [hkj]
    unfold completion_values
    by_cases hc : complete < 100
    · have hk : 1 ≤ k := by omega
      have hnext : 100 - (if complete + Int.tdiv 100 steps > 100 then 100
          else complete + Int.tdiv 100 steps) ≤ 5 * ((k : Int) - 1) := by
        split_ifs <;> push_cast at hfuel <;> omega
      simp only [hc, if_true]
      rw [ih _ hk hnext j]
    · simp only [hc, if_false]

theorem tdiv_100_steps (steps : Int) (h5 : 5 ≤ steps) (h20 : steps ≤ 20) :
    5 ≤ Int.tdiv 100 steps := by
  interval_cases steps <;> decide
theorem run_chair_progress (slice v : Int) (o : Oracle) (w : World) (c : BarberChair)
    (hv : 0 ≤ v ∧ v ≤ 100)
    (hp : 0 ≤ w.barber.chairPosition ∧ w.barber.chairPosition < w.shop.numChairs)
    (hrd : rd w.shop.barberChair w.barber.chairPosition = some c) :
    chair_progress slice v o w = .ok () { w with shop := { w.shop with
      barberChair := w.shop.barberChair.set w.barber.chairPosition.toNat
        { c with completionPercentage := v } } } := by
  unfold chair_progress barber_chair store_barber_chair set_completion_barber_chair
  simp [run_bind, run_spend, run_getBarber, run_getShop, run_require, valid_barber_chair_pos,
    hp.1, hp.2, hrd, run_defined_some, wr_of_rd _ _ c _ hrd, run_setShop, run_pure, hv.1, hv.2]

theorem run_basin_progress (washes v : Int) (o : Oracle) (w : World) (c : Washbasin)
    (hv : 0 ≤ v ∧ v ≤ 100)
    (hp : 0 ≤ w.barber.basinPosition ∧ w.barber.basinPosition < w.shop.numWashbasins)
    (hrd : rd w.shop.washbasin w.barber.basinPosition = some c) :
    basin_progress washes v o w = .ok () { w with shop := { w.shop with
      washbasin := w.shop.washbasin.set w.barber.basinPosition.toNat
        { c with completionPercentage := v } } } := by
  unfold basin_progress washbasin store_washbasin set_completion_washbasin
  simp [run_bind, run_spend, run_getBarber, run_getShop, run_require, valid_washbasin_pos,
    hp.1, hp.2, hrd, run_defined_some, wr_of_rd _ _ c _ hrd, run_setShop, run_pure, hv.1, hv.2]

/-- A sequence of progress updates on a valid chair returns; the chair then
holds the last value written and nothing else has changed. -/
theorem perform_chair_progress (slice : Int) (o : Oracle) :
    ∀ (vs : List Int) (w : World) (c : BarberChair) (last : Int),
      (∀ v ∈ vs, 0 ≤ v ∧ v ≤ 100) → vs.getLast? = some last →
      0 ≤ w.barber.chairPosition ∧ w.barber.chairPosition < w.shop.numChairs →
      rd w.shop.barberChair w.barber.chairPosition = some c →
      perform (vs.map (chair_progress slice)) o w = .ok () { w with shop := { w.shop with
        barberChair := w.shop.barberChair.set w.barber.chairPosition.toNat
          { c with completionPercentage := last } } } := by
  intro vs
  induction vs with
  | nil => intro w c last _ h; simp at h
  | cons v vs ih =>
    intro w c last hvs hlast hp hrd
    have hv := hvs v (List.mem_cons_self _ _)
    simp only [List.map_cons, perform, run_bind, run_chair_progress slice v o w c hv hp hrd]
    cases vs with
    | nil =>
      simp only [List.getLast?_singleton, Option.some.injEq] at hlast
      subst hlast
      rfl
    | cons v2 vs2 =>
      rw [List.getLast?_cons_cons] at hlast
      have hrd1 : rd (w.shop.barberChair.set w.barber.chairPosition.toNat
          { c with completionPercentage := v }) w.barber.chairPosition
          = some { c with completionPercentage := v } :=
        rd_wr_same _ _ _ _ (wr_of_rd _ _ c _ hrd)
      have key := ih
        { w with shop := { w.shop with barberChair := w.shop.barberChair.set w.barber.chairPosition.toNat { c with completionPercentage := v } } }
        { c with completionPercentage := v } last
        (fun x hx => hvs x (List.mem_cons_of_mem _ hx)) hlast hp hrd1
      rw [key]
      simp only [List.set_set]

/-- A sequence of progress updates on a valid basin returns; the basin then
holds the last value written and nothing else has changed. -/
theorem perform_basin_progress (washes : Int) (o : Oracle) :
    ∀ (vs : List Int) (w : World) (c : Washbasin) (last : Int),
      (∀ v ∈ vs, 0 ≤ v ∧ v ≤ 100) → vs.getLast? = some last →
      0 ≤ w.barber.basinPosition ∧ w.barber.basinPosition < w.shop.numWashbasins →
      rd w.shop.washbasin w.barber.basinPosition = some c →
      perform (vs.map (basin_progress washes)) o w = .ok () { w with shop := { w.shop with
        washbasin := w.shop.washbasin.set w.barber.basinPosition.toNat
          { c with completionPercentage := last } } } := by
  intro vs
  induction vs with
  | nil => intro w c last _ h; simp at h
  | cons v vs ih =>
    intro w c last hvs hlast hp hrd
    have hv := hvs v (List.mem_cons_self _ _)
    simp only [List.map_cons, perform, run_bind, run_basin_progress washes v o w c hv hp hrd]
    cases vs with
    | nil =>
      simp only [List.getLast?_singleton, Option.some.injEq] at hlast
      subst hlast
      rfl
    | cons v2 vs2 =>
      rw [List.getLast?_cons_cons] at hlast
      have hrd1 : rd (w.shop.washbasin.set w.barber.basinPosition.toNat
          { c with completionPercentage := v }) w.barber.basinPosition
          = some { c with completionPercentage := v } :=
        rd_wr_same _ _ _ _ (wr_of_rd _ _ c _ hrd)
      have key := ih
        { w with shop := { w.shop with washbasin := w.shop.washbasin.set w.barber.basinPosition.toNat { c with completionPercentage := v } } }
        { c with completionPercentage := v } last
        (fun x hx => hvs x (List.mem_cons_of_mem _ hx)) hlast hp hrd1
      rw [key]
      simp only [List.set_set]

/-- The values written for a step count in 5..20. -/
theorem completion_values_facts (steps : Int) (h5 : 5 ≤ steps) (h20 : steps ≤ 20) :
    List.Pairwise (fun x y => x < y) (completion_values steps 21 0) ∧
    (∀ v ∈ completion_values steps 21 0, 1 ≤ v ∧ v ≤ 100) ∧
    (completion_values steps 21 0).getLast? = some 100 ∧
    ((completion_values steps 21 0).length : Int)
      = (100 + Int.tdiv 100 steps - 1) / Int.tdiv 100 steps ∧
    steps ≤ (completion_values steps 21 0).length ∧
    (completion_values steps 21 0).length ≤ 20 ∧
    (((completion_values steps 21 0).length : Int) = steps ↔ steps ∣ 100) ∧
    (steps ∣ 100 ↔ steps = 5 ∨ steps = 10 ∨ steps = 20) := by
  interval_cases steps <;> decide!
theorem drawn_steps_bounds (raw : Nat) :
    5 ≤ (if (5 : Int) ≤ 20 then 5 + (raw : Int) % (20 - 5 + 1) else 5) ∧
    (if (5 : Int) ≤ 20 then 5 + (raw : Int) % (20 - 5 + 1) else 5) ≤ 20 := by
  rw [if_pos (by decide)]
  have h1 := Int.emod_nonneg (raw : Int) (show ((20 : Int) - 5 + 1) ≠ 0 by decide)
  have h2 := Int.emod_lt_of_pos (raw : Int) (show (0 : Int) < 20 - 5 + 1 by decide)
  constructor <;> omega

/-- C21: the completion loop of `process_haircut_request`,
`process_hairwash_request` and `process_shave_request`.  For every step count
`steps` in 5..20 the loop, given 21 units of fuel or more, is exactly the
sequence of progress updates (spend the slice, write the value to the chair or
basin of the barber) for the values `completion_values steps 21 0`, one write
per step: it does not run out of fuel.  These values are strictly increasing,
all within 1..100, and the last one is 100.  On a valid chair (basin) position
every write succeeds: the loop returns, the slot holds completion 100 and
nothing else has changed.  Each of the three functions, once its `require`s
hold, runs this loop with a step count drawn in 5..20. -/
theorem completion_loop_writes (steps : Int) (h5 : 5 ≤ steps) (h20 : steps ≤ 20) :
    completion_values steps 21 0 ≠ [] ∧
    List.Pairwise (fun x y => x < y) (completion_values steps 21 0) ∧
    (∀ v ∈ completion_values steps 21 0, 1 ≤ v ∧ v ≤ 100) ∧
    (completion_values steps 21 0).getLast? = some 100 ∧
    (∀ (fuel : Nat) (slice : Int) (o : Oracle) (w : World), 21 ≤ fuel →
      chair_completion_loop steps slice fuel 0 o w
        = perform ((completion_values steps 21 0).map (chair_progress slice)) o w ∧
      basin_completion_loop steps slice fuel 0 o w
        = perform ((completion_values steps 21 0).map (basin_progress slice)) o w) ∧
    (∀ (fuel : Nat) (slice : Int) (o : Oracle) (w : World) (c : BarberChair), 21 ≤ fuel →
      0 ≤ w.barber.chairPosition ∧ w.barber.chairPosition < w.shop.numChairs →
      rd w.shop.barberChair w.barber.chairPosition = some c →
      chair_completion_loop steps slice fuel 0 o w = .ok () { w with shop := { w.shop with
        barberChair := w.shop.barberChair.set w.barber.chairPosition.toNat
          { c with completionPercentage := 100 } } }) ∧
    (∀ (fuel : Nat) (washes : Int) (o : Oracle) (w : World) (c : Washbasin), 21 ≤ fuel →
      0 ≤ w.barber.basinPosition ∧ w.barber.basinPosition < w.shop.numWashbasins →
      rd w.shop.washbasin w.barber.basinPosition = some c →
      basin_completion_loop steps washes fuel 0 o w = .ok () { w with shop := { w.shop with
        washbasin := w.shop.washbasin.set w.barber.basinPosition.toNat
          { c with completionPercentage := 100 } } }) ∧
    (∀ (fuel : Nat) (o : Oracle) (w : World),
      ∃ drawn slice : Int, 5 ≤ drawn ∧ drawn ≤ 20 ∧
        (Int.land w.barber.tools SCISSOR_TOOL ≠ 0 → Int.land w.barber.tools COMB_TOOL ≠ 0 →
          process_haircut_request fuel o w
            = chair_completion_loop drawn slice fuel 0 o { w with draws := w.draws + 1 }) ∧
        process_hairwash_request fuel o w
          = basin_completion_loop drawn slice fuel 0 o { w with draws := w.draws + 1 } ∧
        (Int.land w.barber.tools RAZOR_TOOL ≠ 0 →
          process_shave_request fuel o w
            = chair_completion_loop drawn slice fuel 0 o { w with draws := w.draws + 1 })) := by
  have hd := tdiv_100_steps steps h5 h20
  obtain ⟨hsorted, hrange, hlast, -⟩ := completion_values_facts steps h5 h20
  have hfuel : ∀ fuel : Nat, 21 ≤ fuel →
      completion_values steps fuel 0 = completion_values steps 21 0 := by
    intro fuel hf
    have h := completion_values_fuel steps hd 21 0 (by decide) (by decide) (fuel - 21)
    have he : 21 + (fuel - 21) = fuel := by omega
    rw [he] at h
    exact h
  have hrange0 : ∀ v ∈ completion_values steps 21 0, 0 ≤ v ∧ v ≤ 100 :=
    fun v hv => ⟨by have := (hrange v hv).1; omega, (hrange v hv).2⟩
  have hchair : ∀ (fuel : Nat) (slice : Int) (o : Oracle) (w : World), 21 ≤ fuel →
      chair_completion_loop steps slice fuel 0 o w
        = perform ((completion_values steps 21 0).map (chair_progress slice)) o w := by
    intro fuel slice o w hf
    rw [chair_completion_loop_eq steps slice hd o fuel 0 w (by omega) (by omega), hfuel fuel hf]
  have hbasin : ∀ (fuel : Nat) (slice : Int) (o : Oracle) (w : World), 21 ≤ fuel →
      basin_completion_loop steps slice fuel 0 o w
        = perform ((completion_values steps 21 0).map (basin_progress slice)) o w := by
    intro fuel slice o w hf
    rw [basin_completion_loop_eq steps slice hd o fuel 0 w (by omega) (by omega), hfuel fuel hf]
  refine ⟨?_, hsorted, hrange, hlast, fun fuel slice o w hf => ⟨hchair fuel slice o w hf,
    hbasin fuel slice o w hf⟩, ?_, ?_, ?_⟩
  · intro h
    rw [h] at hlast
    cases hlast
  · intro fuel slice o w c hf hp hrd
    rw [hchair fuel slice o w hf]
    exact perform_chair_progress slice o _ w c 100 hrange0 hlast hp hrd
  · intro fuel washes o w c hf hp hrd
    rw [hbasin fuel washes o w hf]
    exact perform_basin_progress washes o _ w c 100 hrange0 hlast hp hrd
  · intro fuel o w
    refine ⟨(if (5 : Int) ≤ 20 then 5 + (o.random w.draws : Int) % (20 - 5 + 1) else 5),
      Int.tdiv (w.global.MAX_WORK_TIME_UNITS - w.global.MIN_WORK_TIME_UNITS
        + (if (5 : Int) ≤ 20 then 5 + (o.random w.draws : Int) % (20 - 5 + 1) else 5))
        (if (5 : Int) ≤ 20 then 5 + (o.random w.draws : Int) % (20 - 5 + 1) else 5),
      (drawn_steps_bounds (o.random w.draws)).1,
      (drawn_steps_bounds (o.random w.draws)).2, fun hs hc => ?_, ?_, fun hr => ?_⟩
    · simp only [process_haircut_request, run_bind, run_getBarber, run_require, hs, hc, ne_eq,
        not_false_eq_true, decide_True, if_true, run_random_int, run_getW]
    · simp only [process_hairwash_request, run_bind, run_random_int, run_getW]
    · simp only [process_shave_request, run_bind, run_getBarber, run_require, hr, ne_eq,
        not_false_eq_true, decide_True, if_true, run_random_int, run_getW]

/-- Witness of C21: seven steps. -/
theorem completion_loop_writes_witness :
    (5 : Int) ≤ 7 ∧ (7 : Int) ≤ 20 ∧ (completion_values 7 21 0).getLast? = some 100 ∧
    completion_values 7 21 0 = [14, 28, 42, 56, 70, 84, 98, 100] :=
  ⟨by decide, by decide, (completion_loop_writes 7 (by decide) (by decide)).2.2.2.1, by decide⟩

/-- C28: the number of progress updates of the completion loop.  For every
step count `steps` in 5..20 the loop, given 21 units of fuel or more, is the
sequence of `n` progress updates, each spending one time slice, where `n` is
the ceiling of `100 / (100 / steps)` (`100 / steps` rounded down, as the C
division does): `n` is at least `steps` and at most 20, it equals `steps`
exactly when `steps` divides 100, that is for 5, 10 and 20, and it is larger
than `steps` for every other step count. -/
theorem completion_loop_updates (steps : Int) (h5 : 5 ≤ steps) (h20 : steps ≤ 20) :
    Int.tdiv 100 steps = 100 / steps ∧
    ((completion_values steps 21 0).length : Int)
      = (100 + 100 / steps - 1) / (100 / steps) ∧
    100 ≤ ((completion_values steps 21 0).length : Int) * (100 / steps) ∧
    (((completion_values steps 21 0).length : Int) - 1) * (100 / steps) < 100 ∧
    steps ≤ (completion_values steps 21 0).length ∧
    (completion_values steps 21 0).length ≤ 20 ∧
    (((completion_values steps 21 0).length : Int) = steps ↔ steps ∣ 100) ∧
    (steps ∣ 100 ↔ steps = 5 ∨ steps = 10 ∨ steps = 20) ∧
    (¬ steps ∣ 100 → steps < (completion_values steps 21 0).length) ∧
    (∀ (fuel : Nat) (slice : Int) (o : Oracle) (w : World), 21 ≤ fuel →
      chair_completion_loop steps slice fuel 0 o w
        = perform ((completion_values steps 21 0).map (chair_progress slice)) o w ∧
      basin_completion_loop steps slice fuel 0 o w
        = perform ((completion_values steps 21 0).map (basin_progress slice)) o w ∧
      ((completion_values steps 21 0).map (chair_progress slice)).length
        = (completion_values steps 21 0).length) := by
  have hd := tdiv_100_steps steps h5 h20
  have htd : Int.tdiv 100 steps = 100 / steps := by
    interval_cases steps <;> decide
  obtain ⟨-, -, -, hlen, hge, hle, hiff, hdvd⟩ := completion_values_facts steps h5 h20
  rw [htd] at hlen
  have hceil : 100 ≤ ((completion_values steps 21 0).length : Int) * (100 / steps) ∧
      (((completion_values steps 21 0).length : Int) - 1) * (100 / steps) < 100 := by
    rw [hlen]
    interval_cases steps <;> decide
  have hfuel : ∀ fuel : Nat, 21 ≤ fuel →
      completion_values steps fuel 0 = completion_values steps 21 0 := by
    intro fuel hf
    have h := completion_values_fuel steps hd 21 0 (by decide) (by decide) (fuel - 21)
    have he : 21 + (fuel - 21) = fuel := by omega
    rw [he] at h
    exact h
  refine ⟨htd, hlen, hceil.1, hceil.2, hge, hle, hiff, hdvd, fun hnd => ?_,
    fun fuel slice o w hf => ⟨?_, ?_, List.length_map _ _⟩⟩
  · have hne : ((completion_values steps 21 0).length : Int) ≠ steps := fun h => hnd (hiff.1 h)
    omega
  · rw [chair_completion_loop_eq steps slice hd o fuel 0 w (by omega) (by omega), hfuel fuel hf]
  · rw [basin_completion_loop_eq steps slice hd o fuel 0 w (by omega) (by omega), hfuel fuel hf]

/-- Witness of C28: seven steps take eight updates. -/
theorem completion_loop_updates_witness :
    (5 : Int) ≤ 7 ∧ (7 : Int) ≤ 20 ∧ (completion_values 7 21 0).length = 8 ∧
    ((7 : Int) < (completion_values 7 21 0).length) :=
  ⟨by decide, by decide, by decide,
    (completion_loop_updates 7 (by decide) (by decide)).2.2.2.2.2.2.2.2.1 (by decide)⟩

/-! ### Computations that leave the pending requests alone -/

@[simp] theorem steady_pure {cid : Int} {α : Type} (a : α) : Steady cid (pure a : M α) :=
  ⟨fun _ _ _ => ⟨rfl, rfl, rfl⟩⟩

theorem steady_bind {cid : Int} {α β : Type} (m : M α) (f : α → M β) (h1 : Steady cid m)
    (h2 : ∀ a, Steady cid (f a)) : Steady cid (m >>= f) := by
  constructor
  intro o w ho
  rw [run_bind]
  cases h : m o w with
  | ok a w1 =>
    have := h1.keeps o w ho
    rw [h] at this
    have h3 := (h2 a).keeps o w1 ho
    exact ⟨h3.1.trans this.1, h3.2.1.trans this.2.1, h3.2.2.trans this.2.2⟩
  | fail e w1 =>
    have := h1.keeps o w ho
    rw [h] at this
    exact this

theorem steady_ite {cid : Int} {α : Type} (c : Prop) [Decidable c] (a b : M α) (h1 : Steady cid a)
    (h2 : Steady cid b) : Steady cid (if c then a else b) := by
  split_ifs <;> assumption

@[simp] theorem steady_abort {cid : Int} {α : Type} (e : Err) : Steady cid (abort e : M α) :=
  ⟨fun _ _ _ => ⟨rfl, rfl, rfl⟩⟩

@[simp] theorem steady_getW {cid : Int} : Steady cid getW := ⟨fun _ _ _ => ⟨rfl, rfl, rfl⟩⟩

@[simp] theorem steady_lock {cid : Int} : Steady cid lock := ⟨fun _ _ h => ⟨h _ _, rfl, rfl⟩⟩

@[simp] theorem steady_unlock {cid : Int} : Steady cid unlock := ⟨fun _ _ _ => ⟨rfl, rfl, rfl⟩⟩

@[simp] theorem steady_draw {cid : Int} : Steady cid draw := ⟨fun _ _ _ => ⟨rfl, rfl, rfl⟩⟩

@[simp] theorem steady_spend {cid : Int} (t : Int) : Steady cid (spend t) := ⟨fun _ _ _ => ⟨rfl, rfl, rfl⟩⟩

@[simp] theorem steady_getShop {cid : Int} : Steady cid getShop := ⟨fun _ _ _ => ⟨rfl, rfl, rfl⟩⟩

@[simp] theorem steady_setShop {cid : Int} (shop : BarberShop) : Steady cid (setShop shop) :=
  ⟨fun _ _ _ => ⟨rfl, rfl, rfl⟩⟩

@[simp] theorem steady_getBarber {cid : Int} : Steady cid getBarber := ⟨fun _ _ _ => ⟨rfl, rfl, rfl⟩⟩

theorem steady_modifyBarber {cid : Int} (f : Barber → Barber)
    (h : ∀ b, (f b).clientID = b.clientID ∧ (f b).reqToDo = b.reqToDo) :
    Steady cid (modifyBarber f) := ⟨fun _ w _ => ⟨rfl, (h w.barber).1, (h w.barber).2⟩⟩

@[simp] theorem steady_require {cid : Int} (c : Bool) : Steady cid (require c) := by
  cases c <;> exact ⟨fun _ _ _ => ⟨rfl, rfl, rfl⟩⟩

@[simp] theorem steady_ensure {cid : Int} (c : Bool) : Steady cid (ensure c) := by
  cases c <;> exact ⟨fun _ _ _ => ⟨rfl, rfl, rfl⟩⟩

@[simp] theorem steady_check {cid : Int} (c : Bool) : Steady cid (check c) := by
  cases c <;> exact ⟨fun _ _ _ => ⟨rfl, rfl, rfl⟩⟩

@[simp] theorem steady_defined {cid : Int} {α : Type} (x : Option α) : Steady cid (defined x) := by
  cases x <;> exact ⟨fun _ _ _ => ⟨rfl, rfl, rfl⟩⟩

@[simp] theorem steady_bus {cid : Int} {α : Type} (f : BCInterface → Option α) :
    Steady cid (bus f) := by
  constructor
  intro o w ho
  rcases w with ⟨g, br, sh, b, c, d, l, _ | n⟩
  · rw [run_bus_free]
    cases f (o.others c b) <;> exact ⟨ho _ _, rfl, rfl⟩
  · rw [run_bus]
    cases f b <;> exact ⟨rfl, rfl, rfl⟩

theorem steady_busSet {cid : Int} (f : BCInterface → Option BCInterface)
    (hf : ∀ b b1, f b = some b1 → b1.clientRequests = b.clientRequests) :
    Steady cid (busSet f) := by
  constructor
  intro o w ho
  rcases w with ⟨g, br, sh, b, c, d, l, _ | n⟩
  · rw [run_busSet_free]
    cases h : f (o.others c b) with
    | none => exact ⟨ho _ _, rfl, rfl⟩
    | some b1 =>
      exact ⟨(congrArg (fun a => rd a (cid - 1)) (hf _ _ h)).trans (ho _ _), rfl, rfl⟩
  · rw [run_busSet]
    cases h : f b with
    | none => exact ⟨rfl, rfl, rfl⟩
    | some b1 => exact ⟨congrArg (fun a => rd a (cid - 1)) (hf _ _ h), rfl, rfl⟩

theorem steady_busyWait {cid : Int} (cond : M Bool) (n : Nat) (h : Steady cid cond) :
    Steady cid (busyWait cond n) := by
  induction n with
  | zero => exact steady_abort _
  | succ k ih =>
    unfold busyWait
    exact steady_bind _ _ h fun c => steady_ite _ _ _ ih (steady_pure _)

@[simp] theorem steady_bci_set_state {cid : Int} (barberID state : Int) :
    Steady cid (bci_set_state barberID state) := by
  constructor
  intro o w ho
  rw [run_bci_set_state]
  cases wr (o.others w.clock w.bci).currentState (barberID - 1) state <;>
    exact ⟨ho _ _, rfl, rfl⟩

@[simp] theorem steady_bci_set_service {cid : Int} (barberID : Int) (service : Service) :
    Steady cid (bci_set_service barberID service) := by
  constructor
  intro o w ho
  rw [run_bci_set_service]
  cases wr (o.others w.clock w.bci).service (barberID - 1) service <;>
    exact ⟨ho _ _, rfl, rfl⟩

@[simp] theorem steady_bci_set_syncBBChair {cid : Int} (chair : BarberChair) (barberID : Int) :
    Steady cid (bci_set_syncBBChair chair barberID) := by
  unfold bci_set_syncBBChair
  refine steady_bind _ _ steady_lock fun _ => steady_bind _ _ (steady_busSet _ ?_) fun _ =>
    steady_unlock
  intro b b1 h
  cases hw : wr b.syncBBChairs (barberID - 1) chair with
  | none => rw [hw] at h; cases h
  | some a => rw [hw] at h; cases h; rfl

@[simp] theorem steady_bci_set_syncWashbasin {cid : Int} (basin : Washbasin) (barberID : Int) :
    Steady cid (bci_set_syncWashbasin basin barberID) := by
  unfold bci_set_syncWashbasin
  refine steady_bind _ _ steady_lock fun _ => steady_bind _ _ (steady_busSet _ ?_) fun _ =>
    steady_unlock
  intro b b1 h
  cases hw : wr b.syncWashbasins (barberID - 1) basin with
  | none => rw [hw] at h; cases h
  | some a => rw [hw] at h; cases h; rfl

@[simp] theorem steady_random_int {cid : Int} (lo hi : Int) :
    Steady cid (random_int lo hi) := by
  unfold random_int
  repeat' (first
    | simp | apply steady_bind | apply steady_ite | apply steady_busyWait
    | apply steady_modifyBarber | apply And.intro | intro _ | rfl)

@[simp] theorem steady_log_barber {cid : Int} :
    Steady cid (log_barber) := by
  unfold log_barber
  repeat' (first
    | simp | apply steady_bind | apply steady_ite | apply steady_busyWait
    | apply steady_modifyBarber | apply And.intro | intro _ | rfl)

@[simp] theorem steady_bci_get_request {cid : Int} (clientID : Int) :
    Steady cid (bci_get_request clientID) := by
  unfold bci_get_request
  repeat' (first
    | simp | apply steady_bind | apply steady_ite | apply steady_busyWait
    | apply steady_modifyBarber | apply And.intro | intro _ | rfl)

@[simp] theorem steady_bci_get_next_request {cid : Int} (clientID : Int) :
    Steady cid (bci_get_next_request clientID) := by
  unfold bci_get_next_request
  repeat' (first
    | simp | apply steady_bind | apply steady_ite | apply steady_busyWait
    | apply steady_modifyBarber | apply And.intro | intro _ | rfl)

@[simp] theorem steady_bci_get_state {cid : Int} (barberID : Int) :
    Steady cid (bci_get_state barberID) := by
  unfold bci_get_state
  repeat' (first
    | simp | apply steady_bind | apply steady_ite | apply steady_busyWait
    | apply steady_modifyBarber | apply And.intro | intro _ | rfl)

@[simp] theorem steady_bci_get_syncBBChair {cid : Int} (barberID : Int) :
    Steady cid (bci_get_syncBBChair barberID) := by
  unfold bci_get_syncBBChair
  repeat' (first
    | simp | apply steady_bind | apply steady_ite | apply steady_busyWait
    | apply steady_modifyBarber | apply And.intro | intro _ | rfl)

@[simp] theorem steady_bci_get_syncWashbasin {cid : Int} (barberID : Int) :
    Steady cid (bci_get_syncWashbasin barberID) := by
  unfold bci_get_syncWashbasin
  repeat' (first
    | simp | apply steady_bind | apply steady_ite | apply steady_busyWait
    | apply steady_modifyBarber | apply And.intro | intro _ | rfl)

@[simp] theorem steady_reserve_barber_chair {cid : Int} (chair : BarberChair) (barberID : Int) :
    Steady cid (reserve_barber_chair chair barberID) := by
  unfold reserve_barber_chair
  repeat' (first
    | simp | apply steady_bind | apply steady_ite | apply steady_busyWait
    | apply steady_modifyBarber | apply And.intro | intro _ | rfl)

@[simp] theorem steady_release_barber_chair {cid : Int} (chair : BarberChair) (barberID : Int) :
    Steady cid (release_barber_chair chair barberID) := by
  unfold release_barber_chair
  repeat' (first
    | simp | apply steady_bind | apply steady_ite | apply steady_busyWait
    | apply steady_modifyBarber | apply And.intro | intro _ | rfl)

@[simp] theorem steady_set_completion_barber_chair {cid : Int} (chair : BarberChair) (c : Int) :
    Steady cid (set_completion_barber_chair chair c) := by
  unfold set_completion_barber_chair
  repeat' (first
    | simp | apply steady_bind | apply steady_ite | apply steady_busyWait
    | apply steady_modifyBarber | apply And.intro | intro _ | rfl)

@[simp] theorem steady_reserve_washbasin {cid : Int} (basin : Washbasin) (barberID : Int) :
    Steady cid (reserve_washbasin basin barberID) := by
  unfold reserve_washbasin
  repeat' (first
    | simp | apply steady_bind | apply steady_ite | apply steady_busyWait
    | apply steady_modifyBarber | apply And.intro | intro _ | rfl)

@[simp] theorem steady_release_washbasin {cid : Int} (basin : Washbasin) (barberID : Int) :
    Steady cid (release_washbasin basin barberID) := by
  unfold release_washbasin
  repeat' (first
    | simp | apply steady_bind | apply steady_ite | apply steady_busyWait
    | apply steady_modifyBarber | apply And.intro | intro _ | rfl)

@[simp] theorem steady_set_completion_washbasin {cid : Int} (basin : Washbasin) (c : Int) :
    Steady cid (set_completion_washbasin basin c) := by
  unfold set_completion_washbasin
  repeat' (first
    | simp | apply steady_bind | apply steady_ite | apply steady_busyWait
    | apply steady_modifyBarber | apply And.intro | intro _ | rfl)

@[simp] theorem steady_pick_scissor {cid : Int} (pot : ToolsPot) :
    Steady cid (pick_scissor pot) := by
  unfold pick_scissor
  repeat' (first
    | simp | apply steady_bind | apply steady_ite | apply steady_busyWait
    | apply steady_modifyBarber | apply And.intro | intro _ | rfl)

@[simp] theorem steady_pick_comb {cid : Int} (pot : ToolsPot) :
    Steady cid (pick_comb pot) := by
  unfold pick_comb
  repeat' (first
    | simp | apply steady_bind | apply steady_ite | apply steady_busyWait
    | apply steady_modifyBarber | apply And.intro | intro _ | rfl)

@[simp] theorem steady_pick_razor {cid : Int} (pot : ToolsPot) :
    Steady cid (pick_razor pot) := by
  unfold pick_razor
  repeat' (first
    | simp | apply steady_bind | apply steady_ite | apply steady_busyWait
    | apply steady_modifyBarber | apply And.intro | intro _ | rfl)

@[simp] theorem steady_return_scissor {cid : Int} (pot : ToolsPot) :
    Steady cid (return_scissor pot) := by
  unfold return_scissor
  repeat' (first
    | simp | apply steady_bind | apply steady_ite | apply steady_busyWait
    | apply steady_modifyBarber | apply And.intro | intro _ | rfl)

@[simp] theorem steady_return_comb {cid : Int} (pot : ToolsPot) :
    Steady cid (return_comb pot) := by
  unfold return_comb
  repeat' (first
    | simp | apply steady_bind | apply steady_ite | apply steady_busyWait
    | apply steady_modifyBarber | apply And.intro | intro _ | rfl)

@[simp] theorem steady_return_razor {cid : Int} (pot : ToolsPot) :
    Steady cid (return_razor pot) := by
  unfold return_razor
  repeat' (first
    | simp | apply steady_bind | apply steady_ite | apply steady_busyWait
    | apply steady_modifyBarber | apply And.intro | intro _ | rfl)

@[simp] theorem steady_barber_chair {cid : Int} (pos : Int) :
    Steady cid (barber_chair pos) := by
  unfold barber_chair
  repeat' (first
    | simp | apply steady_bind | apply steady_ite | apply steady_busyWait
    | apply steady_modifyBarber | apply And.intro | intro _ | rfl)

@[simp] theorem steady_store_barber_chair {cid : Int} (pos : Int) (chair : BarberChair) :
    Steady cid (store_barber_chair pos chair) := by
  unfold store_barber_chair
  repeat' (first
    | simp | apply steady_bind | apply steady_ite | apply steady_busyWait
    | apply steady_modifyBarber | apply And.intro | intro _ | rfl)

@[simp] theorem steady_tools_pot {cid : Int} :
    Steady cid (tools_pot) := by
  unfold tools_pot
  repeat' (first
    | simp | apply steady_bind | apply steady_ite | apply steady_busyWait
    | apply steady_modifyBarber | apply And.intro | intro _ | rfl)

@[simp] theorem steady_store_tools_pot {cid : Int} (pot : ToolsPot) :
    Steady cid (store_tools_pot pot) := by
  unfold store_tools_pot
  repeat' (first
    | simp | apply steady_bind | apply steady_ite | apply steady_busyWait
    | apply steady_modifyBarber | apply And.intro | intro _ | rfl)

@[simp] theorem steady_washbasin {cid : Int} (pos : Int) :
    Steady cid (washbasin pos) := by
  unfold washbasin
  repeat' (first
    | simp | apply steady_bind | apply steady_ite | apply steady_busyWait
    | apply steady_modifyBarber | apply And.intro | intro _ | rfl)

@[simp] theorem steady_store_washbasin {cid : Int} (pos : Int) (basin : Washbasin) :
    Steady cid (store_washbasin pos basin) := by
  unfold store_washbasin
  repeat' (first
    | simp | apply steady_bind | apply steady_ite | apply steady_busyWait
    | apply steady_modifyBarber | apply And.intro | intro _ | rfl)

@[simp] theorem steady_num_available_barber_chairs {cid : Int} :
    Steady cid (num_available_barber_chairs) := by
  unfold num_available_barber_chairs
  repeat' (first
    | simp | apply steady_bind | apply steady_ite | apply steady_busyWait
    | apply steady_modifyBarber | apply And.intro | intro _ | rfl)

@[simp] theorem steady_reserve_random_empty_barber_chair {cid : Int} (barberID : Int) :
    Steady cid (reserve_random_empty_barber_chair barberID) := by
  unfold reserve_random_empty_barber_chair
  repeat' (first
    | simp | apply steady_bind | apply steady_ite | apply steady_busyWait
    | apply steady_modifyBarber | apply And.intro | intro _ | rfl)

@[simp] theorem steady_num_available_washbasin {cid : Int} :
    Steady cid (num_available_washbasin) := by
  unfold num_available_washbasin
  repeat' (first
    | simp | apply steady_bind | apply steady_ite | apply steady_busyWait
    | apply steady_modifyBarber | apply And.intro | intro _ | rfl)

@[simp] theorem steady_reserve_random_empty_washbasin {cid : Int} (barberID : Int) :
    Steady cid (reserve_random_empty_washbasin barberID) := by
  unfold reserve_random_empty_washbasin
  repeat' (first
    | simp | apply steady_bind | apply steady_ite | apply steady_busyWait
    | apply steady_modifyBarber | apply And.intro | intro _ | rfl)

@[simp] theorem steady_load_barber_chair {cid : Int} (pos barberID : Int) :
    Steady cid (load_barber_chair pos barberID) := by
  unfold load_barber_chair
  repeat' (first
    | simp | apply steady_bind | apply steady_ite | apply steady_busyWait
    | apply steady_modifyBarber | apply And.intro | intro _ | rfl)

@[simp] theorem steady_load_washbasin {cid : Int} (pos barberID : Int) :
    Steady cid (load_washbasin pos barberID) := by
  unfold load_washbasin
  repeat' (first
    | simp | apply steady_bind | apply steady_ite | apply steady_busyWait
    | apply steady_modifyBarber | apply And.intro | intro _ | rfl)

@[simp] theorem steady_hold_tool {cid : Int} (tool : Int) :
    Steady cid (hold_tool tool) := by
  unfold hold_tool
  repeat' (first
    | simp | apply steady_bind | apply steady_ite | apply steady_busyWait
    | apply steady_modifyBarber | apply And.intro | intro _ | rfl)

@[simp] theorem steady_drop_tool {cid : Int} (tool : Int) :
    Steady cid (drop_tool tool) := by
  unfold drop_tool
  repeat' (first
    | simp | apply steady_bind | apply steady_ite | apply steady_busyWait
    | apply steady_modifyBarber | apply And.intro | intro _ | rfl)

@[simp] theorem steady_process_pick_tools {cid : Int} (fuel : Nat) :
    Steady cid (process_pick_tools fuel) := by
  unfold process_pick_tools
  repeat' (first
    | simp | apply steady_bind | apply steady_ite | apply steady_busyWait
    | apply steady_modifyBarber | apply And.intro | intro _ | rfl)

@[simp] theorem steady_process_return_tools {cid : Int} :
    Steady cid (process_return_tools) := by
  unfold process_return_tools
  repeat' (first
    | simp | apply steady_bind | apply steady_ite | apply steady_busyWait
    | apply steady_modifyBarber | apply And.intro | intro _ | rfl)

@[simp] theorem steady_process_release {cid : Int} :
    Steady cid (process_release) := by
  unfold process_release
  repeat' (first
    | simp | apply steady_bind | apply steady_ite | apply steady_busyWait
    | apply steady_modifyBarber | apply And.intro | intro _ | rfl)

@[simp] theorem steady_chair_completion_loop {cid : Int} (steps slice : Int) (n : Nat) (complete : Int) :
    Steady cid (chair_completion_loop steps slice n complete) := by
  induction n generalizing complete with
  | zero => exact steady_abort _
  | succ k ih =>
    unfold chair_completion_loop
    repeat' (first
      | simp | exact ih _ | apply steady_bind | apply steady_ite | apply steady_busyWait
      | apply steady_modifyBarber | apply And.intro | intro _ | rfl)

@[simp] theorem steady_basin_completion_loop {cid : Int} (steps washes : Int) (n : Nat) (complete : Int) :
    Steady cid (basin_completion_loop steps washes n complete) := by
  induction n generalizing complete with
  | zero => exact steady_abort _
  | succ k ih =>
    unfold basin_completion_loop
    repeat' (first
      | simp | exact ih _ | apply steady_bind | apply steady_ite | apply steady_busyWait
      | apply steady_modifyBarber | apply And.intro | intro _ | rfl)

@[simp] theorem steady_process_haircut_request {cid : Int} (fuel : Nat) :
    Steady cid (process_haircut_request fuel) := by
  unfold process_haircut_request
  repeat' (first
    | simp | apply steady_bind | apply steady_ite | apply steady_busyWait
    | apply steady_modifyBarber | apply And.intro | intro _ | rfl)

@[simp] theorem steady_process_hairwash_request {cid : Int} (fuel : Nat) :
    Steady cid (process_hairwash_request fuel) := by
  unfold process_hairwash_request
  repeat' (first
    | simp | apply steady_bind | apply steady_ite | apply steady_busyWait
    | apply steady_modifyBarber | apply And.intro | intro _ | rfl)

@[simp] theorem steady_process_shave_request {cid : Int} (fuel : Nat) :
    Steady cid (process_shave_request fuel) := by
  unfold process_shave_request
  repeat' (first
    | simp | apply steady_bind | apply steady_ite | apply steady_busyWait
    | apply steady_modifyBarber | apply And.intro | intro _ | rfl)

@[simp] theorem steady_process_service {cid : Int} (fuel : Nat) : Steady cid (process_service fuel) := by
  unfold process_service
  repeat' (first
    | simp | apply steady_bind | apply steady_ite | apply steady_busyWait
    | apply steady_modifyBarber | apply And.intro | intro _ | rfl)

@[simp] theorem steady_inform_client_on_service {cid : Int} (service : Service) :
    Steady cid (inform_client_on_service service) := by
  unfold inform_client_on_service
  repeat' (first
    | simp | apply steady_bind | apply steady_ite | apply steady_busyWait
    | apply steady_modifyBarber | apply And.intro | intro _ | rfl)

@[simp] theorem steady_process_inform {cid : Int} : Steady cid process_inform := by
  unfold process_inform
  repeat' (first
    | simp | apply steady_bind | apply steady_ite | apply steady_busyWait
    | apply steady_modifyBarber | apply And.intro | intro _ | rfl)

@[simp] theorem steady_process_wait_sit {cid : Int} (fuel : Nat) : Steady cid (process_wait_sit fuel) := by
  unfold process_wait_sit
  repeat' (first
    | simp | apply steady_bind | apply steady_ite | apply steady_busyWait
    | apply steady_modifyBarber | apply And.intro | intro _ | rfl)

@[simp] theorem steady_process_wait_rise {cid : Int} (fuel : Nat) : Steady cid (process_wait_rise fuel) := by
  unfold process_wait_rise
  repeat' (first
    | simp | apply steady_bind | apply steady_ite | apply steady_busyWait
    | apply steady_modifyBarber | apply And.intro | intro _ | rfl)

/-! ### The request loop -/

theorem bind_ok {α β : Type} {m : M α} {f : α → M β} {o : Oracle} {w w2 : World} {b : β}
    (h : (m >>= f) o w = .ok b w2) : ∃ a w1, m o w = .ok a w1 ∧ f a o w1 = .ok b w2 := by
  rw [run_bind] at h
  cases h1 : m o w with
  | ok a w1 =>
    rw [h1] at h
    exact ⟨a, w1, rfl, h⟩
  | fail e w1 =>
    rw [h1] at h
    cases h

theorem steady_ok {α : Type} {cid : Int} {m : M α} (hs : Steady cid m) {o : Oracle}
    {w w1 : World} {a : α} (ho : KeepsRequests cid o) (h : m o w = .ok a w1) :
    rd w1.bci.clientRequests (cid - 1) = rd w.bci.clientRequests (cid - 1) ∧
    w1.barber.clientID = w.barber.clientID ∧ w1.barber.reqToDo = w.barber.reqToDo := by
  have := hs.keeps o w ho
  rw [h] at this
  exact this

theorem process_reserve_requests (fuel : Nat) (o : Oracle) (w w1 : World) (cid r : Int)
    (ho : KeepsRequests cid o) (hc : w.barber.clientID = cid)
    (hr : rd w.bci.clientRequests (cid - 1) = some r)
    (h : process_reserve fuel o w = .ok () w1) :
    rd w1.bci.clientRequests (cid - 1) = some r ∧ w1.barber.clientID = cid ∧
    w1.barber.reqToDo = next_request r := by
  unfold process_reserve at h
  obtain ⟨b1, wa, h1, hk1⟩ := bind_ok h
  clear h
  rw [run_getBarber] at h1
  cases h1
  obtain ⟨_, wb, h2, hk2⟩ := bind_ok hk1
  clear hk1
  have s2 := steady_ok (steady_bci_set_state _ _) ho h2
  obtain ⟨_, wc, h3, hk3⟩ := bind_ok hk2
  clear hk2
  rw [run_modifyBarber] at h3
  cases h3
  obtain ⟨_, wd, h4, hk4⟩ := bind_ok hk3
  clear hk3
  rw [run_log_barber] at h4
  cases h4
  obtain ⟨b2, we, h5, hk5⟩ := bind_ok hk4
  clear hk4
  rw [run_getBarber] at h5
  cases h5
  obtain ⟨tmp, wf, h6, hk6⟩ := bind_ok hk5
  clear hk5
  have hc6 : wb.barber.clientID = cid := s2.2.1.trans hc
  have hr6 : rd (o.others wb.clock wb.bci).clientRequests (wb.barber.clientID - 1) = some r := by
    rw [hc6, ho, s2.1]
    exact hr
  rw [run_bci_get_next_request] at h6
  simp only [hr6] at h6
  cases h6
  obtain ⟨_, wg, h7, hk7⟩ := bind_ok hk6
  clear hk6
  rw [run_modifyBarber] at h7
  cases h7
  have s8 := steady_ok (by
    repeat' (first
      | simp | apply steady_bind | apply steady_ite | apply steady_busyWait
      | apply steady_modifyBarber | apply And.intro | intro _ | rfl)) ho hk7
  refine ⟨?_, ?_, ?_⟩
  · rw [s8.1]
    simp only []
    rw [ho, s2.1]
    exact hr
  · rw [s8.2.1]
    exact hc6
  · rw [s8.2.2]
    rfl

theorem process_finish_requests (o : Oracle) (w w1 : World) (cid r : Int)
    (ho : KeepsRequests cid o) (hc : w.barber.clientID = cid)
    (hr : rd w.bci.clientRequests (cid - 1) = some r)
    (h : process_finish o w = .ok () w1) :
    rd w1.bci.clientRequests (cid - 1) = some (r - next_request r) ∧
    w1.barber.clientID = cid ∧ w1.barber.reqToDo = w.barber.reqToDo := by
  unfold process_finish at h
  obtain ⟨b1, wa, h1, hk1⟩ := bind_ok h
  clear h
  rw [run_getBarber] at h1
  cases h1
  obtain ⟨_, wb, h2, hk2⟩ := bind_ok hk1
  clear hk1
  have s2 := steady_ok (steady_bci_set_state _ _) ho h2
  obtain ⟨_, wc, h3, hk3⟩ := bind_ok hk2
  clear hk2
  have s3 := steady_ok steady_log_barber ho h3
  obtain ⟨b2, wd, h4, hk4⟩ := bind_ok hk3
  clear hk3
  rw [run_getBarber] at h4
  cases h4
  obtain ⟨_, we, h5, hk5⟩ := bind_ok hk4
  clear hk4
  have hc5 : wc.barber.clientID = cid := s3.2.1.trans (s2.2.1.trans hc)
  have hr5 : rd (o.others wc.clock wc.bci).clientRequests (wc.barber.clientID - 1) = some r := by
    rw [hc5, ho, s3.1, s2.1]
    exact hr
  rw [run_bci_did_request o wc _ r hr5] at h5
  cases h5
  have s6 := steady_ok (by
    repeat' (first
      | simp | apply steady_bind | apply steady_ite | apply steady_busyWait
      | apply steady_modifyBarber | apply And.intro | intro _ | rfl)) ho hk5
  rw [hc5] at hr5
  refine ⟨?_, ?_, ?_⟩
  · rw [s6.1]
    simp only [next_request, hc5]
    exact rd_wr_same _ _ _ _ (wr_of_rd _ _ r _ hr5)
  · rw [s6.2.1]
    exact hc5
  · rw [s6.2.2]
    exact s3.2.2.trans s2.2.2

/-- One iteration of the request loop, the other processes leaving the pending
requests of the client alone: the request served is the one `next_request`
selects from the pending bitmask of the client, and that amount is subtracted
from the bitmask. -/
theorem process_resquests_from_client_body_requests (fuel : Nat) (o : Oracle) (w w1 : World)
    (cid r : Int) (ho : KeepsRequests cid o) (hc : w.barber.clientID = cid)
    (hr : rd w.bci.clientRequests (cid - 1) = some r)
    (h : process_resquests_from_client_body fuel o w = .ok () w1) :
    rd w1.bci.clientRequests (cid - 1) = some (r - next_request r) ∧
    w1.barber.clientID = cid ∧ w1.barber.reqToDo = next_request r := by
  unfold process_resquests_from_client_body at h
  obtain ⟨_, wa, h1, hk1⟩ := bind_ok h
  clear h
  have s1 := process_reserve_requests fuel o w wa cid r ho hc hr h1
  obtain ⟨_, wb, h2, hk2⟩ := bind_ok hk1
  clear hk1
  have s2 := steady_ok steady_process_inform ho h2
  obtain ⟨_, wc, h3, hk3⟩ := bind_ok hk2
  clear hk2
  have s3 := steady_ok (steady_process_pick_tools fuel) ho h3
  obtain ⟨_, wd, h4, hk4⟩ := bind_ok hk3
  clear hk3
  have s4 := steady_ok (steady_process_wait_sit fuel) ho h4
  obtain ⟨_, we, h5, hk5⟩ := bind_ok hk4
  clear hk4
  have s5 := steady_ok (steady_process_service fuel) ho h5
  obtain ⟨_, wf, h6, hk6⟩ := bind_ok hk5
  clear hk5
  have s6 := steady_ok (steady_process_wait_rise fuel) ho h6
  obtain ⟨_, wg, h7, hk7⟩ := bind_ok hk6
  clear hk6
  have s7 := steady_ok steady_process_return_tools ho h7
  obtain ⟨_, wh, h8, hk8⟩ := bind_ok hk7
  clear hk7
  have s8 := steady_ok steady_process_release ho h8
  have e1 : rd wh.bci.clientRequests (cid - 1) = some r := by
    rw [s8.1, s7.1, s6.1, s5.1, s4.1, s3.1, s2.1, s1.1]
  have e2 : wh.barber.clientID = cid := by
    rw [s8.2.1, s7.2.1, s6.2.1, s5.2.1, s4.2.1, s3.2.1, s2.2.1, s1.2.1]
  have e3 : wh.barber.reqToDo = next_request r := by
    rw [s8.2.2, s7.2.2, s6.2.2, s5.2.2, s4.2.2, s3.2.2, s2.2.2, s1.2.2]
  have s9 := process_finish_requests o wh w1 cid r ho e2 e1 hk8
  exact ⟨s9.1, s9.2.1, s9.2.2.trans e3⟩

/-- The loop of `process_resquests_from_client` is the loop with the ghost
result, the result dropped. -/
theorem process_resquests_from_client_loop_served (fuel : Nat) (o : Oracle) :
    ∀ (k : Nat) (w : World), process_resquests_from_client_loop fuel k o w
      = (process_resquests_from_client_served fuel k >>= fun _ => pure ()) o w := by
  intro k
  induction k with
  | zero => intro w; rfl
  | succ k ih =>
    intro w
    unfold process_resquests_from_client_loop process_resquests_from_client_served
    simp only [run_bind, run_getBarber]
    cases bci_get_request w.barber.clientID o w with
    | fail e w1 => rfl
    | ok pending w1 =>
      simp only []
      by_cases hp : pending > 0
      · simp only [hp, if_true, run_bind, run_getBarber]
        cases process_resquests_from_client_body fuel o w1 with
        | fail e w2 => rfl
        | ok u w2 =>
          simp only []
          rw [ih w2, run_bind]
          cases process_resquests_from_client_served fuel k o w2 with
          | fail e w3 => rfl
          | ok l w3 => rfl
      · simp only [hp, if_false]

theorem request_schedule_zero (k : Nat) : request_schedule k 0 = [] := by
  cases k with
  | zero => rfl
  | succ k => simp [request_schedule]

theorem next_request_bounds (r : Int) (h1 : 1 ≤ r) (h7 : r ≤ 7) :
    0 ≤ r - next_request r ∧ r - next_request r ≤ 7 := by
  unfold next_request
  split_ifs <;> omega

/-- The iterations of the request loop, the other processes leaving the pending
requests of the client alone. -/
theorem process_resquests_from_client_served_schedule (fuel : Nat) (o : Oracle) (cid : Int)
    (ho : KeepsRequests cid o) :
    ∀ (k : Nat) (r : Int) (w w1 : World) (l : List (Int × Int)), 0 ≤ r → r ≤ 7 →
      w.barber.clientID = cid → rd w.bci.clientRequests (cid - 1) = some r →
      process_resquests_from_client_served fuel k o w = .ok l w1 →
      (∀ j, l = request_schedule (k + j) r) ∧
      rd w1.bci.clientRequests (cid - 1) = some 0 ∧ w1.barber.clientID = cid := by
  intro k
  induction k with
  | zero =>
    intro r w w1 l _ _ _ _ h
    cases h
  | succ k ih =>
    intro r w w1 l h0 h7 hc hr h
    unfold process_resquests_from_client_served at h
    obtain ⟨b1, wa, h1, hk1⟩ := bind_ok h
    clear h
    rw [run_getBarber] at h1
    cases h1
    obtain ⟨pending, wa, h2, hk2⟩ := bind_ok hk1
    clear hk1
    have hr2 : rd (o.others w.clock w.bci).clientRequests (cid - 1) = some r := by
      rw [ho]
      exact hr
    rw [run_bci_get_request, hc] at h2
    simp only [hr2] at h2
    cases h2
    by_cases hpos : r > 0
    · rw [if_pos hpos] at hk2
      obtain ⟨_, wb, h3, hk3⟩ := bind_ok hk2
      clear hk2
      obtain ⟨e1, e2, e3⟩ :=
        process_resquests_from_client_body_requests fuel o
          { w with bci := o.others w.clock w.bci, clock := w.clock + 1 } wb cid r ho hc hr2 h3
      obtain ⟨b2, wc, h4, hk4⟩ := bind_ok hk3
      clear hk3
      rw [run_getBarber] at h4
      cases h4
      obtain ⟨rest, wd, h5, hk5⟩ := bind_ok hk4
      clear hk4
      cases hk5
      have hb := next_request_bounds r (by omega) h7
      obtain ⟨i1, i2, i3⟩ := ih (r - next_request r) wb w1 rest hb.1 hb.2 e2 e1 h5
      refine ⟨fun j => ?_, i2, i3⟩
      have hkj : k + 1 + j = (k + j) + 1 := by omega
      rw [hkj]
      unfold request_schedule
      rw [if_pos hpos, e3, ← i1 j]
    · rw [if_neg hpos] at hk2
      cases hk2
      have hr0 : r = 0 := by omega
      subst hr0
      exact ⟨fun j => (request_schedule_zero _).symm, hr2, hc⟩

/-- The schedule needs three iterations at most. -/
theorem request_schedule_fuel (r : Int) (h0 : 0 ≤ r) (h7 : r ≤ 7) (k : Nat) (hk : 3 ≤ k) :
    request_schedule k r = request_schedule 3 r := by
  obtain ⟨j, rfl⟩ : ∃ j, k = j + 3 := ⟨k - 3, by omega⟩
  interval_cases r <;>
    simp [request_schedule, next_request, request_schedule_zero]

/-- One iteration shortens the schedule by one. -/
theorem request_schedule_step (r : Int) (h1 : 1 ≤ r) (h7 : r ≤ 7) :
    (request_schedule 3 (r - next_request r)).length + 1 = (request_schedule 3 r).length := by
  interval_cases r <;> decide

/-- The loop never needs more guard evaluations than the schedule has entries,
plus the last one that finds no request pending: beyond that the fuel of the
loop does not matter, whatever the iterations do. -/
theorem process_resquests_from_client_served_fuel (fuel : Nat) (o : Oracle) (cid : Int)
    (ho : KeepsRequests cid o) :
    ∀ (k : Nat) (r : Int) (w : World) (j : Nat), 0 ≤ r → r ≤ 7 →
      w.barber.clientID = cid → rd w.bci.clientRequests (cid - 1) = some r →
      (request_schedule 3 r).length < k →
      process_resquests_from_client_served fuel (k + j) o w
        = process_resquests_from_client_served fuel k o w := by
  intro k
  induction k with
  | zero =>
    intro r w j _ _ _ _ h
    omega
  | succ k ih =>
    intro r w j h0 h7 hc hr hlen
    have hkj : k + 1 + j = (k + j) + 1 := by omega
    rw [hkj]
    unfold process_resquests_from_client_served
    have hr2 : rd (o.others w.clock w.bci).clientRequests (cid - 1) = some r := by
      rw [ho]
      exact hr
    simp only [run_bind, run_getBarber, run_bci_get_request, hc, hr2]
    by_cases hpos : r > 0
    · simp only [hpos, if_true, run_bind, run_getBarber]
      cases h3 : process_resquests_from_client_body fuel o
          { w with bci := o.others w.clock w.bci, clock := w.clock + 1 } with
      | fail e w2 => rfl
      | ok u wb =>
        simp only []
        obtain ⟨e1, e2, e3⟩ :=
          process_resquests_from_client_body_requests fuel o
          { w with bci := o.others w.clock w.bci, clock := w.clock + 1 } wb cid r ho hc hr2 h3
        have hb := next_request_bounds r (by omega) h7
        have hs := request_schedule_step r (by omega) h7
        rw [ih (r - next_request r) wb j hb.1 hb.2 e2 e1 (by omega)]
    · simp only [hpos, if_false]

/-- C25: the request loop of `process_resquests_from_client` on a pending
bitmask `r` in 1..7, the other processes leaving the pending requests of the
client alone.
The loop is the loop with the ghost result dropped; whenever that loop returns,
its iterations are those of `request_schedule 3 r`: the guard of each
iteration reads a pending bitmask within 1..7, the iteration serves the request
`next_request` selects from it (the highest bit set) and subtracts it, and
after the last iteration the pending bitmask of the client is 0.  There are as
many iterations as `r` has bits set, the requests served are the bits of `r` in
strictly descending order and every pending bitmask is within 0..7.  The loop
evaluates its guard four times at most: with four units of fuel or more its
outcome does not depend on the fuel, whatever the iterations do. -/
theorem request_loop_schedule (r : Int) (h1 : 1 ≤ r) (h7 : r ≤ 7) :
    (∀ (fuel k : Nat) (o : Oracle) (w : World),
      process_resquests_from_client_loop fuel k o w
        = (process_resquests_from_client_served fuel k >>= fun _ => pure ()) o w) ∧
    (∀ (fuel k : Nat) (o : Oracle) (w w1 : World) (l : List (Int × Int)),
      KeepsRequests w.barber.clientID o →
      rd w.bci.clientRequests (w.barber.clientID - 1) = some r →
      process_resquests_from_client_served fuel k o w = .ok l w1 →
      l = request_schedule 3 r ∧
      rd w1.bci.clientRequests (w.barber.clientID - 1) = some 0 ∧
      w1.barber.clientID = w.barber.clientID) ∧
    (∀ (fuel k : Nat) (o : Oracle) (w : World),
      KeepsRequests w.barber.clientID o →
      rd w.bci.clientRequests (w.barber.clientID - 1) = some r → 4 ≤ k →
      process_resquests_from_client_served fuel k o w
        = process_resquests_from_client_served fuel 4 o w ∧
      process_resquests_from_client_loop fuel k o w
        = process_resquests_from_client_loop fuel 4 o w) ∧
    ((request_schedule 3 r).length : Int) = r % 2 + r / 2 % 2 + r / 4 % 2 ∧
    ((request_schedule 3 r).map fun p => p.2).sum = r ∧
    List.Pairwise (fun x y => x > y) ((request_schedule 3 r).map fun p => p.2) ∧
    (∀ p ∈ request_schedule 3 r, (p.2 = 1 ∨ p.2 = 2 ∨ p.2 = 4) ∧ p.1 / p.2 % 2 = 1 ∧
      r / p.2 % 2 = 1 ∧ 1 ≤ p.1 ∧ p.1 ≤ 7 ∧ 0 ≤ p.1 - p.2 ∧ p.1 - p.2 ≤ 7 ∧ p.1 - p.2 < p.2) ∧
    ((request_schedule 3 r).getLast?.map fun p => p.1 - p.2) = some 0 ∧
    (request_schedule 3 r).head? = some (r, next_request r) := by
  refine ⟨fun fuel k o w => process_resquests_from_client_loop_served fuel o k w,
    fun fuel k o w w1 l ho hr h => ?_, fun fuel k o w ho hr hk => ?_, ?_⟩
  · obtain ⟨i1, i2, i3⟩ := process_resquests_from_client_served_schedule fuel o _ ho k r w w1 l
      (by omega) h7 rfl hr h
    refine ⟨?_, i2, i3⟩
    rw [i1 3]
    exact request_schedule_fuel r (by omega) h7 (k + 3) (by omega)
  · have hlen : (request_schedule 3 r).length < 4 := by
      interval_cases r <;> decide
    have hk4 : 4 + (k - 4) = k := by omega
    have hs := process_resquests_from_client_served_fuel fuel o _ ho 4 r w (k - 4) (by omega)
      h7 rfl hr hlen
    rw [hk4] at hs
    refine ⟨hs, ?_⟩
    rw [process_resquests_from_client_loop_served, process_resquests_from_client_loop_served,
      run_bind, run_bind, hs]
  · interval_cases r <;> decide

/-- Witness of C25: for the pending bitmask 5 the loop serves the shave (4),
then the haircut (1); for 7 the shave, the wash (2) and the haircut.  Barber 1
of the sample shop serves client 2, whose pending requests are 5, the clients
being prompt: the loop returns, with that schedule and no request pending. -/
theorem request_loop_schedule_witness :
    request_schedule 3 5 = [(5, 4), (1, 1)] ∧
    request_schedule 3 7 = [(7, 4), (3, 2), (1, 1)] ∧
    process_resquests_from_client_served 30 30 promptClients (serving 2 [0, 5, 0])
      = .ok [(5, 4), (1, 1)]
          (process_resquests_from_client_served 30 30 promptClients
            (serving 2 [0, 5, 0])).state ∧
    rd (process_resquests_from_client_served 30 30 promptClients
      (serving 2 [0, 5, 0])).state.bci.clientRequests (2 - 1) = some 0 ∧
    ((request_schedule 3 5).map fun p => p.2).sum = 5 :=
  have h : process_resquests_from_client_served 30 30 promptClients (serving 2 [0, 5, 0])
      = .ok [(5, 4), (1, 1)]
          (process_resquests_from_client_served 30 30 promptClients
            (serving 2 [0, 5, 0])).state := by decide!
  have ht := request_loop_schedule 5 (by decide) (by decide)
  ⟨by decide, by decide, h,
    (ht.2.1 30 30 promptClients (serving 2 [0, 5, 0]) _ _ (fun _ _ => rfl) (by decide!) h).2.1,
    ht.2.2.2.2.1⟩

end OSC
